import Mathlib

/-!
The istgt control plane: portal parser and portal-group table

A shallow embedding of the control-plane routines of `src/istgt.c`
(portal parsing, the portal-group table with its add / update / delete
paths, listener open / close, the reload steps run by the accept loop, the
initiator-group table, `istgt_reload` and the poll array of the accept
loop), followed by theorems about them.

Conventions of the embedding

* C strings are lists of characters (`CStr`); a `NULL` string is `none`.
* `int` values that act as tags, reference counts, descriptors and return
  codes are `Int`; loop counters and array positions are `Nat`.
* The fixed array `istgt->portal_group[MAX_PORTAL_GROUP]` is a list; the
  pointer array `pgp->portals` is a list of `PORTAL` records, kept next to the
  separate `nportals` field exactly as in the C structure.
* The mutex is not modelled: every routine here runs with the daemon mutex
  held or on the accept thread, so the sequential reading is the behaviour.
* `istgt_listen` and `close` are external; their calls are recorded in a
  trace and the results of `istgt_listen` are drawn from a script.
* The daemon structure is split by concern: `ISTGT` holds the fields of the
  portal-group routines, `ISTGT_IG` those of the initiator-group routines and
  of `istgt_reload`, `ISTGT_UC` the unit-control portals and the control pipe.
-/

namespace Istgt

/-- A C string: the characters before the terminating NUL. -/
abbrev CStr := List Char

/-- Compile-time constants of `istgt.h`, which is not among the sources at
hand; they are taken as parameters. -/
structure Limits where
  MAX_PORTAL : Nat
  MAX_PORTAL_GROUP : Nat
  DEFAULT_PORT : Int
  deriving DecidableEq, Repr

/-- Size of the buffer that receives the printed default port. -/
def PORTNUMLEN : Nat := 32

/-! ## C library helpers -/

/-- Offset of the first occurrence of `c` in `s` (`strchr`), `none` for `NULL`. -/
def strchr : CStr → Char → Option Nat
  | [], _ => none
  | x :: xs, c => if x = c then some 0 else (strchr xs c).map (· + 1)

/-- The text `snprintf(buf, size, "%d", v)` leaves in `buf`: the decimal
rendering of `v`, cut to `size - 1` characters. -/
def snprintf_d (size : Nat) (v : Int) : CStr :=
  (toString v).toList.take (size - 1)

/-- White space in the sense of `isspace` in the C locale. -/
def isspace (c : Char) : Bool :=
  c = ' ' || c = '\t' || c = '\n' || c = '\x0b' || c = '\x0c' || c = '\r'

/-- Value of a character as a digit of `strtol` (any base up to 36). -/
def digitVal (c : Char) : Option Nat :=
  if '0' ≤ c ∧ c ≤ '9' then some (c.toNat - '0'.toNat)
  else if 'a' ≤ c ∧ c ≤ 'z' then some (c.toNat - 'a'.toNat + 10)
  else if 'A' ≤ c ∧ c ≤ 'Z' then some (c.toNat - 'A'.toNat + 10)
  else none

/-- Accumulates the longest run of digits valid in `base`. -/
def strtol_digits (base : Nat) : CStr → Nat → Nat
  | [], acc => acc
  | c :: cs, acc =>
    match digitVal c with
    | some d => if d < base then strtol_digits base cs (acc * base + d) else acc
    | none => acc

/-- Whether the text starts with `0x` or `0X` followed by a hexadecimal digit. -/
def hexPrefixed : CStr → Bool
  | '0' :: x :: d :: _ =>
    (x = 'x' || x = 'X') && (match digitVal d with | some v => decide (v < 16) | none => false)
  | _ => false

/-- The value `strtol(s, NULL, base)` returns (ISO C, 64-bit `long`): leading
white space, an optional sign, for base 0 the base taken from the prefix
(`0x` hexadecimal, `0` octal, decimal otherwise), the longest run of valid
digits, clamped to the range of `long`. -/
def strtol (s : CStr) (base : Nat) : Int :=
  let s1 := s.dropWhile isspace
  let neg : Bool := s1.head? = some '-'
  let s2 := if s1.head? = some '-' ∨ s1.head? = some '+' then s1.drop 1 else s1
  let b : Nat :=
    if base = 0 then
      (if hexPrefixed s2 then 16 else if s2.head? = some '0' then 8 else 10)
    else base
  let s3 := if (base = 0 ∨ base = 16) ∧ hexPrefixed s2 then s2.drop 2 else s2
  let v : Int := (strtol_digits b s3 0 : Nat)
  if neg then max (-v) (-(2 : Int) ^ 63) else min v ((2 : Int) ^ 63 - 1)

/-- The conversion `(int)` of a `long` on a 32-bit `int`. -/
def toInt32 (v : Int) : Int :=
  (v + 2 ^ 31) % 2 ^ 32 - 2 ^ 31

/-! ## Portal parser -/

/-- The function `istgt_parse_portal`: `none` is the return value `-1`, and
`some (host, port)` is the return value `0` with the two strings stored
through `host` and `port` (the calls that pass `NULL` for both only use
whether the result is `some`). -/
def istgt_parse_portal (K : Limits) (portal : CStr) : Option (CStr × CStr) :=
  if portal.head? = some '[' then
    -- IPv6
    match strchr (portal.drop 1) ']' with
    | none => none
    | some k =>
      let n := (k + 1) + 1
      let host := portal.take n
      match portal.drop n with
      | [] => some (host, snprintf_d PORTNUMLEN K.DEFAULT_PORT)
      | c :: rest => if c ≠ ':' then none else some (host, rest)
  else
    -- IPv4
    let n := match strchr portal ':' with
      | none => portal.length
      | some k => k
    let host := portal.take n
    match portal.drop n with
    | [] => some (host, snprintf_d PORTNUMLEN K.DEFAULT_PORT)
    | c :: rest => if c ≠ ':' then none else some (host, rest)

/-! ## Configuration sections -/

/-- Section types of the configuration file. -/
inductive CF_SECTION_TYPE where
  | ST_INVALID
  | ST_GLOBAL
  | ST_UNITCONTROL
  | ST_PORTALGROUP
  | ST_INITIATORGROUP
  | ST_LOGICAL_UNIT
  | ST_AUTHGROUP
  deriving DecidableEq, Repr, Inhabited

/-- A keyed item with its values in order (the `CF_VALUE` chain). -/
structure CF_ITEM where
  key : CStr
  val : List CStr
  deriving DecidableEq, Repr, Inhabited

/-- A section: its type, its number and its items in order. -/
structure CF_SECTION where
  type : CF_SECTION_TYPE
  num : Int
  item : List CF_ITEM
  deriving DecidableEq, Repr, Inhabited

/-- A parsed configuration: its sections in order. -/
structure CONFIG where
  section_ : List CF_SECTION
  deriving DecidableEq, Repr, Inhabited

/-- Modelled from the spec: `istgt_find_cf_nitem` lives in `istgt_conf.c`,
which is not among the sources; it yields the `idx`-th occurrence (counted
from 0) of an item named `key` in the section, or nothing. -/
def istgt_find_cf_nitem (sp : CF_SECTION) (key : CStr) (idx : Int) : Option CF_ITEM :=
  if idx < 0 then none
  else (sp.item.filter (fun ip => ip.key = key))[idx.toNat]?

/-- The walk over the value chain inside `istgt_get_nmval`: `i` counts the
values passed so far. -/
def nmval_walk : List CStr → Int → Int → Option CStr
  | [], _, _ => none
  | v :: vs, i, idx2 => if i = idx2 then some v else nmval_walk vs (i + 1) idx2

/-- The function `istgt_get_nmval`. -/
def istgt_get_nmval (sp : CF_SECTION) (key : CStr) (idx1 idx2 : Int) : Option CStr :=
  match istgt_find_cf_nitem sp key idx1 with
  | none => none
  | some ip => nmval_walk ip.val 0 idx2

/-- The key `"Portal"`. -/
def kPortal : CStr := "Portal".toList

/-! ## Portal groups -/

/-- One listening endpoint (`PORTAL`). -/
structure PORTAL where
  label : CStr
  host : CStr
  port : CStr
  ref : Int
  idx : Nat
  tag : Int
  sock : Int
  deriving DecidableEq, Repr, Inhabited

/-- One slot of the portal-group table (`PORTAL_GROUP`). -/
structure PORTAL_GROUP where
  nportals : Nat
  portals : List PORTAL
  ref : Int
  idx : Nat
  tag : Int
  deriving DecidableEq, Repr, Inhabited

/-- The part of the daemon structure `ISTGT` the portal-group routines use. -/
structure ISTGT where
  config : CONFIG
  nportal_group : Nat
  portal_group : List PORTAL_GROUP
  deriving DecidableEq, Repr, Inhabited

/-- The slot `istgt->portal_group[i]`. -/
def pg_at (istgt : ISTGT) (i : Nat) : PORTAL_GROUP :=
  istgt.portal_group.getD i default

/-- Stores `pg` into `istgt->portal_group[i]`. -/
def pg_store (istgt : ISTGT) (i : Nat) (pg : PORTAL_GROUP) : ISTGT :=
  { istgt with portal_group := istgt.portal_group.set i pg }

/-- The portal `pgp->portals[i]`. -/
def portal_at (pgp : PORTAL_GROUP) (i : Nat) : PORTAL :=
  pgp.portals.getD i default

/-- A search loop `for (i = from; i < from + k; i++) if (p i) break`:
the first index that satisfies `p`, if any. -/
def find_from (p : Nat → Bool) : Nat → Nat → Option Nat
  | _, 0 => none
  | i, k + 1 => if p i then some i else find_from p (i + 1) k

/-- The counting loop that opens `istgt_add_portal_group` and
`istgt_update_portal_group`, from entry `i` on: `none` when an endpoint does
not parse (the early `return -1`), otherwise the index at which the loop
breaks. The loop breaks at the first entry that lacks a label or an
endpoint; a section has no more `Portal` entries than items, which bounds
the walk (`k` entries remain to be looked at). -/
def count_loop (K : Limits) (sp : CF_SECTION) : Nat → Nat → Option Nat
  | i, 0 => some i
  | i, k + 1 =>
    match istgt_get_nmval sp kPortal i 0, istgt_get_nmval sp kPortal i 1 with
    | some _, some portal =>
      match istgt_parse_portal K portal with
      | none => none
      | some _ => count_loop K sp (i + 1) k
    | _, _ => some i

/-- The number of definitions counted for a section ("counts number of
definition"), or `none` when the counting loop returns `-1`. -/
def count_portals (K : Limits) (sp : CF_SECTION) : Option Nat :=
  count_loop K sp 0 sp.item.length

/-- The search for a reusable slot: the first `i < nportal_group` with
`tag == 0` and `nportals == portals` (`none` is `free_idx = -1`). -/
def find_free_slot (istgt : ISTGT) (portals : Nat) : Option Nat :=
  find_from (fun i => (pg_at istgt i).tag = 0 && (pg_at istgt i).nportals = portals)
    0 istgt.nportal_group

/-- The search for the slot that carries a tag: the first `i < nportal_group`
with `tag == num`. -/
def find_tag_slot (istgt : ISTGT) (num : Int) : Option Nat :=
  find_from (fun i => (pg_at istgt i).tag = num) 0 istgt.nportal_group

/-- The error exit inside the fill loop: with a fresh slot the pointer array
is released and `nportals` cleared; the tag is cleared in both cases. -/
def fill_abort (fresh : Bool) (pg : PORTAL_GROUP) : PORTAL_GROUP :=
  let pg1 := if fresh then { pg with portals := [], nportals := 0 } else pg
  { pg1 with tag := 0 }

/-- The loop `for (i = 0; i < portals; i++)` that fills a slot from the
section, from entry `i` on with `k` entries to go. `fresh` is `free_idx < 0`.
The flag is `false` when the loop leaves through one of its error exits. -/
def fill_loop (K : Limits) (sp : CF_SECTION) (fresh : Bool) :
    PORTAL_GROUP → Nat → Nat → Bool × PORTAL_GROUP
  | pg, _, 0 => (true, pg)
  | pg, i, k + 1 =>
    match istgt_get_nmval sp kPortal i 0, istgt_get_nmval sp kPortal i 1 with
    | some label, some portal =>
      match istgt_parse_portal K portal with
      | none => (false, fill_abort fresh pg)
      | some (host, port) =>
        let p0 : PORTAL := if fresh then default else portal_at pg i
        let p1 : PORTAL :=
          { p0 with label := label, host := host, port := port,
                    ref := 0, idx := i, tag := sp.num, sock := -1 }
        fill_loop K sp fresh { pg with portals := pg.portals.set i p1 } (i + 1) k
    | _, _ => (false, fill_abort fresh pg)

/-- The function `istgt_add_portal_group`. The result is the return code, the
daemon structure afterwards, and the integer behind `pgp_idx` (`none` when
the caller passed `NULL`). -/
def istgt_add_portal_group (K : Limits) (istgt : ISTGT) (sp : CF_SECTION)
    (pgp_idx : Option Nat) : Int × ISTGT × Option Nat :=
  match count_portals K sp with
  | none => (-1, istgt, pgp_idx)
  | some portals =>
    if portals > K.MAX_PORTAL then (-1, istgt, pgp_idx)
    else
      let free_idx := find_free_slot istgt portals
      let idx := free_idx.getD istgt.nportal_group
      if idx < K.MAX_PORTAL_GROUP then
        let pg0 := pg_at istgt idx
        let pg1 : PORTAL_GROUP :=
          if free_idx.isNone then
            { pg0 with nportals := portals, portals := List.replicate portals default }
          else pg0
        let pg2 : PORTAL_GROUP := { pg1 with ref := 0, idx := idx, tag := sp.num }
        match fill_loop K sp free_idx.isNone pg2 0 portals with
        | (false, pg3) => (-1, pg_store istgt idx pg3, pgp_idx)
        | (true, pg3) =>
          let istgt1 := pg_store istgt idx pg3
          let istgt2 :=
            if free_idx.isNone then { istgt1 with nportal_group := idx + 1 } else istgt1
          (0, istgt2, pgp_idx.map (fun _ => idx))
      else (-1, istgt, pgp_idx)

/-- The loop of `istgt_pg_match_all` over the portals of the slot, from
portal `i` on with `k` to go: `false` is the early `return 0`. -/
def match_loop (K : Limits) (pgp : PORTAL_GROUP) (sp : CF_SECTION) : Nat → Nat → Bool
  | _, 0 => true
  | i, k + 1 =>
    match istgt_get_nmval sp kPortal i 0, istgt_get_nmval sp kPortal i 1 with
    | some label, some portal =>
      match istgt_parse_portal K portal with
      | none => false
      | some (host, port) =>
        if (portal_at pgp i).label ≠ label then false
        else if (portal_at pgp i).host ≠ host then false
        else if (portal_at pgp i).port ≠ port then false
        else match_loop K pgp sp (i + 1) k
    | _, _ => false

/-- The function `istgt_pg_match_all` (`true` is the return value 1). After
the loop the entry that follows the last portal must have neither a label
nor an endpoint. -/
def istgt_pg_match_all (K : Limits) (pgp : PORTAL_GROUP) (sp : CF_SECTION) : Bool :=
  if match_loop K pgp sp 0 pgp.nportals then
    if (istgt_get_nmval sp kPortal pgp.nportals 0).isSome
        ∨ (istgt_get_nmval sp kPortal pgp.nportals 1).isSome then false
    else true
  else false

/-- The error exit of the in-place rewrite: the pointer array is released,
`nportals` and the tag are cleared. -/
def rewrite_abort (pg : PORTAL_GROUP) : PORTAL_GROUP :=
  { pg with portals := [], nportals := 0, tag := 0 }

/-- The loop of the "udpate PG" branch of `istgt_update_portal_group`: the
strings of every portal are replaced by those of the section; the other
fields of the portals are not assigned (the assignments are commented out
in the source). -/
def rewrite_loop (K : Limits) (sp : CF_SECTION) :
    PORTAL_GROUP → Nat → Nat → Bool × PORTAL_GROUP
  | pg, _, 0 => (true, pg)
  | pg, i, k + 1 =>
    match istgt_get_nmval sp kPortal i 0, istgt_get_nmval sp kPortal i 1 with
    | some label, some portal =>
      match istgt_parse_portal K portal with
      | none => (false, rewrite_abort pg)
      | some (host, port) =>
        let p1 : PORTAL := { portal_at pg i with label := label, host := host, port := port }
        rewrite_loop K sp { pg with portals := pg.portals.set i p1 } (i + 1) k
    | _, _ => (false, rewrite_abort pg)

/-- The function `istgt_update_portal_group`, called with a non-`NULL`
`pgp_idx` that points to an integer holding `pgp_idx`. The result is the
return code, the daemon structure afterwards and the integer behind
`pgp_idx` afterwards. -/
def istgt_update_portal_group (K : Limits) (istgt : ISTGT) (sp : CF_SECTION)
    (pgp_idx : Nat) : Int × ISTGT × Nat :=
  match count_portals K sp with
  | none => (-1, istgt, pgp_idx)
  | some portals =>
    if portals > K.MAX_PORTAL then (-1, istgt, pgp_idx)
    else
      match find_tag_slot istgt sp.num with
      | none => (-1, istgt, pgp_idx)
      | some idx =>
        if istgt_pg_match_all K (pg_at istgt idx) sp then (0, istgt, pgp_idx)
        else if (pg_at istgt idx).nportals = portals then
          -- udpate PG
          match rewrite_loop K sp (pg_at istgt idx) 0 portals with
          | (false, pg1) => (-1, pg_store istgt idx pg1, pgp_idx)
          | (true, pg1) => (1, pg_store istgt idx pg1, idx)
        else
          -- mark as free
          let istgt0 := pg_store istgt pgp_idx { pg_at istgt pgp_idx with tag := 0 }
          -- allocate new PG
          let free_idx := find_free_slot istgt0 portals
          let idx := free_idx.getD istgt0.nportal_group
          if idx < K.MAX_PORTAL_GROUP then
            let pg0 := pg_at istgt0 idx
            let pg1 : PORTAL_GROUP :=
              if free_idx.isNone then
                { pg0 with nportals := portals, portals := List.replicate portals default }
              else pg0
            let istgt1 := pg_store istgt0 idx pg1
            let pg2 : PORTAL_GROUP :=
              { pg1 with ref := (pg_at istgt1 pgp_idx).ref, idx := idx, tag := sp.num }
            match fill_loop K sp free_idx.isNone pg2 0 portals with
            | (false, pg3) => (-1, pg_store istgt1 idx pg3, pgp_idx)
            | (true, pg3) =>
              let istgt2 := pg_store istgt1 idx pg3
              let istgt3 :=
                if free_idx.isNone then { istgt2 with nportal_group := idx + 1 } else istgt2
              (1, istgt3, idx)
          else (-1, istgt0, pgp_idx)

/-! ## Listeners -/

/-- A call that leaves the process: `istgt_listen(host, port)` with the
descriptor (or negative error) it returned, or `close(sock)`. -/
inductive Event where
  | listen (host : CStr) (port : Int) (result : Int)
  | close (sock : Int)
  deriving DecidableEq, Repr, Inhabited

/-- The outside world of the listener routines: the results the coming
calls of `istgt_listen` will return, in order (a call beyond the script
fails with `-1`), and the calls made so far, oldest first. -/
structure Net where
  script : List Int
  trace : List Event
  deriving DecidableEq, Repr, Inhabited

/-- One call of `istgt_listen` (external, `istgt_sock.c`): the result is
taken from the script and the call is recorded. -/
def istgt_listen (net : Net) (host : CStr) (port : Int) : Int × Net :=
  match net.script with
  | [] => (-1, { net with trace := net.trace ++ [Event.listen host port (-1)] })
  | r :: rest => (r, { script := rest, trace := net.trace ++ [Event.listen host port r] })

/-- One call of `close`. -/
def sys_close (net : Net) (sock : Int) : Net :=
  { net with trace := net.trace ++ [Event.close sock] }

/-- The loop of `istgt_open_portal_group` from portal `i` on with `k` to go;
the code is `-1` as soon as a listen fails, with the portals opened before
it left open. -/
def open_loop : PORTAL_GROUP → Net → Nat → Nat → Int × PORTAL_GROUP × Net
  | pgp, net, _, 0 => (0, pgp, net)
  | pgp, net, i, k + 1 =>
    if (portal_at pgp i).sock < 0 then
      let port := toInt32 (strtol (portal_at pgp i).port 0)
      match istgt_listen net (portal_at pgp i).host port with
      | (sock, net1) =>
        if sock < 0 then (-1, pgp, net1)
        else
          open_loop
            { pgp with portals := pgp.portals.set i { portal_at pgp i with sock := sock } }
            net1 (i + 1) k
    else open_loop pgp net (i + 1) k

/-- The function `istgt_open_portal_group`. -/
def istgt_open_portal_group (pgp : PORTAL_GROUP) (net : Net) : Int × PORTAL_GROUP × Net :=
  open_loop pgp net 0 pgp.nportals

/-- The loop of `istgt_close_portal_group` from portal `i` on with `k` to go. -/
def close_loop : PORTAL_GROUP → Net → Nat → Nat → PORTAL_GROUP × Net
  | pgp, net, _, 0 => (pgp, net)
  | pgp, net, i, k + 1 =>
    if (portal_at pgp i).sock ≥ 0 then
      close_loop
        { pgp with portals := pgp.portals.set i { portal_at pgp i with sock := -1 } }
        (sys_close net (portal_at pgp i).sock) (i + 1) k
    else close_loop pgp net (i + 1) k

/-- The function `istgt_close_portal_group`; its return code is always 0. -/
def istgt_close_portal_group (pgp : PORTAL_GROUP) (net : Net) : Int × PORTAL_GROUP × Net :=
  (0, close_loop pgp net 0 pgp.nportals)

/-! ## Reload steps of the accept loop -/

/-- The function `istgt_pg_exist_num`: 1 when a `PortalGroup` section of the
configuration has the number, `-1` otherwise. -/
def istgt_pg_exist_num (config : CONFIG) (num : Int) : Int :=
  if config.section_.any
      (fun sp => sp.type = CF_SECTION_TYPE.ST_PORTALGROUP && sp.num = num) then 1
  else -1

/-- The function `istgt_get_tag_portal`: the position of the slot the
returned pointer designates, `none` for `NULL`. -/
def istgt_get_tag_portal (istgt : ISTGT) (tag : Int) : Option Nat :=
  if tag = 0 then none
  else find_from (fun i => (pg_at istgt i).tag = tag) 0 istgt.nportal_group

/-- The loop of `istgt_pg_delete` from slot `i` on with `k` to go. -/
def pg_delete_loop : ISTGT → Net → Nat → Nat → ISTGT × Net
  | istgt, net, _, 0 => (istgt, net)
  | istgt, net, i, k + 1 =>
    let pgp := pg_at istgt i
    if pgp.tag = 0 then pg_delete_loop istgt net (i + 1) k
    else if istgt_pg_exist_num istgt.config pgp.tag < 0 then
      if pgp.ref ≠ 0 then
        -- delete request for referenced PG
        pg_delete_loop istgt net (i + 1) k
      else
        match istgt_close_portal_group { pgp with tag := 0 } net with
        | (_, pgp1, net1) => pg_delete_loop (pg_store istgt i pgp1) net1 (i + 1) k
    else pg_delete_loop istgt net (i + 1) k

/-- The function `istgt_pg_delete`: return code, daemon structure and
outside world afterwards. -/
def istgt_pg_delete (istgt : ISTGT) (net : Net) : Int × ISTGT × Net :=
  (0, pg_delete_loop istgt net 0 istgt.nportal_group)

/-- The state the loop of `istgt_pg_update` carries from one section to the
next: the daemon structure, the outside world and the local `pgp_idx`. -/
structure UpdState where
  istgt : ISTGT
  net : Net
  pgp_idx : Nat
  deriving DecidableEq, Repr, Inhabited

/-- The body of the loop of `istgt_pg_update` for one section. -/
def pg_update_section (K : Limits) (s : UpdState) (sp : CF_SECTION) : UpdState :=
  if sp.type = CF_SECTION_TYPE.ST_PORTALGROUP then
    if sp.num = 0 then s
    else
      let rc : Int := if (find_tag_slot s.istgt sp.num).isSome then 1 else -1
      if rc < 0 then
        match istgt_add_portal_group K s.istgt sp (some s.pgp_idx) with
        | (rc1, istgt1, out) =>
          let idx1 := out.getD s.pgp_idx
          if rc1 < 0 then { s with istgt := istgt1, pgp_idx := idx1 }
          else
            match istgt_open_portal_group (pg_at istgt1 idx1) s.net with
            | (_, pgp1, net1) =>
              { istgt := pg_store istgt1 idx1 pgp1, net := net1, pgp_idx := idx1 }
      else
        match istgt_get_tag_portal s.istgt sp.num with
        | none => s
        | some j =>
          if istgt_pg_match_all K (pg_at s.istgt j) sp then s
          else if (pg_at s.istgt j).ref ≠ 0 then
            -- update request for referenced PG
            s
          else
            -- delete old sock
            let idx0 := (pg_at s.istgt j).idx
            match istgt_close_portal_group (pg_at s.istgt j) s.net with
            | (_, pgp1, net1) =>
              let istgt1 := pg_store s.istgt j pgp1
              match istgt_update_portal_group K istgt1 sp idx0 with
              | (rc1, istgt2, idx1) =>
                if rc1 < 0 then { istgt := istgt2, net := net1, pgp_idx := idx1 }
                else if rc1 = 0 then { istgt := istgt2, net := net1, pgp_idx := idx1 }
                else
                  -- add new sock
                  match istgt_open_portal_group (pg_at istgt2 idx1) net1 with
                  | (_, pgp2, net2) =>
                    { istgt := pg_store istgt2 idx1 pgp2, net := net2, pgp_idx := idx1 }
  else s

/-- The function `istgt_pg_update`: the sections of the current
configuration are handled in order; the return code is always 0. The local
`pgp_idx` is not initialised in the source; `pgp_idx0` stands for the value
it happens to hold. -/
def istgt_pg_update (K : Limits) (istgt : ISTGT) (net : Net) (pgp_idx0 : Nat) :
    Int × ISTGT × Net :=
  let s := istgt.config.section_.foldl (pg_update_section K)
    { istgt := istgt, net := net, pgp_idx := pgp_idx0 }
  (0, s.istgt, s.net)

/-! ## Predicates used in the statements -/

/-- Entry `j` of the section has both a label and an endpoint. -/
def EntryComplete (sp : CF_SECTION) (j : Nat) : Prop :=
  (istgt_get_nmval sp kPortal j 0).isSome ∧ (istgt_get_nmval sp kPortal j 1).isSome

instance (sp : CF_SECTION) (j : Nat) : Decidable (EntryComplete sp j) := by
  unfold EntryComplete; infer_instance

/-- Entry `j` of the section has a label and an endpoint that parses. -/
def EntryOk (K : Limits) (sp : CF_SECTION) (j : Nat) : Prop :=
  ∃ label portal hp, istgt_get_nmval sp kPortal j 0 = some label
    ∧ istgt_get_nmval sp kPortal j 1 = some portal ∧ istgt_parse_portal K portal = some hp

/-- The position `istgt_add_portal_group` writes for a section of `n`
counted portals: the reusable slot when there is one, else `nportal_group`. -/
def target_slot (istgt : ISTGT) (n : Nat) : Nat :=
  (find_free_slot istgt n).getD istgt.nportal_group

/-- The pointer array of every slot in use by the table has `nportals`
entries. -/
def SlotsSized (istgt : ISTGT) : Prop :=
  ∀ i, i < istgt.nportal_group → (pg_at istgt i).portals.length = (pg_at istgt i).nportals

instance (istgt : ISTGT) : Decidable (SlotsSized istgt) := by
  unfold SlotsSized; infer_instance

/-- The section has exactly `n` counted `Portal` entries: entries `0..n-1`
have a label and an endpoint, entry `n` lacks one of them. -/
def IsPortalCount (sp : CF_SECTION) (n : Nat) : Prop :=
  (∀ j, j < n → EntryComplete sp j) ∧ ¬ EntryComplete sp n

instance (sp : CF_SECTION) (n : Nat) : Decidable (IsPortalCount sp n) := by
  unfold IsPortalCount; infer_instance

/-- No portal of a slot below `nportal_group` holds a negative value other
than the "absent" mark `-1` (descriptors come from successful listens). -/
def SocksNormal (istgt : ISTGT) : Prop :=
  ∀ i, i < istgt.nportal_group → ∀ j, j < (pg_at istgt i).nportals →
    -1 ≤ (portal_at (pg_at istgt i) j).sock

instance (istgt : ISTGT) : Decidable (SocksNormal istgt) := by
  unfold SocksNormal; infer_instance

/-- The slot `istgt_pg_delete` leaves behind when it retires `pgp`: the tag
cleared and the listeners closed. -/
def retired_slot (pgp : PORTAL_GROUP) : PORTAL_GROUP :=
  (close_loop { pgp with tag := 0 } default 0 pgp.nportals).1

/-- The test under which `istgt_pg_delete` retires a slot. -/
def Retires (config : CONFIG) (pgp : PORTAL_GROUP) : Prop :=
  pgp.tag ≠ 0 ∧ istgt_pg_exist_num config pgp.tag < 0 ∧ pgp.ref = 0

instance (config : CONFIG) (pgp : PORTAL_GROUP) : Decidable (Retires config pgp) := by
  unfold Retires; infer_instance

/-- The table records positions faithfully: a slot below `nportal_group`
with a non-zero tag has its own position in `idx`. -/
def IdxFaithful (istgt : ISTGT) : Prop :=
  ∀ i, i < istgt.nportal_group → (pg_at istgt i).tag ≠ 0 → (pg_at istgt i).idx = i

instance (istgt : ISTGT) : Decidable (IdxFaithful istgt) := by
  unfold IdxFaithful; infer_instance

/-- Entry `j` of the section has a label and a parsing endpoint, and portal
`j` of the slot carries exactly that label, host and port. -/
def EntryMatches (K : Limits) (pgp : PORTAL_GROUP) (sp : CF_SECTION) (j : Nat) : Prop :=
  ∃ label portal host port, istgt_get_nmval sp kPortal j 0 = some label
    ∧ istgt_get_nmval sp kPortal j 1 = some portal
    ∧ istgt_parse_portal K portal = some (host, port)
    ∧ (portal_at pgp j).label = label ∧ (portal_at pgp j).host = host
    ∧ (portal_at pgp j).port = port

/-- Transition invariant of the reload steps, under faithful positions: the
positions stay faithful, `nportal_group` does not shrink, and every slot in
use (`tag != 0`, `ref != 0`) is left exactly as it was. -/
def Keeps (a b : ISTGT) : Prop :=
  IdxFaithful a →
    IdxFaithful b ∧ a.nportal_group ≤ b.nportal_group
      ∧ ∀ i, i < a.nportal_group → (pg_at a i).tag ≠ 0 → (pg_at a i).ref ≠ 0 →
          pg_at b i = pg_at a i

/-! ## Concrete tables and sections -/

/-- Limits of the worked examples: room for three groups of up to four
portals. -/
def exK : Limits := { MAX_PORTAL := 4, MAX_PORTAL_GROUP := 3, DEFAULT_PORT := 3260 }

/-- Limits of the full-table example: room for two groups only. -/
def exKsmall : Limits := { MAX_PORTAL := 4, MAX_PORTAL_GROUP := 2, DEFAULT_PORT := 3260 }

/-- A configuration line `Portal <label> <endpoint>`. -/
def exLine (label endpoint : String) : CF_ITEM :=
  { key := kPortal, val := [label.toList, endpoint.toList] }

/-- A `PortalGroup` section with the given number and lines. -/
def exSection (num : Int) (items : List CF_ITEM) : CF_SECTION :=
  { type := CF_SECTION_TYPE.ST_PORTALGROUP, num := num, item := items }

/-- A stored portal. -/
def exPortal (label host port : String) (tag : Int) (idx : Nat) (sock : Int) : PORTAL :=
  { label := label.toList, host := host.toList, port := port.toList, ref := 0,
    idx := idx, tag := tag, sock := sock }

/-- A slot holding the given portals. -/
def exGroup (tag : Int) (idx : Nat) (ref : Int) (ps : List PORTAL) : PORTAL_GROUP :=
  { nportals := ps.length, portals := ps, ref := ref, idx := idx, tag := tag }

/-- Section `PortalGroup1` with one portal. -/
def exSec1 : CF_SECTION := exSection 1 [exLine "l1" "10.0.0.1:3260"]

/-- Section `PortalGroup1` with the endpoint of its portal changed. -/
def exSec1moved : CF_SECTION := exSection 1 [exLine "l1" "10.0.0.7:3260"]

/-- Section `PortalGroup1` grown to two portals. -/
def exSec1two : CF_SECTION :=
  exSection 1 [exLine "l1" "10.0.0.1:3260", exLine "l2" "[::1]:3261"]

/-- Section `PortalGroup3` with one portal. -/
def exSec3 : CF_SECTION := exSection 3 [exLine "x" "10.0.0.9:3260"]

/-- Section `PortalGroup5` whose second `Portal` line has a label and no
endpoint. -/
def exSecHalf : CF_SECTION :=
  exSection 5 [exLine "l1" "10.0.0.1:3260", { key := kPortal, val := ["l2".toList] }]

/-- An empty table of three slots. -/
def exEmpty : ISTGT :=
  { config := { section_ := [] }, nportal_group := 0,
    portal_group := List.replicate 3 default }

/-- Groups 1 and 2 listening on descriptors 5 and 6; group 2 is referenced
by two sessions. The current configuration names group 2 only. -/
def exTwo : ISTGT :=
  { config := { section_ := [exSection 2 [exLine "l1" "10.0.0.2:3260"], exSec1two] },
    nportal_group := 2,
    portal_group :=
      [exGroup 1 0 0 [exPortal "l1" "10.0.0.1" "3260" 1 0 5],
       exGroup 2 1 2 [exPortal "l1" "10.0.0.2" "3260" 2 0 6],
       default] }

/-- The table `exTwo` with a configuration that no longer has group 1. -/
def exTwoDrop : ISTGT :=
  { exTwo with config := { section_ := [exSection 2 [exLine "l1" "10.0.0.2:3260"]] } }

/-- Group 1 retired (slot 0 free, one portal buffer), group 2 in slot 1. -/
def exFreed : ISTGT :=
  { config := { section_ := [] }, nportal_group := 2,
    portal_group :=
      [exGroup 0 0 0 [exPortal "l1" "10.0.0.1" "3260" 1 0 (-1)],
       exGroup 2 1 0 [exPortal "l1" "10.0.0.2" "3260" 2 0 6],
       default] }

/-- A full table of two slots: groups 1 and 2 with one portal each, the
listener of group 1 already closed by the caller of the update. -/
def exFull : ISTGT :=
  { config := { section_ := [] }, nportal_group := 2,
    portal_group :=
      [exGroup 1 0 0 [exPortal "l1" "10.0.0.1" "3260" 1 0 (-1)],
       exGroup 2 1 0 [exPortal "l1" "10.0.0.2" "3260" 2 0 6]] }

/-- An outside world in which the next listen calls return 7 and 8. -/
def exNet : Net := { script := [7, 8], trace := [] }

/-! ## Parser: argument guard and port part -/

/-- The function `istgt_parse_portal` with its guard against a `NULL`
argument (`portal == NULL` returns `-1`); `none` as argument is `NULL`. -/
def istgt_parse_portal_arg (K : Limits) (portal : Option CStr) : Option (CStr × CStr) :=
  match portal with
  | none => none
  | some text => istgt_parse_portal K text

/-- What the parser does with the rest of the text after the host. -/
def port_after (K : Limits) (host : CStr) : CStr → Option (CStr × CStr)
  | [] => some (host, snprintf_d PORTNUMLEN K.DEFAULT_PORT)
  | c :: rest => if c ≠ ':' then none else some (host, rest)

/-! ## Start-up: build, open, lookup by descriptor -/

/-- The loop of `istgt_build_portal_group_array` over the sections that
remain: a `PortalGroup` section numbered 0, or one that cannot be added, ends
the build with `-1`. -/
def build_loop (K : Limits) : ISTGT → List CF_SECTION → Int × ISTGT
  | istgt, [] => (0, istgt)
  | istgt, sp :: rest =>
    if sp.type = CF_SECTION_TYPE.ST_PORTALGROUP then
      if sp.num = 0 then (-1, istgt)
      else
        match istgt_add_portal_group K istgt sp none with
        | (rc, istgt1, _) =>
          if rc < 0 then (-1, istgt1) else build_loop K istgt1 rest
    else build_loop K istgt rest

/-- The function `istgt_build_portal_group_array`. -/
def istgt_build_portal_group_array (K : Limits) (istgt : ISTGT) : Int × ISTGT :=
  build_loop K istgt istgt.config.section_

/-- The loop of `istgt_open_all_portals` from slot `i` on with `k` to go. -/
def open_all_loop : ISTGT → Net → Nat → Nat → Int × ISTGT × Net
  | istgt, net, _, 0 => (0, istgt, net)
  | istgt, net, i, k + 1 =>
    match istgt_open_portal_group (pg_at istgt i) net with
    | (rc, pgp, net1) =>
      if rc < 0 then (-1, pg_store istgt i pgp, net1)
      else open_all_loop (pg_store istgt i pgp) net1 (i + 1) k

/-- The function `istgt_open_all_portals`. -/
def istgt_open_all_portals (istgt : ISTGT) (net : Net) : Int × ISTGT × Net :=
  open_all_loop istgt net 0 istgt.nportal_group

/-- The outer loop of `istgt_get_sock_portal` from slot `i` on with `k` to
go; the inner loop looks for the first portal of the slot with the socket. -/
def get_sock_loop (istgt : ISTGT) (sock : Int) : Nat → Nat → Option (Nat × Nat)
  | _, 0 => none
  | i, k + 1 =>
    match find_from (fun j => (portal_at (pg_at istgt i) j).sock = sock) 0
        (pg_at istgt i).nportals with
    | some j => some (i, j)
    | none => get_sock_loop istgt sock (i + 1) k

/-- The function `istgt_get_sock_portal`: the slot and the position in it of
the portal the returned pointer designates, `none` for `NULL`. -/
def istgt_get_sock_portal (istgt : ISTGT) (sock : Int) : Option (Nat × Nat) :=
  if sock < 0 then none else get_sock_loop istgt sock 0 istgt.nportal_group

/-- The daemon structure as `main` leaves it before `istgt_init`: cleared by
`memset`, with the configuration that was read. -/
def initial_istgt (K : Limits) (cfg : CONFIG) : ISTGT :=
  { config := cfg, nportal_group := 0,
    portal_group := List.replicate K.MAX_PORTAL_GROUP default }

/-! ## Table invariants and reachable tables -/

/-- No two slots below `nportal_group` carry the same non-zero tag. -/
def TagsUnique (istgt : ISTGT) : Prop :=
  ∀ i, i < istgt.nportal_group → ∀ j, j < istgt.nportal_group →
    (pg_at istgt i).tag ≠ 0 → (pg_at istgt i).tag = (pg_at istgt j).tag → i = j

instance (istgt : ISTGT) : Decidable (TagsUnique istgt) := by
  unfold TagsUnique; infer_instance

/-- Every portal of a free slot below `nportal_group` has `sock = -1`. -/
def FreeClosed (istgt : ISTGT) : Prop :=
  ∀ i, i < istgt.nportal_group → (pg_at istgt i).tag = 0 →
    ∀ j, j < (pg_at istgt i).nportals → (portal_at (pg_at istgt i) j).sock = -1

instance (istgt : ISTGT) : Decidable (FreeClosed istgt) := by
  unfold FreeClosed; infer_instance

/-- The table fits its array: `nportal_group` does not exceed
`MAX_PORTAL_GROUP`, and the array has room for `MAX_PORTAL_GROUP` slots. -/
def ArrayFits (K : Limits) (istgt : ISTGT) : Prop :=
  istgt.nportal_group ≤ K.MAX_PORTAL_GROUP
    ∧ K.MAX_PORTAL_GROUP ≤ istgt.portal_group.length

instance (K : Limits) (istgt : ISTGT) : Decidable (ArrayFits K istgt) := by
  unfold ArrayFits; infer_instance

/-- What holds of the slot at position `i` of a table the daemon has built:
an assigned slot records its position, the pointer array has `nportals`
entries, a socket is a descriptor or `-1`, and a free slot has no socket. -/
def SlotOk (i : Nat) (pg : PORTAL_GROUP) : Prop :=
  (pg.tag ≠ 0 → pg.idx = i)
    ∧ pg.portals.length = pg.nportals
    ∧ (∀ j, j < pg.nportals → -1 ≤ (portal_at pg j).sock)
    ∧ (pg.tag = 0 → ∀ j, j < pg.nportals → (portal_at pg j).sock = -1)

/-- Every slot below `nportal_group` is in order and the table fits its
array. -/
def TableOk (K : Limits) (istgt : ISTGT) : Prop :=
  ArrayFits K istgt ∧ ∀ i, i < istgt.nportal_group → SlotOk i (pg_at istgt i)

/-- The tables the daemon can reach: built from the cleared structure by
`istgt_build_portal_group_array` and opened by `istgt_open_all_portals`, then
changed by any sequence of configuration swaps, changes of a reference count
by the sessions, `istgt_pg_delete` and `istgt_pg_update`, whatever the
outside world answers. -/
inductive Reachable (K : Limits) : ISTGT → Prop where
  | start (cfg : CONFIG) (net : Net) :
      (istgt_build_portal_group_array K (initial_istgt K cfg)).1 = 0 →
      Reachable K
        (istgt_open_all_portals
          (istgt_build_portal_group_array K (initial_istgt K cfg)).2 net).2.1
  | reconfig (t : ISTGT) (cfg : CONFIG) :
      Reachable K t → Reachable K { t with config := cfg }
  | setref (t : ISTGT) (i : Nat) (r : Int) :
      Reachable K t → Reachable K (pg_store t i { pg_at t i with ref := r })
  | delete (t : ISTGT) (net : Net) :
      Reachable K t → Reachable K (istgt_pg_delete t net).2.1
  | update (t : ISTGT) (net : Net) (p0 : Nat) :
      Reachable K t → Reachable K (istgt_pg_update K t net p0).2.1

/-- A configuration with two `PortalGroup` sections numbered 1. -/
def exDupConfig : CONFIG :=
  { section_ := [exSection 1 [exLine "a" "10.0.0.1:3260"],
                 exSection 1 [exLine "b" "10.0.0.2:3260"]] }

/-! ## Shapes of the steps of a reload -/

/-- A slot freshly filled from the section: tag, `ref` and position as
given, `n` portals that agree with the section's entries, every socket
absent. -/
def Built (K : Limits) (sp : CF_SECTION) (n q : Nat) (ref : Int) (pg : PORTAL_GROUP) : Prop :=
  pg.tag = sp.num ∧ pg.ref = ref ∧ pg.idx = q ∧ pg.nportals = n ∧ pg.portals.length = n
    ∧ ∀ j, j < n → EntryMatches K pg sp j ∧ (portal_at pg j).sock = -1

/-- A slot rewritten in place: every field of the slot kept, `n` portals that
agree with the section's entries, every socket as it was. -/
def Rewritten (K : Limits) (sp : CF_SECTION) (n : Nat) (old pg : PORTAL_GROUP) : Prop :=
  pg.tag = old.tag ∧ pg.ref = old.ref ∧ pg.idx = old.idx ∧ pg.nportals = old.nportals
    ∧ pg.portals.length = old.portals.length
    ∧ ∀ j, j < n → EntryMatches K pg sp j ∧ (portal_at pg j).sock = (portal_at old j).sock

/-- The state `istgt_pg_update` reaches when it adds the section. -/
def section_add (K : Limits) (s : UpdState) (sp : CF_SECTION) : UpdState :=
  if (istgt_add_portal_group K s.istgt sp (some s.pgp_idx)).1 < 0 then
    { s with istgt := (istgt_add_portal_group K s.istgt sp (some s.pgp_idx)).2.1,
             pgp_idx := (istgt_add_portal_group K s.istgt sp (some s.pgp_idx)).2.2.getD
               s.pgp_idx }
  else
    { istgt := pg_store (istgt_add_portal_group K s.istgt sp (some s.pgp_idx)).2.1
        ((istgt_add_portal_group K s.istgt sp (some s.pgp_idx)).2.2.getD s.pgp_idx)
        (istgt_open_portal_group
          (pg_at (istgt_add_portal_group K s.istgt sp (some s.pgp_idx)).2.1
            ((istgt_add_portal_group K s.istgt sp (some s.pgp_idx)).2.2.getD s.pgp_idx))
          s.net).2.1,
      net := (istgt_open_portal_group
          (pg_at (istgt_add_portal_group K s.istgt sp (some s.pgp_idx)).2.1
            ((istgt_add_portal_group K s.istgt sp (some s.pgp_idx)).2.2.getD s.pgp_idx))
          s.net).2.2,
      pgp_idx := (istgt_add_portal_group K s.istgt sp (some s.pgp_idx)).2.2.getD s.pgp_idx }

/-- The table on which `istgt_pg_update` calls the update of slot `j`: the
listeners of the slot closed. -/
def closed_table (s : UpdState) (j : Nat) : ISTGT :=
  pg_store s.istgt j (close_loop (pg_at s.istgt j) s.net 0 (pg_at s.istgt j).nportals).1

/-- The outside world after the listeners of slot `j` are closed. -/
def closed_net (s : UpdState) (j : Nat) : Net :=
  (close_loop (pg_at s.istgt j) s.net 0 (pg_at s.istgt j).nportals).2

/-- The state `istgt_pg_update` reaches when it updates slot `j` for the
section, `p` being the value of `pgp->idx`. -/
def section_update (K : Limits) (s : UpdState) (sp : CF_SECTION) (j p : Nat) : UpdState :=
  if (istgt_update_portal_group K (closed_table s j) sp p).1 < 0
      ∨ (istgt_update_portal_group K (closed_table s j) sp p).1 = 0 then
    { istgt := (istgt_update_portal_group K (closed_table s j) sp p).2.1,
      net := closed_net s j,
      pgp_idx := (istgt_update_portal_group K (closed_table s j) sp p).2.2 }
  else
    { istgt := pg_store (istgt_update_portal_group K (closed_table s j) sp p).2.1
        (istgt_update_portal_group K (closed_table s j) sp p).2.2
        (istgt_open_portal_group
          (pg_at (istgt_update_portal_group K (closed_table s j) sp p).2.1
            (istgt_update_portal_group K (closed_table s j) sp p).2.2)
          (closed_net s j)).2.1,
      net := (istgt_open_portal_group
          (pg_at (istgt_update_portal_group K (closed_table s j) sp p).2.1
            (istgt_update_portal_group K (closed_table s j) sp p).2.2)
          (closed_net s j)).2.2,
      pgp_idx := (istgt_update_portal_group K (closed_table s j) sp p).2.2 }

/-- Every slot below `nportal_group` is assigned. -/
def AllAssigned (T : ISTGT) : Prop :=
  ∀ i, i < T.nportal_group → (pg_at T i).tag ≠ 0

/-- A configuration with the sections `PortalGroup1` and `PortalGroup3`. -/
def exConfig13 : CONFIG := { section_ := [exSec1, exSec3] }

/-- The table built from `exConfig13` and opened: groups 1 and 3 listening on
descriptors 7 and 8. -/
def exBoot : ISTGT :=
  (istgt_open_all_portals
    (istgt_build_portal_group_array exK (initial_istgt exK exConfig13)).2 exNet).2.1

/-- The table `exBoot` after a reload whose configuration has lost
`PortalGroup1`: `istgt_pg_delete` has retired slot 0. -/
def exBootDropped : ISTGT :=
  (istgt_pg_delete { exBoot with config := { section_ := [exSec3] } } exNet).2.1

/-- The table built from `exDupConfig` and opened: slots 0 and 1 both carry
the tag 1 and listen on descriptors 7 and 8. -/
def exDupBoot : ISTGT :=
  (istgt_open_all_portals
    (istgt_build_portal_group_array exK (initial_istgt exK exDupConfig)).2 exNet).2.1

/-- An outside world in which the next listen call returns 9. -/
def exNet9 : Net := { script := [9], trace := [] }

/-! ## The reload as a whole -/

/-- The numbers of the `PortalGroup` sections of a section list, in order. -/
def section_nums (secs : List CF_SECTION) : List Int :=
  (secs.filter (fun sp => sp.type = CF_SECTION_TYPE.ST_PORTALGROUP)).map (fun sp => sp.num)

/-- The slot holds exactly the counted portals of the section: as many
portals as the section has counted entries, each with the label, the parsed
host and the parsed port of its entry, in order. -/
def Holds (K : Limits) (pg : PORTAL_GROUP) (sp : CF_SECTION) : Prop :=
  IsPortalCount sp pg.nportals ∧ ∀ j, j < pg.nportals → EntryMatches K pg sp j

/-- Every portal of the slot has a listener. -/
def AllOpen (pg : PORTAL_GROUP) : Prop :=
  ∀ j, j < pg.nportals → 0 ≤ (portal_at pg j).sock

instance (pg : PORTAL_GROUP) : Decidable (AllOpen pg) := by
  unfold AllOpen; infer_instance

/-- Every assigned slot below `nportal_group` has `ref = 0`. -/
def RefsZero (istgt : ISTGT) : Prop :=
  ∀ i, i < istgt.nportal_group → (pg_at istgt i).tag ≠ 0 → (pg_at istgt i).ref = 0

instance (istgt : ISTGT) : Decidable (RefsZero istgt) := by
  unfold RefsZero; infer_instance

instance (i : Nat) (pg : PORTAL_GROUP) : Decidable (SlotOk i pg) := by
  unfold SlotOk; infer_instance

instance (K : Limits) (istgt : ISTGT) : Decidable (TableOk K istgt) := by
  unfold TableOk; infer_instance

/-- Every listen call among the events returned a descriptor. -/
def listens_succeed (evs : List Event) : Bool :=
  evs.all (fun e =>
    match e with
    | Event.listen _ _ r => decide (0 ≤ r)
    | Event.close _ => true)

/-- The calls recorded after `before`, up to `after`. -/
def events_since (before after : Net) : List Event :=
  after.trace.drop before.trace.length

/-- The return code of the call of `istgt_add_portal_group` or
`istgt_update_portal_group` that the body of the loop of `istgt_pg_update`
makes for the section; 0 when it makes no call. -/
def section_call_rc (K : Limits) (s : UpdState) (sp : CF_SECTION) : Int :=
  if sp.type = CF_SECTION_TYPE.ST_PORTALGROUP then
    if sp.num = 0 then 0
    else if (find_tag_slot s.istgt sp.num).isSome then
      match istgt_get_tag_portal s.istgt sp.num with
      | none => 0
      | some j =>
        if istgt_pg_match_all K (pg_at s.istgt j) sp then 0
        else if (pg_at s.istgt j).ref ≠ 0 then 0
        else (istgt_update_portal_group K (closed_table s j) sp (pg_at s.istgt j).idx).1
    else (istgt_add_portal_group K s.istgt sp (some s.pgp_idx)).1
  else 0

/-- No call of add or update made by the loop of `istgt_pg_update` over the
sections fails. -/
def calls_succeed (K : Limits) : UpdState → List CF_SECTION → Bool
  | _, [] => true
  | s, sp :: rest =>
    decide (0 ≤ section_call_rc K s sp) && calls_succeed K (pg_update_section K s sp) rest

/-- No call of add or update made by the loop of `istgt_pg_update` over the
sections fails for capacity: a call that fails has met an endpoint that does
not parse in its counting loop (the exits that remain are the ones guarded by
`MAX_PORTAL` and `MAX_PORTAL_GROUP`). -/
def no_capacity_failure (K : Limits) : UpdState → List CF_SECTION → Bool
  | _, [] => true
  | s, sp :: rest =>
    (decide (0 ≤ section_call_rc K s sp) || (count_portals K sp).isNone)
      && no_capacity_failure K (pg_update_section K s sp) rest

/-- The reload of the portal groups: `istgt_pg_delete` followed by
`istgt_pg_update`, as the accept loop runs them. -/
def pg_delete_then_update (K : Limits) (istgt : ISTGT) (net : Net) (pgp_idx0 : Nat) :
    ISTGT × Net :=
  (istgt_pg_update K (istgt_pg_delete istgt net).2.1 (istgt_pg_delete istgt net).2.2
    pgp_idx0).2

/-- The slots that carry a non-zero tag other than `x` are the same in both
tables, and the second table is not shorter. -/
def SameElsewhere (x : Int) (a b : ISTGT) : Prop :=
  a.nportal_group ≤ b.nportal_group
    ∧ (∀ i, i < a.nportal_group → (pg_at a i).tag ≠ 0 → (pg_at a i).tag ≠ x →
        pg_at b i = pg_at a i)
    ∧ (∀ i, i < b.nportal_group → (pg_at b i).tag ≠ 0 → (pg_at b i).tag ≠ x →
        i < a.nportal_group ∧ pg_at b i = pg_at a i)

/-- What one turn of the loop of `istgt_pg_update` achieves for a section
whose call succeeds, from table `a` to table `b`: tags stay distinct,
assigned slots unreferenced, the slots of other tags as they were, and a slot
with the section's tag holds its portals, either opened or left alone
because it matched. -/
def StepGood (K : Limits) (sp : CF_SECTION) (a b : ISTGT) : Prop :=
  TagsUnique b ∧ RefsZero b ∧ SameElsewhere sp.num a b
    ∧ ∃ q, q < b.nportal_group ∧ (pg_at b q).tag = sp.num ∧ Holds K (pg_at b q) sp
      ∧ (AllOpen (pg_at b q)
        ∨ (q < a.nportal_group ∧ pg_at b q = pg_at a q
          ∧ istgt_pg_match_all K (pg_at a q) sp = true))

/-- Section `PortalGroup1` whose endpoint opens a bracket and never closes
it. -/
def exSecBad : CF_SECTION := exSection 1 [exLine "l1" "[::1"]

/-- An empty table of three slots whose configuration is `exSecBad`. -/
def exEmptyBad : ISTGT := { exEmpty with config := { section_ := [exSecBad] } }

/-- The table `exBoot` (groups 1 and 3 listening) with a new configuration:
group 1 moved to another address, group 3 gone, group 2 new. -/
def exBootNew : ISTGT :=
  { exBoot with
    config := { section_ := [exSec1moved, exSection 2 [exLine "n" "10.0.0.2:3260"]] } }

/-- An outside world in which the next listen calls return 9 and 10. -/
def exNet910 : Net := { script := [9, 10], trace := [] }

/-! ## Listeners: descriptors, unit-control portals, port numbers -/

/-- The descriptors of the portals of the slot that are open, in the order
of the portals. -/
def open_socks (pgp : PORTAL_GROUP) : List Int :=
  ((List.range pgp.nportals).map (fun j => (portal_at pgp j).sock)).filter (fun s => 0 ≤ s)

/-- A slot with two portals, neither of them open. -/
def exGroupShut : PORTAL_GROUP :=
  exGroup 1 0 0 [exPortal "l1" "10.0.0.1" "3260" 1 0 (-1),
                 exPortal "l2" "10.0.0.2" "3260" 1 1 (-1)]

/-- A slot with two portals, open on descriptors 5 and 6. -/
def exGroupOpen : PORTAL_GROUP :=
  exGroup 1 0 0 [exPortal "l1" "10.0.0.1" "3260" 1 0 5,
                 exPortal "l2" "10.0.0.2" "3260" 1 1 6]

/-- An outside world in which the next listen returns 7 and the one after it
fails. -/
def exNet7 : Net := { script := [7, -1], trace := [] }

/-- The part of the daemon structure `ISTGT` that holds the unit-control
portals and the read end of the control pipe (`sig_pipe[0]`). -/
structure ISTGT_UC where
  nuctl_portal : Nat
  uctl_portal : List PORTAL
  sig_pipe_rd : Int
  deriving DecidableEq, Repr, Inhabited

/-- The portal `istgt->uctl_portal[i]`. -/
def uctl_at (uc : ISTGT_UC) (i : Nat) : PORTAL :=
  uc.uctl_portal.getD i default

/-- The loop of `istgt_open_uctl_portal` from portal `i` on with `k` to go. -/
def open_uctl_loop : ISTGT_UC → Net → Nat → Nat → Int × ISTGT_UC × Net
  | uc, net, _, 0 => (0, uc, net)
  | uc, net, i, k + 1 =>
    if (uctl_at uc i).sock < 0 then
      let port := toInt32 (strtol (uctl_at uc i).port 0)
      match istgt_listen net (uctl_at uc i).host port with
      | (sock, net1) =>
        if sock < 0 then (-1, uc, net1)
        else
          open_uctl_loop
            { uc with uctl_portal := uc.uctl_portal.set i { uctl_at uc i with sock := sock } }
            net1 (i + 1) k
    else open_uctl_loop uc net (i + 1) k

/-- The function `istgt_open_uctl_portal`. -/
def istgt_open_uctl_portal (uc : ISTGT_UC) (net : Net) : Int × ISTGT_UC × Net :=
  open_uctl_loop uc net 0 uc.nuctl_portal

/-- A decimal digit. -/
def IsDigit (c : Char) : Prop := c ∈ ['0', '1', '2', '3', '4', '5', '6', '7', '8', '9']

instance (c : Char) : Decidable (IsDigit c) := by
  unfold IsDigit; infer_instance

/-- The base-10 value of a text of decimal digits. -/
def decimal_value (s : CStr) : Nat :=
  s.foldl (fun acc c => acc * 10 + (c.toNat - '0'.toNat)) 0

/-- A port text written as a plain decimal number: decimal digits only, at
least one, the first not `0`, with a value that fits an `int`. -/
def PlainDecimal (s : CStr) : Prop :=
  s ≠ [] ∧ (∀ c, c ∈ s → IsDigit c) ∧ s.head? ≠ some '0' ∧ decimal_value s < 2 ^ 31

instance (s : CStr) : Decidable (PlainDecimal s) := by
  unfold PlainDecimal; infer_instance

/-- The host and port of every listen call among the events, in order. -/
def listen_requests : List Event → List (CStr × Int)
  | [] => []
  | Event.listen h p _ :: es => (h, p) :: listen_requests es
  | Event.close _ :: es => listen_requests es

/-- The host and the port, converted by `conv`, of the portals among the
first `n` of `ps` that have no listener, in order. -/
def listen_targets (conv : CStr → Int) (ps : List PORTAL) (n : Nat) : List (CStr × Int) :=
  ((List.range n).filter (fun j => (ps.getD j default).sock < 0)).map
    (fun j => ((ps.getD j default).host, conv (ps.getD j default).port))

/-- A group with one portal whose port text is `010`. -/
def exGroupOctal : PORTAL_GROUP :=
  exGroup 1 0 0 [exPortal "l1" "10.0.0.1" "010" 1 0 (-1)]

/-- A unit-control portal whose port text is `010`. -/
def exUctlOctal : ISTGT_UC :=
  { nuctl_portal := 1, uctl_portal := [exPortal "uc" "127.0.0.1" "010" (-1) 0 (-1)],
    sig_pipe_rd := 3 }

/-- A unit-control portal on port 3261. -/
def exUctl : ISTGT_UC :=
  { nuctl_portal := 1, uctl_portal := [exPortal "uc" "127.0.0.1" "3261" (-1) 0 (-1)],
    sig_pipe_rd := 3 }

/-- The listen targets among the portals `i .. i + k - 1` of `ps`. -/
def targets_range (conv : CStr → Int) (ps : List PORTAL) (i k : Nat) : List (CStr × Int) :=
  ((List.range' i k).filter (fun j => (ps.getD j default).sock < 0)).map
    (fun j => ((ps.getD j default).host, conv (ps.getD j default).port))

/-- The unit-control portals seen as one group of portals. -/
def uc_group (uc : ISTGT_UC) : PORTAL_GROUP :=
  { nportals := uc.nuctl_portal, portals := uc.uctl_portal, ref := 0, idx := 0, tag := 0 }

/-! ## Initiator groups -/

/-- The function `istgt_get_nval`: the first value of the `idx`-th item
named `key`. -/
def istgt_get_nval (sp : CF_SECTION) (key : CStr) (idx : Int) : Option CStr :=
  match istgt_find_cf_nitem sp key idx with
  | none => none
  | some ip => ip.val.head?

/-- The key `"InitiatorName"`. -/
def kInitiatorName : CStr := "InitiatorName".toList

/-- The key `"Netmask"`. -/
def kNetmask : CStr := "Netmask".toList

/-- Compile-time constants of `istgt.h` for the initiator-group table; the
header is not among the sources at hand, they are taken as parameters. -/
structure IGLimits where
  MAX_INITIATOR : Nat
  MAX_NETMASK : Nat
  MAX_INITIATOR_GROUP : Nat
  deriving DecidableEq, Repr, Inhabited

/-- One slot of the initiator-group table (`INITIATOR_GROUP`). -/
structure INITIATOR_GROUP where
  ninitiators : Nat
  initiators : List CStr
  nnetmasks : Nat
  netmasks : List CStr
  ref : Int
  idx : Nat
  tag : Int
  deriving DecidableEq, Repr, Inhabited

/-- The part of the daemon structure `ISTGT` that the initiator-group
routines and `istgt_reload` use; `generation` is a `uint32_t`. -/
structure ISTGT_IG where
  config : CONFIG
  config_old : Option CONFIG
  generation : Nat
  ninitiator_group : Nat
  initiator_group : List INITIATOR_GROUP
  deriving DecidableEq, Repr, Inhabited

/-- The slot `istgt->initiator_group[i]`. -/
def ig_at (istgt : ISTGT_IG) (i : Nat) : INITIATOR_GROUP :=
  istgt.initiator_group.getD i default

/-- Stores `ig` into `istgt->initiator_group[i]`. -/
def ig_store (istgt : ISTGT_IG) (i : Nat) (ig : INITIATOR_GROUP) : ISTGT_IG :=
  { istgt with initiator_group := istgt.initiator_group.set i ig }

/-- The loop "counts number of definition" of the initiator-group routines
for one key, from entry `i` on: the index of the first entry without a
value. A section has no more entries than items, which bounds the walk (`k`
entries remain to be looked at). -/
def count_vals_loop (sp : CF_SECTION) (key : CStr) : Nat → Nat → Nat
  | i, 0 => i
  | i, k + 1 =>
    match istgt_get_nval sp key i with
    | none => i
    | some _ => count_vals_loop sp key (i + 1) k

/-- The number of values counted for a key of the section. -/
def count_vals (sp : CF_SECTION) (key : CStr) : Nat :=
  count_vals_loop sp key 0 sp.item.length

/-- The loop that copies the values of a key into a string array
(`xstrdup(val)`), from entry `i` on with `k` to go. The value is never
`NULL` here: the counting loop has seen it. -/
def copy_vals_loop (sp : CF_SECTION) (key : CStr) : List CStr → Nat → Nat → List CStr
  | arr, _, 0 => arr
  | arr, i, k + 1 =>
    copy_vals_loop sp key (arr.set i ((istgt_get_nval sp key i).getD [])) (i + 1) k

/-- The function `istgt_add_initiator_group`. -/
def istgt_add_initiator_group (L : IGLimits) (istgt : ISTGT_IG) (sp : CF_SECTION) :
    Int × ISTGT_IG :=
  let names := count_vals sp kInitiatorName
  if names > L.MAX_INITIATOR then (-1, istgt)
  else
    let masks := count_vals sp kNetmask
    if masks > L.MAX_NETMASK then (-1, istgt)
    else
      let idx := istgt.ninitiator_group
      if idx < L.MAX_INITIATOR_GROUP then
        let ig1 : INITIATOR_GROUP :=
          { ninitiators := names, initiators := List.replicate names [],
            nnetmasks := masks, netmasks := List.replicate masks [],
            ref := 0, idx := idx, tag := sp.num }
        let ig2 := { ig1 with initiators := copy_vals_loop sp kInitiatorName ig1.initiators 0 names }
        let ig3 := { ig2 with netmasks := copy_vals_loop sp kNetmask ig2.netmasks 0 masks }
        (0, { ig_store istgt idx ig3 with ninitiator_group := idx + 1 })
      else (-1, istgt)

/-- One of the two loops of `istgt_ig_match_all`, over the strings `vals` of
the group and the values of `key`, from entry `i` on with `k` to go. -/
def ig_match_loop (vals : List CStr) (sp : CF_SECTION) (key : CStr) : Nat → Nat → Bool
  | _, 0 => true
  | i, k + 1 =>
    match istgt_get_nval sp key i with
    | none => false
    | some val => if vals.getD i [] ≠ val then false else ig_match_loop vals sp key (i + 1) k

/-- The function `istgt_ig_match_all` (`true` is the return value 1). -/
def istgt_ig_match_all (igp : INITIATOR_GROUP) (sp : CF_SECTION) : Bool :=
  if ig_match_loop igp.initiators sp kInitiatorName 0 igp.ninitiators then
    if (istgt_get_nval sp kInitiatorName igp.ninitiators).isSome then false
    else if ig_match_loop igp.netmasks sp kNetmask 0 igp.nnetmasks then
      if (istgt_get_nval sp kNetmask igp.nnetmasks).isSome then false else true
    else false
  else false

/-- The search for the group that carries a tag: the first
`i < ninitiator_group` with `tag == num`. -/
def find_ig_slot (istgt : ISTGT_IG) (num : Int) : Option Nat :=
  find_from (fun i => (ig_at istgt i).tag = num) 0 istgt.ninitiator_group

/-- The function `istgt_update_initiator_group`. The assignments of `ref`,
`idx` and `tag` are commented out in the source. -/
def istgt_update_initiator_group (L : IGLimits) (istgt : ISTGT_IG) (sp : CF_SECTION) :
    Int × ISTGT_IG :=
  let names := count_vals sp kInitiatorName
  if names > L.MAX_INITIATOR then (-1, istgt)
  else
    let masks := count_vals sp kNetmask
    if masks > L.MAX_NETMASK then (-1, istgt)
    else
      match find_ig_slot istgt sp.num with
      | none => (-1, istgt)
      | some idx =>
        if istgt_ig_match_all (ig_at istgt idx) sp then (0, istgt)
        else
          -- free old IG, allocate new IG
          let ig1 : INITIATOR_GROUP :=
            { ig_at istgt idx with
              ninitiators := names, initiators := List.replicate names [],
              nnetmasks := masks, netmasks := List.replicate masks [] }
          -- copy new strings
          let ig2 := { ig1 with initiators := copy_vals_loop sp kInitiatorName ig1.initiators 0 names }
          let ig3 := { ig2 with netmasks := copy_vals_loop sp kNetmask ig2.netmasks 0 masks }
          (1, ig_store istgt idx ig3)

/-- The function `istgt_ig_exist_num`. -/
def istgt_ig_exist_num (config : CONFIG) (num : Int) : Int :=
  if config.section_.any
      (fun sp => sp.type = CF_SECTION_TYPE.ST_INITIATORGROUP && sp.num = num) then 1
  else -1

/-- The loop "move from beyond the IG" of `istgt_ig_reload_delete`: every
field of slot `j + 1` is copied to slot `j`, for `j` up to
`ninitiator_group - 2`; `k` bounds the walk. -/
def ig_shift_loop : ISTGT_IG → Nat → Nat → ISTGT_IG
  | istgt, _, 0 => istgt
  | istgt, j, k + 1 =>
    if j + 1 < istgt.ninitiator_group then
      ig_shift_loop (ig_store istgt j (ig_at istgt (j + 1))) (j + 1) k
    else istgt

/-- The loop of `istgt_ig_reload_delete` with the counter at `i`; the test
`i < istgt->ninitiator_group` reads the current count. The counter grows and
the count never does, so `k`, the count at entry, bounds the walk. -/
def ig_reload_delete_loop : ISTGT_IG → Nat → Nat → ISTGT_IG
  | istgt, _, 0 => istgt
  | istgt, i, k + 1 =>
    if i < istgt.ninitiator_group then
      let igp := ig_at istgt i
      if istgt_ig_exist_num istgt.config igp.tag < 0 then
        if igp.ref ≠ 0 then
          -- delete request for referenced IG
          ig_reload_delete_loop istgt (i + 1) k
        else
          let istgt1 := ig_shift_loop istgt i istgt.ninitiator_group
          ig_reload_delete_loop
            { istgt1 with ninitiator_group := istgt1.ninitiator_group - 1 } (i + 1) k
      else ig_reload_delete_loop istgt (i + 1) k
    else istgt

/-- The function `istgt_ig_reload_delete`; its return code is always 0. -/
def istgt_ig_reload_delete (istgt : ISTGT_IG) : Int × ISTGT_IG :=
  (0, ig_reload_delete_loop istgt 0 istgt.ninitiator_group)

/-- The body of the loop of `istgt_ig_reload_update` for one section. -/
def ig_reload_update_section (L : IGLimits) (istgt : ISTGT_IG) (sp : CF_SECTION) : ISTGT_IG :=
  if sp.type = CF_SECTION_TYPE.ST_INITIATORGROUP then
    if sp.num = 0 then istgt
    else
      let rc : Int := if (find_ig_slot istgt sp.num).isSome then 1 else -1
      if rc < 0 then (istgt_add_initiator_group L istgt sp).2
      else (istgt_update_initiator_group L istgt sp).2
  else istgt

/-- The function `istgt_ig_reload_update`; its return code is always 0. -/
def istgt_ig_reload_update (L : IGLimits) (istgt : ISTGT_IG) : Int × ISTGT_IG :=
  (0, istgt.config.section_.foldl (ig_reload_update_section L) istgt)

/-- A group with the given tag, reference count, names and netmasks. -/
def exIG (tag : Int) (idx : Nat) (ref : Int) (names masks : List String) : INITIATOR_GROUP :=
  { ninitiators := names.length, initiators := names.map String.toList,
    nnetmasks := masks.length, netmasks := masks.map String.toList,
    ref := ref, idx := idx, tag := tag }

/-- An `InitiatorGroup` section with the given number and lines. -/
def exIGSection (num : Int) (items : List CF_ITEM) : CF_SECTION :=
  { type := CF_SECTION_TYPE.ST_INITIATORGROUP, num := num, item := items }

/-- A configuration line `<key> <value>`. -/
def exVal (key value : String) : CF_ITEM := { key := key.toList, val := [value.toList] }

/-- Limits of the initiator-group examples. -/
def exL : IGLimits := { MAX_INITIATOR := 2, MAX_NETMASK := 2, MAX_INITIATOR_GROUP := 4 }

/-- Groups 1, 2 and 3, none referenced, with a configuration that keeps
group 3 only. -/
def exIGThree : ISTGT_IG :=
  { config := { section_ := [exIGSection 3 [exVal "InitiatorName" "iqn.c", exVal "Netmask" "10.0.0.0/8"]] },
    config_old := none, generation := 0, ninitiator_group := 3,
    initiator_group :=
      [exIG 1 0 0 ["iqn.a"] ["10.0.0.0/8"], exIG 2 1 0 ["iqn.b"] ["10.0.0.0/8"],
       exIG 3 2 0 ["iqn.c"] ["10.0.0.0/8"], default] }

/-- The group as `istgt_update_initiator_group` rewrites it from the section:
new name and netmask arrays, `ref`, `idx` and `tag` kept. -/
def ig_rewrite (sp : CF_SECTION) (ig : INITIATOR_GROUP) : INITIATOR_GROUP :=
  { ig with
    ninitiators := count_vals sp kInitiatorName,
    initiators := copy_vals_loop sp kInitiatorName
      (List.replicate (count_vals sp kInitiatorName) []) 0 (count_vals sp kInitiatorName),
    nnetmasks := count_vals sp kNetmask,
    netmasks := copy_vals_loop sp kNetmask
      (List.replicate (count_vals sp kNetmask) []) 0 (count_vals sp kNetmask) }

/-- A section `InitiatorGroup1` with two names and one netmask. -/
def exIGSec1 : CF_SECTION :=
  exIGSection 1 [exVal "InitiatorName" "iqn.x", exVal "InitiatorName" "iqn.y",
                 exVal "Netmask" "ALL"]

/-- A section `InitiatorGroup1` with three names, one more than
`MAX_INITIATOR` of `exL`. -/
def exIGSec1big : CF_SECTION :=
  exIGSection 1 [exVal "InitiatorName" "iqn.x", exVal "InitiatorName" "iqn.y",
                 exVal "InitiatorName" "iqn.z", exVal "Netmask" "ALL"]

/-! ## Reload of the configuration -/

/-- What the collaborators of `istgt_reload` that lie outside its thread or
outside this file answer during one call: the return code of
`istgt_read_config` and the configuration it filled in, and the return codes
of `istgt_lu_reload_delete`, `istgt_pg_reload_delete`,
`istgt_pg_reload_update` and `istgt_lu_reload_update`. The logical-unit
routines belong to `istgt_lu.c`; the portal-group routines hand a command to
the accept thread and wait for it. None of them assigns `config`,
`config_old` or `generation`. -/
structure RELOAD_OUTCOMES where
  read_rc : Int
  config_new : CONFIG
  lu_reload_delete : Int
  pg_reload_delete : Int
  pg_reload_update : Int
  lu_reload_update : Int
  deriving DecidableEq, Repr, Inhabited

/-- The function `istgt_reload`: return code and daemon structure
afterwards. `generation++` is an increment of a `uint32_t`. -/
def istgt_reload (L : IGLimits) (o : RELOAD_OUTCOMES) (istgt : ISTGT_IG) : Int × ISTGT_IG :=
  let config_old := istgt.config
  if o.read_rc < 0 then (-1, istgt)
  else if o.config_new.section_ = [] then (-1, istgt)
  else
    let istgt1 : ISTGT_IG :=
      { istgt with config := o.config_new, config_old := some config_old,
                   generation := (istgt.generation + 1) % 2 ^ 32 }
    -- reload sub groups
    if o.lu_reload_delete < 0 then (-1, istgt1)
    else
      match istgt_ig_reload_delete istgt1 with
      | (rc2, istgt2) =>
        if rc2 < 0 then (-1, istgt2)
        else if o.pg_reload_delete < 0 then (-1, istgt2)
        else if o.pg_reload_update < 0 then (-1, istgt2)
        else
          match istgt_ig_reload_update L istgt2 with
          | (rc3, istgt3) =>
            if rc3 < 0 then (-1, istgt3)
            else if o.lu_reload_update < 0 then (-1, istgt3)
            else (0, { istgt3 with config_old := none })

/-- The configuration read is usable: `istgt_read_config` did not fail and
the configuration has a section. -/
def ReadOk (o : RELOAD_OUTCOMES) : Prop :=
  0 ≤ o.read_rc ∧ o.config_new.section_ ≠ []

instance (o : RELOAD_OUTCOMES) : Decidable (ReadOk o) := by
  unfold ReadOk; infer_instance

/-- A new configuration with the sections of groups 1 and 3. -/
def exConfigNew : CONFIG :=
  { section_ := [exIGSec1,
      exIGSection 3 [exVal "InitiatorName" "iqn.c", exVal "Netmask" "10.0.0.0/8"]] }

/-- Every collaborator succeeds. -/
def exOutcomesOk : RELOAD_OUTCOMES :=
  { read_rc := 0, config_new := exConfigNew, lu_reload_delete := 0, pg_reload_delete := 0,
    pg_reload_update := 0, lu_reload_update := 0 }

/-- The configuration is read, then `istgt_lu_reload_delete` fails. -/
def exOutcomesLuFails : RELOAD_OUTCOMES :=
  { exOutcomesOk with lu_reload_delete := -1 }

/-- The configuration file cannot be read. -/
def exOutcomesReadFails : RELOAD_OUTCOMES :=
  { exOutcomesOk with read_rc := -1 }

/-- The daemon structure right after `istgt_reload` has put the new
configuration in place. -/
def reload_swap (o : RELOAD_OUTCOMES) (istgt : ISTGT_IG) : ISTGT_IG :=
  { istgt with config := o.config_new, config_old := some istgt.config,
               generation := (istgt.generation + 1) % 2 ^ 32 }

/-! ## Accept loop: control commands and the poll array -/

/-- What the accept loop of `istgt_acceptor` does when it has read the
command `cmd` from the control pipe, before it jumps back to the `reload`
label: the daemon structure, the outside world and `pg_reload` afterwards.
The command `E` leaves the loop before anything is done. -/
def acceptor_command (K : Limits) (cmd : Char) (istgt : ISTGT) (net : Net) (pg_reload : Int)
    (pgp_idx0 : Nat) : ISTGT × Net × Int :=
  if cmd = 'E' then (istgt, net, pg_reload)
  else
    let s1 : ISTGT × Net × Int :=
      if cmd = 'D' then
        match istgt_pg_delete istgt net with
        | (rc, istgt1, net1) => (istgt1, net1, if rc < 0 then -1 else 1)
      else (istgt, net, pg_reload)
    if cmd = 'U' then
      match istgt_pg_update K s1.1 s1.2.1 pgp_idx0 with
      | (rc, istgt2, net2) => (istgt2, net2, if rc < 0 then -1 else 1)
    else s1

/-- One entry of the array handed to `poll` (`struct pollfd`). -/
structure pollfd where
  fd : Int
  events : Int
  revents : Int
  deriving DecidableEq, Repr, Inhabited

/-- Constants the poll branch of `istgt_acceptor` takes from headers that
are not among the sources: `MAX_UCPORTAL` of `istgt.h` and `POLLIN` of
`poll.h`. -/
structure PollLimits where
  MAX_UCPORTAL : Nat
  POLLIN : Int
  deriving DecidableEq, Repr, Inhabited

/-- The inner loop of the poll branch at the `reload` label, over the
portals of group `i` from portal `j` on with `k` to go: an open socket is
stored in `fds[i]` and counted in `nidx`. A store outside the array is not
modelled (the list is left as it is). -/
def fds_portal_loop (P : PollLimits) (pgp : PORTAL_GROUP) (i : Nat) :
    List pollfd → Nat → Nat → Nat → List pollfd × Nat
  | fds, nidx, _, 0 => (fds, nidx)
  | fds, nidx, j, k + 1 =>
    if (portal_at pgp j).sock ≥ 0 then
      fds_portal_loop P pgp i
        (fds.set i { fds.getD i default with fd := (portal_at pgp j).sock, events := P.POLLIN })
        (nidx + 1) (j + 1) k
    else fds_portal_loop P pgp i fds nidx (j + 1) k

/-- The outer loop over the portal groups, from group `i` on with `k` to
go. -/
def fds_group_loop (P : PollLimits) (istgt : ISTGT) : List pollfd → Nat → Nat → Nat →
    List pollfd × Nat
  | fds, nidx, _, 0 => (fds, nidx)
  | fds, nidx, i, k + 1 =>
    match fds_portal_loop P (pg_at istgt i) i fds nidx 0 (pg_at istgt i).nportals with
    | (fds1, nidx1) => fds_group_loop P istgt fds1 nidx1 (i + 1) k

/-- The loop over the unit-control portals, which stores the socket of
portal `i` in `fds[ucidx + i]`. -/
def fds_uctl_loop (P : PollLimits) (uc : ISTGT_UC) (ucidx : Nat) : List pollfd → Nat → Nat → Nat →
    List pollfd × Nat
  | fds, nidx, _, 0 => (fds, nidx)
  | fds, nidx, i, k + 1 =>
    fds_uctl_loop P uc ucidx
      (fds.set (ucidx + i)
        { fds.getD (ucidx + i) default with fd := (uctl_at uc i).sock, events := P.POLLIN })
      (nidx + 1) (i + 1) k

/-- The poll branch of `istgt_acceptor` at the `reload` label: the array
`fds`, `ucidx` and `nidx` it leaves for the loop. -/
def acceptor_build_fds (K : Limits) (P : PollLimits) (istgt : ISTGT) (uc : ISTGT_UC) :
    List pollfd × Nat × Nat :=
  -- memset(&fds, 0, sizeof fds)
  let fds0 : List pollfd :=
    List.replicate (K.MAX_PORTAL_GROUP + P.MAX_UCPORTAL) { fd := 0, events := 0, revents := 0 }
  match fds_group_loop P istgt fds0 0 0 istgt.nportal_group with
  | (fds1, nidx1) =>
    let ucidx := nidx1
    match fds_uctl_loop P uc ucidx fds1 nidx1 0 uc.nuctl_portal with
    | (fds2, nidx2) =>
      (fds2.set nidx2 { fds2.getD nidx2 default with fd := uc.sig_pipe_rd, events := P.POLLIN },
        ucidx, nidx2 + 1)

/-- Limits of the poll example: room for two unit-control portals. -/
def exP : PollLimits := { MAX_UCPORTAL := 2, POLLIN := 1 }

/-- The table built from one section with two portals and opened: group 1
listening on descriptors 7 and 8. -/
def exBootTwo : ISTGT :=
  (istgt_open_all_portals
    (istgt_build_portal_group_array exK
      (initial_istgt exK { section_ := [exSec1two] })).2 exNet).2.1

/-- One unit-control portal listening on descriptor 4; the read end of the
control pipe is descriptor 3. -/
def exUctlOpen : ISTGT_UC :=
  { nuctl_portal := 1, uctl_portal := [exPortal "uc" "127.0.0.1" "3261" (-1) 0 4],
    sig_pipe_rd := 3 }

/-! ## Accept loop: the indices written into the poll array -/

/-- The indices of `fds` the inner loop of the poll branch writes for group
`i`, from portal `j` on with `k` to go, appended to `ws`; `nidx` is counted
as in `fds_portal_loop`. -/
def fds_portal_writes (pgp : PORTAL_GROUP) (i : Nat) : List Nat → Nat → Nat → Nat → List Nat × Nat
  | ws, nidx, _, 0 => (ws, nidx)
  | ws, nidx, j, k + 1 =>
    if (portal_at pgp j).sock ≥ 0 then fds_portal_writes pgp i (ws ++ [i]) (nidx + 1) (j + 1) k
    else fds_portal_writes pgp i ws nidx (j + 1) k

/-- The indices written by the outer loop over the portal groups, from group
`i` on with `k` to go. -/
def fds_group_writes (istgt : ISTGT) : List Nat → Nat → Nat → Nat → List Nat × Nat
  | ws, nidx, _, 0 => (ws, nidx)
  | ws, nidx, i, k + 1 =>
    match fds_portal_writes (pg_at istgt i) i ws nidx 0 (pg_at istgt i).nportals with
    | (ws1, nidx1) => fds_group_writes istgt ws1 nidx1 (i + 1) k

/-- The indices written by the loop over the unit-control portals:
`ucidx + i` for portal `i`. -/
def fds_uctl_writes (ucidx : Nat) : List Nat → Nat → Nat → Nat → List Nat × Nat
  | ws, nidx, _, 0 => (ws, nidx)
  | ws, nidx, i, k + 1 => fds_uctl_writes ucidx (ws ++ [ucidx + i]) (nidx + 1) (i + 1) k

/-- Every index of `fds` the poll branch of `istgt_acceptor` writes at the
`reload` label, in the order of the writes: `fds[i]` for each open portal of
group `i`, `fds[ucidx + i]` for unit-control portal `i`, and `fds[nidx]` for
the control pipe. -/
def acceptor_fds_writes (istgt : ISTGT) (uc : ISTGT_UC) : List Nat :=
  match fds_group_writes istgt [] 0 0 istgt.nportal_group with
  | (ws1, nidx1) =>
    match fds_uctl_writes nidx1 ws1 nidx1 0 uc.nuctl_portal with
    | (ws2, nidx2) => ws2 ++ [nidx2]

/-- A section `PortalGroup2` with one portal. -/
def exSec2 : CF_SECTION := exSection 2 [exLine "m" "10.0.0.2:3260"]

/-- The table built from three sections of one portal each and opened: a
full table for `exK`, the groups listening on descriptors 7, 8 and 9. -/
def exBootFull : ISTGT :=
  (istgt_open_all_portals
    (istgt_build_portal_group_array exK
      (initial_istgt exK { section_ := [exSec1, exSec2, exSec3] })).2
    { script := [7, 8, 9], trace := [] }).2.1

/-- Two unit-control portals listening on descriptors 4 and 5, a full list
for `exP`; the read end of the control pipe is descriptor 3. -/
def exUctlFull : ISTGT_UC :=
  { nuctl_portal := 2,
    uctl_portal := [exPortal "uc" "127.0.0.1" "3261" (-1) 0 4,
                    exPortal "uc2" "127.0.0.1" "3262" (-1) 1 5],
    sig_pipe_rd := 3 }

/-- An empty initiator-group table for `exL` with a configuration that holds
the sections `InitiatorGroup2` and `InitiatorGroup3`. -/
def exIGEmpty : ISTGT_IG :=
  { config := { section_ := [exIGSection 2 [exVal "InitiatorName" "iqn.b"],
                             exIGSection 3 [exVal "InitiatorName" "iqn.c"]] },
    config_old := none, generation := 0, ninitiator_group := 0,
    initiator_group := List.replicate exL.MAX_INITIATOR_GROUP default }

/-- The table `exIGEmpty` after `istgt_add_initiator_group` has added the
groups 1, 2 and 3. -/
def exIGAdded : ISTGT_IG :=
  (istgt_add_initiator_group exL
    (istgt_add_initiator_group exL
      (istgt_add_initiator_group exL exIGEmpty
        (exIGSection 1 [exVal "InitiatorName" "iqn.a"])).2
      (exIGSection 2 [exVal "InitiatorName" "iqn.b"])).2
    (exIGSection 3 [exVal "InitiatorName" "iqn.c"])).2

/-! ## Configuration accessors -/

/-- The function `istgt_get_val`. -/
def istgt_get_val (sp : CF_SECTION) (key : CStr) : Option CStr :=
  istgt_get_nval sp key 0

/-- The function `istgt_get_nintval`: `-1` when there is no value, otherwise
`(int)strtol(v, NULL, 10)`. -/
def istgt_get_nintval (sp : CF_SECTION) (key : CStr) (idx : Int) : Int :=
  match istgt_get_nval sp key idx with
  | none => -1
  | some v => toInt32 (strtol v 10)

/-- The function `istgt_get_intval`. -/
def istgt_get_intval (sp : CF_SECTION) (key : CStr) : Int :=
  istgt_get_nintval sp key 0

/-- The specification's reading of `nmval(key, idx, col)`: the `col`-th
value, counted from 0, of the `idx`-th item named `key`; nothing when there
is no such item or `col` is not an index of its values. -/
def nmval_spec (sp : CF_SECTION) (key : CStr) (idx col : Int) : Option CStr :=
  match istgt_find_cf_nitem sp key idx with
  | none => none
  | some ip => if 0 ≤ col ∧ col < ip.val.length then ip.val[col.toNat]? else none

/-- The digits of a text that may start with a sign: the text without its
leading `-` or `+`. -/
def unsigned_part (s : CStr) : CStr :=
  if s.head? = some '-' ∨ s.head? = some '+' then s.drop 1 else s

/-- A text made of an optional sign and decimal digits, at least one. -/
def IsDecimalText (s : CStr) : Prop :=
  unsigned_part s ≠ [] ∧ ∀ c, c ∈ unsigned_part s → IsDigit c

instance (s : CStr) : Decidable (IsDecimalText s) := by
  unfold IsDecimalText; infer_instance

/-- The base-10 integer value of a text made of an optional sign and decimal
digits. -/
def decimal_int (s : CStr) : Int :=
  if s.head? = some '-' then -(decimal_value (unsigned_part s) : Int)
  else (decimal_value (unsigned_part s) : Int)

/-! ## Start-up: reading the `Global` section and building the tables -/

/-- The function `tolower` in the C locale. -/
def tolower (c : Char) : Char :=
  if 'A' ≤ c ∧ c ≤ 'Z' then Char.ofNat (c.toNat + 32) else c

/-- The sign of `strcasecmp(a, b)` (the C standard fixes no more than the
sign): the texts are compared character by character after `tolower`; 0
when they agree. -/
def strcasecmp : CStr → CStr → Int
  | [], [] => 0
  | [], _ :: _ => -1
  | _ :: _, [] => 1
  | a :: as, b :: bs =>
    if tolower a = tolower b then strcasecmp as bs
    else if (tolower a).toNat < (tolower b).toNat then -1 else 1

/-- The sign of `strncasecmp(a, b, n)`: as `strcasecmp` on the first `n`
characters. -/
def strncasecmp (a b : CStr) (n : Nat) : Int :=
  strcasecmp (a.take n) (b.take n)

/-- The call `sscanf(s, "%*[^0-9]%d", &i)`: a non-empty run of characters
that are not decimal digits is skipped, then a decimal number is read.
`some i` is the return value 1; `none` is any other return value (no
character to skip, or nothing left to convert). -/
def sscanf_skip_d (s : CStr) : Option Int :=
  let rest := s.dropWhile (fun c => !('0' ≤ c && c ≤ '9'))
  if rest.length = s.length then none
  else if rest = [] then none
  else some (toInt32 (strtol rest 10))

/-- Modelled from the spec: `istgt_find_cf_section` lives in `istgt_conf.c`,
which is not among the sources; it yields the first section with the given
name. The sections named `Global` and `UnitControl` are those of the types
`ST_GLOBAL` and `ST_UNITCONTROL`, so the name is given by the type. -/
def istgt_find_cf_section (config : CONFIG) (t : CF_SECTION_TYPE) : Option CF_SECTION :=
  config.section_.find? (fun sp => sp.type = t)

/-- Compile-time constants of `istgt.h` that `istgt_init` and
`istgt_build_uctl_portal` use; the header is not among the sources at hand,
they are taken as parameters. -/
structure InitDefaults where
  DEFAULT_PIDFILE : CStr
  DEFAULT_AUTHFILE : CStr
  DEFAULT_MEDIADIRECTORY : CStr
  DEFAULT_NODEBASE : CStr
  DEFAULT_MAX_SESSIONS : Int
  DEFAULT_MAX_CONNECTIONS : Int
  DEFAULT_MAXOUTSTANDINGR2T : Int
  DEFAULT_DEFAULTTIME2WAIT : Int
  DEFAULT_DEFAULTTIME2RETAIN : Int
  DEFAULT_FIRSTBURSTLENGTH : Int
  DEFAULT_MAXBURSTLENGTH : Int
  DEFAULT_MAXRECVDATASEGMENTLENGTH : Int
  DEFAULT_INITIALR2T : Int
  DEFAULT_IMMEDIATEDATA : Int
  DEFAULT_DATAPDUINORDER : Int
  DEFAULT_DATASEQUENCEINORDER : Int
  DEFAULT_ERRORRECOVERYLEVEL : Int
  DEFAULT_TIMEOUT : Int
  DEFAULT_NOPININTERVAL : Int
  DEFAULT_MAXR2T : Int
  MAX_R2T : Int
  ISTGT_STACKSIZE : Nat
  ISTGT_UC_TAG : Int
  deriving DecidableEq, Inhabited

/-- The part of the daemon structure `ISTGT` that `istgt_init` fills from the
`Global` section. -/
structure ISTGT_GLOBAL where
  pidfile : CStr
  authfile : CStr
  mediadirectory : CStr
  nodebase : CStr
  MaxSessions : Int
  MaxConnections : Int
  MaxOutstandingR2T : Int
  DefaultTime2Wait : Int
  DefaultTime2Retain : Int
  FirstBurstLength : Int
  MaxBurstLength : Int
  MaxRecvDataSegmentLength : Int
  InitialR2T : Int
  ImmediateData : Int
  DataPDUInOrder : Int
  DataSequenceInOrder : Int
  ErrorRecoveryLevel : Int
  timeout : Int
  nopininterval : Int
  maxr2t : Int
  no_discovery_auth : Int
  req_discovery_auth : Int
  req_discovery_auth_mutual : Int
  discovery_auth_group : Int
  deriving DecidableEq, Inhabited

/-- The states of the daemon (`ISTGT_STATE`). -/
inductive ISTGT_STATE where
  | ISTGT_STATE_INVALID
  | ISTGT_STATE_INITIALIZED
  | ISTGT_STATE_RUNNING
  | ISTGT_STATE_EXITING
  | ISTGT_STATE_SHUTDOWN
  deriving DecidableEq, Repr, Inhabited

/-- The daemon structure as `istgt_init` sees it, by concern: the tunables,
the unit-control portals with `sig_pipe[0]`, the portal-group table, the
initiator-group table, `sig_pipe[1]` and the state. The field `config` of
`pg` and of `ig` is the one pointer `istgt->config`. -/
structure DAEMON where
  glob : ISTGT_GLOBAL
  uc : ISTGT_UC
  pg : ISTGT
  ig : ISTGT_IG
  sig_pipe_wr : Int
  state : ISTGT_STATE
  deriving DecidableEq, Inhabited

/-- What the calls of `istgt_init` to code outside this file answer: the
return codes of the `pthread` calls in source order, the stack size
`pthread_attr_getstacksize` reports, the return code of `istgt_uctl_init`,
and the return code and the two descriptors of `pipe`. -/
structure INIT_OUTCOMES where
  pthread_attr_init : Int
  pthread_attr_getstacksize : Int
  stacksize : Nat
  pthread_attr_setstacksize : Int
  pthread_mutexattr_init : Int
  pthread_mutexattr_settype : Int
  mutex_init : Int
  state_mutex_init : Int
  reload_mutex_init : Int
  pthread_cond_init : Int
  istgt_uctl_init : Int
  pipe : Int
  pipe_rd : Int
  pipe_wr : Int
  deriving DecidableEq, Inhabited

/-- The key `"PidFile"`. -/
def kPidFile : CStr := "PidFile".toList

/-- The key `"AuthFile"`. -/
def kAuthFile : CStr := "AuthFile".toList

/-- The key `"MediaDirectory"`. -/
def kMediaDirectory : CStr := "MediaDirectory".toList

/-- The key `"NodeBase"`. -/
def kNodeBase : CStr := "NodeBase".toList

/-- The key `"MaxSessions"`. -/
def kMaxSessions : CStr := "MaxSessions".toList

/-- The key `"MaxConnections"`. -/
def kMaxConnections : CStr := "MaxConnections".toList

/-- The key `"MaxOutstandingR2T"`. -/
def kMaxOutstandingR2T : CStr := "MaxOutstandingR2T".toList

/-- The key `"DefaultTime2Wait"`. -/
def kDefaultTime2Wait : CStr := "DefaultTime2Wait".toList

/-- The key `"DefaultTime2Retain"`. -/
def kDefaultTime2Retain : CStr := "DefaultTime2Retain".toList

/-- The key `"FirstBurstLength"`. -/
def kFirstBurstLength : CStr := "FirstBurstLength".toList

/-- The key `"MaxBurstLength"`. -/
def kMaxBurstLength : CStr := "MaxBurstLength".toList

/-- The key `"MaxRecvDataSegmentLength"`. -/
def kMaxRecvDataSegmentLength : CStr := "MaxRecvDataSegmentLength".toList

/-- The key `"InitialR2T"`. -/
def kInitialR2T : CStr := "InitialR2T".toList

/-- The key `"ImmediateData"`. -/
def kImmediateData : CStr := "ImmediateData".toList

/-- The key `"DataPDUInOrder"`. -/
def kDataPDUInOrder : CStr := "DataPDUInOrder".toList

/-- The key `"DataSequenceInOrder"`. -/
def kDataSequenceInOrder : CStr := "DataSequenceInOrder".toList

/-- The key `"ErrorRecoveryLevel"`. -/
def kErrorRecoveryLevel : CStr := "ErrorRecoveryLevel".toList

/-- The key `"Timeout"`. -/
def kTimeout : CStr := "Timeout".toList

/-- The key `"NopInInterval"`. -/
def kNopInInterval : CStr := "NopInInterval".toList

/-- The key `"MaxR2T"`. -/
def kMaxR2T : CStr := "MaxR2T".toList

/-- The key `"DiscoveryAuthMethod"`. -/
def kDiscoveryAuthMethod : CStr := "DiscoveryAuthMethod".toList

/-- The key `"DiscoveryAuthGroup"`. -/
def kDiscoveryAuthGroup : CStr := "DiscoveryAuthGroup".toList

/-- The text `"Yes"`. -/
def kYes : CStr := "Yes".toList

/-- The text `"No"`. -/
def kNo : CStr := "No".toList

/-- The text `"CHAP"`. -/
def kCHAP : CStr := "CHAP".toList

/-- The text `"Mutual"`. -/
def kMutual : CStr := "Mutual".toList

/-- The text `"Auto"`. -/
def kAuto : CStr := "Auto".toList

/-- The text `"None"`. -/
def kNone : CStr := "None".toList

/-- The text `"AuthGroup"`. -/
def kAuthGroup : CStr := "AuthGroup".toList

/-- The block of `istgt_init` that stores the four path names, each taken
from the section or from its default. A block yields `ok` with the
structure as it goes on, or `error` with the structure as it is at the
`return -1`. -/
def init_strings (D : InitDefaults) (sp : CF_SECTION) (g : ISTGT_GLOBAL) :
    Except ISTGT_GLOBAL ISTGT_GLOBAL :=
  .ok { g with
    pidfile := (istgt_get_val sp kPidFile).getD D.DEFAULT_PIDFILE,
    authfile := (istgt_get_val sp kAuthFile).getD D.DEFAULT_AUTHFILE,
    mediadirectory := (istgt_get_val sp kMediaDirectory).getD D.DEFAULT_MEDIADIRECTORY,
    nodebase := (istgt_get_val sp kNodeBase).getD D.DEFAULT_NODEBASE }

/-- The block for `MaxSessions` and `MaxConnections` with the two checks
"limited to 16bits". -/
def init_sessions (D : InitDefaults) (sp : CF_SECTION) (g : ISTGT_GLOBAL) :
    Except ISTGT_GLOBAL ISTGT_GLOBAL :=
  let MaxSessions :=
    if istgt_get_intval sp kMaxSessions < 1 then D.DEFAULT_MAX_SESSIONS
    else istgt_get_intval sp kMaxSessions
  let MaxConnections :=
    if istgt_get_intval sp kMaxConnections < 1 then D.DEFAULT_MAX_CONNECTIONS
    else istgt_get_intval sp kMaxConnections
  let g1 := { g with MaxSessions := MaxSessions, MaxConnections := MaxConnections }
  if MaxSessions > 0xffff then .error g1
  else if MaxConnections > 0xffff then .error g1
  else .ok g1

/-- The block for `MaxOutstandingR2T`, `DefaultTime2Wait` and
`DefaultTime2Retain` with the three checks "check size limit". -/
def init_r2t_times (D : InitDefaults) (sp : CF_SECTION) (g : ISTGT_GLOBAL) :
    Except ISTGT_GLOBAL ISTGT_GLOBAL :=
  let MaxOutstandingR2T :=
    if istgt_get_intval sp kMaxOutstandingR2T < 1 then D.DEFAULT_MAXOUTSTANDINGR2T
    else istgt_get_intval sp kMaxOutstandingR2T
  let DefaultTime2Wait :=
    if istgt_get_intval sp kDefaultTime2Wait < 0 then D.DEFAULT_DEFAULTTIME2WAIT
    else istgt_get_intval sp kDefaultTime2Wait
  let DefaultTime2Retain :=
    if istgt_get_intval sp kDefaultTime2Retain < 0 then D.DEFAULT_DEFAULTTIME2RETAIN
    else istgt_get_intval sp kDefaultTime2Retain
  let g1 := { g with MaxOutstandingR2T := MaxOutstandingR2T,
                     DefaultTime2Wait := DefaultTime2Wait,
                     DefaultTime2Retain := DefaultTime2Retain }
  if g1.MaxOutstandingR2T > 65535 then .error g1
  else if g1.DefaultTime2Wait > 3600 then .error g1
  else if g1.DefaultTime2Retain > 3600 then .error g1
  else .ok g1

/-- The block for `FirstBurstLength`, `MaxBurstLength` and
`MaxRecvDataSegmentLength` with the six checks "check size limit (up to
24bits)", in source order. -/
def init_burst (D : InitDefaults) (sp : CF_SECTION) (g : ISTGT_GLOBAL) :
    Except ISTGT_GLOBAL ISTGT_GLOBAL :=
  let FirstBurstLength :=
    if istgt_get_intval sp kFirstBurstLength < 0 then D.DEFAULT_FIRSTBURSTLENGTH
    else istgt_get_intval sp kFirstBurstLength
  let MaxBurstLength :=
    if istgt_get_intval sp kMaxBurstLength < 0 then D.DEFAULT_MAXBURSTLENGTH
    else istgt_get_intval sp kMaxBurstLength
  let MaxRecvDataSegmentLength :=
    if istgt_get_intval sp kMaxRecvDataSegmentLength < 0 then
      D.DEFAULT_MAXRECVDATASEGMENTLENGTH
    else istgt_get_intval sp kMaxRecvDataSegmentLength
  let g1 := { g with FirstBurstLength := FirstBurstLength,
                     MaxBurstLength := MaxBurstLength,
                     MaxRecvDataSegmentLength := MaxRecvDataSegmentLength }
  if g1.MaxBurstLength < 512 then .error g1
  else if g1.FirstBurstLength < 512 then .error g1
  else if g1.FirstBurstLength > g1.MaxBurstLength then .error g1
  else if g1.MaxBurstLength > 0x00ffffff then .error g1
  else if g1.MaxRecvDataSegmentLength < 512 then .error g1
  else if g1.MaxRecvDataSegmentLength > 0x00ffffff then .error g1
  else .ok g1

/-- The decision the source takes three times, for `InitialR2T`,
`DataPDUInOrder` and `DataSequenceInOrder`: the default without a value, 1
for `Yes`, and `none` (the `return -1`) for `No` ("not supported value") as
for every other text ("unknown value"). -/
def flag_yes_only (val : Option CStr) (dflt : Int) : Option Int :=
  match val with
  | none => some dflt
  | some v =>
    if strcasecmp v kYes = 0 then some 1
    else if strcasecmp v kNo = 0 then none
    else none

/-- The decision for `ImmediateData`: the default without a value, 1 for
`Yes`, 0 for `No`, `none` (the `return -1`) for every other text. -/
def flag_yes_no (val : Option CStr) (dflt : Int) : Option Int :=
  match val with
  | none => some dflt
  | some v =>
    if strcasecmp v kYes = 0 then some 1
    else if strcasecmp v kNo = 0 then some 0
    else none

/-- The block for `InitialR2T`. -/
def init_initial_r2t (D : InitDefaults) (sp : CF_SECTION) (g : ISTGT_GLOBAL) :
    Except ISTGT_GLOBAL ISTGT_GLOBAL :=
  match flag_yes_only (istgt_get_val sp kInitialR2T) D.DEFAULT_INITIALR2T with
  | none => .error g
  | some v => .ok { g with InitialR2T := v }

/-- The block for `ImmediateData`. -/
def init_immediate_data (D : InitDefaults) (sp : CF_SECTION) (g : ISTGT_GLOBAL) :
    Except ISTGT_GLOBAL ISTGT_GLOBAL :=
  match flag_yes_no (istgt_get_val sp kImmediateData) D.DEFAULT_IMMEDIATEDATA with
  | none => .error g
  | some v => .ok { g with ImmediateData := v }

/-- The block for `DataPDUInOrder`. -/
def init_data_pdu_in_order (D : InitDefaults) (sp : CF_SECTION) (g : ISTGT_GLOBAL) :
    Except ISTGT_GLOBAL ISTGT_GLOBAL :=
  match flag_yes_only (istgt_get_val sp kDataPDUInOrder) D.DEFAULT_DATAPDUINORDER with
  | none => .error g
  | some v => .ok { g with DataPDUInOrder := v }

/-- The block for `DataSequenceInOrder`. -/
def init_data_sequence_in_order (D : InitDefaults) (sp : CF_SECTION) (g : ISTGT_GLOBAL) :
    Except ISTGT_GLOBAL ISTGT_GLOBAL :=
  match flag_yes_only (istgt_get_val sp kDataSequenceInOrder)
      D.DEFAULT_DATASEQUENCEINORDER with
  | none => .error g
  | some v => .ok { g with DataSequenceInOrder := v }

/-- The block for `ErrorRecoveryLevel`: a negative value gives the default, 0
is kept, every other value is "not supported". -/
def init_error_recovery_level (D : InitDefaults) (sp : CF_SECTION) (g : ISTGT_GLOBAL) :
    Except ISTGT_GLOBAL ISTGT_GLOBAL :=
  if istgt_get_intval sp kErrorRecoveryLevel < 0 then
    .ok { g with ErrorRecoveryLevel := D.DEFAULT_ERRORRECOVERYLEVEL }
  else if istgt_get_intval sp kErrorRecoveryLevel = 0 then
    .ok { g with ErrorRecoveryLevel := 0 }
  else .error g

/-- The block for `Timeout` and `NopInInterval`. -/
def init_timeouts (D : InitDefaults) (sp : CF_SECTION) (g : ISTGT_GLOBAL) :
    Except ISTGT_GLOBAL ISTGT_GLOBAL :=
  let timeout :=
    if istgt_get_intval sp kTimeout < 0 then D.DEFAULT_TIMEOUT
    else istgt_get_intval sp kTimeout
  let nopininterval :=
    if istgt_get_intval sp kNopInInterval < 0 then D.DEFAULT_NOPININTERVAL
    else istgt_get_intval sp kNopInInterval
  .ok { g with timeout := timeout, nopininterval := nopininterval }

/-- The block for `MaxR2T`; the value is stored after the check. -/
def init_maxr2t (D : InitDefaults) (sp : CF_SECTION) (g : ISTGT_GLOBAL) :
    Except ISTGT_GLOBAL ISTGT_GLOBAL :=
  let maxr2t :=
    if istgt_get_intval sp kMaxR2T < 0 then D.DEFAULT_MAXR2T
    else istgt_get_intval sp kMaxR2T
  if maxr2t > D.MAX_R2T then .error g
  else .ok { g with maxr2t := maxr2t }

/-- The loop `for (i = 0; ; i++)` over the values of the first
`DiscoveryAuthMethod` item, from value `i` on; it ends at the first index
without a value. The item has finitely many values, which bounds the walk
(`k` values remain to be looked at). -/
def auth_method_loop (sp : CF_SECTION) :
    ISTGT_GLOBAL → Nat → Nat → Except ISTGT_GLOBAL ISTGT_GLOBAL
  | g, _, 0 => .ok g
  | g, i, k + 1 =>
    match istgt_get_nmval sp kDiscoveryAuthMethod 0 i with
    | none => .ok g
    | some val =>
      if strcasecmp val kCHAP = 0 then
        auth_method_loop sp { g with req_discovery_auth := 1 } (i + 1) k
      else if strcasecmp val kMutual = 0 then
        auth_method_loop sp { g with req_discovery_auth_mutual := 1 } (i + 1) k
      else if strcasecmp val kAuto = 0 then
        auth_method_loop sp
          { g with req_discovery_auth := 0, req_discovery_auth_mutual := 0 } (i + 1) k
      else if strcasecmp val kNone = 0 then
        auth_method_loop sp
          { g with no_discovery_auth := 1, req_discovery_auth := 0,
                   req_discovery_auth_mutual := 0 } (i + 1) k
      else .error g

/-- The values of the first item named `key`, none when there is no such
item. -/
def first_item_vals (sp : CF_SECTION) (key : CStr) : List CStr :=
  match istgt_find_cf_nitem sp key 0 with
  | none => []
  | some ip => ip.val

/-- The block for `DiscoveryAuthMethod`. Without a value the three flags are
cleared; with one, only `no_discovery_auth` is cleared before the loop, and
"Mutual but not CHAP" is tested after it. -/
def init_discovery_auth_method (sp : CF_SECTION) (g : ISTGT_GLOBAL) :
    Except ISTGT_GLOBAL ISTGT_GLOBAL :=
  match istgt_get_val sp kDiscoveryAuthMethod with
  | none =>
    .ok { g with no_discovery_auth := 0, req_discovery_auth := 0,
                 req_discovery_auth_mutual := 0 }
  | some _ =>
    match auth_method_loop sp { g with no_discovery_auth := 0 } 0
        (first_item_vals sp kDiscoveryAuthMethod).length with
    | .error e => .error e
    | .ok g1 =>
      if g1.req_discovery_auth_mutual ≠ 0 ∧ ¬ (g1.req_discovery_auth ≠ 0) then .error g1
      else .ok g1

/-- The block for `DiscoveryAuthGroup`: 0 without a value and for `None`,
otherwise the number that follows the prefix `AuthGroup`, which must not be
0. -/
def init_discovery_auth_group (sp : CF_SECTION) (g : ISTGT_GLOBAL) :
    Except ISTGT_GLOBAL ISTGT_GLOBAL :=
  match istgt_get_val sp kDiscoveryAuthGroup with
  | none => .ok { g with discovery_auth_group := 0 }
  | some ag_tag =>
    if strcasecmp ag_tag kNone = 0 then .ok { g with discovery_auth_group := 0 }
    else if strncasecmp ag_tag kAuthGroup kAuthGroup.length ≠ 0 then .error g
    else
      match sscanf_skip_d ag_tag with
      | none => .error g
      | some ag_tag_i =>
        if ag_tag_i = 0 then .error g
        else .ok { g with discovery_auth_group := ag_tag_i }

/-- The blocks of `istgt_init` that read the `Global` section, in source
order. -/
def init_blocks (D : InitDefaults) (sp : CF_SECTION) :
    List (ISTGT_GLOBAL → Except ISTGT_GLOBAL ISTGT_GLOBAL) :=
  [init_strings D sp, init_sessions D sp, init_r2t_times D sp, init_burst D sp,
   init_initial_r2t D sp, init_immediate_data D sp, init_data_pdu_in_order D sp,
   init_data_sequence_in_order D sp, init_error_recovery_level D sp, init_timeouts D sp,
   init_maxr2t D sp, init_discovery_auth_method sp, init_discovery_auth_group sp]

/-- Runs blocks one after the other; the first `return -1` ends the run. -/
def run_blocks : List (ISTGT_GLOBAL → Except ISTGT_GLOBAL ISTGT_GLOBAL) → ISTGT_GLOBAL →
    Except ISTGT_GLOBAL ISTGT_GLOBAL
  | [], g => .ok g
  | b :: bs, g =>
    match b g with
    | .error e => .error e
    | .ok g1 => run_blocks bs g1

/-- The loop of `istgt_build_uctl_portal` from entry `i` on; it ends at the
first entry without a value. A section has no more `Portal` entries than
items, which bounds the walk (`k` entries remain to be looked at). -/
def build_uctl_loop (K : Limits) (P : PollLimits) (D : InitDefaults) (sp : CF_SECTION) :
    ISTGT_UC → Nat → Nat → Int × ISTGT_UC
  | uc, _, 0 => (0, uc)
  | uc, i, k + 1 =>
    match istgt_get_nval sp kPortal i with
    | none => (0, uc)
    | some _ =>
      match istgt_get_nmval sp kPortal i 0, istgt_get_nmval sp kPortal i 1 with
      | some label, some portal =>
        match istgt_parse_portal K portal with
        | none => (-1, uc)
        | some (host, port) =>
          let idx := uc.nuctl_portal
          if idx < P.MAX_UCPORTAL then
            build_uctl_loop K P D sp
              { uc with
                uctl_portal := uc.uctl_portal.set idx
                  { label := label, host := host, port := port, ref := 0, idx := idx,
                    tag := D.ISTGT_UC_TAG, sock := -1 },
                nuctl_portal := idx + 1 }
              (i + 1) k
          else (-1, uc)
      | _, _ => (-1, uc)

/-- The function `istgt_build_uctl_portal`, on the configuration
`istgt->config`. -/
def istgt_build_uctl_portal (K : Limits) (P : PollLimits) (D : InitDefaults)
    (config : CONFIG) (uc : ISTGT_UC) : Int × ISTGT_UC :=
  match istgt_find_cf_section config CF_SECTION_TYPE.ST_UNITCONTROL with
  | none => (-1, uc)
  | some sp => build_uctl_loop K P D sp uc 0 sp.item.length

/-- The loop of `istgt_build_initiator_group_array` over the sections that
remain. -/
def build_ig_loop (L : IGLimits) : ISTGT_IG → List CF_SECTION → Int × ISTGT_IG
  | istgt, [] => (0, istgt)
  | istgt, sp :: rest =>
    if sp.type = CF_SECTION_TYPE.ST_INITIATORGROUP then
      if sp.num = 0 then (-1, istgt)
      else
        match istgt_add_initiator_group L istgt sp with
        | (rc, istgt1) => if rc < 0 then (-1, istgt1) else build_ig_loop L istgt1 rest
    else build_ig_loop L istgt rest

/-- The function `istgt_build_initiator_group_array`. -/
def istgt_build_initiator_group_array (L : IGLimits) (istgt : ISTGT_IG) : Int × ISTGT_IG :=
  build_ig_loop L istgt istgt.config.section_

/-- The part of `istgt_init` after the `Global` section is read: the
`pthread` objects, `istgt_uctl_init`, the three tables, the control pipe and
the state. -/
def init_tail (D : InitDefaults) (K : Limits) (L : IGLimits) (P : PollLimits)
    (o : INIT_OUTCOMES) (d : DAEMON) : Int × DAEMON :=
  if o.pthread_attr_init ≠ 0 then (-1, d)
  else if o.pthread_attr_getstacksize ≠ 0 then (-1, d)
  else if o.stacksize < D.ISTGT_STACKSIZE ∧ o.pthread_attr_setstacksize ≠ 0 then (-1, d)
  else if o.pthread_mutexattr_init ≠ 0 then (-1, d)
  else if o.pthread_mutexattr_settype ≠ 0 then (-1, d)
  else if o.mutex_init ≠ 0 then (-1, d)
  else if o.state_mutex_init ≠ 0 then (-1, d)
  else if o.reload_mutex_init ≠ 0 then (-1, d)
  else if o.pthread_cond_init ≠ 0 then (-1, d)
  else if o.istgt_uctl_init < 0 then (-1, d)
  else
    match istgt_build_uctl_portal K P D d.pg.config d.uc with
    | (rc1, uc1) =>
      if rc1 < 0 then (-1, { d with uc := uc1 })
      else
        match istgt_build_portal_group_array K d.pg with
        | (rc2, pg1) =>
          if rc2 < 0 then (-1, { d with uc := uc1, pg := pg1 })
          else
            match istgt_build_initiator_group_array L d.ig with
            | (rc3, ig1) =>
              if rc3 < 0 then (-1, { d with uc := uc1, pg := pg1, ig := ig1 })
              else if o.pipe ≠ 0 then
                (-1, { d with uc := { uc1 with sig_pipe_rd := -1 }, pg := pg1, ig := ig1,
                              sig_pipe_wr := -1 })
              else
                (0, { d with uc := { uc1 with sig_pipe_rd := o.pipe_rd }, pg := pg1,
                             ig := ig1, sig_pipe_wr := o.pipe_wr,
                             state := ISTGT_STATE.ISTGT_STATE_INITIALIZED })

/-- The function `istgt_init`: the return code and the daemon structure
afterwards. -/
def istgt_init (D : InitDefaults) (K : Limits) (L : IGLimits) (P : PollLimits)
    (o : INIT_OUTCOMES) (d : DAEMON) : Int × DAEMON :=
  match istgt_find_cf_section d.pg.config CF_SECTION_TYPE.ST_GLOBAL with
  | none => (-1, d)
  | some sp =>
    match run_blocks (init_blocks D sp) d.glob with
    | .error g => (-1, { d with glob := g })
    | .ok g => init_tail D K L P o { d with glob := g }

/-- The daemon structure as `main` leaves it before `istgt_init`: cleared by
`memset`, the state invalid, both ends of the control pipe `-1`, and the
configuration that was read. -/
def initial_daemon (K : Limits) (L : IGLimits) (P : PollLimits) (cfg : CONFIG) : DAEMON :=
  { glob :=
      { pidfile := [], authfile := [], mediadirectory := [], nodebase := [],
        MaxSessions := 0, MaxConnections := 0, MaxOutstandingR2T := 0,
        DefaultTime2Wait := 0, DefaultTime2Retain := 0, FirstBurstLength := 0,
        MaxBurstLength := 0, MaxRecvDataSegmentLength := 0, InitialR2T := 0,
        ImmediateData := 0, DataPDUInOrder := 0, DataSequenceInOrder := 0,
        ErrorRecoveryLevel := 0, timeout := 0, nopininterval := 0, maxr2t := 0,
        no_discovery_auth := 0, req_discovery_auth := 0, req_discovery_auth_mutual := 0,
        discovery_auth_group := 0 },
    uc := { nuctl_portal := 0, uctl_portal := List.replicate P.MAX_UCPORTAL default,
            sig_pipe_rd := -1 },
    pg := initial_istgt K cfg,
    ig := { config := cfg, config_old := none, generation := 0, ninitiator_group := 0,
            initiator_group := List.replicate L.MAX_INITIATOR_GROUP default },
    sig_pipe_wr := -1,
    state := ISTGT_STATE.ISTGT_STATE_INVALID }

/-- Defaults of the worked examples. -/
def exD : InitDefaults :=
  { DEFAULT_PIDFILE := "/var/run/istgt.pid".toList,
    DEFAULT_AUTHFILE := "/usr/local/etc/istgt/auth.conf".toList,
    DEFAULT_MEDIADIRECTORY := "/var/istgt".toList,
    DEFAULT_NODEBASE := "iqn.2007-09.jp.ne.peach.istgt".toList,
    DEFAULT_MAX_SESSIONS := 16, DEFAULT_MAX_CONNECTIONS := 4,
    DEFAULT_MAXOUTSTANDINGR2T := 16, DEFAULT_DEFAULTTIME2WAIT := 2,
    DEFAULT_DEFAULTTIME2RETAIN := 60, DEFAULT_FIRSTBURSTLENGTH := 262144,
    DEFAULT_MAXBURSTLENGTH := 1048576, DEFAULT_MAXRECVDATASEGMENTLENGTH := 262144,
    DEFAULT_INITIALR2T := 1, DEFAULT_IMMEDIATEDATA := 1, DEFAULT_DATAPDUINORDER := 1,
    DEFAULT_DATASEQUENCEINORDER := 1, DEFAULT_ERRORRECOVERYLEVEL := 0,
    DEFAULT_TIMEOUT := 30, DEFAULT_NOPININTERVAL := 20, DEFAULT_MAXR2T := 16,
    MAX_R2T := 256, ISTGT_STACKSIZE := 1048576, ISTGT_UC_TAG := 1 }

/-- Answers of the outside world under which the tail of `istgt_init` goes
through: every call succeeds, the pipe has the descriptors 3 and 4. -/
def exInitOk : INIT_OUTCOMES :=
  { pthread_attr_init := 0, pthread_attr_getstacksize := 0, stacksize := 8388608,
    pthread_attr_setstacksize := 0, pthread_mutexattr_init := 0,
    pthread_mutexattr_settype := 0, mutex_init := 0, state_mutex_init := 0,
    reload_mutex_init := 0, pthread_cond_init := 0, istgt_uctl_init := 0, pipe := 0,
    pipe_rd := 3, pipe_wr := 4 }

/-- A `Global` section with the given lines. -/
def exGlobal (items : List CF_ITEM) : CF_SECTION :=
  { type := CF_SECTION_TYPE.ST_GLOBAL, num := 0, item := items }

/-- A `UnitControl` section with one portal. -/
def exUnitControl : CF_SECTION :=
  { type := CF_SECTION_TYPE.ST_UNITCONTROL, num := 0,
    item := [exLine "UC1" "127.0.0.1:3261"] }

/-- A configuration made of a `Global` section with the given lines, the
section `exUnitControl` and the portal group `exSec1`. -/
def exConfigWith (items : List CF_ITEM) : CONFIG :=
  { section_ := [exGlobal items, exUnitControl, exSec1] }

/-- The result of `istgt_init` for the worked examples on the configuration
`exConfigWith items`. -/
def exInit (items : List CF_ITEM) : Int × DAEMON :=
  istgt_init exD exK exL exP exInitOk (initial_daemon exK exL exP (exConfigWith items))

/-- The value in force for an integer key: the default when the value read
is below `lo` (which is the case for a missing key, read as `-1`), the value
read otherwise. -/
def effective (v lo dflt : Int) : Int :=
  if v < lo then dflt else v

/-- What a structure holds of the integer keys and the flags after the
blocks of `istgt_init` have gone through for the section: every integer key
holds the value in force, every flag the value decided for its text, and the
limits the blocks check hold. -/
structure StoredAsRead (D : InitDefaults) (sp : CF_SECTION) (g : ISTGT_GLOBAL) : Prop where
  MaxSessions :
    g.MaxSessions = effective (istgt_get_intval sp kMaxSessions) 1 D.DEFAULT_MAX_SESSIONS
  MaxConnections :
    g.MaxConnections
      = effective (istgt_get_intval sp kMaxConnections) 1 D.DEFAULT_MAX_CONNECTIONS
  MaxOutstandingR2T :
    g.MaxOutstandingR2T
      = effective (istgt_get_intval sp kMaxOutstandingR2T) 1 D.DEFAULT_MAXOUTSTANDINGR2T
  DefaultTime2Wait :
    g.DefaultTime2Wait
      = effective (istgt_get_intval sp kDefaultTime2Wait) 0 D.DEFAULT_DEFAULTTIME2WAIT
  DefaultTime2Retain :
    g.DefaultTime2Retain
      = effective (istgt_get_intval sp kDefaultTime2Retain) 0 D.DEFAULT_DEFAULTTIME2RETAIN
  FirstBurstLength :
    g.FirstBurstLength
      = effective (istgt_get_intval sp kFirstBurstLength) 0 D.DEFAULT_FIRSTBURSTLENGTH
  MaxBurstLength :
    g.MaxBurstLength
      = effective (istgt_get_intval sp kMaxBurstLength) 0 D.DEFAULT_MAXBURSTLENGTH
  MaxRecvDataSegmentLength :
    g.MaxRecvDataSegmentLength
      = effective (istgt_get_intval sp kMaxRecvDataSegmentLength) 0
          D.DEFAULT_MAXRECVDATASEGMENTLENGTH
  timeout : g.timeout = effective (istgt_get_intval sp kTimeout) 0 D.DEFAULT_TIMEOUT
  nopininterval :
    g.nopininterval = effective (istgt_get_intval sp kNopInInterval) 0 D.DEFAULT_NOPININTERVAL
  maxr2t : g.maxr2t = effective (istgt_get_intval sp kMaxR2T) 0 D.DEFAULT_MAXR2T
  InitialR2T :
    flag_yes_only (istgt_get_val sp kInitialR2T) D.DEFAULT_INITIALR2T = some g.InitialR2T
  ImmediateData :
    flag_yes_no (istgt_get_val sp kImmediateData) D.DEFAULT_IMMEDIATEDATA
      = some g.ImmediateData
  DataPDUInOrder :
    flag_yes_only (istgt_get_val sp kDataPDUInOrder) D.DEFAULT_DATAPDUINORDER
      = some g.DataPDUInOrder
  DataSequenceInOrder :
    flag_yes_only (istgt_get_val sp kDataSequenceInOrder) D.DEFAULT_DATASEQUENCEINORDER
      = some g.DataSequenceInOrder
  sessions_le : g.MaxSessions ≤ 65535
  connections_le : g.MaxConnections ≤ 65535
  r2t_le : g.MaxOutstandingR2T ≤ 65535
  wait_le : g.DefaultTime2Wait ≤ 3600
  retain_le : g.DefaultTime2Retain ≤ 3600
  first_ge : 512 ≤ g.FirstBurstLength
  first_le : g.FirstBurstLength ≤ g.MaxBurstLength
  burst_le : g.MaxBurstLength ≤ 16777215
  recv_ge : 512 ≤ g.MaxRecvDataSegmentLength
  recv_le : g.MaxRecvDataSegmentLength ≤ 16777215
  maxr2t_le : g.maxr2t ≤ D.MAX_R2T

/-! ## Discovery authentication methods -/

/-- A token that clears the flags `req_discovery_auth` and
`req_discovery_auth_mutual`: `Auto` or `None`, up to case. -/
def is_reset (t : CStr) : Bool :=
  strcasecmp t kAuto = 0 || strcasecmp t kNone = 0

/-- A token of the set `CHAP`, `Mutual`, `Auto`, `None`, up to case. -/
def IsAuthMethod (t : CStr) : Prop :=
  strcasecmp t kCHAP = 0 ∨ strcasecmp t kMutual = 0 ∨ strcasecmp t kAuto = 0
    ∨ strcasecmp t kNone = 0

instance (t : CStr) : Decidable (IsAuthMethod t) := by
  unfold IsAuthMethod; infer_instance

/-- The tokens that follow the last `Auto` or `None` of the list; the whole
list when it holds neither. -/
def after_reset : List CStr → List CStr
  | [] => []
  | t :: ts =>
    if ts.any is_reset then after_reset ts
    else if is_reset t then ts
    else t :: ts

/-- One turn of the loop over the values of `DiscoveryAuthMethod`, for the
value `val`. -/
def auth_method_step (g : ISTGT_GLOBAL) (val : CStr) : Except ISTGT_GLOBAL ISTGT_GLOBAL :=
  if strcasecmp val kCHAP = 0 then .ok { g with req_discovery_auth := 1 }
  else if strcasecmp val kMutual = 0 then .ok { g with req_discovery_auth_mutual := 1 }
  else if strcasecmp val kAuto = 0 then
    .ok { g with req_discovery_auth := 0, req_discovery_auth_mutual := 0 }
  else if strcasecmp val kNone = 0 then
    .ok { g with no_discovery_auth := 1, req_discovery_auth := 0,
                 req_discovery_auth_mutual := 0 }
  else .error g

/-- The loop over the values of `DiscoveryAuthMethod` as a walk over the
list of the values that remain. -/
def auth_method_walk : List CStr → ISTGT_GLOBAL → Except ISTGT_GLOBAL ISTGT_GLOBAL
  | [], g => .ok g
  | t :: ts, g =>
    match auth_method_step g t with
    | .error e => .error e
    | .ok g1 => auth_method_walk ts g1

/-- A line `DiscoveryAuthMethod` with the given tokens. -/
def exAuth (tokens : List String) : CF_ITEM :=
  { key := kDiscoveryAuthMethod, val := tokens.map String.toList }

/-! ## Positions recorded in the portal-group table -/

/-- What holds of the slot at position `i` of a table built by the
portal-group routines: the slot records its position, the pointer array has
`nportals` entries, and each portal of an assigned slot records its position
and the tag of the group. -/
def SlotPos (i : Nat) (pg : PORTAL_GROUP) : Prop :=
  pg.idx = i ∧ pg.portals.length = pg.nportals
    ∧ (pg.tag ≠ 0 → ∀ j, j < pg.nportals →
        (portal_at pg j).idx = j ∧ (portal_at pg j).tag = pg.tag)

/-- Every slot below `nportal_group` records positions and the table fits
its array. -/
def TablePos (K : Limits) (istgt : ISTGT) : Prop :=
  ArrayFits K istgt ∧ ∀ i, i < istgt.nportal_group → SlotPos i (pg_at istgt i)

/-- The tables reached from an empty table by `istgt_add_portal_group`,
`istgt_update_portal_group` called with `*pgp_idx` holding the `idx` of the
slot it locates, `istgt_pg_delete` and `istgt_pg_update`, with any change of
the configuration and of a reference count in between, whatever the outside
world answers. -/
inductive PosReachable (K : Limits) : ISTGT → Prop where
  | empty (cfg : CONFIG) : PosReachable K (initial_istgt K cfg)
  | reconfig (t : ISTGT) (cfg : CONFIG) :
      PosReachable K t → PosReachable K { t with config := cfg }
  | setref (t : ISTGT) (i : Nat) (r : Int) :
      PosReachable K t → PosReachable K (pg_store t i { pg_at t i with ref := r })
  | add (t : ISTGT) (sp : CF_SECTION) (pgp_idx : Option Nat) :
      PosReachable K t → PosReachable K (istgt_add_portal_group K t sp pgp_idx).2.1
  | update (t : ISTGT) (sp : CF_SECTION) (p : Nat) :
      PosReachable K t →
      (∀ j, find_tag_slot t sp.num = some j → p = (pg_at t j).idx) →
      PosReachable K (istgt_update_portal_group K t sp p).2.1
  | delete (t : ISTGT) (net : Net) :
      PosReachable K t → PosReachable K (istgt_pg_delete t net).2.1
  | pg_update (t : ISTGT) (net : Net) (p0 : Nat) :
      PosReachable K t → PosReachable K (istgt_pg_update K t net p0).2.1

/-- The table reached from the empty table with the sections `PortalGroup1`
(one portal) and `PortalGroup3` in the configuration: group 1 is added with
two portals, then `istgt_pg_update` moves it to a new slot and adds group 3. -/
def exReached : ISTGT :=
  (istgt_pg_update exK
    (istgt_add_portal_group exK (initial_istgt exK exConfig13) exSec1two none).2.1
    exNet 0).2.1

/-! ## Auxiliary lemmas -/

theorem find_from_some {p : Nat → Bool} : ∀ (k i j : Nat), find_from p i k = some j →
    i ≤ j ∧ j < i + k ∧ p j = true ∧ ∀ l, i ≤ l → l < j → p l = false := by
  intro k
  induction k with
  | zero => intro i j h; simp [find_from] at h
  | succ k ih =>
    intro i j h
    unfold find_from at h
    by_cases hp : p i = true
    · simp [hp] at h
      subst h
      refine ⟨le_refl _, by omega, hp, ?_⟩
      intro l h1 h2; omega
    · simp [hp] at h
      obtain ⟨h1, h2, h3, h4⟩ := ih (i + 1) j h
      refine ⟨by omega, by omega, h3, ?_⟩
      intro l hl1 hl2
      by_cases hli : l = i
      · subst hli; simpa using hp
      · exact h4 l (by omega) hl2

theorem find_from_none {p : Nat → Bool} : ∀ (k i : Nat), find_from p i k = none →
    ∀ l, i ≤ l → l < i + k → p l = false := by
  intro k
  induction k with
  | zero => intro i _ l h1 h2; omega
  | succ k ih =>
    intro i h l h1 h2
    unfold find_from at h
    by_cases hp : p i = true
    · simp [hp] at h
    · simp [hp] at h
      by_cases hli : l = i
      · subst hli; simpa using hp
      · exact ih (i + 1) h l (by omega) (by omega)

theorem find_from_eq_some {p : Nat → Bool} : ∀ (k i j : Nat), i ≤ j → j < i + k →
    p j = true → (∀ l, i ≤ l → l < j → p l = false) → find_from p i k = some j := by
  intro k
  induction k with
  | zero => intro i j h1 h2; omega
  | succ k ih =>
    intro i j h1 h2 hp hl
    unfold find_from
    by_cases hij : i = j
    · subst hij; simp [hp]
    · have : p i = false := hl i (le_refl _) (by omega)
      simp [this]
      exact ih (i + 1) j (by omega) (by omega) hp (fun l a b => hl l (by omega) b)

theorem find_from_eq_none {p : Nat → Bool} : ∀ (k i : Nat),
    (∀ l, i ≤ l → l < i + k → p l = false) → find_from p i k = none := by
  intro k
  induction k with
  | zero => intro i _; rfl
  | succ k ih =>
    intro i hl
    unfold find_from
    have : p i = false := hl i (le_refl _) (by omega)
    simp [this]
    exact ih (i + 1) (fun l a b => hl l (by omega) (by omega))

theorem nmval_beyond (sp : CF_SECTION) (key : CStr) (i : Nat) (c : Int)
    (h : sp.item.length ≤ i) : istgt_get_nmval sp key i c = none := by
  unfold istgt_get_nmval istgt_find_cf_nitem
  have hlen : (sp.item.filter (fun ip => decide (ip.key = key))).length ≤ i :=
    le_trans (List.length_filter_le _ _) h
  have : (sp.item.filter (fun ip => decide (ip.key = key)))[i]? = none :=
    List.getElem?_eq_none hlen
  simp [this]

theorem EntryOk.complete {K : Limits} {sp : CF_SECTION} {j : Nat} (h : EntryOk K sp j) :
    EntryComplete sp j := by
  obtain ⟨l, p, hp, h1, h2, _⟩ := h
  simp [EntryComplete, h1, h2]

theorem count_loop_some {K : Limits} {sp : CF_SECTION} : ∀ (k i n : Nat),
    count_loop K sp i k = some n →
    i ≤ n ∧ n ≤ i + k ∧ (∀ j, i ≤ j → j < n → EntryOk K sp j)
      ∧ (n < i + k → ¬ EntryComplete sp n) := by
  intro k
  induction k with
  | zero =>
    intro i n h
    simp [count_loop] at h
    subst h
    exact ⟨le_refl _, by omega, fun j a b => by omega, fun a => by omega⟩
  | succ k ih =>
    intro i n h
    unfold count_loop at h
    split at h
    · rename_i label portal hl hp
      split at h
      · simp at h
      · rename_i hp' hparse
        obtain ⟨h1, h2, h3, h4⟩ := ih (i + 1) n h
        refine ⟨by omega, by omega, ?_, fun a => h4 (by omega)⟩
        intro j hj1 hj2
        by_cases hji : j = i
        · subst hji; exact ⟨label, portal, hp', hl, hp, hparse⟩
        · exact h3 j (by omega) hj2
    · rename_i hne
      simp at h
      subst h
      refine ⟨le_refl _, by omega, fun j a b => by omega, ?_⟩
      intro _ hc
      unfold EntryComplete at hc
      obtain ⟨a, b⟩ := hc
      obtain ⟨x, hx⟩ := Option.isSome_iff_exists.mp a
      obtain ⟨y, hy⟩ := Option.isSome_iff_exists.mp b
      exact hne x y hx hy

theorem count_loop_none {K : Limits} {sp : CF_SECTION} : ∀ (k i : Nat),
    count_loop K sp i k = none →
    ∃ j portal, i ≤ j ∧ j < i + k ∧ (∀ l, i ≤ l → l < j → EntryOk K sp l)
      ∧ (istgt_get_nmval sp kPortal j 0).isSome
      ∧ istgt_get_nmval sp kPortal j 1 = some portal ∧ istgt_parse_portal K portal = none := by
  intro k
  induction k with
  | zero => intro i h; simp [count_loop] at h
  | succ k ih =>
    intro i h
    unfold count_loop at h
    split at h
    · rename_i label portal hl hp
      split at h
      · rename_i hparse
        exact ⟨i, portal, le_refl _, by omega, fun l a b => by omega, by simp [hl], hp, hparse⟩
      · rename_i hp' hparse
        obtain ⟨j, q, h1, h2, h3, h4, h5, h6⟩ := ih (i + 1) h
        refine ⟨j, q, by omega, by omega, ?_, h4, h5, h6⟩
        intro l hl1 hl2
        by_cases hli : l = i
        · subst hli; exact ⟨label, portal, hp', hl, hp, hparse⟩
        · exact h3 l (by omega) hl2
    · simp at h

/-- What the counting loop computes: `n` entries with a label and a parsing
endpoint, followed by an entry that lacks one of the two. -/
theorem count_portals_some {K : Limits} {sp : CF_SECTION} {n : Nat}
    (h : count_portals K sp = some n) :
    (∀ j, j < n → EntryOk K sp j) ∧ ¬ EntryComplete sp n := by
  unfold count_portals at h
  obtain ⟨_, h2, h3, h4⟩ := count_loop_some _ _ _ h
  refine ⟨fun j hj => h3 j (Nat.zero_le _) hj, ?_⟩
  by_cases hn : n < 0 + sp.item.length
  · exact h4 hn
  · intro hc
    have := nmval_beyond sp kPortal n 0 (by omega)
    simp [EntryComplete, this] at hc

theorem count_portals_none {K : Limits} {sp : CF_SECTION}
    (h : count_portals K sp = none) :
    ∃ j portal, (∀ l, l < j → EntryOk K sp l)
      ∧ (istgt_get_nmval sp kPortal j 0).isSome
      ∧ istgt_get_nmval sp kPortal j 1 = some portal ∧ istgt_parse_portal K portal = none := by
  unfold count_portals at h
  obtain ⟨j, q, _, _, h3, h4, h5, h6⟩ := count_loop_none _ _ h
  exact ⟨j, q, fun l hl => h3 l (Nat.zero_le _) hl, h4, h5, h6⟩

/-- The counting loop is determined by the entries: `n` good entries followed
by an incomplete one give the count `n`. -/
theorem count_portals_eq {K : Limits} {sp : CF_SECTION} {n : Nat}
    (hok : ∀ j, j < n → EntryOk K sp j) (hend : ¬ EntryComplete sp n) :
    count_portals K sp = some n := by
  cases hc : count_portals K sp with
  | none =>
    obtain ⟨j, q, h1, h2, h3, h4⟩ := count_portals_none hc
    exfalso
    by_cases hjn : j < n
    · obtain ⟨l, p, hp, a, b, c⟩ := hok j hjn
      rw [h3] at b
      cases b
      rw [h4] at c
      cases c
    · by_cases hjn' : j = n
      · subst hjn'
        exact hend ⟨h2, by simp [h3]⟩
      · exact hend (h1 n (by omega)).complete
  | some m =>
    obtain ⟨h1, h2⟩ := count_portals_some hc
    by_cases hmn : m = n
    · rw [hmn]
    · exfalso
      by_cases hlt : m < n
      · exact h2 (hok m hlt).complete
      · exact hend (h1 n (by omega)).complete

theorem pg_at_store_ne (istgt : ISTGT) (i j : Nat) (pg : PORTAL_GROUP) (h : j ≠ i) :
    pg_at (pg_store istgt i pg) j = pg_at istgt j := by
  simp [pg_at, pg_store, List.getElem?_set_ne (Ne.symm h)]

theorem pg_at_store_self (istgt : ISTGT) (i : Nat) (pg : PORTAL_GROUP)
    (h : i < istgt.portal_group.length) : pg_at (pg_store istgt i pg) i = pg := by
  simp [pg_at, pg_store, List.getElem?_set_self h]

theorem pg_at_store_cases (istgt : ISTGT) (i j : Nat) (pg : PORTAL_GROUP) :
    (j = i ∧ pg_at (pg_store istgt i pg) j = pg)
      ∨ pg_at (pg_store istgt i pg) j = pg_at istgt j := by
  by_cases h : j = i
  · subst h
    by_cases hl : j < istgt.portal_group.length
    · exact Or.inl ⟨rfl, pg_at_store_self _ _ _ hl⟩
    · right
      simp [pg_at, pg_store, List.set_eq_of_length_le (Nat.le_of_not_lt hl)]
  · exact Or.inr (pg_at_store_ne _ _ _ _ h)

@[simp] theorem pg_store_nportal_group (istgt : ISTGT) (i : Nat) (pg : PORTAL_GROUP) :
    (pg_store istgt i pg).nportal_group = istgt.nportal_group := rfl

@[simp] theorem pg_store_config (istgt : ISTGT) (i : Nat) (pg : PORTAL_GROUP) :
    (pg_store istgt i pg).config = istgt.config := rfl

@[simp] theorem pg_store_length (istgt : ISTGT) (i : Nat) (pg : PORTAL_GROUP) :
    (pg_store istgt i pg).portal_group.length = istgt.portal_group.length := by
  simp [pg_store]

theorem portal_at_set_ne (pg : PORTAL_GROUP) (i j : Nat) (p : PORTAL) (h : j ≠ i) :
    portal_at { pg with portals := pg.portals.set i p } j = portal_at pg j := by
  simp [portal_at, List.getElem?_set_ne (Ne.symm h)]

theorem portal_at_set_self (pg : PORTAL_GROUP) (i : Nat) (p : PORTAL)
    (h : i < pg.portals.length) :
    portal_at { pg with portals := pg.portals.set i p } i = p := by
  simp [portal_at, List.getElem?_set_self h]

/-- The fill loop over entries that all have a label and a parsing endpoint
never leaves through an error exit, and writes exactly those entries. -/
theorem fill_loop_ok (K : Limits) (sp : CF_SECTION) (fresh : Bool) :
    ∀ (k i : Nat) (pg : PORTAL_GROUP),
    (∀ j, i ≤ j → j < i + k → EntryOk K sp j) →
    ∃ pg', fill_loop K sp fresh pg i k = (true, pg')
      ∧ pg'.nportals = pg.nportals ∧ pg'.ref = pg.ref ∧ pg'.idx = pg.idx ∧ pg'.tag = pg.tag
      ∧ pg'.portals.length = pg.portals.length
      ∧ (∀ j, (j < i ∨ i + k ≤ j) → portal_at pg' j = portal_at pg j)
      ∧ (∀ j, i ≤ j → j < i + k → j < pg.portals.length →
          ∃ label portal host port, istgt_get_nmval sp kPortal j 0 = some label
            ∧ istgt_get_nmval sp kPortal j 1 = some portal
            ∧ istgt_parse_portal K portal = some (host, port)
            ∧ portal_at pg' j
                = { label := label, host := host, port := port, ref := 0, idx := j,
                    tag := sp.num, sock := -1 }) := by
  intro k
  induction k with
  | zero =>
    intro i pg _
    exact ⟨pg, rfl, rfl, rfl, rfl, rfl, rfl, fun _ _ => rfl, fun j a b => by omega⟩
  | succ k ih =>
    intro i pg hok
    obtain ⟨label, portal, ⟨host, port⟩, hl, hp, hparse⟩ := hok i (le_refl _) (by omega)
    obtain ⟨pg', h1, h2, h3, h4, h5, h6, h7, h8⟩ :=
      ih (i + 1)
        { pg with portals := (pg.portals.set i
            { (if fresh = true then (default : PORTAL) else portal_at pg i) with
              label := label, host := host, port := port, ref := 0, idx := i,
              tag := sp.num, sock := -1 }) }
        (fun j a b => hok j (by omega) (by omega))
    refine ⟨pg', ?_, h2, h3, h4, h5, ?_, ?_, ?_⟩
    · rw [fill_loop]
      simp only [hl, hp, hparse]
      exact h1
    · rw [h6]; simp
    · intro j hj
      rw [h7 j (by omega)]
      exact portal_at_set_ne _ _ _ _ (by omega)
    · intro j hj1 hj2 hj3
      by_cases hji : j = i
      · subst hji
        refine ⟨label, portal, host, port, hl, hp, hparse, ?_⟩
        rw [h7 j (by omega)]
        exact portal_at_set_self _ _ _ hj3
      · exact h8 j (by omega) (by omega) (by simpa using hj3)

/-- The in-place rewrite over entries that all have a label and a parsing
endpoint never leaves through an error exit, and replaces the three strings
of each portal only. -/
theorem rewrite_loop_ok (K : Limits) (sp : CF_SECTION) :
    ∀ (k i : Nat) (pg : PORTAL_GROUP),
    (∀ j, i ≤ j → j < i + k → EntryOk K sp j) →
    ∃ pg', rewrite_loop K sp pg i k = (true, pg')
      ∧ pg'.nportals = pg.nportals ∧ pg'.ref = pg.ref ∧ pg'.idx = pg.idx ∧ pg'.tag = pg.tag
      ∧ pg'.portals.length = pg.portals.length
      ∧ (∀ j, (j < i ∨ i + k ≤ j) → portal_at pg' j = portal_at pg j)
      ∧ (∀ j, i ≤ j → j < i + k → j < pg.portals.length →
          ∃ label portal host port, istgt_get_nmval sp kPortal j 0 = some label
            ∧ istgt_get_nmval sp kPortal j 1 = some portal
            ∧ istgt_parse_portal K portal = some (host, port)
            ∧ portal_at pg' j
                = { portal_at pg j with label := label, host := host, port := port }) := by
  intro k
  induction k with
  | zero =>
    intro i pg _
    exact ⟨pg, rfl, rfl, rfl, rfl, rfl, rfl, fun _ _ => rfl, fun j a b => by omega⟩
  | succ k ih =>
    intro i pg hok
    obtain ⟨label, portal, ⟨host, port⟩, hl, hp, hparse⟩ := hok i (le_refl _) (by omega)
    obtain ⟨pg', h1, h2, h3, h4, h5, h6, h7, h8⟩ :=
      ih (i + 1)
        { pg with portals := (pg.portals.set i
            { portal_at pg i with label := label, host := host, port := port }) }
        (fun j a b => hok j (by omega) (by omega))
    refine ⟨pg', ?_, h2, h3, h4, h5, ?_, ?_, ?_⟩
    · rw [rewrite_loop]
      simp only [hl, hp, hparse]
      exact h1
    · rw [h6]; simp
    · intro j hj
      rw [h7 j (by omega)]
      exact portal_at_set_ne _ _ _ _ (by omega)
    · intro j hj1 hj2 hj3
      by_cases hji : j = i
      · subst hji
        refine ⟨label, portal, host, port, hl, hp, hparse, ?_⟩
        rw [h7 j (by omega)]
        exact portal_at_set_self _ _ _ hj3
      · obtain ⟨l, p, h, q, a, b, c, d⟩ :=
          h8 j (by omega) (by omega) (by simpa using hj3)
        refine ⟨l, p, h, q, a, b, c, ?_⟩
        rw [d, portal_at_set_ne _ _ _ _ hji]

theorem find_free_slot_some {istgt : ISTGT} {n i : Nat} (h : find_free_slot istgt n = some i) :
    i < istgt.nportal_group ∧ (pg_at istgt i).tag = 0 ∧ (pg_at istgt i).nportals = n
      ∧ ∀ l, l < i → ¬ ((pg_at istgt l).tag = 0 ∧ (pg_at istgt l).nportals = n) := by
  unfold find_free_slot at h
  obtain ⟨_, h2, h3, h4⟩ := find_from_some _ _ _ h
  simp only [Bool.and_eq_true, decide_eq_true_eq] at h3
  refine ⟨by omega, h3.1, h3.2, ?_⟩
  intro l hl hc
  have := h4 l (Nat.zero_le _) hl
  simp [hc.1, hc.2] at this

theorem find_free_slot_none {istgt : ISTGT} {n : Nat} (h : find_free_slot istgt n = none) :
    ∀ l, l < istgt.nportal_group →
      ¬ ((pg_at istgt l).tag = 0 ∧ (pg_at istgt l).nportals = n) := by
  unfold find_free_slot at h
  intro l hl hc
  have := find_from_none _ _ h l (Nat.zero_le _) (by omega)
  simp [hc.1, hc.2] at this

theorem find_tag_slot_some {istgt : ISTGT} {num : Int} {i : Nat}
    (h : find_tag_slot istgt num = some i) :
    i < istgt.nportal_group ∧ (pg_at istgt i).tag = num
      ∧ ∀ l, l < i → (pg_at istgt l).tag ≠ num := by
  unfold find_tag_slot at h
  obtain ⟨_, h2, h3, h4⟩ := find_from_some _ _ _ h
  simp only [decide_eq_true_eq] at h3
  refine ⟨by omega, h3, ?_⟩
  intro l hl hc
  have := h4 l (Nat.zero_le _) hl
  simp [hc] at this

theorem find_tag_slot_none {istgt : ISTGT} {num : Int} (h : find_tag_slot istgt num = none) :
    ∀ l, l < istgt.nportal_group → (pg_at istgt l).tag ≠ num := by
  unfold find_tag_slot at h
  intro l hl hc
  have := find_from_none _ _ h l (Nat.zero_le _) (by omega)
  simp [hc] at this

theorem find_tag_slot_eq {istgt : ISTGT} {num : Int} {i : Nat}
    (hi : i < istgt.nportal_group) (ht : (pg_at istgt i).tag = num)
    (hl : ∀ l, l < i → (pg_at istgt l).tag ≠ num) : find_tag_slot istgt num = some i := by
  unfold find_tag_slot
  apply find_from_eq_some _ _ _ (Nat.zero_le _) (by omega)
  · simpa using ht
  · intro l _ h; simpa using hl l h

/-- The outcomes of `istgt_add_portal_group`: the three early failures, which
change nothing, or the success with the slot filled from the section. -/
theorem add_outcomes (K : Limits) (istgt : ISTGT) (sp : CF_SECTION) (pgp_idx : Option Nat) :
    (istgt_add_portal_group K istgt sp pgp_idx = (-1, istgt, pgp_idx)
      ∧ (count_portals K sp = none
        ∨ ∃ n, count_portals K sp = some n
          ∧ (K.MAX_PORTAL < n ∨ K.MAX_PORTAL_GROUP ≤ target_slot istgt n)))
    ∨ ∃ n pg3, count_portals K sp = some n ∧ n ≤ K.MAX_PORTAL
        ∧ target_slot istgt n < K.MAX_PORTAL_GROUP
        ∧ istgt_add_portal_group K istgt sp pgp_idx
            = (0,
               (if (find_free_slot istgt n).isNone then
                  { pg_store istgt (target_slot istgt n) pg3 with
                    nportal_group := target_slot istgt n + 1 }
                else pg_store istgt (target_slot istgt n) pg3),
               pgp_idx.map (fun _ => target_slot istgt n))
        ∧ pg3.tag = sp.num ∧ pg3.ref = 0 ∧ pg3.idx = target_slot istgt n ∧ pg3.nportals = n
        ∧ (∀ j, j < n →
            ((find_free_slot istgt n).isNone
              ∨ j < (pg_at istgt (target_slot istgt n)).portals.length) →
            ∃ label portal host port, istgt_get_nmval sp kPortal j 0 = some label
              ∧ istgt_get_nmval sp kPortal j 1 = some portal
              ∧ istgt_parse_portal K portal = some (host, port)
              ∧ portal_at pg3 j
                  = { label := label, host := host, port := port, ref := 0, idx := j,
                      tag := sp.num, sock := -1 }) := by
  cases hc : count_portals K sp with
  | none => left; simp [istgt_add_portal_group, hc]
  | some n =>
    by_cases hmax : K.MAX_PORTAL < n
    · left
      refine ⟨by simp [istgt_add_portal_group, hc, hmax], Or.inr ⟨n, rfl, Or.inl hmax⟩⟩
    · by_cases hcap : target_slot istgt n < K.MAX_PORTAL_GROUP
      · right
        have hok := (count_portals_some hc).1
        cases hfree : find_free_slot istgt n with
        | none =>
          have htgt : target_slot istgt n = istgt.nportal_group := by
            simp [target_slot, hfree]
          obtain ⟨pg3, h1, h2, h3, h4, h5, h6, _, h8⟩ :=
            fill_loop_ok K sp true n 0
              { nportals := n, portals := List.replicate n default, ref := 0,
                idx := istgt.nportal_group, tag := sp.num }
              (fun j _ hj => hok j (by omega))
          refine ⟨n, pg3, rfl, Nat.le_of_not_lt hmax, hcap, ?_, h5, h3, ?_, h2, ?_⟩
          · rw [htgt] at hcap
            simp [istgt_add_portal_group, hc, hmax, hfree, hcap, htgt, h1]
          · rw [h4, htgt]
          · intro j hj _
            exact h8 j (Nat.zero_le _) (by omega) (by simpa using hj)
        | some i =>
          have htgt : target_slot istgt n = i := by simp [target_slot, hfree]
          obtain ⟨_, _, hnp, _⟩ := find_free_slot_some hfree
          obtain ⟨pg3, h1, h2, h3, h4, h5, h6, _, h8⟩ :=
            fill_loop_ok K sp false n 0
              { pg_at istgt i with ref := 0, idx := i, tag := sp.num }
              (fun j _ hj => hok j (by omega))
          refine ⟨n, pg3, rfl, Nat.le_of_not_lt hmax, hcap, ?_, h5, h3, ?_, ?_, ?_⟩
          · rw [htgt] at hcap
            simp [istgt_add_portal_group, hc, hmax, hfree, hcap, htgt, h1]
          · rw [h4, htgt]
          · rw [h2]; exact hnp
          · intro j hj hlen
            rw [htgt, hfree] at hlen
            simp at hlen
            exact h8 j (Nat.zero_le _) (by omega) hlen
      · left
        refine ⟨?_, Or.inr ⟨n, rfl, Or.inr (Nat.le_of_not_lt hcap)⟩⟩
        unfold target_slot at hcap
        simp [istgt_add_portal_group, hc, hmax, hcap]

theorem IsPortalCount.unique {sp : CF_SECTION} {n m : Nat}
    (hn : IsPortalCount sp n) (hm : IsPortalCount sp m) : n = m := by
  rcases Nat.lt_trichotomy n m with h | h | h
  · exact absurd (hm.1 n h) hn.2
  · exact h
  · exact absurd (hn.1 m h) hm.2

theorem IsPortalCount.exists (sp : CF_SECTION) : ∃ n, IsPortalCount sp n := by
  have hex : ∃ n, ¬ EntryComplete sp n := by
    refine ⟨sp.item.length, ?_⟩
    intro hc
    have := nmval_beyond sp kPortal sp.item.length 0 (le_refl _)
    simp [EntryComplete, this] at hc
  refine ⟨Nat.find hex, ?_, Nat.find_spec hex⟩
  intro j hj
  by_contra hc
  exact Nat.find_min hex hj hc

theorem count_portals_isCount {K : Limits} {sp : CF_SECTION} {n : Nat}
    (h : count_portals K sp = some n) : IsPortalCount sp n :=
  ⟨fun j hj => ((count_portals_some h).1 j hj).complete, (count_portals_some h).2⟩

theorem close_loop_spec : ∀ (k i : Nat) (pgp : PORTAL_GROUP) (net : Net),
    (close_loop pgp net i k).1.nportals = pgp.nportals
    ∧ (close_loop pgp net i k).1.tag = pgp.tag
    ∧ (close_loop pgp net i k).1.ref = pgp.ref
    ∧ (close_loop pgp net i k).1.idx = pgp.idx
    ∧ (close_loop pgp net i k).1.portals.length = pgp.portals.length
    ∧ (∀ j, (j < i ∨ i + k ≤ j) → portal_at (close_loop pgp net i k).1 j = portal_at pgp j)
    ∧ (∀ j, i ≤ j → j < i + k → j < pgp.portals.length →
        portal_at (close_loop pgp net i k).1 j
          = if 0 ≤ (portal_at pgp j).sock then { portal_at pgp j with sock := -1 }
            else portal_at pgp j) := by
  intro k
  induction k with
  | zero =>
    intro i pgp net
    exact ⟨rfl, rfl, rfl, rfl, rfl, fun _ _ => rfl, fun j a b => by omega⟩
  | succ k ih =>
    intro i pgp net
    by_cases hs : (portal_at pgp i).sock ≥ 0
    · have hstep : close_loop pgp net i (k + 1)
          = close_loop
              { pgp with portals := (pgp.portals.set i { portal_at pgp i with sock := -1 }) }
              (sys_close net (portal_at pgp i).sock) (i + 1) k := by
        rw [close_loop]; simp [hs]
      rw [hstep]
      obtain ⟨h1, h2, h3, h4, h5, h6, h7⟩ :=
        ih (i + 1)
          { pgp with portals := (pgp.portals.set i { portal_at pgp i with sock := -1 }) }
          (sys_close net (portal_at pgp i).sock)
      refine ⟨h1, h2, h3, h4, by rw [h5]; simp, ?_, ?_⟩
      · intro j hj
        rw [h6 j (by omega)]
        exact portal_at_set_ne _ _ _ _ (by omega)
      · intro j hj1 hj2 hj3
        by_cases hji : j = i
        · subst hji
          rw [h6 j (by omega), portal_at_set_self _ _ _ hj3]
          exact (if_pos hs).symm
        · rw [h7 j (by omega) (by omega) (by simpa using hj3),
            portal_at_set_ne _ _ _ _ hji]
    · have hstep : close_loop pgp net i (k + 1) = close_loop pgp net (i + 1) k := by
        rw [close_loop]; simp [hs]
      rw [hstep]
      obtain ⟨h1, h2, h3, h4, h5, h6, h7⟩ := ih (i + 1) pgp net
      refine ⟨h1, h2, h3, h4, h5, fun j hj => h6 j (by omega), ?_⟩
      intro j hj1 hj2 hj3
      by_cases hji : j = i
      · subst hji
        rw [h6 j (by omega)]
        exact (if_neg hs).symm
      · exact h7 j (by omega) (by omega) hj3

theorem close_loop_net_indep : ∀ (k i : Nat) (pgp : PORTAL_GROUP) (net net' : Net),
    (close_loop pgp net i k).1 = (close_loop pgp net' i k).1 := by
  intro k
  induction k with
  | zero => intro i pgp net net'; rfl
  | succ k ih =>
    intro i pgp net net'
    by_cases hs : (portal_at pgp i).sock ≥ 0
    · rw [close_loop, close_loop]; simp only [hs, if_true]
      exact ih _ _ _ _
    · rw [close_loop, close_loop]; simp only [hs, if_false]
      exact ih _ _ _ _

theorem pg_exist_num_neg_iff (config : CONFIG) (num : Int) :
    istgt_pg_exist_num config num < 0 ↔
      ∀ sp, sp ∈ config.section_ → sp.type = CF_SECTION_TYPE.ST_PORTALGROUP → sp.num ≠ num := by
  unfold istgt_pg_exist_num
  by_cases h : config.section_.any
      (fun sp => sp.type = CF_SECTION_TYPE.ST_PORTALGROUP && sp.num = num) = true
  · simp only [h, if_true]
    simp only [List.any_eq_true, Bool.and_eq_true, decide_eq_true_eq] at h
    obtain ⟨sp, h1, h2, h3⟩ := h
    constructor
    · intro hc; omega
    · intro hc; exact absurd h3 (hc sp h1 h2)
  · simp only [h]
    simp only [List.any_eq_true, Bool.and_eq_true, decide_eq_true_eq, not_exists, not_and] at h
    constructor
    · intro _ sp h1 h2; exact h sp h1 h2
    · intro _; decide

theorem pg_at_tag_lt {istgt : ISTGT} {i : Nat} (h : (pg_at istgt i).tag ≠ 0) :
    i < istgt.portal_group.length := by
  by_contra hc
  apply h
  have : istgt.portal_group[i]? = none := List.getElem?_eq_none (Nat.le_of_not_lt hc)
  simp [pg_at, this]
  rfl

/-- The loop of `istgt_pg_delete`: a slot in the range handled is replaced by
its retired form when the retirement test holds for it, and every other slot
is left as it was. -/
theorem pg_delete_loop_spec : ∀ (k i : Nat) (istgt : ISTGT) (net : Net),
    (pg_delete_loop istgt net i k).1.nportal_group = istgt.nportal_group
    ∧ (pg_delete_loop istgt net i k).1.config = istgt.config
    ∧ (pg_delete_loop istgt net i k).1.portal_group.length = istgt.portal_group.length
    ∧ (∀ j, i ≤ j → j < i + k → Retires istgt.config (pg_at istgt j) →
        pg_at (pg_delete_loop istgt net i k).1 j = retired_slot (pg_at istgt j))
    ∧ (∀ j, ¬ (i ≤ j ∧ j < i + k ∧ Retires istgt.config (pg_at istgt j)) →
        pg_at (pg_delete_loop istgt net i k).1 j = pg_at istgt j) := by
  intro k
  induction k with
  | zero =>
    intro i istgt net
    exact ⟨rfl, rfl, rfl, fun j a b => by omega, fun _ _ => rfl⟩
  | succ k ih =>
    intro i istgt net
    by_cases hr : Retires istgt.config (pg_at istgt i)
    · obtain ⟨ht, he, hf⟩ := hr
      have hstep : pg_delete_loop istgt net i (k + 1)
          = pg_delete_loop
              (pg_store istgt i (close_loop { pg_at istgt i with tag := 0 } net 0
                (pg_at istgt i).nportals).1)
              (close_loop { pg_at istgt i with tag := 0 } net 0 (pg_at istgt i).nportals).2
              (i + 1) k := by
        rw [pg_delete_loop]
        simp [ht, he, hf, istgt_close_portal_group]
      rw [hstep]
      obtain ⟨h1, h2, h3, h4, h5⟩ :=
        ih (i + 1)
          (pg_store istgt i (close_loop { pg_at istgt i with tag := 0 } net 0
            (pg_at istgt i).nportals).1)
          (close_loop { pg_at istgt i with tag := 0 } net 0 (pg_at istgt i).nportals).2
      simp only [pg_store_config, pg_store_nportal_group, pg_store_length] at h1 h2 h3 h4 h5
      refine ⟨h1, h2, h3, ?_, ?_⟩
      · intro j hj1 hj2 hret
        by_cases hji : j = i
        · subst hji
          rw [h5 j (by omega), pg_at_store_self _ _ _ (pg_at_tag_lt ht)]
          exact close_loop_net_indep _ _ _ _ _
        · rw [h4 j (by omega) (by omega) (by rw [pg_at_store_ne _ _ _ _ hji]; exact hret),
            pg_at_store_ne _ _ _ _ hji]
      · intro j hj
        have hji : j ≠ i := by
          rintro rfl
          exact hj ⟨le_refl _, by omega, ht, he, hf⟩
        rw [h5 j (by
          rw [pg_at_store_ne _ _ _ _ hji]
          intro hc
          exact hj ⟨by omega, by omega, hc.2.2⟩), pg_at_store_ne _ _ _ _ hji]
    · have hstep : pg_delete_loop istgt net i (k + 1) = pg_delete_loop istgt net (i + 1) k := by
        rw [pg_delete_loop]
        unfold Retires at hr
        by_cases ht : (pg_at istgt i).tag = 0
        · simp [ht]
        · by_cases he : istgt_pg_exist_num istgt.config (pg_at istgt i).tag < 0
          · have hf : (pg_at istgt i).ref ≠ 0 := fun hf => hr ⟨ht, he, hf⟩
            simp [ht, he, hf]
          · simp [ht, he]
      rw [hstep]
      obtain ⟨h1, h2, h3, h4, h5⟩ := ih (i + 1) istgt net
      refine ⟨h1, h2, h3, ?_, ?_⟩
      · intro j hj1 hj2 hret
        have hji : j ≠ i := by rintro rfl; exact hr hret
        exact h4 j (by omega) (by omega) hret
      · intro j hj
        apply h5 j
        intro hc
        exact hj ⟨by omega, by omega, hc.2.2⟩

theorem retired_slot_spec (pgp : PORTAL_GROUP) :
    (retired_slot pgp).tag = 0 ∧ (retired_slot pgp).nportals = pgp.nportals
    ∧ (retired_slot pgp).ref = pgp.ref ∧ (retired_slot pgp).idx = pgp.idx
    ∧ (retired_slot pgp).portals.length = pgp.portals.length
    ∧ ∀ j, j < pgp.nportals → j < pgp.portals.length →
        portal_at (retired_slot pgp) j
          = if 0 ≤ (portal_at pgp j).sock then { portal_at pgp j with sock := -1 }
            else portal_at pgp j := by
  obtain ⟨h1, h2, h3, h4, h5, _, h7⟩ :=
    close_loop_spec pgp.nportals 0 { pgp with tag := 0 } default
  exact ⟨h2, h1, h3, h4, h5, fun j a b => h7 j (Nat.zero_le _) (by omega) b⟩

theorem pg_delete_keeps_inuse (istgt : ISTGT) (net : Net) (i : Nat)
    (href : (pg_at istgt i).ref ≠ 0) :
    pg_at (istgt_pg_delete istgt net).2.1 i = pg_at istgt i := by
  obtain ⟨_, _, _, _, h5⟩ := pg_delete_loop_spec istgt.nportal_group 0 istgt net
  apply h5 i
  rintro ⟨_, _, _, _, hf⟩
  exact href hf

theorem EntryMatches.ok {K : Limits} {pgp : PORTAL_GROUP} {sp : CF_SECTION} {j : Nat}
    (h : EntryMatches K pgp sp j) : EntryOk K sp j := by
  obtain ⟨l, p, h1, h2, a, b, c, _⟩ := h
  exact ⟨l, p, (h1, h2), a, b, c⟩

theorem match_loop_iff {K : Limits} {pgp : PORTAL_GROUP} {sp : CF_SECTION} :
    ∀ (k i : Nat), match_loop K pgp sp i k = true ↔
      ∀ j, i ≤ j → j < i + k → EntryMatches K pgp sp j := by
  intro k
  induction k with
  | zero =>
    intro i
    simp only [match_loop, true_iff]
    intro j a b; omega
  | succ k ih =>
    intro i
    rw [match_loop]
    constructor
    · intro h j hj1 hj2
      split at h
      · rename_i label portal hl hp
        split at h
        · simp at h
        · rename_i host port hparse
          by_cases h1 : (portal_at pgp i).label ≠ label
          · simp [h1] at h
          · by_cases h2 : (portal_at pgp i).host ≠ host
            · simp [h2] at h
            · by_cases h3 : (portal_at pgp i).port ≠ port
              · simp [h3] at h
              · simp only [h1, h2, h3, if_false] at h
                by_cases hji : j = i
                · subst hji
                  exact ⟨label, portal, host, port, hl, hp, hparse,
                    not_not.mp h1, not_not.mp h2, not_not.mp h3⟩
                · exact (ih (i + 1)).mp h j (by omega) (by omega)
      · simp at h
    · intro h
      obtain ⟨label, portal, host, port, hl, hp, hparse, h1, h2, h3⟩ :=
        h i (le_refl _) (by omega)
      simp only [hl, hp, hparse]
      simp only [h1, h2, h3, ne_eq, not_true_eq_false, if_false]
      exact (ih (i + 1)).mpr (fun j a b => h j (by omega) (by omega))

/-- What `istgt_pg_match_all` tests: every portal of the slot agrees with the
entry of the same index, and the entry after the last portal has neither
a label nor an endpoint. -/
theorem pg_match_all_iff (K : Limits) (pgp : PORTAL_GROUP) (sp : CF_SECTION) :
    istgt_pg_match_all K pgp sp = true ↔
      (∀ j, j < pgp.nportals → EntryMatches K pgp sp j)
      ∧ istgt_get_nmval sp kPortal pgp.nportals 0 = none
      ∧ istgt_get_nmval sp kPortal pgp.nportals 1 = none := by
  unfold istgt_pg_match_all
  by_cases hm : match_loop K pgp sp 0 pgp.nportals = true
  · have hall := (match_loop_iff pgp.nportals 0).mp hm
    simp only [hm, if_true]
    constructor
    · intro h
      refine ⟨fun j hj => hall j (Nat.zero_le _) (by omega), ?_⟩
      by_cases hc : (istgt_get_nmval sp kPortal pgp.nportals 0).isSome = true
          ∨ (istgt_get_nmval sp kPortal pgp.nportals 1).isSome = true
      · simp [hc] at h
      · simp only [not_or, Bool.not_eq_true, Option.not_isSome, Option.isNone_iff_eq_none] at hc
        exact hc
    · rintro ⟨_, h1, h2⟩
      simp [h1, h2]
  · simp only [hm]
    constructor
    · intro h; simp at h
    · rintro ⟨h, _, _⟩
      exact absurd ((match_loop_iff pgp.nportals 0).mpr (fun j _ b => h j (by omega))) hm

theorem pg_match_all_count {K : Limits} {pgp : PORTAL_GROUP} {sp : CF_SECTION}
    (h : istgt_pg_match_all K pgp sp = true) : count_portals K sp = some pgp.nportals := by
  obtain ⟨h1, h2, _⟩ := (pg_match_all_iff K pgp sp).mp h
  apply count_portals_eq (fun j hj => (h1 j hj).ok)
  intro hc
  simp [EntryComplete, h2] at hc

theorem find_from_congr {p q : Nat → Bool} : ∀ (k i : Nat),
    (∀ l, i ≤ l → l < i + k → p l = q l) → find_from p i k = find_from q i k := by
  intro k
  induction k with
  | zero => intro i _; rfl
  | succ k ih =>
    intro i h
    rw [find_from, find_from, h i (le_refl _) (by omega),
      ih (i + 1) (fun l a b => h l (by omega) (by omega))]

/-- Marking a slot free does not make it reusable for a section whose
portal count differs from the slot's. -/
theorem find_free_slot_mark (istgt : ISTGT) (idx n : Nat)
    (hne : (pg_at istgt idx).nportals ≠ n) :
    find_free_slot (pg_store istgt idx { pg_at istgt idx with tag := 0 }) n
      = find_free_slot istgt n := by
  unfold find_free_slot
  simp only [pg_store_nportal_group]
  apply find_from_congr
  intro l _ _
  rcases pg_at_store_cases istgt idx l { pg_at istgt idx with tag := 0 } with ⟨rfl, h⟩ | h
  · rw [h]; simp [hne]
  · rw [h]

theorem pg_at_ge {istgt : ISTGT} {i : Nat} (h : istgt.portal_group.length ≤ i) :
    pg_at istgt i = default := by
  have : istgt.portal_group[i]? = none := List.getElem?_eq_none h
  simp [pg_at, this]

theorem pg_at_store_self_or (istgt : ISTGT) (i : Nat) (pg : PORTAL_GROUP) :
    pg_at (pg_store istgt i pg) i = pg ∨ pg_at (pg_store istgt i pg) i = default := by
  by_cases hl : i < istgt.portal_group.length
  · exact Or.inl (pg_at_store_self _ _ _ hl)
  · exact Or.inr (pg_at_ge (by simpa using hl))

theorem default_tag : (default : PORTAL_GROUP).tag = 0 := rfl

theorem default_ref : (default : PORTAL_GROUP).ref = 0 := rfl

theorem pg_store_store (istgt : ISTGT) (i : Nat) (a b : PORTAL_GROUP) :
    pg_store (pg_store istgt i a) i b = pg_store istgt i b := by
  simp [pg_store, List.set_set]

theorem Keeps.refl (a : ISTGT) : Keeps a a :=
  fun h => ⟨h, le_refl _, fun _ _ _ _ => rfl⟩

theorem Keeps.trans {a b c : ISTGT} (h1 : Keeps a b) (h2 : Keeps b c) : Keeps a c := by
  intro ha
  obtain ⟨hb, hab, hsame⟩ := h1 ha
  obtain ⟨hc, hbc, hsame'⟩ := h2 hb
  refine ⟨hc, by omega, ?_⟩
  intro i hi ht hr
  have e := hsame i hi ht hr
  rw [hsame' i (by omega) (by rw [e]; exact ht) (by rw [e]; exact hr), e]

/-- Overwriting a slot that is free or unreferenced keeps the invariant,
provided the new content records its position. -/
theorem keeps_store (istgt : ISTGT) (q : Nat) (pg : PORTAL_GROUP)
    (hnew : IdxFaithful istgt → pg.tag ≠ 0 → pg.idx = q)
    (hold : (pg_at istgt q).tag = 0 ∨ (pg_at istgt q).ref = 0) :
    Keeps istgt (pg_store istgt q pg) := by
  intro hf
  refine ⟨?_, le_refl _, ?_⟩
  · intro i hi ht
    rcases pg_at_store_cases istgt q i pg with ⟨rfl, h⟩ | h
    · rw [h] at ht ⊢
      exact hnew hf ht
    · rw [h] at ht ⊢
      exact hf i hi ht
  · intro i _ ht hr
    apply pg_at_store_ne
    rintro rfl
    rcases hold with h | h
    · exact ht h
    · exact hr h

/-- Writing the slot at `nportal_group` and extending the table by one keeps
the invariant, provided the new content records its position. -/
theorem keeps_grow (istgt : ISTGT) (pg : PORTAL_GROUP)
    (hnew : pg.tag ≠ 0 → pg.idx = istgt.nportal_group) :
    Keeps istgt
      { pg_store istgt istgt.nportal_group pg with
        nportal_group := istgt.nportal_group + 1 } := by
  intro hf
  refine ⟨?_, Nat.le_succ _, ?_⟩
  · intro i hi ht
    have hi' : i < istgt.nportal_group + 1 := hi
    have e : pg_at { pg_store istgt istgt.nportal_group pg with
        nportal_group := istgt.nportal_group + 1 } i
        = pg_at (pg_store istgt istgt.nportal_group pg) i := rfl
    rw [e] at ht ⊢
    by_cases hin : i = istgt.nportal_group
    · subst hin
      rcases pg_at_store_self_or istgt istgt.nportal_group pg with h | h
      · rw [h] at ht ⊢; exact hnew ht
      · rw [h] at ht; exact absurd default_tag ht
    · rw [pg_at_store_ne _ _ _ _ hin] at ht ⊢
      exact hf i (by omega) ht
  · intro i hi _ _
    show pg_at (pg_store istgt istgt.nportal_group pg) i = _
    exact pg_at_store_ne _ _ _ _ (by omega)

theorem open_loop_fields : ∀ (k i : Nat) (pgp : PORTAL_GROUP) (net : Net),
    (open_loop pgp net i k).2.1.tag = pgp.tag
    ∧ (open_loop pgp net i k).2.1.ref = pgp.ref
    ∧ (open_loop pgp net i k).2.1.idx = pgp.idx
    ∧ (open_loop pgp net i k).2.1.nportals = pgp.nportals := by
  intro k
  induction k with
  | zero => intro i pgp net; exact ⟨rfl, rfl, rfl, rfl⟩
  | succ k ih =>
    intro i pgp net
    rw [open_loop]
    by_cases hs : (portal_at pgp i).sock < 0
    · simp only [hs, if_true]
      by_cases hl : (istgt_listen net (portal_at pgp i).host
          (toInt32 (strtol (portal_at pgp i).port 0))).1 < 0
      · simp [hl]
      · simp only [hl, if_false]
        exact ih _ _ _
    · simp only [hs, if_false]
      exact ih _ _ _

/-- Adding a portal group keeps the invariant; on success the written slot
lies below `nportal_group` and has `ref = 0`. -/
theorem add_keeps (K : Limits) (istgt : ISTGT) (sp : CF_SECTION) (p0 : Nat) :
    Keeps istgt (istgt_add_portal_group K istgt sp (some p0)).2.1
    ∧ ((istgt_add_portal_group K istgt sp (some p0)).2.2.getD p0
          < (istgt_add_portal_group K istgt sp (some p0)).2.1.nportal_group
        ∧ (pg_at (istgt_add_portal_group K istgt sp (some p0)).2.1
            ((istgt_add_portal_group K istgt sp (some p0)).2.2.getD p0)).ref = 0
      ∨ (istgt_add_portal_group K istgt sp (some p0)).1 < 0) := by
  rcases add_outcomes K istgt sp (some p0) with
    ⟨hf, _⟩ | ⟨n, pg3, _, _, _, hr, h1, h2, h3, _, _⟩
  · rw [hf]
    exact ⟨Keeps.refl _, Or.inr (by simp)⟩
  · rw [hr]
    cases hfree : find_free_slot istgt n with
    | none =>
      have htgt : target_slot istgt n = istgt.nportal_group := by simp [target_slot, hfree]
      simp only [htgt, Option.isNone_none, if_true, Option.map_some', Option.getD_some]
      refine ⟨keeps_grow istgt pg3 (fun _ => by rw [h3, htgt]), Or.inl ⟨Nat.lt_succ_self _, ?_⟩⟩
      show (pg_at (pg_store istgt istgt.nportal_group pg3) istgt.nportal_group).ref = 0
      rcases pg_at_store_self_or istgt istgt.nportal_group pg3 with h | h
      · rw [h]; exact h2
      · rw [h]; rfl
    | some f =>
      obtain ⟨f1, f2, _, _⟩ := find_free_slot_some hfree
      have htgt : target_slot istgt n = f := by simp [target_slot, hfree]
      simp only [htgt, Option.isNone_some, Bool.false_eq_true, if_false, Option.map_some',
        Option.getD_some]
      refine ⟨keeps_store istgt f pg3 (fun _ _ => by rw [h3, htgt]) (Or.inl f2),
        Or.inl ⟨f1, ?_⟩⟩
      rcases pg_at_store_self_or istgt f pg3 with h | h
      · rw [h]; exact h2
      · rw [h]; rfl

/-- Updating the unreferenced slot that carries the section's number (with
`*pgp_idx` naming it) keeps the invariant; when the result is positive the
slot named by `*pgp_idx` afterwards lies below `nportal_group` and has
`ref = 0`. -/
theorem update_keeps (K : Limits) (istgt : ISTGT) (sp : CF_SECTION) (j : Nat)
    (hfind : find_tag_slot istgt sp.num = some j) (hnum : sp.num ≠ 0)
    (href : (pg_at istgt j).ref = 0) :
    Keeps istgt (istgt_update_portal_group K istgt sp j).2.1
    ∧ (0 < (istgt_update_portal_group K istgt sp j).1 →
        (istgt_update_portal_group K istgt sp j).2.2
            < (istgt_update_portal_group K istgt sp j).2.1.nportal_group
        ∧ (pg_at (istgt_update_portal_group K istgt sp j).2.1
            (istgt_update_portal_group K istgt sp j).2.2).ref = 0) := by
  obtain ⟨hj, htag, _⟩ := find_tag_slot_some hfind
  have hjlen : j < istgt.portal_group.length := pg_at_tag_lt (by rw [htag]; exact hnum)
  unfold istgt_update_portal_group
  cases hc : count_portals K sp with
  | none => exact ⟨Keeps.refl _, fun h => by simp at h⟩
  | some n =>
    have hok := (count_portals_some hc).1
    by_cases hmax : n > K.MAX_PORTAL
    · simp only [hmax, if_true]
      exact ⟨Keeps.refl _, fun h => by simp at h⟩
    · simp only [hmax, if_false, hfind]
      by_cases hm : istgt_pg_match_all K (pg_at istgt j) sp = true
      · simp only [hm, if_true]
        exact ⟨Keeps.refl _, fun h => by simp at h⟩
      · simp only [hm, if_false]
        by_cases hsame : (pg_at istgt j).nportals = n
        · obtain ⟨pg', h1, _, h3, h4, h5, _⟩ :=
            rewrite_loop_ok K sp n 0 (pg_at istgt j)
              (fun l _ hl => hok l (by omega))
          simp only [hsame, if_true, h1]
          refine ⟨keeps_store istgt j pg' ?_ (Or.inr href), fun _ => ⟨hj, ?_⟩⟩
          · intro hf ht
            rw [h4]
            exact hf j hj (by rw [← h5]; exact ht)
          · show (pg_at (pg_store istgt j pg') j).ref = 0
            rw [pg_at_store_self _ _ _ hjlen, h3]
            exact href
        · simp only [hsame, if_false]
          have hk0 : Keeps istgt (pg_store istgt j { pg_at istgt j with tag := 0 }) :=
            keeps_store istgt j _ (fun _ ht => absurd rfl ht) (Or.inr href)
          have hmark := find_free_slot_mark istgt j n hsame
          rw [hmark]
          cases hfree : find_free_slot istgt n with
          | none =>
            simp only [Option.getD_none, pg_store_nportal_group, Option.isNone_none, if_true]
            by_cases hcap : istgt.nportal_group < K.MAX_PORTAL_GROUP
            · simp only [hcap, if_true]
              have hne : j ≠ istgt.nportal_group := by omega
              obtain ⟨pg3, h1, _, h3, h4, _⟩ :=
                fill_loop_ok K sp true n 0
                  { nportals := n, portals := List.replicate n default,
                    ref := (pg_at (pg_store (pg_store istgt j { pg_at istgt j with tag := 0 })
                      istgt.nportal_group
                      { pg_at (pg_store istgt j { pg_at istgt j with tag := 0 })
                          istgt.nportal_group with
                        nportals := n, portals := List.replicate n default }) j).ref,
                    idx := istgt.nportal_group, tag := sp.num }
                  (fun l _ hl => hok l (by omega))
              simp only [h1, pg_store_store]
              refine ⟨hk0.trans (keeps_grow _ pg3 (fun _ => by rw [h4]; rfl)),
                fun _ => ⟨Nat.lt_succ_self _, ?_⟩⟩
              show (pg_at (pg_store _ istgt.nportal_group pg3) istgt.nportal_group).ref = 0
              rcases pg_at_store_self_or (pg_store istgt j { pg_at istgt j with tag := 0 })
                istgt.nportal_group pg3 with h | h
              · rw [h, h3]
                show (pg_at (pg_store _ _ _) j).ref = 0
                rw [pg_at_store_ne _ _ _ _ hne, pg_at_store_self _ _ _ hjlen]
                exact href
              · rw [h]; rfl
            · simp only [hcap, if_false]
              exact ⟨hk0, fun h => by simp at h⟩
          | some f =>
            obtain ⟨f1, f2, f3, _⟩ := find_free_slot_some hfree
            have hne : j ≠ f := by
              rintro rfl
              exact hsame f3
            simp only [Option.getD_some, Option.isNone_some, Bool.false_eq_true, if_false]
            by_cases hcap : f < K.MAX_PORTAL_GROUP
            · simp only [hcap, if_true]
              obtain ⟨pg3, h1, _, h3, h4, _⟩ :=
                fill_loop_ok K sp false n 0
                  { pg_at (pg_store istgt j { pg_at istgt j with tag := 0 }) f with
                    ref := (pg_at (pg_store (pg_store istgt j { pg_at istgt j with tag := 0 })
                      f (pg_at (pg_store istgt j { pg_at istgt j with tag := 0 }) f)) j).ref,
                    idx := f, tag := sp.num }
                  (fun l _ hl => hok l (by omega))
              simp only [h1, pg_store_store]
              refine ⟨hk0.trans (keeps_store _ f pg3 (fun _ _ => by rw [h4]) (Or.inl ?_)),
                fun _ => ⟨f1, ?_⟩⟩
              · rw [pg_at_store_ne _ _ _ _ hne.symm]; exact f2
              · show (pg_at (pg_store _ f pg3) f).ref = 0
                rcases pg_at_store_self_or (pg_store istgt j { pg_at istgt j with tag := 0 })
                  f pg3 with h | h
                · rw [h, h3]
                  show (pg_at (pg_store _ _ _) j).ref = 0
                  rw [pg_at_store_ne _ _ _ _ hne, pg_at_store_self _ _ _ hjlen]
                  exact href
                · rw [h]; rfl
            · simp only [hcap, if_false]
              exact ⟨hk0, fun h => by simp at h⟩

theorem find_tag_slot_store (istgt : ISTGT) (j : Nat) (pg : PORTAL_GROUP) (num : Int)
    (htag : pg.tag = (pg_at istgt j).tag) :
    find_tag_slot (pg_store istgt j pg) num = find_tag_slot istgt num := by
  unfold find_tag_slot
  simp only [pg_store_nportal_group]
  apply find_from_congr
  intro l _ _
  rcases pg_at_store_cases istgt j l pg with ⟨rfl, h⟩ | h
  · rw [h, htag]
  · rw [h]

theorem get_tag_portal_eq (istgt : ISTGT) (num : Int) (hnum : num ≠ 0) :
    istgt_get_tag_portal istgt num = find_tag_slot istgt num := by
  unfold istgt_get_tag_portal find_tag_slot
  simp [hnum]

/-- One section of `istgt_pg_update` keeps the invariant. -/
theorem pg_update_section_keeps (K : Limits) (s : UpdState) (sp : CF_SECTION) :
    Keeps s.istgt (pg_update_section K s sp).istgt := by
  unfold pg_update_section
  by_cases hty : sp.type = CF_SECTION_TYPE.ST_PORTALGROUP
  · simp only [hty, if_true]
    by_cases hnum : sp.num = 0
    · simp only [hnum, if_true]; exact Keeps.refl _
    · simp only [hnum, if_false]
      cases hfind : find_tag_slot s.istgt sp.num with
      | none =>
        simp only [Option.isSome_none, Bool.false_eq_true, if_false]
        have hneg : ((-1 : Int) < 0) = True := by simp
        simp only [hneg, if_true]
        obtain ⟨hk, hw⟩ := add_keeps K s.istgt sp s.pgp_idx
        by_cases hrc : (istgt_add_portal_group K s.istgt sp (some s.pgp_idx)).1 < 0
        · simp only [hrc, if_true]
          exact hk
        · simp only [hrc, if_false]
          rcases hw with ⟨hlt, href⟩ | hw
          · refine hk.trans (keeps_store _ _ _ ?_ (Or.inr href))
            intro hf ht
            obtain ⟨o1, _, o3, _⟩ := open_loop_fields
              (pg_at (istgt_add_portal_group K s.istgt sp (some s.pgp_idx)).2.1
                ((istgt_add_portal_group K s.istgt sp (some s.pgp_idx)).2.2.getD
                  s.pgp_idx)).nportals 0
              (pg_at (istgt_add_portal_group K s.istgt sp (some s.pgp_idx)).2.1
                ((istgt_add_portal_group K s.istgt sp (some s.pgp_idx)).2.2.getD s.pgp_idx))
              s.net
            unfold istgt_open_portal_group at ht ⊢
            rw [o3]
            rw [o1] at ht
            exact hf _ hlt ht
          · exact absurd hw hrc
      | some j =>
        obtain ⟨hj, htag, _⟩ := find_tag_slot_some hfind
        have hjlen : j < s.istgt.portal_group.length :=
          pg_at_tag_lt (by rw [htag]; exact hnum)
        simp only [Option.isSome_some, if_true]
        have hpos : ¬ ((1 : Int) < 0) := by simp
        simp only [hpos, if_false, get_tag_portal_eq _ _ hnum, hfind]
        by_cases hm : istgt_pg_match_all K (pg_at s.istgt j) sp = true
        · simp only [hm, if_true]; exact Keeps.refl _
        · simp only [hm, if_false]
          by_cases href : (pg_at s.istgt j).ref ≠ 0
          · rw [if_pos href]; exact Keeps.refl _
          · rw [if_neg href]
            have href0 : (pg_at s.istgt j).ref = 0 := not_not.mp href
            intro hf
            have hidx : (pg_at s.istgt j).idx = j := hf j hj (by rw [htag]; exact hnum)
            obtain ⟨_, c2, c3, c4, _⟩ :=
              close_loop_spec (pg_at s.istgt j).nportals 0 (pg_at s.istgt j) s.net
            have hk1 : Keeps s.istgt
                (pg_store s.istgt j
                  (close_loop (pg_at s.istgt j) s.net 0 (pg_at s.istgt j).nportals).1) :=
              keeps_store _ _ _ (fun hf' ht => by
                rw [c4]; exact hf' j hj (by rw [← c2]; exact ht)) (Or.inr href0)
            have hfind1 : find_tag_slot
                (pg_store s.istgt j
                  (close_loop (pg_at s.istgt j) s.net 0 (pg_at s.istgt j).nportals).1) sp.num
                = some j := by
              rw [find_tag_slot_store _ _ _ _ c2]; exact hfind
            have href1 : (pg_at (pg_store s.istgt j
                (close_loop (pg_at s.istgt j) s.net 0 (pg_at s.istgt j).nportals).1) j).ref
                = 0 := by
              rw [pg_at_store_self _ _ _ hjlen, c3]; exact href0
            obtain ⟨hk2, hw⟩ := update_keeps K _ sp j hfind1 hnum href1
            simp only [istgt_close_portal_group, hidx]
            by_cases hrc : (istgt_update_portal_group K (pg_store s.istgt j
                (close_loop (pg_at s.istgt j) s.net 0 (pg_at s.istgt j).nportals).1) sp j).1 < 0
            · simp only [hrc, if_true]
              exact (hk1.trans hk2) hf
            · simp only [hrc, if_false]
              by_cases hrc0 : (istgt_update_portal_group K (pg_store s.istgt j
                  (close_loop (pg_at s.istgt j) s.net 0 (pg_at s.istgt j).nportals).1) sp j).1
                  = 0
              · simp only [hrc0, if_true]
                exact (hk1.trans hk2) hf
              · simp only [hrc0, if_false]
                obtain ⟨hlt, href2⟩ := hw (by omega)
                refine ((hk1.trans hk2).trans (keeps_store _ _ _ ?_ (Or.inr href2))) hf
                intro hf' ht
                obtain ⟨o1, _, o3, _⟩ := open_loop_fields
                  (pg_at (istgt_update_portal_group K (pg_store s.istgt j
                    (close_loop (pg_at s.istgt j) s.net 0 (pg_at s.istgt j).nportals).1)
                    sp j).2.1
                    (istgt_update_portal_group K (pg_store s.istgt j
                    (close_loop (pg_at s.istgt j) s.net 0 (pg_at s.istgt j).nportals).1)
                    sp j).2.2).nportals 0
                  (pg_at (istgt_update_portal_group K (pg_store s.istgt j
                    (close_loop (pg_at s.istgt j) s.net 0 (pg_at s.istgt j).nportals).1)
                    sp j).2.1
                    (istgt_update_portal_group K (pg_store s.istgt j
                    (close_loop (pg_at s.istgt j) s.net 0 (pg_at s.istgt j).nportals).1)
                    sp j).2.2)
                  (close_loop (pg_at s.istgt j) s.net 0 (pg_at s.istgt j).nportals).2
                unfold istgt_open_portal_group at ht ⊢
                rw [o3]
                rw [o1] at ht
                exact hf' _ hlt ht
  · simp only [hty, if_false]; exact Keeps.refl _

theorem pg_update_fold_keeps (K : Limits) : ∀ (secs : List CF_SECTION) (s : UpdState),
    Keeps s.istgt (secs.foldl (pg_update_section K) s).istgt := by
  intro secs
  induction secs with
  | nil => intro s; exact Keeps.refl _
  | cons sp rest ih =>
    intro s
    rw [List.foldl_cons]
    exact (pg_update_section_keeps K s sp).trans (ih _)

theorem nmval_label_none (sp : CF_SECTION) (key : CStr) (i : Int)
    (h : istgt_get_nmval sp key i 0 = none) : istgt_get_nmval sp key i 1 = none := by
  unfold istgt_get_nmval at h ⊢
  cases hf : istgt_find_cf_nitem sp key i with
  | none => rfl
  | some ip =>
    rw [hf] at h
    simp only at h ⊢
    cases hv : ip.val with
    | nil => rfl
    | cons v vs =>
      rw [hv] at h
      simp [nmval_walk] at h

/-- A slot built by a successful add matches its section whenever the entry
that follows the counted ones has no label (the section has no line with a
label and no endpoint right after its portals). -/
theorem add_then_match_all (K : Limits) (istgt : ISTGT) (sp : CF_SECTION) (p0 : Nat)
    (hfit : K.MAX_PORTAL_GROUP ≤ istgt.portal_group.length)
    (hsz : SlotsSized istgt)
    (hok : (istgt_add_portal_group K istgt sp (some p0)).1 = 0)
    (hclean : ∀ n, count_portals K sp = some n → istgt_get_nmval sp kPortal n 0 = none) :
    ∃ idx, (istgt_add_portal_group K istgt sp (some p0)).2.2 = some idx
      ∧ istgt_pg_match_all K (pg_at (istgt_add_portal_group K istgt sp (some p0)).2.1 idx) sp
          = true := by
  rcases add_outcomes K istgt sp (some p0) with
    ⟨hf, _⟩ | ⟨n, pg3, hc, _, hcap, hr, _, _, _, h4, h5⟩
  · rw [hf] at hok; simp at hok
  · have hslot : pg_at (istgt_add_portal_group K istgt sp (some p0)).2.1
        (target_slot istgt n) = pg3 := by
      rw [hr]
      have hlt : target_slot istgt n < istgt.portal_group.length := by omega
      by_cases hfree : (find_free_slot istgt n).isNone = true
      · simp only [hfree, if_true]
        exact pg_at_store_self istgt _ pg3 hlt
      · simp only [hfree]
        exact pg_at_store_self istgt _ pg3 hlt
    refine ⟨target_slot istgt n, by rw [hr]; rfl, ?_⟩
    rw [hslot, pg_match_all_iff, h4]
    refine ⟨?_, hclean n hc, nmval_label_none _ _ _ (hclean n hc)⟩
    intro j hj
    have hwr : (find_free_slot istgt n).isNone = true
        ∨ j < (pg_at istgt (target_slot istgt n)).portals.length := by
      cases hfree : find_free_slot istgt n with
      | none => left; rfl
      | some f =>
        right
        obtain ⟨a, _, c, _⟩ := find_free_slot_some hfree
        have htgt : target_slot istgt n = f := by simp [target_slot, hfree]
        rw [htgt, hsz f a, c]
        exact hj
    obtain ⟨label, portal, host, port, a, b, c, d⟩ := h5 j hj hwr
    exact ⟨label, portal, host, port, a, b, c, by rw [d], by rw [d], by rw [d]⟩

/-- The failures of `istgt_update_portal_group` on a located slot named by
`*pgp_idx`: either nothing was written, or the call failed for capacity in
the reallocation branch and the old slot is left with its tag cleared. -/
theorem update_failure_effect (K : Limits) (istgt : ISTGT) (sp : CF_SECTION) (idx : Nat)
    (hfind : find_tag_slot istgt sp.num = some idx)
    (hfail : (istgt_update_portal_group K istgt sp idx).1 < 0) :
    (istgt_update_portal_group K istgt sp idx).2.1 = istgt
    ∨ ((istgt_update_portal_group K istgt sp idx).2.1
          = pg_store istgt idx { pg_at istgt idx with tag := 0 }
        ∧ ∃ n, count_portals K sp = some n ∧ (pg_at istgt idx).nportals ≠ n
          ∧ K.MAX_PORTAL_GROUP ≤ target_slot istgt n) := by
  revert hfail
  unfold istgt_update_portal_group
  cases hc : count_portals K sp with
  | none => intro _; exact Or.inl rfl
  | some n =>
    have hok := (count_portals_some hc).1
    by_cases hmax : n > K.MAX_PORTAL
    · simp only [hmax, if_true]
      intro _; simp
    · simp only [hmax, if_false, hfind]
      by_cases hm : istgt_pg_match_all K (pg_at istgt idx) sp = true
      · simp only [hm, if_true]
        intro _; simp
      · simp only [hm, if_false]
        by_cases hsame : (pg_at istgt idx).nportals = n
        · obtain ⟨pg', h1, _⟩ :=
            rewrite_loop_ok K sp n 0 (pg_at istgt idx) (fun l _ hl => hok l (by omega))
          simp only [hsame, if_true, h1]
          intro h
          simp at h
        · simp only [hsame, if_false]
          rw [find_free_slot_mark istgt idx n hsame]
          by_cases hcap : (find_free_slot istgt n).getD istgt.nportal_group
              < K.MAX_PORTAL_GROUP
          · simp only [pg_store_nportal_group, hcap, if_true]
            cases hfree : find_free_slot istgt n with
            | none =>
              obtain ⟨pg3, h1, _⟩ :=
                fill_loop_ok K sp true n 0
                  { nportals := n, portals := List.replicate n default,
                    ref := (pg_at (pg_store (pg_store istgt idx
                        { pg_at istgt idx with tag := 0 })
                      istgt.nportal_group
                      { pg_at (pg_store istgt idx { pg_at istgt idx with tag := 0 })
                          istgt.nportal_group with
                        nportals := n, portals := List.replicate n default }) idx).ref,
                    idx := istgt.nportal_group, tag := sp.num }
                  (fun l _ hl => hok l (by omega))
              simp only [Option.getD_none, Option.isNone_none, if_true, h1]
              intro h
              simp at h
            | some f =>
              obtain ⟨pg3, h1, _⟩ :=
                fill_loop_ok K sp false n 0
                  { pg_at (pg_store istgt idx { pg_at istgt idx with tag := 0 }) f with
                    ref := (pg_at (pg_store (pg_store istgt idx
                        { pg_at istgt idx with tag := 0 })
                      f (pg_at (pg_store istgt idx { pg_at istgt idx with tag := 0 }) f))
                      idx).ref,
                    idx := f, tag := sp.num }
                  (fun l _ hl => hok l (by omega))
              simp only [Option.getD_some, Option.isNone_some, Bool.false_eq_true, if_false,
                h1]
              intro h
              simp at h
          · simp only [pg_store_nportal_group, hcap, if_false]
            intro _
            exact Or.inr ⟨rfl, n, rfl, hsame, Nat.le_of_not_lt hcap⟩

theorem strchr_append (pre post : CStr) (c : Char) (h : c ∉ pre) :
    strchr (pre ++ c :: post) c = some pre.length := by
  induction pre with
  | nil => simp [strchr]
  | cons x xs ih =>
    have hx : x ≠ c := fun e => h (by simp [e])
    have hxs : c ∉ xs := fun e => h (by simp [e])
    simp [strchr, hx, ih hxs]

theorem strchr_none (s : CStr) (c : Char) (h : c ∉ s) : strchr s c = none := by
  induction s with
  | nil => rfl
  | cons x xs ih =>
    have hx : x ≠ c := fun e => h (by simp [e])
    have hxs : c ∉ xs := fun e => h (by simp [e])
    simp [strchr, hx, ih hxs]

theorem strchr_some (s : CStr) (c : Char) (k : Nat) (h : strchr s c = some k) :
    c ∉ s.take k ∧ s = s.take k ++ c :: s.drop (k + 1) := by
  induction s generalizing k with
  | nil => simp [strchr] at h
  | cons x xs ih =>
    unfold strchr at h
    by_cases hx : x = c
    · simp [hx] at h
      subst h
      simp [hx]
    · simp only [hx, if_false] at h
      cases hr : strchr xs c with
      | none => rw [hr] at h; simp at h
      | some m =>
        rw [hr] at h
        simp at h
        subst h
        obtain ⟨h1, h2⟩ := ih m hr
        refine ⟨?_, ?_⟩
        · simp only [List.take_succ_cons, List.mem_cons, not_or]
          exact ⟨fun e => hx e.symm, h1⟩
        · simp only [List.take_succ_cons, List.drop_succ_cons, List.cons_append]
          rw [← h2]

theorem strchr_none_not_mem (s : CStr) (c : Char) (h : strchr s c = none) : c ∉ s := by
  induction s with
  | nil => simp
  | cons x xs ih =>
    unfold strchr at h
    by_cases hx : x = c
    · simp [hx] at h
    · simp only [hx, if_false, Option.map_eq_none'] at h
      simp only [List.mem_cons, not_or]
      exact ⟨fun e => hx e.symm, ih h⟩

/-- The text printed for a default port that is an `int` fits the buffer, so
it is the plain decimal rendering. -/
theorem snprintf_d_int (v : Int) (h1 : -(2 : Int) ^ 31 ≤ v) (h2 : v < (2 : Int) ^ 31) :
    snprintf_d PORTNUMLEN v = (toString v).toList := by
  unfold snprintf_d PORTNUMLEN
  apply List.take_of_length_le
  show (toString v).length ≤ 31
  cases v with
  | ofNat m =>
    show (Nat.repr m).length ≤ 31
    have hm : m < 10 ^ 10 := by
      have : (m : Int) < 2 ^ 31 := h2
      omega
    have := Nat.repr_length m 10 (by decide) hm
    omega
  | negSucc m =>
    show ("-" ++ Nat.repr (m + 1)).length ≤ 31
    have hm : m + 1 < 10 ^ 10 := by
      have h3 : -(2 : Int) ^ 31 ≤ Int.negSucc m := h1
      rw [Int.negSucc_eq] at h3
      omega
    have := Nat.repr_length (m + 1) 10 (by decide) hm
    rw [String.length_append]
    have : "-".length = 1 := rfl
    omega

theorem parse_bracket_eval (K : Limits) (pre post : CStr) (hpre : ']' ∉ pre) :
    istgt_parse_portal K ('[' :: (pre ++ ']' :: post))
      = port_after K ('[' :: (pre ++ [']'])) post := by
  unfold istgt_parse_portal
  have hk : strchr (pre ++ ']' :: post) ']' = some pre.length := strchr_append pre post ']' hpre
  have htake : List.take (pre.length + 1) (pre ++ ']' :: post) = pre ++ [']'] := by
    rw [List.take_append_eq_append_take]
    simp
  have hdrop : List.drop (pre.length + 1) (pre ++ ']' :: post) = post := by
    rw [List.drop_append_eq_append_drop]
    simp
  simp only [List.head?_cons, if_true, List.drop_succ_cons, List.drop_zero, hk,
    List.take_succ_cons, htake, hdrop]
  cases post with
  | nil => rfl
  | cons c rest => rfl

theorem parse_plain_nocolon (K : Limits) (text : CStr) (hb : text.head? ≠ some '[')
    (hc : ':' ∉ text) :
    istgt_parse_portal K text = some (text, snprintf_d PORTNUMLEN K.DEFAULT_PORT) := by
  unfold istgt_parse_portal
  simp only [hb, if_false, strchr_none text ':' hc, List.take_length, List.drop_length]

theorem parse_plain_colon (K : Limits) (pre post : CStr)
    (hb : (pre ++ ':' :: post).head? ≠ some '[') (hc : ':' ∉ pre) :
    istgt_parse_portal K (pre ++ ':' :: post) = some (pre, post) := by
  unfold istgt_parse_portal
  have hk : strchr (pre ++ ':' :: post) ':' = some pre.length := strchr_append pre post ':' hc
  simp only [hb, if_false, hk, List.take_left', List.drop_left']
  simp

theorem get_tag_portal_none (tbl : ISTGT) (t : Int)
    (h : ∀ i, i < tbl.nportal_group → (pg_at tbl i).tag ≠ t) :
    istgt_get_tag_portal tbl t = none := by
  unfold istgt_get_tag_portal
  by_cases ht : t = 0
  · simp [ht]
  · simp only [ht, if_false]
    apply find_from_eq_none
    intro l _ hl
    simpa using h l (by omega)

theorem istgt_listen_trace (net : Net) (host : CStr) (port : Int) :
    (istgt_listen net host port).2.trace
      = net.trace ++ [Event.listen host port (istgt_listen net host port).1] := by
  unfold istgt_listen
  cases net.script with
  | nil => rfl
  | cons r rest => rfl

/-- The loop of `istgt_open_portal_group`: only sockets change, and only from
a negative value to the descriptor a listen returned; when the loop returns 0
every portal in its range has a descriptor; when it does not, a failed listen
is on the trace. -/
theorem open_loop_spec : ∀ (k i : Nat) (pgp : PORTAL_GROUP) (net : Net),
    (open_loop pgp net i k).2.1.portals.length = pgp.portals.length
    ∧ (∀ j, (j < i ∨ i + k ≤ j) → portal_at (open_loop pgp net i k).2.1 j = portal_at pgp j)
    ∧ (∀ j, portal_at (open_loop pgp net i k).2.1 j = portal_at pgp j
        ∨ ((portal_at pgp j).sock < 0
          ∧ ∃ sock, 0 ≤ sock
            ∧ portal_at (open_loop pgp net i k).2.1 j = { portal_at pgp j with sock := sock }))
    ∧ ((open_loop pgp net i k).1 = 0 →
        ∀ j, i ≤ j → j < i + k → j < pgp.portals.length →
          0 ≤ (portal_at (open_loop pgp net i k).2.1 j).sock)
    ∧ ((open_loop pgp net i k).1 = 0
        ∨ ((open_loop pgp net i k).1 = -1
          ∧ ∃ h p x, x < 0 ∧ Event.listen h p x ∈ (open_loop pgp net i k).2.2.trace))
    ∧ (∃ evs, (open_loop pgp net i k).2.2.trace = net.trace ++ evs) := by
  intro k
  induction k with
  | zero =>
    intro i pgp net
    exact ⟨rfl, fun _ _ => rfl, fun _ => Or.inl rfl, fun _ j a b => by omega, Or.inl rfl,
      ⟨[], by simp [open_loop]⟩⟩
  | succ k ih =>
    intro i pgp net
    by_cases hs : (portal_at pgp i).sock < 0
    · by_cases hl : (istgt_listen net (portal_at pgp i).host
          (toInt32 (strtol (portal_at pgp i).port 0))).1 < 0
      · have hstep : open_loop pgp net i (k + 1)
            = (-1, pgp, (istgt_listen net (portal_at pgp i).host
                (toInt32 (strtol (portal_at pgp i).port 0))).2) := by
          rw [open_loop]; simp [hs, hl]
        rw [hstep]
        refine ⟨rfl, fun _ _ => rfl, fun _ => Or.inl rfl, fun h => by simp at h, Or.inr ⟨rfl, ?_⟩,
          ⟨_, istgt_listen_trace _ _ _⟩⟩
        refine ⟨(portal_at pgp i).host, toInt32 (strtol (portal_at pgp i).port 0),
          (istgt_listen net (portal_at pgp i).host
            (toInt32 (strtol (portal_at pgp i).port 0))).1, hl, ?_⟩
        show _ ∈ (istgt_listen net _ _).2.trace
        rw [istgt_listen_trace]
        simp
      · have hstep : open_loop pgp net i (k + 1)
            = open_loop
                { pgp with portals := (pgp.portals.set i
                    { portal_at pgp i with sock := (istgt_listen net (portal_at pgp i).host
                      (toInt32 (strtol (portal_at pgp i).port 0))).1 }) }
                (istgt_listen net (portal_at pgp i).host
                  (toInt32 (strtol (portal_at pgp i).port 0))).2 (i + 1) k := by
          rw [open_loop]; simp [hs, hl]
        rw [hstep]
        obtain ⟨h1, h2, h3, h4, h5, h6⟩ :=
          ih (i + 1)
            { pgp with portals := (pgp.portals.set i
                { portal_at pgp i with sock := (istgt_listen net (portal_at pgp i).host
                  (toInt32 (strtol (portal_at pgp i).port 0))).1 }) }
            (istgt_listen net (portal_at pgp i).host
              (toInt32 (strtol (portal_at pgp i).port 0))).2
        refine ⟨by rw [h1]; simp, ?_, ?_, ?_, h5, ?_⟩
        · intro j hj
          rw [h2 j (by omega)]
          exact portal_at_set_ne _ _ _ _ (by omega)
        · intro j
          by_cases hji : j = i
          · subst hji
            rw [h2 j (by omega)]
            by_cases hlen : j < pgp.portals.length
            · right
              exact ⟨hs, _, not_lt.mp hl, portal_at_set_self _ _ _ hlen⟩
            · left
              simp [portal_at, List.set_eq_of_length_le (not_lt.mp hlen)]
          · rcases h3 j with h | ⟨a, sock, b, c⟩
            · left; rw [h]; exact portal_at_set_ne _ _ _ _ hji
            · right
              rw [portal_at_set_ne _ _ _ _ hji] at a c
              exact ⟨a, sock, b, c⟩
        · intro hz j hj1 hj2 hj3
          by_cases hji : j = i
          · subst hji
            rw [h2 j (by omega), portal_at_set_self _ _ _ hj3]
            exact not_lt.mp hl
          · exact h4 hz j (by omega) (by omega) (by simpa using hj3)
        · obtain ⟨evs, he⟩ := h6
          rw [he, istgt_listen_trace]
          exact ⟨Event.listen (portal_at pgp i).host (toInt32 (strtol (portal_at pgp i).port 0))
            (istgt_listen net (portal_at pgp i).host
              (toInt32 (strtol (portal_at pgp i).port 0))).1 :: evs, by simp⟩
    · have hstep : open_loop pgp net i (k + 1) = open_loop pgp net (i + 1) k := by
        rw [open_loop]; simp [hs]
      rw [hstep]
      obtain ⟨h1, h2, h3, h4, h5, h6⟩ := ih (i + 1) pgp net
      refine ⟨h1, fun j hj => h2 j (by omega), h3, ?_, h5, h6⟩
      intro hz j hj1 hj2 hj3
      by_cases hji : j = i
      · subst hji
        rw [h2 j (by omega)]
        exact not_lt.mp hs
      · exact h4 hz j (by omega) (by omega) hj3

theorem close_loop_trace : ∀ (k i : Nat) (pgp : PORTAL_GROUP) (net : Net),
    ∃ evs, (close_loop pgp net i k).2.trace = net.trace ++ evs
      ∧ ∀ e, e ∈ evs → ∃ s, e = Event.close s := by
  intro k
  induction k with
  | zero => intro i pgp net; exact ⟨[], by simp [close_loop], by simp⟩
  | succ k ih =>
    intro i pgp net
    rw [close_loop]
    by_cases hs : (portal_at pgp i).sock ≥ 0
    · simp only [hs, if_true]
      obtain ⟨evs, he, hall⟩ := ih (i + 1)
        { pgp with portals := (pgp.portals.set i { portal_at pgp i with sock := -1 }) }
        (sys_close net (portal_at pgp i).sock)
      refine ⟨Event.close (portal_at pgp i).sock :: evs, ?_, ?_⟩
      · rw [he]; simp [sys_close]
      · intro e hm
        rcases List.mem_cons.mp hm with h | h
        · exact ⟨_, h⟩
        · exact hall e h
    · simp only [hs, if_false]
      exact ih (i + 1) pgp net

theorem built_of_fill {K : Limits} {sp : CF_SECTION} {fresh : Bool} {n : Nat}
    {pg pg' : PORTAL_GROUP}
    (hok : ∀ j, j < n → EntryOk K sp j)
    (hfill : fill_loop K sp fresh pg 0 n = (true, pg'))
    (htag : pg.tag = sp.num) (hn : pg.nportals = n) (hlen : pg.portals.length = n) :
    Built K sp n pg.idx pg.ref pg' := by
  obtain ⟨pg2, h1, h2, h3, h4, h5, h6, _, h8⟩ :=
    fill_loop_ok K sp fresh n 0 pg (fun j _ hj => hok j (by omega))
  rw [h1] at hfill
  have e : pg2 = pg' := (Prod.mk.inj hfill).2
  subst e
  refine ⟨by rw [h5, htag], h3, h4, by rw [h2, hn], by rw [h6, hlen], ?_⟩
  intro j hj
  obtain ⟨label, portal, host, port, a, b, c, d⟩ :=
    h8 j (Nat.zero_le _) (by omega) (by omega)
  exact ⟨⟨label, portal, host, port, a, b, c, by rw [d], by rw [d], by rw [d]⟩, by rw [d]⟩

/-- The outcomes of `istgt_add_portal_group` on a table whose pointer arrays
are sized: a failure that changes nothing, the reuse of a free slot, or a
new slot at `nportal_group`. -/
theorem add_cases (K : Limits) (T : ISTGT) (sp : CF_SECTION) (pgp : Option Nat)
    (hsz : SlotsSized T) :
    (istgt_add_portal_group K T sp pgp = (-1, T, pgp))
    ∨ (∃ n f pg3, count_portals K sp = some n ∧ find_free_slot T n = some f
        ∧ f < K.MAX_PORTAL_GROUP ∧ Built K sp n f 0 pg3
        ∧ istgt_add_portal_group K T sp pgp = (0, pg_store T f pg3, pgp.map (fun _ => f)))
    ∨ (∃ n pg3, count_portals K sp = some n ∧ find_free_slot T n = none
        ∧ T.nportal_group < K.MAX_PORTAL_GROUP ∧ Built K sp n T.nportal_group 0 pg3
        ∧ istgt_add_portal_group K T sp pgp
            = (0, { pg_store T T.nportal_group pg3 with
                    nportal_group := T.nportal_group + 1 },
               pgp.map (fun _ => T.nportal_group))) := by
  cases hc : count_portals K sp with
  | none => left; simp [istgt_add_portal_group, hc]
  | some n =>
    have hok := (count_portals_some hc).1
    by_cases hmax : n > K.MAX_PORTAL
    · left; simp [istgt_add_portal_group, hc, hmax]
    · cases hfree : find_free_slot T n with
      | none =>
        by_cases hcap : T.nportal_group < K.MAX_PORTAL_GROUP
        · right; right
          obtain ⟨pg3, h1, _⟩ :=
            fill_loop_ok K sp true n 0
              { nportals := n, portals := List.replicate n default, ref := 0,
                idx := T.nportal_group, tag := sp.num }
              (fun j _ hj => hok j (by omega))
          have hb := built_of_fill hok h1 rfl rfl (by simp)
          refine ⟨n, pg3, rfl, hfree, hcap, hb, ?_⟩
          simp [istgt_add_portal_group, hc, hmax, hfree, hcap, h1]
        · left; simp [istgt_add_portal_group, hc, hmax, hfree, hcap]
      | some f =>
        obtain ⟨f1, _, f3, _⟩ := find_free_slot_some hfree
        by_cases hcap : f < K.MAX_PORTAL_GROUP
        · right; left
          obtain ⟨pg3, h1, _⟩ :=
            fill_loop_ok K sp false n 0
              { pg_at T f with ref := 0, idx := f, tag := sp.num }
              (fun j _ hj => hok j (by omega))
          have hb := built_of_fill hok h1 rfl f3 (by
            show (pg_at T f).portals.length = n
            rw [hsz f f1, f3])
          refine ⟨n, f, pg3, rfl, hfree, hcap, hb, ?_⟩
          simp [istgt_add_portal_group, hc, hmax, hfree, hcap, h1]
        · left; simp [istgt_add_portal_group, hc, hmax, hfree, hcap]

/-- The outcomes of `istgt_update_portal_group` when `*pgp_idx` names the
located slot `j`: the early failures and the match, which change nothing;
the rewrite in place; the capacity failure, which leaves the slot marked
free; the move to a reused or to a new slot. -/
theorem update_cases (K : Limits) (T : ISTGT) (sp : CF_SECTION) (j : Nat)
    (hfind : find_tag_slot T sp.num = some j) (hsz : SlotsSized T)
    (hjlen : j < T.portal_group.length) :
    (istgt_update_portal_group K T sp j = (-1, T, j))
    ∨ (istgt_update_portal_group K T sp j = (0, T, j)
        ∧ istgt_pg_match_all K (pg_at T j) sp = true)
    ∨ (∃ n pg1, count_portals K sp = some n
        ∧ istgt_pg_match_all K (pg_at T j) sp = false
        ∧ (pg_at T j).nportals = n ∧ Rewritten K sp n (pg_at T j) pg1
        ∧ istgt_update_portal_group K T sp j = (1, pg_store T j pg1, j))
    ∨ (∃ n, count_portals K sp = some n ∧ (pg_at T j).nportals ≠ n
        ∧ K.MAX_PORTAL_GROUP ≤ target_slot T n
        ∧ istgt_update_portal_group K T sp j
            = (-1, pg_store T j { pg_at T j with tag := 0 }, j))
    ∨ (∃ n f pg3, count_portals K sp = some n ∧ (pg_at T j).nportals ≠ n
        ∧ find_free_slot T n = some f ∧ f < K.MAX_PORTAL_GROUP ∧ f ≠ j
        ∧ Built K sp n f (pg_at T j).ref pg3
        ∧ istgt_update_portal_group K T sp j
            = (1, pg_store (pg_store T j { pg_at T j with tag := 0 }) f pg3, f))
    ∨ (∃ n pg3, count_portals K sp = some n ∧ (pg_at T j).nportals ≠ n
        ∧ find_free_slot T n = none ∧ T.nportal_group < K.MAX_PORTAL_GROUP
        ∧ Built K sp n T.nportal_group (pg_at T j).ref pg3
        ∧ istgt_update_portal_group K T sp j
            = (1, { pg_store (pg_store T j { pg_at T j with tag := 0 })
                      T.nportal_group pg3 with
                    nportal_group := T.nportal_group + 1 }, T.nportal_group)) := by
  obtain ⟨hj, _, _⟩ := find_tag_slot_some hfind
  cases hc : count_portals K sp with
  | none => left; simp [istgt_update_portal_group, hc]
  | some n =>
    have hok := (count_portals_some hc).1
    by_cases hmax : n > K.MAX_PORTAL
    · left; simp [istgt_update_portal_group, hc, hmax]
    · cases hm : istgt_pg_match_all K (pg_at T j) sp with
      | true =>
        right; left
        exact ⟨by simp [istgt_update_portal_group, hc, hmax, hfind, hm], rfl⟩
      | false =>
        by_cases hsame : (pg_at T j).nportals = n
        · right; right; left
          obtain ⟨pg1, h1, h2, h3, h4, h5, h6, _, h8⟩ :=
            rewrite_loop_ok K sp n 0 (pg_at T j) (fun l _ hl => hok l (by omega))
          refine ⟨n, pg1, rfl, rfl, hsame, ⟨h5, h3, h4, h2, h6, ?_⟩, ?_⟩
          · intro k hk
            obtain ⟨label, portal, host, port, a, b, c, d⟩ :=
              h8 k (Nat.zero_le _) (by omega) (by rw [hsz j hj, hsame]; exact hk)
            exact ⟨⟨label, portal, host, port, a, b, c, by rw [d], by rw [d], by rw [d]⟩,
              by rw [d]⟩
          · simp [istgt_update_portal_group, hc, hmax, hfind, hm, hsame, h1]
        · have hmark := find_free_slot_mark T j n hsame
          cases hfree : find_free_slot T n with
          | none =>
            by_cases hcap : T.nportal_group < K.MAX_PORTAL_GROUP
            · right; right; right; right; right
              have hne : j ≠ T.nportal_group := by omega
              obtain ⟨pg3, h1, _⟩ :=
                fill_loop_ok K sp true n 0
                  { nportals := n, portals := List.replicate n default,
                    ref := (pg_at T j).ref, idx := T.nportal_group, tag := sp.num }
                  (fun l _ hl => hok l (by omega))
              have hb := built_of_fill hok h1 rfl rfl (by simp)
              refine ⟨n, pg3, rfl, hsame, hfree, hcap, hb, ?_⟩
              unfold istgt_update_portal_group
              simp only [hc, hmax, hfind, hm, hsame, hmark, hfree, if_false]
              simp only [Option.getD_none, pg_store_nportal_group, hcap, if_true,
                Option.isNone_none]
              rw [pg_at_store_ne _ _ _ _ hne, pg_at_store_self _ _ _ hjlen]
              simp only [pg_at_store_ne _ _ _ _ hne.symm, pg_store_store]
              rw [h1]
              simp [pg_store_store]
            · right; right; right; left
              refine ⟨n, rfl, hsame, by simpa [target_slot, hfree] using hcap, ?_⟩
              unfold istgt_update_portal_group
              simp only [hc, hmax, hfind, hm, hsame, hmark, hfree, if_false]
              simp [hcap]
          | some f =>
            obtain ⟨f1, _, f3, _⟩ := find_free_slot_some hfree
            have hne : j ≠ f := by
              rintro rfl
              exact hsame f3
            by_cases hcap : f < K.MAX_PORTAL_GROUP
            · right; right; right; right; left
              obtain ⟨pg3, h1, _⟩ :=
                fill_loop_ok K sp false n 0
                  { pg_at T f with ref := (pg_at T j).ref, idx := f, tag := sp.num }
                  (fun l _ hl => hok l (by omega))
              have hb := built_of_fill hok h1 rfl f3 (by
                show (pg_at T f).portals.length = n
                rw [hsz f f1, f3])
              refine ⟨n, f, pg3, rfl, hsame, hfree, hcap, hne.symm, hb, ?_⟩
              unfold istgt_update_portal_group
              simp only [hc, hmax, hfind, hm, hsame, hmark, hfree, if_false]
              simp only [Option.getD_some, hcap, if_true, Option.isNone_some]
              simp only [pg_at_store_ne _ _ _ _ hne.symm]
              rw [pg_at_store_ne _ _ _ _ hne, pg_at_store_self _ _ _ hjlen]
              simp only [Bool.false_eq_true, if_false, pg_store_store]
              rw [h1]
            · right; right; right; left
              refine ⟨n, rfl, hsame, by simpa [target_slot, hfree] using hcap, ?_⟩
              unfold istgt_update_portal_group
              simp only [hc, hmax, hfind, hm, hsame, hmark, hfree, if_false]
              simp [hcap]

theorem slotok_default (i : Nat) : SlotOk i default :=
  ⟨fun h => absurd rfl h, rfl, fun j hj => absurd hj (Nat.not_lt_zero j),
    fun _ j hj => absurd hj (Nat.not_lt_zero j)⟩

/-- Closing a slot in order keeps it in order and leaves every socket absent. -/
theorem slotok_closed (i : Nat) (pg : PORTAL_GROUP) (net : Net) (h : SlotOk i pg) :
    SlotOk i (close_loop pg net 0 pg.nportals).1
    ∧ ∀ j, j < pg.nportals → (portal_at (close_loop pg net 0 pg.nportals).1 j).sock = -1 := by
  obtain ⟨h1, h2, h3, _⟩ := h
  obtain ⟨c1, c2, _, c4, c5, _, c7⟩ := close_loop_spec pg.nportals 0 pg net
  have hall : ∀ j, j < pg.nportals →
      (portal_at (close_loop pg net 0 pg.nportals).1 j).sock = -1 := by
    intro j hj
    rw [c7 j (Nat.zero_le _) (by omega) (by omega)]
    by_cases hs : 0 ≤ (portal_at pg j).sock
    · rw [if_pos hs]
    · rw [if_neg hs]
      have := h3 j hj
      omega
  refine ⟨⟨?_, by rw [c5, c1, h2], ?_, ?_⟩, hall⟩
  · intro ht; rw [c4]; exact h1 (by rw [← c2]; exact ht)
  · intro j hj; rw [c1] at hj; rw [hall j hj]
  · intro _ j hj; rw [c1] at hj; exact hall j hj

/-- Opening an assigned slot in order keeps it in order. -/
theorem slotok_opened (i : Nat) (pg : PORTAL_GROUP) (net : Net) (h : SlotOk i pg)
    (ht : pg.tag ≠ 0) : SlotOk i (open_loop pg net 0 pg.nportals).2.1 := by
  obtain ⟨h1, h2, h3, _⟩ := h
  obtain ⟨o1, o2, o3, o4⟩ := open_loop_fields pg.nportals 0 pg net
  obtain ⟨p1, _, p3, _⟩ := open_loop_spec pg.nportals 0 pg net
  refine ⟨fun _ => by rw [o3]; exact h1 ht, by rw [p1, o4, h2], ?_, ?_⟩
  · intro j hj
    rw [o4] at hj
    rcases p3 j with e | ⟨_, sock, hs, e⟩
    · rw [e]; exact h3 j hj
    · rw [e]; show -1 ≤ sock; omega
  · intro hz; rw [o1] at hz; exact absurd hz ht

theorem slotok_marked (i : Nat) (pg : PORTAL_GROUP) (h : SlotOk i pg)
    (hc : ∀ j, j < pg.nportals → (portal_at pg j).sock = -1) :
    SlotOk i { pg with tag := 0 } := by
  obtain ⟨_, h2, h3, _⟩ := h
  exact ⟨fun ht => absurd rfl ht, h2, h3, fun _ j hj => hc j hj⟩

theorem slotok_built {K : Limits} {sp : CF_SECTION} {n q : Nat} {ref : Int}
    {pg : PORTAL_GROUP} (h : Built K sp n q ref pg) : SlotOk q pg := by
  obtain ⟨_, _, b3, b4, b5, b6⟩ := h
  refine ⟨fun _ => b3, by rw [b5, b4], ?_, ?_⟩
  · intro j hj; rw [b4] at hj; rw [(b6 j hj).2]
  · intro _ j hj; rw [b4] at hj; exact (b6 j hj).2

theorem slotok_rewritten {K : Limits} {sp : CF_SECTION} {i : Nat} {old pg : PORTAL_GROUP}
    (h : Rewritten K sp old.nportals old pg) (hold : SlotOk i old) : SlotOk i pg := by
  obtain ⟨r1, _, r3, r4, r5, r6⟩ := h
  obtain ⟨h1, h2, h3, h4⟩ := hold
  refine ⟨?_, by rw [r5, r4, h2], ?_, ?_⟩
  · intro ht; rw [r3]; exact h1 (by rw [← r1]; exact ht)
  · intro j hj; rw [r4] at hj; rw [(r6 j hj).2]; exact h3 j hj
  · intro hz j hj
    rw [r4] at hj
    rw [(r6 j hj).2]
    exact h4 (by rw [← r1]; exact hz) j hj

theorem tableok_store (K : Limits) (T : ISTGT) (q : Nat) (x : PORTAL_GROUP)
    (h : TableOk K T) (hx : SlotOk q x) : TableOk K (pg_store T q x) := by
  obtain ⟨⟨f1, f2⟩, hs⟩ := h
  refine ⟨⟨f1, by simpa using f2⟩, ?_⟩
  intro i hi
  rcases pg_at_store_cases T q i x with ⟨rfl, e⟩ | e
  · rw [e]; exact hx
  · rw [e]; exact hs i hi

theorem tableok_grow (K : Limits) (T : ISTGT) (x : PORTAL_GROUP)
    (h : TableOk K T) (hcap : T.nportal_group < K.MAX_PORTAL_GROUP)
    (hx : SlotOk T.nportal_group x) :
    TableOk K { pg_store T T.nportal_group x with nportal_group := T.nportal_group + 1 } := by
  obtain ⟨⟨_, f2⟩, hs⟩ := h
  refine ⟨⟨hcap, by simpa using f2⟩, ?_⟩
  intro i hi
  have hi' : i < T.nportal_group + 1 := hi
  show SlotOk i (pg_at (pg_store T T.nportal_group x) i)
  rcases pg_at_store_cases T T.nportal_group i x with ⟨rfl, e⟩ | e
  · rw [e]; exact hx
  · rw [e]
    by_cases hin : i = T.nportal_group
    · subst hin
      have hlen : T.nportal_group < T.portal_group.length := by omega
      rw [pg_at_store_self _ _ _ hlen] at e
      rw [← e]; exact hx
    · exact hs i (by omega)

theorem tableok_sized {K : Limits} {T : ISTGT} (h : TableOk K T) : SlotsSized T :=
  fun i hi => (h.2 i hi).2.1

theorem tableok_idx {K : Limits} {T : ISTGT} (h : TableOk K T) : IdxFaithful T :=
  fun i hi => (h.2 i hi).1

/-- Adding a portal group keeps the table in order. -/
theorem add_tableok (K : Limits) (T : ISTGT) (sp : CF_SECTION) (pgp : Option Nat)
    (h : TableOk K T) : TableOk K (istgt_add_portal_group K T sp pgp).2.1 := by
  rcases add_cases K T sp pgp (tableok_sized h) with
    e | ⟨n, f, pg3, _, _, _, hb, e⟩ | ⟨n, pg3, _, _, hcap, hb, e⟩
  · rw [e]; exact h
  · rw [e]; exact tableok_store K T f pg3 h (slotok_built hb)
  · rw [e]; exact tableok_grow K T pg3 h hcap (slotok_built hb)

/-- Updating a located slot whose listeners are closed keeps the table in
order. -/
theorem update_tableok (K : Limits) (T : ISTGT) (sp : CF_SECTION) (j : Nat)
    (h : TableOk K T) (hfind : find_tag_slot T sp.num = some j)
    (hclosed : ∀ k, k < (pg_at T j).nportals → (portal_at (pg_at T j) k).sock = -1) :
    TableOk K (istgt_update_portal_group K T sp j).2.1 := by
  obtain ⟨hj, _, _⟩ := find_tag_slot_some hfind
  have hjlen : j < T.portal_group.length := by
    have := h.1; unfold ArrayFits at this; omega
  have hmarked : TableOk K (pg_store T j { pg_at T j with tag := 0 }) :=
    tableok_store K T j _ h (slotok_marked j _ (h.2 j hj) hclosed)
  rcases update_cases K T sp j hfind (tableok_sized h) hjlen with
    e | ⟨e, _⟩ | ⟨n, pg1, _, _, hn, hr, e⟩ | ⟨n, _, _, _, e⟩
      | ⟨n, f, pg3, _, _, _, _, _, hb, e⟩ | ⟨n, pg3, _, _, _, hcap, hb, e⟩
  · rw [e]; exact h
  · rw [e]; exact h
  · rw [e]
    subst hn
    exact tableok_store K T j pg1 h (slotok_rewritten hr (h.2 j hj))
  · rw [e]; exact hmarked
  · rw [e]; exact tableok_store K _ f pg3 hmarked (slotok_built hb)
  · rw [e]; exact tableok_grow K _ pg3 hmarked hcap (slotok_built hb)

theorem section_eq_other (K : Limits) (s : UpdState) (sp : CF_SECTION)
    (h : sp.type ≠ CF_SECTION_TYPE.ST_PORTALGROUP ∨ sp.num = 0) :
    pg_update_section K s sp = s := by
  unfold pg_update_section
  rcases h with h | h
  · simp [h]
  · by_cases hty : sp.type = CF_SECTION_TYPE.ST_PORTALGROUP
    · simp [hty, h]
    · simp [hty]

theorem section_eq_add (K : Limits) (s : UpdState) (sp : CF_SECTION)
    (hty : sp.type = CF_SECTION_TYPE.ST_PORTALGROUP) (hnum : sp.num ≠ 0)
    (hfind : find_tag_slot s.istgt sp.num = none) :
    pg_update_section K s sp = section_add K s sp := by
  unfold pg_update_section section_add
  simp only [hty, if_true, hnum, if_false, hfind, Option.isSome_none, Bool.false_eq_true]
  have hneg : ((-1 : Int) < 0) = True := by simp
  simp only [hneg, if_true]

theorem section_eq_skip (K : Limits) (s : UpdState) (sp : CF_SECTION) (j : Nat)
    (hty : sp.type = CF_SECTION_TYPE.ST_PORTALGROUP) (hnum : sp.num ≠ 0)
    (hfind : find_tag_slot s.istgt sp.num = some j)
    (h : istgt_pg_match_all K (pg_at s.istgt j) sp = true ∨ (pg_at s.istgt j).ref ≠ 0) :
    pg_update_section K s sp = s := by
  unfold pg_update_section
  simp only [hty, if_true, hnum, if_false, hfind, Option.isSome_some]
  have hpos : ¬ ((1 : Int) < 0) := by simp
  simp only [hpos, if_false, get_tag_portal_eq _ _ hnum, hfind]
  by_cases hm : istgt_pg_match_all K (pg_at s.istgt j) sp = true
  · simp only [hm, if_true]
  · simp only [hm, if_false]
    rcases h with h | h
    · exact absurd h hm
    · rw [if_pos h]
      simp

theorem section_eq_update (K : Limits) (s : UpdState) (sp : CF_SECTION) (j : Nat)
    (hty : sp.type = CF_SECTION_TYPE.ST_PORTALGROUP) (hnum : sp.num ≠ 0)
    (hfind : find_tag_slot s.istgt sp.num = some j)
    (hm : istgt_pg_match_all K (pg_at s.istgt j) sp = false)
    (href : (pg_at s.istgt j).ref = 0) :
    pg_update_section K s sp = section_update K s sp j (pg_at s.istgt j).idx := by
  unfold pg_update_section section_update closed_table closed_net
  simp only [hty, if_true, hnum, if_false, hfind, Option.isSome_some]
  have hpos : ¬ ((1 : Int) < 0) := by simp
  simp only [hpos, if_false, get_tag_portal_eq _ _ hnum, hfind, hm, Bool.false_eq_true]
  rw [if_neg (by simp [href])]
  simp only [istgt_close_portal_group]
  by_cases hrc : (istgt_update_portal_group K (pg_store s.istgt j
      (close_loop (pg_at s.istgt j) s.net 0 (pg_at s.istgt j).nportals).1) sp
      (pg_at s.istgt j).idx).1 < 0
  · simp only [hrc, if_true, true_or]
  · simp only [hrc, if_false, false_or]

theorem find_free_slot_store (T : ISTGT) (j n : Nat) (pg : PORTAL_GROUP)
    (htag : pg.tag = (pg_at T j).tag) (hn : pg.nportals = (pg_at T j).nportals) :
    find_free_slot (pg_store T j pg) n = find_free_slot T n := by
  unfold find_free_slot
  simp only [pg_store_nportal_group]
  apply find_from_congr
  intro l _ _
  rcases pg_at_store_cases T j l pg with ⟨rfl, h⟩ | h
  · rw [h, htag, hn]
  · rw [h]

theorem sized_store (T : ISTGT) (q : Nat) (x : PORTAL_GROUP) (h : SlotsSized T)
    (hx : x.portals.length = x.nportals) : SlotsSized (pg_store T q x) := by
  intro i hi
  rcases pg_at_store_cases T q i x with ⟨rfl, e⟩ | e
  · rw [e]; exact hx
  · rw [e]; exact h i hi

/-- The shapes of the state after `istgt_pg_update` has added a section:
nothing changed because add failed, or the slot add chose holds the opened
group. -/
theorem section_add_cases (K : Limits) (s : UpdState) (sp : CF_SECTION)
    (hsz : SlotsSized s.istgt) (hfit : ArrayFits K s.istgt) :
    ((istgt_add_portal_group K s.istgt sp (some s.pgp_idx)).1 < 0
      ∧ (section_add K s sp).istgt = s.istgt ∧ (section_add K s sp).net = s.net)
    ∨ (∃ n f pg3, count_portals K sp = some n ∧ find_free_slot s.istgt n = some f
        ∧ f < K.MAX_PORTAL_GROUP ∧ Built K sp n f 0 pg3
        ∧ (istgt_add_portal_group K s.istgt sp (some s.pgp_idx)).1 = 0
        ∧ (section_add K s sp).istgt = pg_store s.istgt f (open_loop pg3 s.net 0 n).2.1
        ∧ (section_add K s sp).net = (open_loop pg3 s.net 0 n).2.2)
    ∨ (∃ n pg3, count_portals K sp = some n ∧ find_free_slot s.istgt n = none
        ∧ s.istgt.nportal_group < K.MAX_PORTAL_GROUP
        ∧ Built K sp n s.istgt.nportal_group 0 pg3
        ∧ (istgt_add_portal_group K s.istgt sp (some s.pgp_idx)).1 = 0
        ∧ (section_add K s sp).istgt
            = { pg_store s.istgt s.istgt.nportal_group (open_loop pg3 s.net 0 n).2.1 with
                nportal_group := s.istgt.nportal_group + 1 }
        ∧ (section_add K s sp).net = (open_loop pg3 s.net 0 n).2.2) := by
  obtain ⟨hf1, hf2⟩ := hfit
  rcases add_cases K s.istgt sp (some s.pgp_idx) hsz with
    e | ⟨n, f, pg3, hc, hfree, hcap, hb, e⟩ | ⟨n, pg3, hc, hfree, hcap, hb, e⟩
  · left
    unfold section_add
    rw [e]
    simp
  · right; left
    have hflen : f < s.istgt.portal_group.length := by omega
    refine ⟨n, f, pg3, hc, hfree, hcap, hb, by rw [e], ?_, ?_⟩
    · unfold section_add
      rw [e]
      simp only [Option.map_some', Option.getD_some, istgt_open_portal_group,
        pg_at_store_self _ _ _ hflen, pg_store_store, hb.2.2.2.1]
      simp
    · unfold section_add
      rw [e]
      simp only [Option.map_some', Option.getD_some, istgt_open_portal_group,
        pg_at_store_self _ _ _ hflen, hb.2.2.2.1]
      simp
  · right; right
    have hlen : s.istgt.nportal_group < s.istgt.portal_group.length := by omega
    have hat : pg_at { pg_store s.istgt s.istgt.nportal_group pg3 with
        nportal_group := s.istgt.nportal_group + 1 } s.istgt.nportal_group = pg3 :=
      pg_at_store_self _ _ _ hlen
    refine ⟨n, pg3, hc, hfree, hcap, hb, by rw [e], ?_, ?_⟩
    · unfold section_add
      rw [e]
      simp only [Option.map_some', Option.getD_some, istgt_open_portal_group, hat,
        hb.2.2.2.1]
      simp [pg_store, List.set_set]
    · unfold section_add
      rw [e]
      simp only [Option.map_some', Option.getD_some, istgt_open_portal_group, hat,
        hb.2.2.2.1]
      simp

/-- The shapes of the state after `istgt_pg_update` has closed slot `j` and
called the update for it. -/
theorem section_update_cases (K : Limits) (s : UpdState) (sp : CF_SECTION) (j : Nat)
    (hsz : SlotsSized s.istgt) (hfit : ArrayFits K s.istgt)
    (hfind : find_tag_slot s.istgt sp.num = some j) :
    (((istgt_update_portal_group K (closed_table s j) sp j).1 = -1
        ∨ ((istgt_update_portal_group K (closed_table s j) sp j).1 = 0
          ∧ istgt_pg_match_all K
              (close_loop (pg_at s.istgt j) s.net 0 (pg_at s.istgt j).nportals).1 sp = true))
      ∧ (section_update K s sp j j).istgt = closed_table s j
      ∧ (section_update K s sp j j).net = closed_net s j)
    ∨ (∃ n pg1, count_portals K sp = some n ∧ (pg_at s.istgt j).nportals = n
        ∧ Rewritten K sp n
            (close_loop (pg_at s.istgt j) s.net 0 (pg_at s.istgt j).nportals).1 pg1
        ∧ (istgt_update_portal_group K (closed_table s j) sp j).1 = 1
        ∧ (section_update K s sp j j).istgt
            = pg_store s.istgt j (open_loop pg1 (closed_net s j) 0 n).2.1
        ∧ (section_update K s sp j j).net = (open_loop pg1 (closed_net s j) 0 n).2.2)
    ∨ (∃ n, count_portals K sp = some n ∧ (pg_at s.istgt j).nportals ≠ n
        ∧ K.MAX_PORTAL_GROUP ≤ target_slot s.istgt n
        ∧ (istgt_update_portal_group K (closed_table s j) sp j).1 = -1
        ∧ (section_update K s sp j j).istgt
            = pg_store s.istgt j
                { (close_loop (pg_at s.istgt j) s.net 0 (pg_at s.istgt j).nportals).1 with
                  tag := 0 }
        ∧ (section_update K s sp j j).net = closed_net s j)
    ∨ (∃ n f pg3, count_portals K sp = some n ∧ (pg_at s.istgt j).nportals ≠ n
        ∧ find_free_slot s.istgt n = some f ∧ f < K.MAX_PORTAL_GROUP ∧ f ≠ j
        ∧ Built K sp n f (pg_at s.istgt j).ref pg3
        ∧ (istgt_update_portal_group K (closed_table s j) sp j).1 = 1
        ∧ (section_update K s sp j j).istgt
            = pg_store (pg_store s.istgt j
                { (close_loop (pg_at s.istgt j) s.net 0 (pg_at s.istgt j).nportals).1 with
                  tag := 0 }) f (open_loop pg3 (closed_net s j) 0 n).2.1
        ∧ (section_update K s sp j j).net = (open_loop pg3 (closed_net s j) 0 n).2.2)
    ∨ (∃ n pg3, count_portals K sp = some n ∧ (pg_at s.istgt j).nportals ≠ n
        ∧ find_free_slot s.istgt n = none ∧ s.istgt.nportal_group < K.MAX_PORTAL_GROUP
        ∧ Built K sp n s.istgt.nportal_group (pg_at s.istgt j).ref pg3
        ∧ (istgt_update_portal_group K (closed_table s j) sp j).1 = 1
        ∧ (section_update K s sp j j).istgt
            = { pg_store (pg_store s.istgt j
                  { (close_loop (pg_at s.istgt j) s.net 0 (pg_at s.istgt j).nportals).1 with
                    tag := 0 }) s.istgt.nportal_group
                  (open_loop pg3 (closed_net s j) 0 n).2.1 with
                nportal_group := s.istgt.nportal_group + 1 }
        ∧ (section_update K s sp j j).net = (open_loop pg3 (closed_net s j) 0 n).2.2) := by
  obtain ⟨hf1, hf2⟩ := hfit
  obtain ⟨hj, _, _⟩ := find_tag_slot_some hfind
  have hjlen : j < s.istgt.portal_group.length := by omega
  obtain ⟨c1, c2, c3, c4, c5, _, _⟩ :=
    close_loop_spec (pg_at s.istgt j).nportals 0 (pg_at s.istgt j) s.net
  have hat : pg_at (closed_table s j) j
      = (close_loop (pg_at s.istgt j) s.net 0 (pg_at s.istgt j).nportals).1 :=
    pg_at_store_self _ _ _ hjlen
  have hfind1 : find_tag_slot (closed_table s j) sp.num = some j := by
    unfold closed_table
    rw [find_tag_slot_store _ _ _ _ c2]; exact hfind
  have hsz1 : SlotsSized (closed_table s j) :=
    sized_store _ _ _ hsz (by rw [c5, c1]; exact hsz j hj)
  have hfree1 : ∀ n, find_free_slot (closed_table s j) n = find_free_slot s.istgt n :=
    fun n => find_free_slot_store _ _ _ _ c2 c1
  have hnpg : (closed_table s j).nportal_group = s.istgt.nportal_group := rfl
  have htgt : ∀ n, target_slot (closed_table s j) n = target_slot s.istgt n := by
    intro n; unfold target_slot; rw [hfree1, hnpg]
  have hstore : ∀ x, pg_store (closed_table s j) j x = pg_store s.istgt j x :=
    fun x => pg_store_store _ _ _ _
  rcases update_cases K (closed_table s j) sp j hfind1 hsz1 (by simpa [closed_table] using hjlen)
    with e | ⟨e, hm⟩ | ⟨n, pg1, hc, _, hn, hr, e⟩ | ⟨n, hc, hn, hcap, e⟩
      | ⟨n, f, pg3, hc, hn, hfree, hcap, hne, hb, e⟩ | ⟨n, pg3, hc, hn, hfree, hcap, hb, e⟩
  · left
    refine ⟨Or.inl (by rw [e]), ?_, ?_⟩
    · unfold section_update; rw [e]; simp
    · unfold section_update; rw [e]; simp
  · left
    rw [hat] at hm
    refine ⟨Or.inr ⟨by rw [e], hm⟩, ?_, ?_⟩
    · unfold section_update; rw [e]; simp
    · unfold section_update; rw [e]; simp
  · right; left
    rw [hat] at hn hr
    rw [c1] at hn
    have hpn : pg1.nportals = n := by rw [hr.2.2.2.1, c1]; exact hn
    refine ⟨n, pg1, hc, hn, hr, by rw [e], ?_, ?_⟩
    · unfold section_update
      rw [e]
      simp only [istgt_open_portal_group, hstore]
      rw [pg_at_store_self _ _ _ hjlen, pg_store_store, hpn]
      simp
    · unfold section_update
      rw [e]
      simp only [istgt_open_portal_group, hstore]
      rw [pg_at_store_self _ _ _ hjlen, hpn]
      simp
  · right; right; left
    rw [hat, c1] at hn
    rw [htgt] at hcap
    rw [hat, hstore] at e
    refine ⟨n, hc, hn, hcap, by rw [e], ?_, ?_⟩
    · unfold section_update; rw [e]; simp
    · unfold section_update; rw [e]; simp
  · right; right; right; left
    rw [hat, c1] at hn
    rw [hfree1] at hfree
    rw [hat, hstore] at e
    rw [hat, c3] at hb
    have hflen : f < (pg_store s.istgt j
        { (close_loop (pg_at s.istgt j) s.net 0 (pg_at s.istgt j).nportals).1 with
          tag := 0 }).portal_group.length := by
      simp; omega
    refine ⟨n, f, pg3, hc, hn, hfree, hcap, hne, hb, by rw [e], ?_, ?_⟩
    · unfold section_update
      rw [e]
      simp only [istgt_open_portal_group]
      rw [pg_at_store_self _ _ _ hflen, pg_store_store, hb.2.2.2.1]
      simp
    · unfold section_update
      rw [e]
      simp only [istgt_open_portal_group]
      rw [pg_at_store_self _ _ _ hflen, hb.2.2.2.1]
      simp
  · right; right; right; right
    rw [hat, c1] at hn
    rw [hfree1] at hfree
    rw [hnpg] at hcap hb e
    rw [hat, hstore] at e
    rw [hat, c3] at hb
    have hlen : s.istgt.nportal_group < (pg_store s.istgt j
        { (close_loop (pg_at s.istgt j) s.net 0 (pg_at s.istgt j).nportals).1 with
          tag := 0 }).portal_group.length := by
      simp; omega
    have hat2 : pg_at { pg_store (pg_store s.istgt j
        { (close_loop (pg_at s.istgt j) s.net 0 (pg_at s.istgt j).nportals).1 with
          tag := 0 }) s.istgt.nportal_group pg3 with
        nportal_group := s.istgt.nportal_group + 1 } s.istgt.nportal_group = pg3 :=
      pg_at_store_self _ _ _ hlen
    refine ⟨n, pg3, hc, hn, hfree, hcap, hb, by rw [e], ?_, ?_⟩
    · unfold section_update
      rw [e]
      simp only [istgt_open_portal_group, hat2, hb.2.2.2.1]
      simp [pg_store, List.set_set]
    · unfold section_update
      rw [e]
      simp only [istgt_open_portal_group, hat2, hb.2.2.2.1]
      simp

theorem tableok_store_lt (K : Limits) (T : ISTGT) (q : Nat) (x : PORTAL_GROUP)
    (h : TableOk K T) (hx : q < T.nportal_group → SlotOk q x) :
    TableOk K (pg_store T q x) := by
  obtain ⟨⟨f1, f2⟩, hs⟩ := h
  refine ⟨⟨f1, by simpa using f2⟩, ?_⟩
  intro i hi
  rcases pg_at_store_cases T q i x with ⟨rfl, e⟩ | e
  · rw [e]; exact hx hi
  · rw [e]; exact hs i hi

theorem slotok_retired (i : Nat) (pg : PORTAL_GROUP) (h : SlotOk i pg) :
    SlotOk i (retired_slot pg) := by
  obtain ⟨_, h2, h3, _⟩ := h
  obtain ⟨r1, r2, _, _, r5, r6⟩ := retired_slot_spec pg
  have hall : ∀ j, j < pg.nportals → (portal_at (retired_slot pg) j).sock = -1 := by
    intro j hj
    rw [r6 j hj (by omega)]
    by_cases hs : 0 ≤ (portal_at pg j).sock
    · rw [if_pos hs]
    · rw [if_neg hs]
      have := h3 j hj
      omega
  refine ⟨fun ht => absurd r1 ht, by rw [r5, r2, h2], ?_, ?_⟩
  · intro j hj; rw [r2] at hj; rw [hall j hj]
  · intro _ j hj; rw [r2] at hj; exact hall j hj

/-- One section of `istgt_pg_update` keeps the table in order. -/
theorem section_tableok (K : Limits) (s : UpdState) (sp : CF_SECTION)
    (h : TableOk K s.istgt) : TableOk K (pg_update_section K s sp).istgt := by
  by_cases hty : sp.type = CF_SECTION_TYPE.ST_PORTALGROUP
  swap
  · rw [section_eq_other K s sp (Or.inl hty)]; exact h
  by_cases hnum : sp.num = 0
  · rw [section_eq_other K s sp (Or.inr hnum)]; exact h
  have hsz := tableok_sized h
  have hfit := h.1
  cases hfind : find_tag_slot s.istgt sp.num with
  | none =>
    rw [section_eq_add K s sp hty hnum hfind]
    rcases section_add_cases K s sp hsz hfit with
      ⟨_, e, _⟩ | ⟨n, f, pg3, _, _, _, hb, _, e, _⟩ | ⟨n, pg3, _, _, hcap, hb, _, e, _⟩
    · rw [e]; exact h
    · rw [e]
      have hop := slotok_opened f pg3 s.net (slotok_built hb) (by rw [hb.1]; exact hnum)
      rw [hb.2.2.2.1] at hop
      exact tableok_store K _ f _ h hop
    · rw [e]
      have hop := slotok_opened s.istgt.nportal_group pg3 s.net (slotok_built hb)
        (by rw [hb.1]; exact hnum)
      rw [hb.2.2.2.1] at hop
      exact tableok_grow K _ _ h hcap hop
  | some j =>
    obtain ⟨hj, htag, _⟩ := find_tag_slot_some hfind
    by_cases hskip : istgt_pg_match_all K (pg_at s.istgt j) sp = true
        ∨ (pg_at s.istgt j).ref ≠ 0
    · rw [section_eq_skip K s sp j hty hnum hfind hskip]; exact h
    · simp only [not_or, Bool.not_eq_true, ne_eq, not_not] at hskip
      have hidx : (pg_at s.istgt j).idx = j :=
        tableok_idx h j hj (by rw [htag]; exact hnum)
      rw [section_eq_update K s sp j hty hnum hfind hskip.1 hskip.2, hidx]
      obtain ⟨hc1, hcall⟩ := slotok_closed j (pg_at s.istgt j) s.net (h.2 j hj)
      obtain ⟨c1, c2, _, _, _, _, _⟩ :=
        close_loop_spec (pg_at s.istgt j).nportals 0 (pg_at s.istgt j) s.net
      have hmarkok : SlotOk j
          { (close_loop (pg_at s.istgt j) s.net 0 (pg_at s.istgt j).nportals).1 with
            tag := 0 } :=
        slotok_marked j _ hc1 (by intro k hk; rw [c1] at hk; exact hcall k hk)
      rcases section_update_cases K s sp j hsz hfit hfind with
        ⟨_, e, _⟩ | ⟨n, pg1, _, hn, hr, _, e, _⟩ | ⟨n, _, _, _, _, e, _⟩
          | ⟨n, f, pg3, _, _, _, _, _, hb, _, e, _⟩ | ⟨n, pg3, _, _, _, hcap, hb, _, e, _⟩
      · rw [e]; exact tableok_store K _ j _ h hc1
      · rw [e]
        have hn' : (close_loop (pg_at s.istgt j) s.net 0
            (pg_at s.istgt j).nportals).1.nportals = n := by rw [c1]; exact hn
        rw [← hn'] at hr
        have hok1 : SlotOk j pg1 := slotok_rewritten hr hc1
        have hop := slotok_opened j pg1 (closed_net s j) hok1
          (by rw [hr.1, c2, htag]; exact hnum)
        rw [hr.2.2.2.1, hn'] at hop
        exact tableok_store K _ j _ h hop
      · rw [e]; exact tableok_store K _ j _ h hmarkok
      · rw [e]
        have hop := slotok_opened f pg3 (closed_net s j) (slotok_built hb)
          (by rw [hb.1]; exact hnum)
        rw [hb.2.2.2.1] at hop
        exact tableok_store K _ f _ (tableok_store K _ j _ h hmarkok) hop
      · rw [e]
        have hop := slotok_opened s.istgt.nportal_group pg3 (closed_net s j) (slotok_built hb)
          (by rw [hb.1]; exact hnum)
        rw [hb.2.2.2.1] at hop
        exact tableok_grow K _ _ (tableok_store K _ j _ h hmarkok) hcap hop

theorem pg_update_fold_tableok (K : Limits) : ∀ (secs : List CF_SECTION) (s : UpdState),
    TableOk K s.istgt → TableOk K (secs.foldl (pg_update_section K) s).istgt := by
  intro secs
  induction secs with
  | nil => intro s h; exact h
  | cons sp rest ih =>
    intro s h
    rw [List.foldl_cons]
    exact ih _ (section_tableok K s sp h)

theorem pg_update_tableok (K : Limits) (T : ISTGT) (net : Net) (p0 : Nat)
    (h : TableOk K T) : TableOk K (istgt_pg_update K T net p0).2.1 :=
  pg_update_fold_tableok K T.config.section_ { istgt := T, net := net, pgp_idx := p0 } h

theorem pg_delete_tableok (K : Limits) (T : ISTGT) (net : Net)
    (h : TableOk K T) : TableOk K (istgt_pg_delete T net).2.1 := by
  obtain ⟨h1, _, h3, h4, h5⟩ := pg_delete_loop_spec T.nportal_group 0 T net
  obtain ⟨⟨f1, f2⟩, hs⟩ := h
  refine ⟨⟨?_, ?_⟩, ?_⟩
  · show (pg_delete_loop T net 0 T.nportal_group).1.nportal_group ≤ _
    rw [h1]; exact f1
  · show _ ≤ (pg_delete_loop T net 0 T.nportal_group).1.portal_group.length
    rw [h3]; exact f2
  · intro i hi
    have hi' : i < T.nportal_group := by
      have : (pg_delete_loop T net 0 T.nportal_group).1.nportal_group = T.nportal_group := h1
      have hi2 : i < (pg_delete_loop T net 0 T.nportal_group).1.nportal_group := hi
      omega
    show SlotOk i (pg_at (pg_delete_loop T net 0 T.nportal_group).1 i)
    by_cases hr : Retires T.config (pg_at T i)
    · rw [h4 i (Nat.zero_le _) (by omega) hr]
      exact slotok_retired i _ (hs i hi')
    · rw [h5 i (fun hc => hr hc.2.2)]
      exact hs i hi'

theorem open_all_loop_tableok (K : Limits) : ∀ (k i : Nat) (T : ISTGT) (net : Net),
    TableOk K T → AllAssigned T → i + k ≤ T.nportal_group →
    TableOk K (open_all_loop T net i k).2.1 := by
  intro k
  induction k with
  | zero => intro i T net h _ _; exact h
  | succ k ih =>
    intro i T net h ha hik
    have hi : i < T.nportal_group := by omega
    have hop := slotok_opened i (pg_at T i) net (h.2 i hi) (ha i hi)
    have hT1 : TableOk K (pg_store T i (open_loop (pg_at T i) net 0 (pg_at T i).nportals).2.1) :=
      tableok_store K T i _ h hop
    rw [open_all_loop]
    simp only [istgt_open_portal_group]
    by_cases hrc : (open_loop (pg_at T i) net 0 (pg_at T i).nportals).1 < 0
    · simp only [hrc, if_true]; exact hT1
    · simp only [hrc, if_false]
      apply ih (i + 1) _ _ hT1
      · intro l hl
        rcases pg_at_store_cases T i l
            (open_loop (pg_at T i) net 0 (pg_at T i).nportals).2.1 with ⟨rfl, e⟩ | e
        · rw [e, (open_loop_fields _ _ _ _).1]; exact ha l hi
        · rw [e]; exact ha l hl
      · show i + 1 + k ≤ T.nportal_group
        omega

theorem build_loop_tableok (K : Limits) : ∀ (secs : List CF_SECTION) (T : ISTGT),
    TableOk K T → AllAssigned T →
    TableOk K (build_loop K T secs).2 ∧ AllAssigned (build_loop K T secs).2 := by
  intro secs
  induction secs with
  | nil => intro T h ha; exact ⟨h, ha⟩
  | cons sp rest ih =>
    intro T h ha
    rw [build_loop]
    by_cases hty : sp.type = CF_SECTION_TYPE.ST_PORTALGROUP
    · simp only [hty, if_true]
      by_cases hnum : sp.num = 0
      · simp only [hnum, if_true]; exact ⟨h, ha⟩
      · simp only [hnum, if_false]
        rcases add_cases K T sp none (tableok_sized h) with
          e | ⟨n, f, pg3, _, hfree, _, _, _⟩ | ⟨n, pg3, _, _, hcap, hb, e⟩
        · rw [e]; simp only [Int.reduceNeg, Int.reduceLT, if_true]; exact ⟨h, ha⟩
        · obtain ⟨f1, f2, _⟩ := find_free_slot_some hfree
          exact absurd f2 (ha f f1)
        · rw [e]
          simp only [lt_self_iff_false, if_false]
          apply ih _ (tableok_grow K T pg3 h hcap (slotok_built hb))
          intro l hl
          have hl' : l < T.nportal_group + 1 := hl
          show (pg_at (pg_store T T.nportal_group pg3) l).tag ≠ 0
          by_cases hln : l = T.nportal_group
          · subst hln
            have hlen : T.nportal_group < T.portal_group.length := by
              have := h.1.2; omega
            rw [pg_at_store_self _ _ _ hlen, hb.1]; exact hnum
          · rw [pg_at_store_ne _ _ _ _ hln]; exact ha l (by omega)
    · simp only [hty, if_false]
      exact ih T h ha

theorem initial_tableok (K : Limits) (cfg : CONFIG) :
    TableOk K (initial_istgt K cfg) ∧ AllAssigned (initial_istgt K cfg) := by
  refine ⟨⟨⟨Nat.zero_le _, by simp [initial_istgt]⟩, ?_⟩, ?_⟩
  · intro i hi; exact absurd hi (Nat.not_lt_zero i)
  · intro i hi; exact absurd hi (Nat.not_lt_zero i)

/-- Every table the daemon can reach is in order. -/
theorem reachable_tableok (K : Limits) (t : ISTGT) (h : Reachable K t) : TableOk K t := by
  induction h with
  | start cfg net _ =>
    obtain ⟨h0, a0⟩ := initial_tableok K cfg
    obtain ⟨h1, a1⟩ := build_loop_tableok K cfg.section_ (initial_istgt K cfg) h0 a0
    exact open_all_loop_tableok K _ 0 _ net h1 a1 (by simp)
  | reconfig t cfg _ ih => exact ih
  | setref t i r _ ih =>
    apply tableok_store_lt K t i _ ih
    intro hi
    exact ih.2 i hi
  | delete t net _ ih => exact pg_delete_tableok K t net ih
  | update t net p0 _ ih => exact pg_update_tableok K t net p0 ih

theorem get_sock_loop_some (T : ISTGT) (sock : Int) : ∀ (k i a b : Nat),
    get_sock_loop T sock i k = some (a, b) →
    i ≤ a ∧ a < i + k ∧ b < (pg_at T a).nportals ∧ (portal_at (pg_at T a) b).sock = sock := by
  intro k
  induction k with
  | zero => intro i a b h; simp [get_sock_loop] at h
  | succ k ih =>
    intro i a b h
    rw [get_sock_loop] at h
    cases hf : find_from (fun j => decide ((portal_at (pg_at T i) j).sock = sock)) 0
        (pg_at T i).nportals with
    | some j =>
      rw [hf] at h
      simp only [Option.some.injEq, Prod.mk.injEq] at h
      obtain ⟨rfl, rfl⟩ := h
      obtain ⟨_, f2, f3, _⟩ := find_from_some _ _ _ hf
      exact ⟨le_refl _, by omega, by omega, by simpa using f3⟩
    | none =>
      rw [hf] at h
      obtain ⟨h1, h2, h3, h4⟩ := ih (i + 1) a b h
      exact ⟨by omega, by omega, h3, h4⟩

theorem pg_delete_loop_idle : ∀ (k i : Nat) (T : ISTGT) (net : Net),
    (∀ j, i ≤ j → j < i + k → (pg_at T j).tag ≠ 0 →
      ¬ istgt_pg_exist_num T.config (pg_at T j).tag < 0) →
    pg_delete_loop T net i k = (T, net) := by
  intro k
  induction k with
  | zero => intro i T net _; rfl
  | succ k ih =>
    intro i T net h
    rw [pg_delete_loop]
    have hrest := ih (i + 1) T net (fun j h1 h2 => h j (by omega) (by omega))
    by_cases ht : (pg_at T i).tag = 0
    · simp only [ht, if_true]; exact hrest
    · have hx := h i (le_refl _) (by omega) ht
      simp only [ht, if_false, hx]
      exact hrest

theorem find_tag_slot_of_unique {T : ISTGT} {num : Int} {i : Nat} (hu : TagsUnique T)
    (hnum : num ≠ 0) (hi : i < T.nportal_group) (ht : (pg_at T i).tag = num) :
    find_tag_slot T num = some i := by
  apply find_tag_slot_eq hi ht
  intro l hl hlt
  have := hu l (by omega) i hi (by rw [hlt]; exact hnum) (by rw [hlt, ht])
  omega

theorem foldl_fixed {α β : Type} (f : α → β → α) (a : α) : ∀ (l : List β),
    (∀ b, b ∈ l → f a b = a) → l.foldl f a = a := by
  intro l
  induction l with
  | nil => intro _; rfl
  | cons b rest ih =>
    intro h
    rw [List.foldl_cons, h b (List.mem_cons_self _ _)]
    exact ih (fun c hc => h c (List.mem_cons_of_mem _ hc))

/-- On a table whose assigned tags are pairwise distinct, a reload with an
unchanged configuration changes nothing and calls neither listen nor close. -/
theorem reload_unchanged_of_unique (K : Limits) (T : ISTGT) (net : Net) (p0 : Nat)
    (hu : TagsUnique T)
    (htags : ∀ i, i < T.nportal_group → (pg_at T i).tag ≠ 0 →
      ∃ sp, sp ∈ T.config.section_ ∧ sp.type = CF_SECTION_TYPE.ST_PORTALGROUP
        ∧ sp.num = (pg_at T i).tag)
    (hsec : ∀ sp, sp ∈ T.config.section_ → sp.type = CF_SECTION_TYPE.ST_PORTALGROUP →
      ∃ i, i < T.nportal_group ∧ (pg_at T i).tag = sp.num
        ∧ istgt_pg_match_all K (pg_at T i) sp = true) :
    istgt_pg_delete T net = (0, T, net)
    ∧ istgt_pg_update K (istgt_pg_delete T net).2.1 (istgt_pg_delete T net).2.2 p0
        = (0, T, net) := by
  have hdel : istgt_pg_delete T net = (0, T, net) := by
    unfold istgt_pg_delete
    rw [pg_delete_loop_idle]
    intro j _ hj ht hneg
    obtain ⟨sp, hmem, hty, hn⟩ := htags j (by omega) ht
    exact (pg_exist_num_neg_iff _ _).1 hneg sp hmem hty hn
  refine ⟨hdel, ?_⟩
  rw [hdel]
  show istgt_pg_update K T net p0 = (0, T, net)
  unfold istgt_pg_update
  have hfix : T.config.section_.foldl (pg_update_section K)
      { istgt := T, net := net, pgp_idx := p0 } = { istgt := T, net := net, pgp_idx := p0 } := by
    apply foldl_fixed
    intro sp hmem
    by_cases hty : sp.type = CF_SECTION_TYPE.ST_PORTALGROUP
    · by_cases hnum : sp.num = 0
      · exact section_eq_other K _ sp (Or.inr hnum)
      · obtain ⟨i, hi, ht, hm⟩ := hsec sp hmem hty
        exact section_eq_skip K _ sp i hty hnum
          (find_tag_slot_of_unique hu hnum hi ht) (Or.inl hm)
    · exact section_eq_other K _ sp (Or.inl hty)
  simp only [hfix]

theorem listens_succeed_append (a b : List Event) :
    listens_succeed (a ++ b) = true ↔ listens_succeed a = true ∧ listens_succeed b = true := by
  simp [listens_succeed, List.all_append]

theorem listens_succeed_mem {evs : List Event} {h : CStr} {p x : Int}
    (hs : listens_succeed evs = true) (hm : Event.listen h p x ∈ evs) : 0 ≤ x := by
  unfold listens_succeed at hs
  rw [List.all_eq_true] at hs
  simpa using hs _ hm

/-- The events of the loop of `istgt_open_portal_group`: when the loop does
not return 0, a failed listen is among them. -/
theorem open_loop_events : ∀ (k i : Nat) (pgp : PORTAL_GROUP) (net : Net),
    ∃ evs, (open_loop pgp net i k).2.2.trace = net.trace ++ evs
      ∧ ((open_loop pgp net i k).1 = 0
        ∨ ∃ h p x, x < 0 ∧ Event.listen h p x ∈ evs) := by
  intro k
  induction k with
  | zero => intro i pgp net; exact ⟨[], by simp [open_loop], Or.inl rfl⟩
  | succ k ih =>
    intro i pgp net
    by_cases hs : (portal_at pgp i).sock < 0
    · have htr := istgt_listen_trace net (portal_at pgp i).host
        (toInt32 (strtol (portal_at pgp i).port 0))
      by_cases hl : (istgt_listen net (portal_at pgp i).host
          (toInt32 (strtol (portal_at pgp i).port 0))).1 < 0
      · have hstep : open_loop pgp net i (k + 1)
            = (-1, pgp, (istgt_listen net (portal_at pgp i).host
                (toInt32 (strtol (portal_at pgp i).port 0))).2) := by
          rw [open_loop]; simp [hs, hl]
        rw [hstep]
        exact ⟨_, htr, Or.inr ⟨_, _, _, hl, List.mem_singleton.2 rfl⟩⟩
      · have hstep : open_loop pgp net i (k + 1)
            = open_loop
                { pgp with portals := (pgp.portals.set i
                    { portal_at pgp i with sock := (istgt_listen net (portal_at pgp i).host
                      (toInt32 (strtol (portal_at pgp i).port 0))).1 }) }
                (istgt_listen net (portal_at pgp i).host
                  (toInt32 (strtol (portal_at pgp i).port 0))).2 (i + 1) k := by
          rw [open_loop]; simp [hs, hl]
        rw [hstep]
        obtain ⟨evs, h1, h2⟩ := ih (i + 1)
          { pgp with portals := (pgp.portals.set i
              { portal_at pgp i with sock := (istgt_listen net (portal_at pgp i).host
                (toInt32 (strtol (portal_at pgp i).port 0))).1 }) }
          (istgt_listen net (portal_at pgp i).host
            (toInt32 (strtol (portal_at pgp i).port 0))).2
        refine ⟨Event.listen (portal_at pgp i).host (toInt32 (strtol (portal_at pgp i).port 0))
            (istgt_listen net (portal_at pgp i).host
              (toInt32 (strtol (portal_at pgp i).port 0))).1 :: evs, ?_, ?_⟩
        · rw [h1, htr]; simp
        · rcases h2 with h2 | ⟨h, p, x, hx, hm⟩
          · exact Or.inl h2
          · exact Or.inr ⟨h, p, x, hx, List.mem_cons_of_mem _ hm⟩
    · have hstep : open_loop pgp net i (k + 1) = open_loop pgp net (i + 1) k := by
        rw [open_loop]; simp [hs]
      rw [hstep]
      exact ih (i + 1) pgp net

/-- When the events from `tr` on hold no failed listen, an open whose events
are among them returns 0. -/
theorem open_loop_rc_zero (pgp : PORTAL_GROUP) (net : Net) (n : Nat) (tr c e : List Event)
    (hnet : net.trace = tr ++ c)
    (hall : (open_loop pgp net 0 n).2.2.trace = tr ++ e)
    (hs : listens_succeed e = true) : (open_loop pgp net 0 n).1 = 0 := by
  obtain ⟨evs, h1, h2⟩ := open_loop_events n 0 pgp net
  rcases h2 with h2 | ⟨h, p, x, hx, hm⟩
  · exact h2
  · rw [h1, hnet, List.append_assoc] at hall
    have he : e = c ++ evs := (List.append_cancel_left hall).symm
    subst he
    have := listens_succeed_mem ((listens_succeed_append c evs).1 hs).2 hm
    omega

theorem entry_matches_congr {K : Limits} {a b : PORTAL_GROUP} {sp : CF_SECTION} {j : Nat}
    (hl : (portal_at b j).label = (portal_at a j).label)
    (hh : (portal_at b j).host = (portal_at a j).host)
    (hp : (portal_at b j).port = (portal_at a j).port)
    (h : EntryMatches K a sp j) : EntryMatches K b sp j := by
  obtain ⟨l, p, ho, po, h1, h2, h3, h4, h5, h6⟩ := h
  exact ⟨l, p, ho, po, h1, h2, h3, by rw [hl, h4], by rw [hh, h5], by rw [hp, h6]⟩

/-- The strings of a portal are not touched by `istgt_open_portal_group`. -/
theorem open_loop_strings (pgp : PORTAL_GROUP) (net : Net) (i k j : Nat) :
    (portal_at (open_loop pgp net i k).2.1 j).label = (portal_at pgp j).label
    ∧ (portal_at (open_loop pgp net i k).2.1 j).host = (portal_at pgp j).host
    ∧ (portal_at (open_loop pgp net i k).2.1 j).port = (portal_at pgp j).port := by
  rcases (open_loop_spec k i pgp net).2.2.1 j with h | ⟨_, sock, _, h⟩
  · rw [h]; exact ⟨rfl, rfl, rfl⟩
  · rw [h]; exact ⟨rfl, rfl, rfl⟩

/-- The strings of a portal are not touched by `istgt_close_portal_group`. -/
theorem close_loop_strings (pgp : PORTAL_GROUP) (net : Net) (j : Nat)
    (hlen : pgp.portals.length = pgp.nportals) :
    (portal_at (close_loop pgp net 0 pgp.nportals).1 j).label = (portal_at pgp j).label
    ∧ (portal_at (close_loop pgp net 0 pgp.nportals).1 j).host = (portal_at pgp j).host
    ∧ (portal_at (close_loop pgp net 0 pgp.nportals).1 j).port = (portal_at pgp j).port := by
  obtain ⟨_, _, _, _, _, h6, h7⟩ := close_loop_spec pgp.nportals 0 pgp net
  by_cases hj : j < pgp.nportals
  · rw [h7 j (Nat.zero_le _) (by omega) (by omega)]
    by_cases hs : 0 ≤ (portal_at pgp j).sock
    · rw [if_pos hs]; exact ⟨rfl, rfl, rfl⟩
    · rw [if_neg hs]; exact ⟨rfl, rfl, rfl⟩
  · rw [h6 j (Or.inr (by omega))]; exact ⟨rfl, rfl, rfl⟩

/-- Closing the listeners of a slot does not change what
`istgt_pg_match_all` answers for it. -/
theorem match_all_closed (K : Limits) (pgp : PORTAL_GROUP) (net : Net) (sp : CF_SECTION)
    (hlen : pgp.portals.length = pgp.nportals) :
    istgt_pg_match_all K (close_loop pgp net 0 pgp.nportals).1 sp
      = istgt_pg_match_all K pgp sp := by
  have hn := (close_loop_spec pgp.nportals 0 pgp net).1
  apply Bool.eq_iff_iff.2
  rw [pg_match_all_iff, pg_match_all_iff, hn]
  constructor
  · rintro ⟨h1, h2⟩
    refine ⟨fun j hj => ?_, h2⟩
    obtain ⟨a, b, c⟩ := close_loop_strings pgp net j hlen
    exact entry_matches_congr a.symm b.symm c.symm (h1 j hj)
  · rintro ⟨h1, h2⟩
    refine ⟨fun j hj => ?_, h2⟩
    obtain ⟨a, b, c⟩ := close_loop_strings pgp net j hlen
    exact entry_matches_congr a b c (h1 j hj)

/-- A slot that agrees with the section and is opened with success holds the
section's counted portals and has every listener open. -/
theorem opened_holds (K : Limits) (sp : CF_SECTION) (pgp : PORTAL_GROUP) (net : Net) (n : Nat)
    (hn : pgp.nportals = n) (hlen : pgp.portals.length = n)
    (hm : ∀ j, j < n → EntryMatches K pgp sp j)
    (hcnt : count_portals K sp = some n)
    (hrc : (open_loop pgp net 0 n).1 = 0) :
    Holds K (open_loop pgp net 0 n).2.1 sp ∧ AllOpen (open_loop pgp net 0 n).2.1 := by
  have hf := (open_loop_fields n 0 pgp net).2.2.2
  refine ⟨⟨?_, ?_⟩, ?_⟩
  · rw [hf, hn]; exact count_portals_isCount hcnt
  · intro j hj
    rw [hf, hn] at hj
    obtain ⟨a, b, c⟩ := open_loop_strings pgp net 0 n j
    exact entry_matches_congr a b c (hm j hj)
  · intro j hj
    rw [hf, hn] at hj
    exact (open_loop_spec n 0 pgp net).2.2.2.1 hrc j (Nat.zero_le _) (by omega) (by omega)

/-- What follows when table `b` differs from table `a` by a slot `q` that
now carries the tag `x`, and at most by one further slot that carried `x`
and is now free. -/
theorem placed_props (x : Int) (a b : ISTGT) (q : Nat)
    (hu : TagsUnique a) (hr : RefsZero a)
    (hnpg : a.nportal_group ≤ b.nportal_group)
    (hqtag : (pg_at b q).tag = x) (hqref : (pg_at b q).ref = 0)
    (hqold : q < a.nportal_group → (pg_at a q).tag = 0 ∨ (pg_at a q).tag = x)
    (hdiff : ∀ i, i < b.nportal_group → i ≠ q →
      i < a.nportal_group
        ∧ ((pg_at b i = pg_at a i ∧ (pg_at a i).tag ≠ x)
          ∨ ((pg_at b i).tag = 0 ∧ (pg_at a i).tag = x))) :
    TagsUnique b ∧ RefsZero b ∧ SameElsewhere x a b := by
  refine ⟨?_, ?_, hnpg, ?_, ?_⟩
  · intro i hi j hj hti hij
    by_cases hiq : i = q
    · by_cases hjq : j = q
      · rw [hiq, hjq]
      · exfalso
        obtain ⟨_, ⟨e, ne⟩ | ⟨z, _⟩⟩ := hdiff j hj hjq
        · rw [hiq, hqtag, e] at hij; exact ne hij.symm
        · rw [z] at hij; exact hti hij
    · obtain ⟨hia, ⟨ei, nei⟩ | ⟨zi, _⟩⟩ := hdiff i hi hiq
      · by_cases hjq : j = q
        · exfalso
          rw [hjq, hqtag, ei] at hij; exact nei hij
        · obtain ⟨hja, ⟨ej, _⟩ | ⟨zj, _⟩⟩ := hdiff j hj hjq
          · rw [ei] at hti
            rw [ei, ej] at hij
            exact hu i hia j hja hti hij
          · exfalso; rw [zj] at hij; exact hti hij
      · exact absurd zi hti
  · intro i hi hti
    by_cases hiq : i = q
    · rw [hiq]; exact hqref
    · obtain ⟨hia, ⟨ei, _⟩ | ⟨zi, _⟩⟩ := hdiff i hi hiq
      · rw [ei] at hti ⊢; exact hr i hia hti
      · exact absurd zi hti
  · intro i hi ht0 htx
    have hib : i < b.nportal_group := by omega
    have hiq : i ≠ q := by
      intro e
      rw [e] at hi ht0 htx
      rcases hqold hi with z | z
      · exact ht0 z
      · exact htx z
    obtain ⟨_, ⟨ei, _⟩ | ⟨_, zi⟩⟩ := hdiff i hib hiq
    · exact ei
    · exact absurd zi htx
  · intro i hi ht0 htx
    have hiq : i ≠ q := by
      intro e
      rw [e] at htx
      exact htx hqtag
    obtain ⟨hia, ⟨ei, _⟩ | ⟨zi, _⟩⟩ := hdiff i hi hiq
    · exact ⟨hia, ei⟩
    · exact absurd zi ht0

theorem section_call_rc_add (K : Limits) (s : UpdState) (sp : CF_SECTION)
    (hty : sp.type = CF_SECTION_TYPE.ST_PORTALGROUP) (hnum : sp.num ≠ 0)
    (hfind : find_tag_slot s.istgt sp.num = none) :
    section_call_rc K s sp = (istgt_add_portal_group K s.istgt sp (some s.pgp_idx)).1 := by
  unfold section_call_rc
  simp [hty, hnum, hfind]

theorem section_call_rc_update (K : Limits) (s : UpdState) (sp : CF_SECTION) (j : Nat)
    (hty : sp.type = CF_SECTION_TYPE.ST_PORTALGROUP) (hnum : sp.num ≠ 0)
    (hfind : find_tag_slot s.istgt sp.num = some j)
    (hm : istgt_pg_match_all K (pg_at s.istgt j) sp = false)
    (href : (pg_at s.istgt j).ref = 0) :
    section_call_rc K s sp
      = (istgt_update_portal_group K (closed_table s j) sp (pg_at s.istgt j).idx).1 := by
  unfold section_call_rc
  rw [get_tag_portal_eq _ _ hnum, hfind]
  simp [hty, hnum, hm, href]

/-- The slot an open leaves behind when no listen among the new events
failed. -/
theorem opened_slot (K : Limits) (sp : CF_SECTION) (pgp : PORTAL_GROUP) (net : Net) (n : Nat)
    (tr c e : List Event)
    (htag : pgp.tag = sp.num) (href : pgp.ref = 0)
    (hn : pgp.nportals = n) (hlen : pgp.portals.length = n)
    (hm : ∀ j, j < n → EntryMatches K pgp sp j)
    (hcnt : count_portals K sp = some n)
    (hnet : net.trace = tr ++ c)
    (hall : (open_loop pgp net 0 n).2.2.trace = tr ++ e)
    (hs : listens_succeed e = true) :
    (open_loop pgp net 0 n).2.1.tag = sp.num ∧ (open_loop pgp net 0 n).2.1.ref = 0
      ∧ Holds K (open_loop pgp net 0 n).2.1 sp ∧ AllOpen (open_loop pgp net 0 n).2.1 := by
  have hrc := open_loop_rc_zero pgp net n tr c e hnet hall hs
  obtain ⟨f1, f2, _, _⟩ := open_loop_fields n 0 pgp net
  obtain ⟨hh, ho⟩ := opened_holds K sp pgp net n hn hlen hm hcnt hrc
  exact ⟨by rw [f1, htag], by rw [f2, href], hh, ho⟩

theorem step_finish (K : Limits) (sp : CF_SECTION) (a b : ISTGT) (q : Nat) (X : PORTAL_GROUP)
    (hu : TagsUnique a) (hr : RefsZero a)
    (hnpg : a.nportal_group ≤ b.nportal_group) (hq : q < b.nportal_group)
    (hX : pg_at b q = X)
    (hgood : X.tag = sp.num ∧ X.ref = 0 ∧ Holds K X sp ∧ AllOpen X)
    (hqold : q < a.nportal_group → (pg_at a q).tag = 0 ∨ (pg_at a q).tag = sp.num)
    (hdiff : ∀ i, i < b.nportal_group → i ≠ q →
      i < a.nportal_group
        ∧ ((pg_at b i = pg_at a i ∧ (pg_at a i).tag ≠ sp.num)
          ∨ ((pg_at b i).tag = 0 ∧ (pg_at a i).tag = sp.num))) :
    StepGood K sp a b := by
  obtain ⟨g1, g2, g3, g4⟩ := hgood
  obtain ⟨p1, p2, p3⟩ := placed_props sp.num a b q hu hr hnpg (by rw [hX]; exact g1)
    (by rw [hX]; exact g2) hqold hdiff
  exact ⟨p1, p2, p3, q, hq, by rw [hX]; exact g1, by rw [hX]; exact g3,
    Or.inl (by rw [hX]; exact g4)⟩

/-- Adding a section whose tag is absent, with success. -/
theorem section_add_good (K : Limits) (s : UpdState) (sp : CF_SECTION)
    (hok : TableOk K s.istgt) (hu : TagsUnique s.istgt) (hr : RefsZero s.istgt)
    (hfind : find_tag_slot s.istgt sp.num = none)
    (hrc : 0 ≤ (istgt_add_portal_group K s.istgt sp (some s.pgp_idx)).1)
    (e : List Event) (he : (section_add K s sp).net.trace = s.net.trace ++ e)
    (hls : listens_succeed e = true) :
    StepGood K sp s.istgt (section_add K s sp).istgt := by
  have hno := find_tag_slot_none hfind
  rcases section_add_cases K s sp (tableok_sized hok) hok.1 with
    ⟨hf, _, _⟩ | ⟨n, f, pg3, hcnt, hfree, _, hb, _, hT, hN⟩
      | ⟨n, pg3, hcnt, _, hcap, hb, _, hT, hN⟩
  · omega
  · obtain ⟨f1, f2, _, _⟩ := find_free_slot_some hfree
    have hlen : f < s.istgt.portal_group.length := by
      have := hok.1.1; have := hok.1.2; omega
    rw [hN] at he
    rw [hT]
    apply step_finish K sp s.istgt _ f (open_loop pg3 s.net 0 n).2.1 hu hr
    · simp
    · simpa using f1
    · exact pg_at_store_self _ _ _ hlen
    · exact opened_slot K sp pg3 s.net n s.net.trace [] e hb.1 hb.2.1 hb.2.2.2.1
        hb.2.2.2.2.1 (fun j hj => (hb.2.2.2.2.2 j hj).1) hcnt (by simp) he hls
    · intro _; exact Or.inl f2
    · intro i hi hne
      have hi' : i < s.istgt.nportal_group := by simpa using hi
      exact ⟨hi', Or.inl ⟨pg_at_store_ne _ _ _ _ hne, hno i hi'⟩⟩
  · have hlen : s.istgt.nportal_group < s.istgt.portal_group.length := by
      have := hok.1.2; omega
    rw [hN] at he
    rw [hT]
    apply step_finish K sp s.istgt _ s.istgt.nportal_group (open_loop pg3 s.net 0 n).2.1 hu hr
    · show s.istgt.nportal_group ≤ s.istgt.nportal_group + 1
      omega
    · show s.istgt.nportal_group < s.istgt.nportal_group + 1
      omega
    · exact pg_at_store_self _ _ _ hlen
    · exact opened_slot K sp pg3 s.net n s.net.trace [] e hb.1 hb.2.1 hb.2.2.2.1
        hb.2.2.2.2.1 (fun j hj => (hb.2.2.2.2.2 j hj).1) hcnt (by simp) he hls
    · intro h; omega
    · intro i hi hne
      have hi' : i < s.istgt.nportal_group := by
        have : i < s.istgt.nportal_group + 1 := hi
        omega
      exact ⟨hi', Or.inl ⟨pg_at_store_ne _ _ _ _ hne, hno i hi'⟩⟩

/-- Updating the slot of a section that no longer matches, with success. -/
theorem section_update_good (K : Limits) (s : UpdState) (sp : CF_SECTION) (j : Nat)
    (hok : TableOk K s.istgt) (hu : TagsUnique s.istgt) (hr : RefsZero s.istgt)
    (hnum : sp.num ≠ 0)
    (hfind : find_tag_slot s.istgt sp.num = some j)
    (hm : istgt_pg_match_all K (pg_at s.istgt j) sp = false)
    (hrc : 0 ≤ (istgt_update_portal_group K (closed_table s j) sp j).1)
    (e : List Event) (he : (section_update K s sp j j).net.trace = s.net.trace ++ e)
    (hls : listens_succeed e = true) :
    StepGood K sp s.istgt (section_update K s sp j j).istgt := by
  obtain ⟨hj, hjt, _⟩ := find_tag_slot_some hfind
  have hjlen : j < s.istgt.portal_group.length := by
    have := hok.1.1; have := hok.1.2; omega
  have hsz := tableok_sized hok
  have hjref : (pg_at s.istgt j).ref = 0 := hr j hj (by rw [hjt]; exact hnum)
  obtain ⟨c1, c2, c3, _, c5, _, _⟩ :=
    close_loop_spec (pg_at s.istgt j).nportals 0 (pg_at s.istgt j) s.net
  obtain ⟨c, hc, _⟩ := close_loop_trace (pg_at s.istgt j).nportals 0 (pg_at s.istgt j) s.net
  have hcn : (closed_net s j).trace = s.net.trace ++ c := hc
  have hother : ∀ i, i < s.istgt.nportal_group → i ≠ j → (pg_at s.istgt i).tag ≠ sp.num := by
    intro i hi hne ht
    exact hne (hu i hi j hj (by rw [ht]; exact hnum) (by rw [ht, hjt]))
  rcases section_update_cases K s sp j hsz hok.1 hfind with
    ⟨hA, _, _⟩ | ⟨n, pg1, hcnt, hnp, hrw, _, hT, hN⟩ | ⟨n, _, _, _, hC, _, _⟩
      | ⟨n, f, pg3, hcnt, _, hfree, _, hfj, hb, _, hT, hN⟩
      | ⟨n, pg3, hcnt, _, _, hcap, hb, _, hT, hN⟩
  · exfalso
    rcases hA with h | ⟨_, h⟩
    · omega
    · rw [match_all_closed K _ _ _ (hsz j hj), hm] at h
      exact Bool.false_ne_true h
  · rw [hN] at he
    rw [hT]
    obtain ⟨r1, r2, _, r4, r5, r6⟩ := hrw
    apply step_finish K sp s.istgt _ j (open_loop pg1 (closed_net s j) 0 n).2.1 hu hr
    · simp
    · simpa using hj
    · exact pg_at_store_self _ _ _ hjlen
    · exact opened_slot K sp pg1 (closed_net s j) n s.net.trace c e
        (by rw [r1, c2, hjt]) (by rw [r2, c3, hjref]) (by rw [r4, c1, hnp])
        (by rw [r5, c5, hsz j hj, hnp]) (fun l hl => (r6 l hl).1) hcnt hcn he hls
    · intro _; exact Or.inr hjt
    · intro i hi hne
      have hi' : i < s.istgt.nportal_group := by simpa using hi
      exact ⟨hi', Or.inl ⟨pg_at_store_ne _ _ _ _ hne, hother i hi' hne⟩⟩
  · omega
  · obtain ⟨f1, f2, _, _⟩ := find_free_slot_some hfree
    have hflen : f < s.istgt.portal_group.length := by
      have := hok.1.1; have := hok.1.2; omega
    rw [hN] at he
    rw [hT]
    apply step_finish K sp s.istgt _ f (open_loop pg3 (closed_net s j) 0 n).2.1 hu hr
    · simp
    · simpa using f1
    · exact pg_at_store_self _ _ _ (by simpa using hflen)
    · exact opened_slot K sp pg3 (closed_net s j) n s.net.trace c e hb.1
        (by rw [hb.2.1, hjref]) hb.2.2.2.1 hb.2.2.2.2.1
        (fun l hl => (hb.2.2.2.2.2 l hl).1) hcnt hcn he hls
    · intro _; exact Or.inl f2
    · intro i hi hne
      have hi' : i < s.istgt.nportal_group := by simpa using hi
      refine ⟨hi', ?_⟩
      rw [pg_at_store_ne _ _ _ _ hne]
      by_cases hij : i = j
      · right
        rw [hij, pg_at_store_self _ _ _ hjlen]
        exact ⟨rfl, hjt⟩
      · left
        exact ⟨pg_at_store_ne _ _ _ _ hij, hother i hi' hij⟩
  · have hlen : s.istgt.nportal_group < s.istgt.portal_group.length := by
      have := hok.1.2; omega
    rw [hN] at he
    rw [hT]
    apply step_finish K sp s.istgt _ s.istgt.nportal_group
      (open_loop pg3 (closed_net s j) 0 n).2.1 hu hr
    · show s.istgt.nportal_group ≤ s.istgt.nportal_group + 1
      omega
    · show s.istgt.nportal_group < s.istgt.nportal_group + 1
      omega
    · exact pg_at_store_self _ _ _ (by simpa using hlen)
    · exact opened_slot K sp pg3 (closed_net s j) n s.net.trace c e hb.1
        (by rw [hb.2.1, hjref]) hb.2.2.2.1 hb.2.2.2.2.1
        (fun l hl => (hb.2.2.2.2.2 l hl).1) hcnt hcn he hls
    · intro h; omega
    · intro i hi hne
      have hi' : i < s.istgt.nportal_group := by
        have : i < s.istgt.nportal_group + 1 := hi
        omega
      refine ⟨hi', ?_⟩
      by_cases hij : i = j
      · right
        refine ⟨?_, by rw [hij]; exact hjt⟩
        show (pg_at (pg_store (pg_store s.istgt j _) s.istgt.nportal_group _) i).tag = 0
        rw [pg_at_store_ne _ _ _ _ hne, hij, pg_at_store_self _ _ _ hjlen]
      · left
        refine ⟨?_, hother i hi' hij⟩
        show pg_at (pg_store (pg_store s.istgt j _) s.istgt.nportal_group _) i = _
        rw [pg_at_store_ne _ _ _ _ hne, pg_at_store_ne _ _ _ _ hij]

/-- One turn of the loop of `istgt_pg_update` for a `PortalGroup` section
whose call succeeds and whose listens succeed. -/
theorem section_step_good (K : Limits) (s : UpdState) (sp : CF_SECTION)
    (hok : TableOk K s.istgt) (hu : TagsUnique s.istgt) (hr : RefsZero s.istgt)
    (hty : sp.type = CF_SECTION_TYPE.ST_PORTALGROUP) (hnum : sp.num ≠ 0)
    (hrc : 0 ≤ section_call_rc K s sp)
    (e : List Event) (he : (pg_update_section K s sp).net.trace = s.net.trace ++ e)
    (hls : listens_succeed e = true) :
    StepGood K sp s.istgt (pg_update_section K s sp).istgt := by
  cases hfind : find_tag_slot s.istgt sp.num with
  | none =>
    rw [section_call_rc_add K s sp hty hnum hfind] at hrc
    rw [section_eq_add K s sp hty hnum hfind] at he ⊢
    exact section_add_good K s sp hok hu hr hfind hrc e he hls
  | some j =>
    obtain ⟨hj, hjt, _⟩ := find_tag_slot_some hfind
    have hjref : (pg_at s.istgt j).ref = 0 := hr j hj (by rw [hjt]; exact hnum)
    cases hm : istgt_pg_match_all K (pg_at s.istgt j) sp with
    | true =>
      rw [section_eq_skip K s sp j hty hnum hfind (Or.inl hm)]
      refine ⟨hu, hr, ⟨le_refl _, fun _ _ _ _ => rfl, fun i hi _ _ => ⟨hi, rfl⟩⟩,
        j, hj, hjt, ⟨count_portals_isCount (pg_match_all_count hm),
          ((pg_match_all_iff K _ sp).1 hm).1⟩, Or.inr ⟨hj, rfl, hm⟩⟩
    | false =>
      have hidx : (pg_at s.istgt j).idx = j :=
        tableok_idx hok j hj (by rw [hjt]; exact hnum)
      rw [section_call_rc_update K s sp j hty hnum hfind hm hjref, hidx] at hrc
      rw [section_eq_update K s sp j hty hnum hfind hm hjref, hidx] at he ⊢
      exact section_update_good K s sp j hok hu hr hnum hfind hm hrc e he hls

theorem section_nums_cons (sp : CF_SECTION) (rest : List CF_SECTION) :
    section_nums (sp :: rest)
      = if sp.type = CF_SECTION_TYPE.ST_PORTALGROUP then sp.num :: section_nums rest
        else section_nums rest := by
  unfold section_nums
  by_cases h : sp.type = CF_SECTION_TYPE.ST_PORTALGROUP
  · simp [List.filter_cons, h]
  · simp [List.filter_cons, h]

theorem mem_section_nums (secs : List CF_SECTION) (x : Int) :
    x ∈ section_nums secs ↔
      ∃ sp, sp ∈ secs ∧ sp.type = CF_SECTION_TYPE.ST_PORTALGROUP ∧ sp.num = x := by
  unfold section_nums
  simp only [List.mem_map, List.mem_filter, decide_eq_true_eq]
  constructor
  · rintro ⟨sp, ⟨h1, h2⟩, h3⟩; exact ⟨sp, h1, h2, h3⟩
  · rintro ⟨sp, h1, h2, h3⟩; exact ⟨sp, ⟨h1, h2⟩, h3⟩

theorem open_group_trace (pgp : PORTAL_GROUP) (net : Net) :
    ∃ e, (istgt_open_portal_group pgp net).2.2.trace = net.trace ++ e := by
  obtain ⟨e, h, _⟩ := open_loop_events pgp.nportals 0 pgp net
  exact ⟨e, h⟩

/-- One turn of the loop of `istgt_pg_update` only appends to the record of
outside calls. -/
theorem section_trace (K : Limits) (s : UpdState) (sp : CF_SECTION) :
    ∃ e, (pg_update_section K s sp).net.trace = s.net.trace ++ e := by
  by_cases hty : sp.type = CF_SECTION_TYPE.ST_PORTALGROUP
  · by_cases hnum : sp.num = 0
    · rw [section_eq_other K s sp (Or.inr hnum)]; exact ⟨[], by simp⟩
    · cases hfind : find_tag_slot s.istgt sp.num with
      | none =>
        rw [section_eq_add K s sp hty hnum hfind]
        unfold section_add
        by_cases hc : (istgt_add_portal_group K s.istgt sp (some s.pgp_idx)).1 < 0
        · rw [if_pos hc]; exact ⟨[], by simp⟩
        · rw [if_neg hc]; exact open_group_trace _ _
      | some j =>
        by_cases hskip : istgt_pg_match_all K (pg_at s.istgt j) sp = true
            ∨ (pg_at s.istgt j).ref ≠ 0
        · rw [section_eq_skip K s sp j hty hnum hfind hskip]; exact ⟨[], by simp⟩
        · have hm : istgt_pg_match_all K (pg_at s.istgt j) sp = false := by
            cases h : istgt_pg_match_all K (pg_at s.istgt j) sp with
            | true => exact absurd (Or.inl h) hskip
            | false => rfl
          have href : (pg_at s.istgt j).ref = 0 := by
            by_contra h; exact hskip (Or.inr h)
          rw [section_eq_update K s sp j hty hnum hfind hm href]
          obtain ⟨c, hc, _⟩ :=
            close_loop_trace (pg_at s.istgt j).nportals 0 (pg_at s.istgt j) s.net
          have hcn : (closed_net s j).trace = s.net.trace ++ c := hc
          unfold section_update
          split
          · exact ⟨c, hcn⟩
          · obtain ⟨e, he⟩ := open_group_trace
              (pg_at (istgt_update_portal_group K (closed_table s j) sp
                  (pg_at s.istgt j).idx).2.1
                (istgt_update_portal_group K (closed_table s j) sp (pg_at s.istgt j).idx).2.2)
              (closed_net s j)
            exact ⟨c ++ e, by rw [he, hcn, List.append_assoc]⟩
  · rw [section_eq_other K s sp (Or.inl hty)]; exact ⟨[], by simp⟩

theorem fold_trace (K : Limits) : ∀ (secs : List CF_SECTION) (s : UpdState),
    ∃ e, (secs.foldl (pg_update_section K) s).net.trace = s.net.trace ++ e := by
  intro secs
  induction secs with
  | nil => intro s; exact ⟨[], by simp⟩
  | cons sp rest ih =>
    intro s
    obtain ⟨e1, h1⟩ := section_trace K s sp
    obtain ⟨e2, h2⟩ := ih (pg_update_section K s sp)
    exact ⟨e1 ++ e2, by rw [List.foldl_cons, h2, h1, List.append_assoc]⟩

theorem pg_delete_loop_trace : ∀ (k i : Nat) (T : ISTGT) (net : Net),
    ∃ e, (pg_delete_loop T net i k).2.trace = net.trace ++ e := by
  intro k
  induction k with
  | zero => intro i T net; exact ⟨[], by simp [pg_delete_loop]⟩
  | succ k ih =>
    intro i T net
    rw [pg_delete_loop]
    simp only []
    split
    · exact ih _ _ _
    · split
      · split
        · exact ih _ _ _
        · obtain ⟨c, hc, _⟩ := close_loop_trace (pg_at T i).nportals 0
            { pg_at T i with tag := 0 } net
          obtain ⟨e, he⟩ := ih (i + 1)
            (pg_store T i (close_loop { pg_at T i with tag := 0 } net 0 (pg_at T i).nportals).1)
            (close_loop { pg_at T i with tag := 0 } net 0 (pg_at T i).nportals).2
          exact ⟨c ++ e, by
            simp only [istgt_close_portal_group]
            rw [he, hc, List.append_assoc]⟩
      · exact ih _ _ _

/-- The loop of `istgt_pg_update` over sections with distinct non-zero
numbers, when every call and every listen succeeds: each section ends with a
slot that holds its portals, slots of other tags are left alone. `R` is the
table against which "unchanged" is judged. -/
theorem fold_converges (K : Limits) (R : ISTGT) : ∀ (todo : List CF_SECTION) (s : UpdState),
    TableOk K s.istgt → TagsUnique s.istgt → RefsZero s.istgt →
    (∀ sp, sp ∈ todo → sp.type = CF_SECTION_TYPE.ST_PORTALGROUP → sp.num ≠ 0) →
    (section_nums todo).Nodup →
    calls_succeed K s todo = true →
    (∀ e, (todo.foldl (pg_update_section K) s).net.trace = s.net.trace ++ e →
      listens_succeed e = true) →
    (∀ sp, sp ∈ todo → sp.type = CF_SECTION_TYPE.ST_PORTALGROUP →
      ∀ i, i < s.istgt.nportal_group → (pg_at s.istgt i).tag = sp.num →
        i < R.nportal_group ∧ pg_at s.istgt i = pg_at R i) →
    TagsUnique (todo.foldl (pg_update_section K) s).istgt
    ∧ (∀ i, i < (todo.foldl (pg_update_section K) s).istgt.nportal_group →
        (pg_at (todo.foldl (pg_update_section K) s).istgt i).tag ≠ 0 →
        (pg_at (todo.foldl (pg_update_section K) s).istgt i).tag ∈ section_nums todo
          ∨ (i < s.istgt.nportal_group
            ∧ pg_at (todo.foldl (pg_update_section K) s).istgt i = pg_at s.istgt i))
    ∧ (∀ i, i < s.istgt.nportal_group → (pg_at s.istgt i).tag ≠ 0 →
        (pg_at s.istgt i).tag ∉ section_nums todo →
        i < (todo.foldl (pg_update_section K) s).istgt.nportal_group
          ∧ pg_at (todo.foldl (pg_update_section K) s).istgt i = pg_at s.istgt i)
    ∧ (∀ sp, sp ∈ todo → sp.type = CF_SECTION_TYPE.ST_PORTALGROUP →
        ∃ i, i < (todo.foldl (pg_update_section K) s).istgt.nportal_group
          ∧ (pg_at (todo.foldl (pg_update_section K) s).istgt i).tag = sp.num
          ∧ Holds K (pg_at (todo.foldl (pg_update_section K) s).istgt i) sp
          ∧ ((¬ ∃ i0, i0 < R.nportal_group ∧ (pg_at R i0).tag = sp.num
                ∧ istgt_pg_match_all K (pg_at R i0) sp = true) →
              AllOpen (pg_at (todo.foldl (pg_update_section K) s).istgt i))) := by
  intro todo
  induction todo with
  | nil =>
    intro s _ hu _ _ _ _ _ _
    refine ⟨hu, fun i hi _ => Or.inr ⟨hi, rfl⟩, fun i hi _ _ => ⟨hi, rfl⟩, ?_⟩
    intro sp hsp
    exact absurd hsp (List.not_mem_nil sp)
  | cons sp rest ih =>
    intro s hok hu hr hnz hnd hcs hls hfr
    simp only [calls_succeed, Bool.and_eq_true, decide_eq_true_eq] at hcs
    obtain ⟨hrc, hcs'⟩ := hcs
    obtain ⟨e1, h1⟩ := section_trace K s sp
    obtain ⟨e2, h2⟩ := fold_trace K rest (pg_update_section K s sp)
    have hls12 : listens_succeed (e1 ++ e2) = true :=
      hls (e1 ++ e2) (by rw [List.foldl_cons, h2, h1, List.append_assoc])
    have hls1 := ((listens_succeed_append e1 e2).1 hls12).1
    have hls' : ∀ e, (rest.foldl (pg_update_section K) (pg_update_section K s sp)).net.trace
        = (pg_update_section K s sp).net.trace ++ e → listens_succeed e = true := by
      intro e he
      have := hls (e1 ++ e) (by rw [List.foldl_cons, he, h1, List.append_assoc])
      exact ((listens_succeed_append e1 e).1 this).2
    have hok' := section_tableok K s sp hok
    rw [List.foldl_cons]
    by_cases hty : sp.type = CF_SECTION_TYPE.ST_PORTALGROUP
    · have hnum : sp.num ≠ 0 := hnz sp (List.mem_cons_self _ _) hty
      rw [section_nums_cons, if_pos hty] at hnd ⊢
      obtain ⟨hnot, hnd'⟩ := List.nodup_cons.1 hnd
      obtain ⟨gu, gr, ⟨gn, gsame, gback⟩, q, gq, gqt, gqh, gqo⟩ :=
        section_step_good K s sp hok hu hr hty hnum hrc e1 h1 hls1
      have hfr' : ∀ sp', sp' ∈ rest → sp'.type = CF_SECTION_TYPE.ST_PORTALGROUP →
          ∀ i, i < (pg_update_section K s sp).istgt.nportal_group →
            (pg_at (pg_update_section K s sp).istgt i).tag = sp'.num →
            i < R.nportal_group ∧ pg_at (pg_update_section K s sp).istgt i = pg_at R i := by
        intro sp' hm' hty' i hi ht
        have hn0 : sp'.num ≠ 0 := hnz sp' (List.mem_cons_of_mem _ hm') hty'
        have hne : sp'.num ≠ sp.num := by
          intro e
          exact hnot (by rw [← e]; exact (mem_section_nums rest _).2 ⟨sp', hm', hty', rfl⟩)
        obtain ⟨b1, b2⟩ := gback i hi (by rw [ht]; exact hn0) (by rw [ht]; exact hne)
        rw [b2] at ht ⊢
        exact hfr sp' (List.mem_cons_of_mem _ hm') hty' i b1 ht
      obtain ⟨fu, forig, fkeep, ftodo⟩ :=
        ih (pg_update_section K s sp) hok' gu gr
          (fun sp' hm' => hnz sp' (List.mem_cons_of_mem _ hm')) hnd' hcs' hls' hfr'
      refine ⟨fu, ?_, ?_, ?_⟩
      · intro i hi ht
        rcases forig i hi ht with h | ⟨h1', h2'⟩
        · exact Or.inl (List.mem_cons_of_mem _ h)
        · by_cases hx : (pg_at (rest.foldl (pg_update_section K)
              (pg_update_section K s sp)).istgt i).tag = sp.num
          · left; rw [hx]; exact List.mem_cons_self _ _
          · right
            rw [h2'] at ht hx ⊢
            exact gback i h1' ht hx
      · intro i hi ht hnm
        have hx : (pg_at s.istgt i).tag ≠ sp.num := fun e => hnm (by rw [e]; exact List.mem_cons_self _ _)
        have hr' : (pg_at s.istgt i).tag ∉ section_nums rest :=
          fun e => hnm (List.mem_cons_of_mem _ e)
        have e1' := gsame i hi ht hx
        obtain ⟨k1, k2⟩ := fkeep i (by omega) (by rw [e1']; exact ht) (by rw [e1']; exact hr')
        exact ⟨k1, by rw [k2, e1']⟩
      · intro sp' hm' hty'
        rcases List.mem_cons.1 hm' with rfl | hm''
        · obtain ⟨k1, k2⟩ := fkeep q gq (by rw [gqt]; exact hnum) (by rw [gqt]; exact hnot)
          refine ⟨q, k1, by rw [k2]; exact gqt, by rw [k2]; exact gqh, ?_⟩
          intro hno
          rw [k2]
          rcases gqo with h | ⟨q1, q2, q3⟩
          · exact h
          · exfalso
            rw [q2] at gqt
            obtain ⟨r1, r2⟩ := hfr sp' (List.mem_cons_self _ _) hty' q q1 gqt
            exact hno ⟨q, r1, by rw [← r2]; exact gqt, by rw [← r2]; exact q3⟩
        · exact ftodo sp' hm'' hty'
    · rw [section_nums_cons, if_neg hty] at hnd ⊢
      have hsame : pg_update_section K s sp = s := section_eq_other K s sp (Or.inl hty)
      rw [hsame] at hcs' hls' ⊢
      obtain ⟨fu, forig, fkeep, ftodo⟩ :=
        ih s hok hu hr (fun sp' hm' => hnz sp' (List.mem_cons_of_mem _ hm')) hnd hcs' hls'
          (fun sp' hm' => hfr sp' (List.mem_cons_of_mem _ hm'))
      refine ⟨fu, forig, fkeep, ?_⟩
      intro sp' hm' hty'
      rcases List.mem_cons.1 hm' with rfl | hm''
      · exact absurd hty' hty
      · exact ftodo sp' hm'' hty'

/-- A slot after `istgt_pg_delete` is the slot as it was, or is free. -/
theorem pg_delete_slot (T : ISTGT) (net : Net) (i : Nat) :
    pg_at (istgt_pg_delete T net).2.1 i = pg_at T i
      ∨ ((pg_at (istgt_pg_delete T net).2.1 i).tag = 0
        ∧ i < T.nportal_group ∧ Retires T.config (pg_at T i)) := by
  obtain ⟨_, _, _, h4, h5⟩ := pg_delete_loop_spec T.nportal_group 0 T net
  by_cases h : 0 ≤ i ∧ i < 0 + T.nportal_group ∧ Retires T.config (pg_at T i)
  · right
    refine ⟨?_, by omega, h.2.2⟩
    show (pg_at (pg_delete_loop T net 0 T.nportal_group).1 i).tag = 0
    rw [h4 i h.1 h.2.1 h.2.2]
    exact (retired_slot_spec _).1
  · left
    exact h5 i h

theorem open_loop_idle : ∀ (k i : Nat) (pgp : PORTAL_GROUP) (net : Net),
    (∀ j, i ≤ j → j < i + k → 0 ≤ (portal_at pgp j).sock) →
    open_loop pgp net i k = (0, pgp, net) := by
  intro k
  induction k with
  | zero => intro i pgp net _; rfl
  | succ k ih =>
    intro i pgp net h
    have hs : ¬ (portal_at pgp i).sock < 0 := by
      have := h i (le_refl _) (by omega); omega
    have hstep : open_loop pgp net i (k + 1) = open_loop pgp net (i + 1) k := by
      rw [open_loop]; simp [hs]
    rw [hstep]
    exact ih (i + 1) pgp net (fun j h1 h2 => h j (by omega) (by omega))

theorem close_loop_idle : ∀ (k i : Nat) (pgp : PORTAL_GROUP) (net : Net),
    (∀ j, i ≤ j → j < i + k → (portal_at pgp j).sock < 0) →
    close_loop pgp net i k = (pgp, net) := by
  intro k
  induction k with
  | zero => intro i pgp net _; rfl
  | succ k ih =>
    intro i pgp net h
    have hs : ¬ (portal_at pgp i).sock ≥ 0 := by
      have := h i (le_refl _) (by omega); omega
    have hstep : close_loop pgp net i (k + 1) = close_loop pgp net (i + 1) k := by
      rw [close_loop]; simp [hs]
    rw [hstep]
    exact ih (i + 1) pgp net (fun j h1 h2 => h j (by omega) (by omega))

/-- The calls of `close` made by the loop of `istgt_close_portal_group`: one
for each portal of its range that holds a descriptor, in order. -/
theorem close_loop_events : ∀ (k i : Nat) (pgp : PORTAL_GROUP) (net : Net),
    (close_loop pgp net i k).2.trace
      = net.trace ++ ((((List.range' i k).map (fun j => (portal_at pgp j).sock)).filter
          (fun s => 0 ≤ s)).map Event.close) := by
  intro k
  induction k with
  | zero => intro i pgp net; simp [close_loop]
  | succ k ih =>
    intro i pgp net
    by_cases hs : (portal_at pgp i).sock ≥ 0
    · have hstep : close_loop pgp net i (k + 1)
          = close_loop
              { pgp with portals := (pgp.portals.set i { portal_at pgp i with sock := -1 }) }
              (sys_close net (portal_at pgp i).sock) (i + 1) k := by
        rw [close_loop]; simp [hs]
      rw [hstep, ih]
      have hcongr : (List.range' (i + 1) k).map (fun j => (portal_at
            { pgp with portals := (pgp.portals.set i { portal_at pgp i with sock := -1 }) }
            j).sock)
          = (List.range' (i + 1) k).map (fun j => (portal_at pgp j).sock) := by
        apply List.map_congr_left
        intro j hj
        have : i + 1 ≤ j := (List.mem_range'_1.1 hj).1
        rw [portal_at_set_ne _ _ _ _ (by omega)]
      rw [hcongr]
      have hge : (0 : Int) ≤ (portal_at pgp i).sock := hs
      simp [sys_close, List.range'_succ, List.filter_cons, hge]
    · have hstep : close_loop pgp net i (k + 1) = close_loop pgp net (i + 1) k := by
        rw [close_loop]; simp [hs]
      rw [hstep, ih]
      have hlt : ¬ (0 : Int) ≤ (portal_at pgp i).sock := hs
      simp [List.range'_succ, List.filter_cons, hlt]

/-- When the loop of `istgt_open_portal_group` fails it has stopped at a
portal without listener: that portal and the later ones are as before, the
earlier ones of the range are open, and the last call recorded is the listen
that failed. -/
theorem open_loop_failure : ∀ (k i : Nat) (pgp : PORTAL_GROUP) (net : Net),
    (open_loop pgp net i k).1 ≠ 0 →
    ∃ m, i ≤ m ∧ m < i + k ∧ (portal_at pgp m).sock < 0
      ∧ (∀ j, m ≤ j → portal_at (open_loop pgp net i k).2.1 j = portal_at pgp j)
      ∧ (∀ j, i ≤ j → j < m → j < pgp.portals.length →
          0 ≤ (portal_at (open_loop pgp net i k).2.1 j).sock)
      ∧ ∃ r, r < 0 ∧ (open_loop pgp net i k).2.2.trace.getLast?
          = some (Event.listen (portal_at pgp m).host
              (toInt32 (strtol (portal_at pgp m).port 0)) r) := by
  intro k
  induction k with
  | zero => intro i pgp net h; exact absurd rfl h
  | succ k ih =>
    intro i pgp net h
    by_cases hs : (portal_at pgp i).sock < 0
    · by_cases hl : (istgt_listen net (portal_at pgp i).host
          (toInt32 (strtol (portal_at pgp i).port 0))).1 < 0
      · have hstep : open_loop pgp net i (k + 1)
            = (-1, pgp, (istgt_listen net (portal_at pgp i).host
                (toInt32 (strtol (portal_at pgp i).port 0))).2) := by
          rw [open_loop]; simp [hs, hl]
        rw [hstep]
        refine ⟨i, le_refl _, by omega, hs, fun _ _ => rfl, fun j a b _ => by omega, _, hl, ?_⟩
        show (istgt_listen net _ _).2.trace.getLast? = _
        rw [istgt_listen_trace]
        simp
      · have hstep : open_loop pgp net i (k + 1)
            = open_loop
                { pgp with portals := (pgp.portals.set i
                    { portal_at pgp i with sock := (istgt_listen net (portal_at pgp i).host
                      (toInt32 (strtol (portal_at pgp i).port 0))).1 }) }
                (istgt_listen net (portal_at pgp i).host
                  (toInt32 (strtol (portal_at pgp i).port 0))).2 (i + 1) k := by
          rw [open_loop]; simp [hs, hl]
        rw [hstep] at h ⊢
        obtain ⟨m, m1, m2, m3, m4, m5, r, m6, m7⟩ := ih (i + 1) _ _ h
        have hmi : m ≠ i := by omega
        rw [portal_at_set_ne _ _ _ _ hmi] at m3 m7
        refine ⟨m, by omega, by omega, m3, ?_, ?_, r, m6, m7⟩
        · intro j hj
          rw [m4 j hj]
          exact portal_at_set_ne _ _ _ _ (by omega)
        · intro j hj1 hj2 hj3
          by_cases hji : j = i
          · subst hji
            rw [(open_loop_spec k (j + 1) _ _).2.1 j (Or.inl (by omega)),
              portal_at_set_self _ _ _ hj3]
            exact not_lt.mp hl
          · exact m5 j (by omega) hj2 (by simpa using hj3)
    · have hstep : open_loop pgp net i (k + 1) = open_loop pgp net (i + 1) k := by
        rw [open_loop]; simp [hs]
      rw [hstep] at h ⊢
      obtain ⟨m, m1, m2, m3, m4, m5, m6⟩ := ih (i + 1) pgp net h
      refine ⟨m, by omega, by omega, m3, m4, ?_, m6⟩
      intro j hj1 hj2 hj3
      by_cases hji : j = i
      · subst hji
        rw [(open_loop_spec k (j + 1) pgp net).2.1 j (Or.inl (by omega))]
        exact not_lt.mp hs
      · exact m5 j (by omega) hj2 hj3

theorem digit_facts (c : Char) (h : IsDigit c) :
    digitVal c = some (c.toNat - '0'.toNat) ∧ c.toNat - '0'.toNat < 10
      ∧ isspace c = false ∧ c ≠ '-' ∧ c ≠ '+' := by
  unfold IsDigit at h
  simp only [List.mem_cons, List.mem_singleton, List.not_mem_nil, or_false] at h
  rcases h with rfl | rfl | rfl | rfl | rfl | rfl | rfl | rfl | rfl | rfl <;> decide

theorem strtol_digits_decimal : ∀ (s : CStr) (acc : Nat), (∀ c, c ∈ s → IsDigit c) →
    strtol_digits 10 s acc = s.foldl (fun a c => a * 10 + (c.toNat - '0'.toNat)) acc := by
  intro s
  induction s with
  | nil => intro acc _; rfl
  | cons c cs ih =>
    intro acc h
    obtain ⟨h1, h2, _⟩ := digit_facts c (h c (List.mem_cons_self _ _))
    rw [strtol_digits, h1]
    simp only [h2, if_true, List.foldl_cons]
    exact ih _ (fun d hd => h d (List.mem_cons_of_mem _ hd))

theorem hexPrefixed_of_ne (c : Char) (cs : CStr) (h : c ≠ '0') : hexPrefixed (c :: cs) = false := by
  unfold hexPrefixed
  split
  · rename_i heq
    simp only [List.cons.injEq] at heq
    exact absurd heq.1 h
  · rfl

/-- The port a listener is opened on, for a port text written as a plain
decimal number, is the base-10 value of the text. -/
theorem strtol_plain (s : CStr) (h : PlainDecimal s) :
    toInt32 (strtol s 0) = (decimal_value s : Int) := by
  obtain ⟨hne, hdig, hz, hlt⟩ := h
  cases s with
  | nil => exact absurd rfl hne
  | cons c cs =>
    obtain ⟨_, _, hsp, hm, hp⟩ := digit_facts c (hdig c (List.mem_cons_self _ _))
    have hc0 : c ≠ '0' := by
      intro e; apply hz; rw [e]; rfl
    have hv : strtol (c :: cs) 0 = (decimal_value (c :: cs) : Int) := by
      unfold strtol
      simp only [List.dropWhile_cons, hsp, List.head?_cons, Option.some.injEq, hm, hp,
        or_self, if_false, hexPrefixed_of_ne c cs hc0, hc0, and_false, if_true,
        Bool.false_eq_true]
      rw [strtol_digits_decimal (c :: cs) 0 hdig]
      have : ((List.foldl (fun a c => a * 10 + (c.toNat - '0'.toNat)) 0 (c :: cs) : Nat) : Int)
          < 2 ^ 31 := by
        have := hlt
        unfold decimal_value at this
        exact_mod_cast this
      simp only [decide_False, Bool.false_eq_true, if_false, decimal_value]
      exact min_eq_left (by omega)
    rw [hv]
    unfold toInt32
    have : ((decimal_value (c :: cs) : Nat) : Int) < 2 ^ 31 := by exact_mod_cast hlt
    omega

theorem listen_targets_eq (conv : CStr → Int) (ps : List PORTAL) (n : Nat) :
    listen_targets conv ps n = targets_range conv ps 0 n := by
  unfold listen_targets targets_range
  rw [List.range_eq_range']

theorem targets_range_succ (conv : CStr → Int) (ps : List PORTAL) (i k : Nat) :
    targets_range conv ps i (k + 1)
      = if (ps.getD i default).sock < 0 then
          ((ps.getD i default).host, conv (ps.getD i default).port)
            :: targets_range conv ps (i + 1) k
        else targets_range conv ps (i + 1) k := by
  unfold targets_range
  rw [List.range'_succ, List.filter_cons]
  by_cases h : (ps.getD i default).sock < 0
  · rw [if_pos (decide_eq_true h), if_pos h, List.map_cons]
  · rw [if_neg (by simpa using h), if_neg h]

theorem targets_range_set (conv : CStr → Int) (ps : List PORTAL) (i k l : Nat) (p : PORTAL)
    (h : l < i) : targets_range conv (ps.set l p) i k = targets_range conv ps i k := by
  unfold targets_range
  have hget : ∀ j, j ∈ List.range' i k → (ps.set l p).getD j default = ps.getD j default := by
    intro j hj
    have : i ≤ j := (List.mem_range'_1.1 hj).1
    simp [List.getD_eq_getElem?_getD, List.getElem?_set_ne (show l ≠ j by omega)]
  rw [List.filter_congr (fun j hj => by rw [hget j hj])]
  apply List.map_congr_left
  intro j hj
  rw [hget j (List.mem_filter.1 hj).1]

theorem targets_range_congr (f g : CStr → Int) (ps : List PORTAL) (i k : Nat)
    (h : ∀ j, i ≤ j → j < i + k → (ps.getD j default).sock < 0 →
      f (ps.getD j default).port = g (ps.getD j default).port) :
    targets_range f ps i k = targets_range g ps i k := by
  unfold targets_range
  apply List.map_congr_left
  intro j hj
  obtain ⟨h1, h2⟩ := List.mem_filter.1 hj
  obtain ⟨a, b⟩ := List.mem_range'_1.1 h1
  rw [h j a b (by simpa using h2)]

/-- The listen calls of the loop of `istgt_open_portal_group`: in order, one
for each portal without listener, with its host and `(int)strtol(port, NULL,
0)`, up to the first that fails. -/
theorem open_loop_requests : ∀ (k i : Nat) (pgp : PORTAL_GROUP) (net : Net),
    ∃ evs rest, (open_loop pgp net i k).2.2.trace = net.trace ++ evs
      ∧ targets_range (fun s => toInt32 (strtol s 0)) pgp.portals i k
          = listen_requests evs ++ rest
      ∧ ((open_loop pgp net i k).1 = 0 → rest = []) := by
  intro k
  induction k with
  | zero =>
    intro i pgp net
    exact ⟨[], [], by simp [open_loop], by simp [targets_range, listen_requests], fun _ => rfl⟩
  | succ k ih =>
    intro i pgp net
    rw [targets_range_succ]
    by_cases hs : (portal_at pgp i).sock < 0
    · have hs' : (pgp.portals.getD i default).sock < 0 := hs
      rw [if_pos hs']
      have htr := istgt_listen_trace net (portal_at pgp i).host
        (toInt32 (strtol (portal_at pgp i).port 0))
      by_cases hl : (istgt_listen net (portal_at pgp i).host
          (toInt32 (strtol (portal_at pgp i).port 0))).1 < 0
      · have hstep : open_loop pgp net i (k + 1)
            = (-1, pgp, (istgt_listen net (portal_at pgp i).host
                (toInt32 (strtol (portal_at pgp i).port 0))).2) := by
          rw [open_loop]; simp [hs, hl]
        rw [hstep]
        exact ⟨[Event.listen (portal_at pgp i).host (toInt32 (strtol (portal_at pgp i).port 0))
            (istgt_listen net (portal_at pgp i).host
              (toInt32 (strtol (portal_at pgp i).port 0))).1],
          targets_range (fun s => toInt32 (strtol s 0)) pgp.portals (i + 1) k, htr,
          by simp [listen_requests, portal_at], fun h => by simp at h⟩
      · have hstep : open_loop pgp net i (k + 1)
            = open_loop
                { pgp with portals := (pgp.portals.set i
                    { portal_at pgp i with sock := (istgt_listen net (portal_at pgp i).host
                      (toInt32 (strtol (portal_at pgp i).port 0))).1 }) }
                (istgt_listen net (portal_at pgp i).host
                  (toInt32 (strtol (portal_at pgp i).port 0))).2 (i + 1) k := by
          rw [open_loop]; simp [hs, hl]
        rw [hstep]
        obtain ⟨evs, rest, h1, h2, h3⟩ := ih (i + 1)
          { pgp with portals := (pgp.portals.set i
              { portal_at pgp i with sock := (istgt_listen net (portal_at pgp i).host
                (toInt32 (strtol (portal_at pgp i).port 0))).1 }) }
          (istgt_listen net (portal_at pgp i).host
            (toInt32 (strtol (portal_at pgp i).port 0))).2
        simp only [] at h2
        rw [targets_range_set _ _ _ _ _ _ (Nat.lt_succ_self i)] at h2
        refine ⟨Event.listen (portal_at pgp i).host (toInt32 (strtol (portal_at pgp i).port 0))
            (istgt_listen net (portal_at pgp i).host
              (toInt32 (strtol (portal_at pgp i).port 0))).1 :: evs, rest, ?_, ?_, h3⟩
        · rw [h1, htr]; simp
        · rw [h2]; simp [listen_requests, portal_at]
    · have hs' : ¬ (pgp.portals.getD i default).sock < 0 := hs
      rw [if_neg hs']
      have hstep : open_loop pgp net i (k + 1) = open_loop pgp net (i + 1) k := by
        rw [open_loop]; simp [hs]
      rw [hstep]
      exact ih (i + 1) pgp net

/-- The loop of `istgt_open_uctl_portal` is the loop of
`istgt_open_portal_group` run on the unit-control portals. -/
theorem open_uctl_loop_eq : ∀ (k i : Nat) (uc : ISTGT_UC) (net : Net),
    open_uctl_loop uc net i k
      = ((open_loop (uc_group uc) net i k).1,
         { uc with uctl_portal := (open_loop (uc_group uc) net i k).2.1.portals },
         (open_loop (uc_group uc) net i k).2.2) := by
  intro k
  induction k with
  | zero => intro i uc net; rfl
  | succ k ih =>
    intro i uc net
    have hat : portal_at (uc_group uc) i = uctl_at uc i := rfl
    by_cases hs : (uctl_at uc i).sock < 0
    · by_cases hl : (istgt_listen net (uctl_at uc i).host
          (toInt32 (strtol (uctl_at uc i).port 0))).1 < 0
      · rw [open_uctl_loop, open_loop]
        simp [hat, hs, hl]
        rfl
      · rw [open_uctl_loop, open_loop]
        simp only [hat, hs, hl, if_true, if_false]
        rw [ih]
        rfl
    · rw [open_uctl_loop, open_loop]
      simp only [hat, hs, if_false]
      exact ih (i + 1) uc net

theorem open_group_requests (pgp : PORTAL_GROUP) (net : Net)
    (hpg : ∀ j, j < pgp.nportals → (portal_at pgp j).sock < 0 →
      PlainDecimal (portal_at pgp j).port) :
    ∃ rest, listen_targets (fun s => (decimal_value s : Int)) pgp.portals pgp.nportals
        = listen_requests (events_since net (open_loop pgp net 0 pgp.nportals).2.2) ++ rest
      ∧ ((open_loop pgp net 0 pgp.nportals).1 = 0 → rest = []) := by
  obtain ⟨evs, rest, h1, h2, h3⟩ := open_loop_requests pgp.nportals 0 pgp net
  refine ⟨rest, ?_, h3⟩
  unfold events_since
  rw [h1, List.drop_left, listen_targets_eq, ← h2]
  apply targets_range_congr
  intro j _ hj hs
  exact (strtol_plain _ (hpg j (by omega) hs)).symm

theorem nval_beyond (sp : CF_SECTION) (key : CStr) (i : Nat)
    (h : sp.item.length ≤ i) : istgt_get_nval sp key i = none := by
  unfold istgt_get_nval istgt_find_cf_nitem
  have hlen : (sp.item.filter (fun ip => decide (ip.key = key))).length ≤ i :=
    le_trans (List.length_filter_le _ _) h
  have : (sp.item.filter (fun ip => decide (ip.key = key)))[i]? = none :=
    List.getElem?_eq_none hlen
  simp [this]

theorem count_vals_loop_spec (sp : CF_SECTION) (key : CStr) : ∀ (k i : Nat),
    sp.item.length ≤ i + k →
    i ≤ count_vals_loop sp key i k
    ∧ (∀ j, i ≤ j → j < count_vals_loop sp key i k → (istgt_get_nval sp key j).isSome)
    ∧ istgt_get_nval sp key (count_vals_loop sp key i k) = none := by
  intro k
  induction k with
  | zero =>
    intro i h
    exact ⟨le_refl _, fun j a b => by simp [count_vals_loop] at b; omega,
      nval_beyond sp key i (by simpa using h)⟩
  | succ k ih =>
    intro i h
    cases hv : istgt_get_nval sp key i with
    | none =>
      have e : count_vals_loop sp key i (k + 1) = i := by rw [count_vals_loop, hv]
      rw [e]
      exact ⟨le_refl _, fun j a b => by omega, hv⟩
    | some v =>
      have e : count_vals_loop sp key i (k + 1) = count_vals_loop sp key (i + 1) k := by
        rw [count_vals_loop, hv]
      rw [e]
      obtain ⟨h1, h2, h3⟩ := ih (i + 1) (by omega)
      refine ⟨by omega, ?_, h3⟩
      intro j a b
      by_cases hji : j = i
      · subst hji; simp [hv]
      · exact h2 j (by omega) b

/-- The count of a key: the entries below it have a value, the entry at it
has none. -/
theorem count_vals_spec (sp : CF_SECTION) (key : CStr) :
    (∀ j, j < count_vals sp key → (istgt_get_nval sp key j).isSome)
    ∧ istgt_get_nval sp key (count_vals sp key) = none := by
  obtain ⟨_, h2, h3⟩ := count_vals_loop_spec sp key sp.item.length 0 (by omega)
  exact ⟨fun j hj => h2 j (Nat.zero_le _) hj, h3⟩

theorem copy_vals_loop_spec (sp : CF_SECTION) (key : CStr) : ∀ (k i : Nat) (arr : List CStr),
    (copy_vals_loop sp key arr i k).length = arr.length
    ∧ (∀ j, (j < i ∨ i + k ≤ j) → (copy_vals_loop sp key arr i k).getD j [] = arr.getD j [])
    ∧ (∀ j, i ≤ j → j < i + k → j < arr.length →
        (copy_vals_loop sp key arr i k).getD j [] = (istgt_get_nval sp key j).getD []) := by
  intro k
  induction k with
  | zero => intro i arr; exact ⟨rfl, fun _ _ => rfl, fun j a b => by omega⟩
  | succ k ih =>
    intro i arr
    rw [copy_vals_loop]
    obtain ⟨h1, h2, h3⟩ := ih (i + 1) (arr.set i ((istgt_get_nval sp key i).getD []))
    refine ⟨by rw [h1]; simp, ?_, ?_⟩
    · intro j hj
      rw [h2 j (by omega)]
      simp [List.getD_eq_getElem?_getD, List.getElem?_set_ne (show i ≠ j by omega)]
    · intro j a b c
      by_cases hji : j = i
      · subst hji
        rw [h2 j (Or.inl (by omega))]
        simp [List.getD_eq_getElem?_getD, List.getElem?_set_self, c]
      · exact h3 j (by omega) (by omega) (by simpa using c)

theorem ig_match_loop_iff (vals : List CStr) (sp : CF_SECTION) (key : CStr) : ∀ (k i : Nat),
    ig_match_loop vals sp key i k = true ↔
      ∀ j, i ≤ j → j < i + k → istgt_get_nval sp key j = some (vals.getD j []) := by
  intro k
  induction k with
  | zero => intro i; simp [ig_match_loop]; intro j a b; omega
  | succ k ih =>
    intro i
    rw [ig_match_loop]
    cases hv : istgt_get_nval sp key i with
    | none =>
      simp only [Bool.false_eq_true, false_iff]
      intro h
      have := h i (le_refl _) (by omega)
      rw [hv] at this
      exact Option.noConfusion this
    | some v =>
      by_cases hne : vals.getD i [] = v
      · simp only [hne, ne_eq, not_true_eq_false, if_false]
        rw [ih (i + 1)]
        constructor
        · intro h j a b
          by_cases hji : j = i
          · subst hji; rw [hv, hne]
          · exact h j (by omega) (by omega)
        · intro h j a b
          exact h j (by omega) (by omega)
      · simp only [ne_eq, hne, not_false_eq_true, if_true, Bool.false_eq_true, false_iff]
        intro h
        have := h i (le_refl _) (by omega)
        rw [hv] at this
        exact hne (Option.some.inj this).symm

/-- The answer of `istgt_ig_match_all`: the names and the netmasks of the
group are the values of the section, entry by entry, and the section has no
further value of either key. -/
theorem ig_match_all_iff (igp : INITIATOR_GROUP) (sp : CF_SECTION) :
    istgt_ig_match_all igp sp = true ↔
      (∀ j, j < igp.ninitiators →
        istgt_get_nval sp kInitiatorName j = some (igp.initiators.getD j []))
      ∧ istgt_get_nval sp kInitiatorName igp.ninitiators = none
      ∧ (∀ j, j < igp.nnetmasks →
        istgt_get_nval sp kNetmask j = some (igp.netmasks.getD j []))
      ∧ istgt_get_nval sp kNetmask igp.nnetmasks = none := by
  unfold istgt_ig_match_all
  have e1 := ig_match_loop_iff igp.initiators sp kInitiatorName igp.ninitiators 0
  have e2 := ig_match_loop_iff igp.netmasks sp kNetmask igp.nnetmasks 0
  constructor
  · intro h
    split at h
    · rename_i a
      split at h
      · exact absurd h Bool.false_ne_true
      · rename_i b
        split at h
        · rename_i c
          split at h
          · exact absurd h Bool.false_ne_true
          · rename_i d
            refine ⟨fun j hj => e1.1 a j (Nat.zero_le _) (by omega), ?_,
              fun j hj => e2.1 c j (Nat.zero_le _) (by omega), ?_⟩
            · simpa using b
            · simpa using d
        · exact absurd h Bool.false_ne_true
    · exact absurd h Bool.false_ne_true
  · rintro ⟨a, b, c, d⟩
    rw [if_pos (e1.2 (fun j _ hj => a j (by omega))), b,
      if_pos (e2.2 (fun j _ hj => c j (by omega))), d]
    simp

theorem find_ig_slot_some {istgt : ISTGT_IG} {num : Int} {i : Nat}
    (h : find_ig_slot istgt num = some i) :
    i < istgt.ninitiator_group ∧ (ig_at istgt i).tag = num := by
  obtain ⟨_, h2, h3, _⟩ := find_from_some _ _ _ h
  exact ⟨by omega, by simpa using h3⟩

theorem find_ig_slot_none {istgt : ISTGT_IG} {num : Int}
    (h : ∀ i, i < istgt.ninitiator_group → (ig_at istgt i).tag ≠ num) :
    find_ig_slot istgt num = none := by
  cases hf : find_ig_slot istgt num with
  | none => rfl
  | some i =>
    obtain ⟨a, b⟩ := find_ig_slot_some hf
    exact absurd b (h i a)

theorem ig_at_store_self (istgt : ISTGT_IG) (i : Nat) (ig : INITIATOR_GROUP)
    (h : i < istgt.initiator_group.length) : ig_at (ig_store istgt i ig) i = ig := by
  simp [ig_at, ig_store, List.getD_eq_getElem?_getD, List.getElem?_set_self, h]

theorem ig_at_store_ne (istgt : ISTGT_IG) (i j : Nat) (ig : INITIATOR_GROUP) (h : j ≠ i) :
    ig_at (ig_store istgt i ig) j = ig_at istgt j := by
  simp [ig_at, ig_store, List.getD_eq_getElem?_getD, List.getElem?_set_ne (Ne.symm h)]

theorem find_ig_slot_store (istgt : ISTGT_IG) (i : Nat) (ig : INITIATOR_GROUP) (num : Int)
    (htag : ig.tag = (ig_at istgt i).tag) :
    find_ig_slot (ig_store istgt i ig) num = find_ig_slot istgt num := by
  unfold find_ig_slot
  apply find_from_congr
  intro l _ _
  by_cases hl : l = i
  · subst hl
    by_cases hlen : l < istgt.initiator_group.length
    · rw [ig_at_store_self _ _ _ hlen, htag]
    · simp [ig_at, ig_store, List.set_eq_of_length_le (not_lt.mp hlen)]
  · rw [ig_at_store_ne _ _ _ _ hl]

theorem copied_vals (sp : CF_SECTION) (key : CStr) :
    (copy_vals_loop sp key (List.replicate (count_vals sp key) []) 0 (count_vals sp key)).length
      = count_vals sp key
    ∧ ∀ j, j < count_vals sp key →
        istgt_get_nval sp key j
          = some ((copy_vals_loop sp key (List.replicate (count_vals sp key) []) 0
              (count_vals sp key)).getD j []) := by
  obtain ⟨h1, _, h3⟩ := copy_vals_loop_spec sp key (count_vals sp key) 0
    (List.replicate (count_vals sp key) [])
  refine ⟨by rw [h1]; simp, ?_⟩
  intro j hj
  rw [h3 j (Nat.zero_le _) (by omega) (by simpa using hj)]
  have := (count_vals_spec sp key).1 j hj
  cases hv : istgt_get_nval sp key j with
  | none => rw [hv] at this; exact absurd this (by simp)
  | some v => rfl

theorem ig_rewrite_matches (sp : CF_SECTION) (ig : INITIATOR_GROUP) :
    istgt_ig_match_all (ig_rewrite sp ig) sp = true := by
  rw [ig_match_all_iff]
  exact ⟨(copied_vals sp kInitiatorName).2, (count_vals_spec sp kInitiatorName).2,
    (copied_vals sp kNetmask).2, (count_vals_spec sp kNetmask).2⟩

theorem update_ig_changed (L : IGLimits) (istgt : ISTGT_IG) (sp : CF_SECTION) (idx : Nat)
    (hfind : find_ig_slot istgt sp.num = some idx)
    (hn : count_vals sp kInitiatorName ≤ L.MAX_INITIATOR)
    (hm : count_vals sp kNetmask ≤ L.MAX_NETMASK)
    (hmatch : istgt_ig_match_all (ig_at istgt idx) sp = false) :
    istgt_update_initiator_group L istgt sp
      = (1, ig_store istgt idx (ig_rewrite sp (ig_at istgt idx))) := by
  unfold istgt_update_initiator_group
  simp only [gt_iff_lt, not_lt.mpr hn, not_lt.mpr hm, if_false, hfind, hmatch,
    Bool.false_eq_true]
  rfl

theorem update_ig_same (L : IGLimits) (istgt : ISTGT_IG) (sp : CF_SECTION) (idx : Nat)
    (hfind : find_ig_slot istgt sp.num = some idx)
    (hn : count_vals sp kInitiatorName ≤ L.MAX_INITIATOR)
    (hm : count_vals sp kNetmask ≤ L.MAX_NETMASK)
    (hmatch : istgt_ig_match_all (ig_at istgt idx) sp = true) :
    istgt_update_initiator_group L istgt sp = (0, istgt) := by
  unfold istgt_update_initiator_group
  simp only [gt_iff_lt, not_lt.mpr hn, not_lt.mpr hm, if_false, hfind, hmatch, if_true]

theorem ig_store_frame (istgt : ISTGT_IG) (i : Nat) (ig : INITIATOR_GROUP) :
    (ig_store istgt i ig).config = istgt.config
    ∧ (ig_store istgt i ig).config_old = istgt.config_old
    ∧ (ig_store istgt i ig).generation = istgt.generation
    ∧ (ig_store istgt i ig).ninitiator_group = istgt.ninitiator_group :=
  ⟨rfl, rfl, rfl, rfl⟩

theorem ig_shift_loop_frame : ∀ (k j : Nat) (istgt : ISTGT_IG),
    (ig_shift_loop istgt j k).config = istgt.config
    ∧ (ig_shift_loop istgt j k).config_old = istgt.config_old
    ∧ (ig_shift_loop istgt j k).generation = istgt.generation
    ∧ (ig_shift_loop istgt j k).ninitiator_group = istgt.ninitiator_group := by
  intro k
  induction k with
  | zero => intro j istgt; exact ⟨rfl, rfl, rfl, rfl⟩
  | succ k ih =>
    intro j istgt
    rw [ig_shift_loop]
    split
    · obtain ⟨a, b, c, d⟩ := ih (j + 1) (ig_store istgt j (ig_at istgt (j + 1)))
      exact ⟨a, b, c, d⟩
    · exact ⟨rfl, rfl, rfl, rfl⟩

theorem ig_reload_delete_loop_frame : ∀ (k i : Nat) (istgt : ISTGT_IG),
    (ig_reload_delete_loop istgt i k).config = istgt.config
    ∧ (ig_reload_delete_loop istgt i k).config_old = istgt.config_old
    ∧ (ig_reload_delete_loop istgt i k).generation = istgt.generation := by
  intro k
  induction k with
  | zero => intro i istgt; exact ⟨rfl, rfl, rfl⟩
  | succ k ih =>
    intro i istgt
    rw [ig_reload_delete_loop]
    simp only []
    split
    · split
      · split
        · exact ih _ _
        · obtain ⟨a, b, c⟩ := ih (i + 1)
            { ig_shift_loop istgt i istgt.ninitiator_group with
              ninitiator_group :=
                (ig_shift_loop istgt i istgt.ninitiator_group).ninitiator_group - 1 }
          obtain ⟨d, e, f, _⟩ := ig_shift_loop_frame istgt.ninitiator_group i istgt
          exact ⟨a.trans d, b.trans e, c.trans f⟩
      · exact ih _ _
    · exact ⟨rfl, rfl, rfl⟩

theorem add_ig_frame (L : IGLimits) (istgt : ISTGT_IG) (sp : CF_SECTION) :
    (istgt_add_initiator_group L istgt sp).2.config = istgt.config
    ∧ (istgt_add_initiator_group L istgt sp).2.config_old = istgt.config_old
    ∧ (istgt_add_initiator_group L istgt sp).2.generation = istgt.generation := by
  unfold istgt_add_initiator_group
  simp only []
  split
  · exact ⟨rfl, rfl, rfl⟩
  · split
    · exact ⟨rfl, rfl, rfl⟩
    · split
      · exact ⟨rfl, rfl, rfl⟩
      · exact ⟨rfl, rfl, rfl⟩

theorem update_ig_frame (L : IGLimits) (istgt : ISTGT_IG) (sp : CF_SECTION) :
    (istgt_update_initiator_group L istgt sp).2.config = istgt.config
    ∧ (istgt_update_initiator_group L istgt sp).2.config_old = istgt.config_old
    ∧ (istgt_update_initiator_group L istgt sp).2.generation = istgt.generation := by
  unfold istgt_update_initiator_group
  simp only []
  split
  · exact ⟨rfl, rfl, rfl⟩
  · split
    · exact ⟨rfl, rfl, rfl⟩
    · split
      · exact ⟨rfl, rfl, rfl⟩
      · split
        · exact ⟨rfl, rfl, rfl⟩
        · exact ⟨rfl, rfl, rfl⟩

theorem ig_reload_update_section_frame (L : IGLimits) (istgt : ISTGT_IG) (sp : CF_SECTION) :
    (ig_reload_update_section L istgt sp).config = istgt.config
    ∧ (ig_reload_update_section L istgt sp).config_old = istgt.config_old
    ∧ (ig_reload_update_section L istgt sp).generation = istgt.generation := by
  unfold ig_reload_update_section
  by_cases hty : sp.type = CF_SECTION_TYPE.ST_INITIATORGROUP
  · by_cases hnum : sp.num = 0
    · rw [if_pos hty, if_pos hnum]
      exact ⟨rfl, rfl, rfl⟩
    · by_cases hf : (find_ig_slot istgt sp.num).isSome = true
      · simp [hty, hnum, hf]
        exact update_ig_frame L istgt sp
      · simp [hty, hnum, hf]
        exact add_ig_frame L istgt sp
  · rw [if_neg hty]
    exact ⟨rfl, rfl, rfl⟩

theorem ig_reload_update_fold_frame (L : IGLimits) : ∀ (secs : List CF_SECTION)
    (istgt : ISTGT_IG),
    (secs.foldl (ig_reload_update_section L) istgt).config = istgt.config
    ∧ (secs.foldl (ig_reload_update_section L) istgt).config_old = istgt.config_old
    ∧ (secs.foldl (ig_reload_update_section L) istgt).generation = istgt.generation := by
  intro secs
  induction secs with
  | nil => intro istgt; exact ⟨rfl, rfl, rfl⟩
  | cons sp rest ih =>
    intro istgt
    obtain ⟨a, b, c⟩ := ih (ig_reload_update_section L istgt sp)
    obtain ⟨d, e, f⟩ := ig_reload_update_section_frame L istgt sp
    exact ⟨a.trans d, b.trans e, c.trans f⟩

/-- The outcomes of `istgt_reload`: a failure before the swap, which changes
nothing; a failure after it, or success, with the new configuration in place
and `generation` incremented. -/
theorem reload_cases (L : IGLimits) (o : RELOAD_OUTCOMES) (istgt : ISTGT_IG) :
    (¬ ReadOk o ∧ istgt_reload L o istgt = (-1, istgt))
    ∨ (ReadOk o
      ∧ (istgt_reload L o istgt).2.config = o.config_new
      ∧ (istgt_reload L o istgt).2.generation = (istgt.generation + 1) % 2 ^ 32
      ∧ (((istgt_reload L o istgt).1 = -1
            ∧ (istgt_reload L o istgt).2.config_old = some istgt.config
            ∧ (o.lu_reload_delete < 0 ∨ o.pg_reload_delete < 0 ∨ o.pg_reload_update < 0
                ∨ o.lu_reload_update < 0))
          ∨ ((istgt_reload L o istgt).1 = 0
            ∧ (istgt_reload L o istgt).2.config_old = none
            ∧ 0 ≤ o.lu_reload_delete ∧ 0 ≤ o.pg_reload_delete ∧ 0 ≤ o.pg_reload_update
            ∧ 0 ≤ o.lu_reload_update))) := by
  by_cases h1 : o.read_rc < 0
  · left
    refine ⟨fun h => by have := h.1; omega, ?_⟩
    unfold istgt_reload
    simp only [h1, if_true]
  · by_cases h2 : o.config_new.section_ = []
    · left
      refine ⟨fun h => h.2 h2, ?_⟩
      unfold istgt_reload
      simp only [h1, h2, if_true, if_false]
    · right
      have hread : ReadOk o := ⟨by omega, h2⟩
      obtain ⟨d1, d2, d3⟩ := ig_reload_delete_loop_frame
        (reload_swap o istgt).ninitiator_group 0 (reload_swap o istgt)
      obtain ⟨u1, u2, u3⟩ := ig_reload_update_fold_frame L
        (ig_reload_delete_loop (reload_swap o istgt) 0
          (reload_swap o istgt).ninitiator_group).config.section_
        (ig_reload_delete_loop (reload_swap o istgt) 0 (reload_swap o istgt).ninitiator_group)
      refine ⟨hread, ?_⟩
      by_cases a : o.lu_reload_delete < 0
      · have e : istgt_reload L o istgt = (-1, reload_swap o istgt) := by
          unfold istgt_reload
          simp only [h1, h2, a, if_true, if_false]
          rfl
        rw [e]
        exact ⟨rfl, rfl, Or.inl ⟨rfl, rfl, Or.inl a⟩⟩
      · by_cases b : o.pg_reload_delete < 0
        · have e : istgt_reload L o istgt
              = (-1, ig_reload_delete_loop (reload_swap o istgt) 0
                  (reload_swap o istgt).ninitiator_group) := by
            unfold istgt_reload
            simp only [h1, h2, a, b, if_true, if_false, istgt_ig_reload_delete,
              lt_self_iff_false]
            rfl
          rw [e]
          exact ⟨d1, d3, Or.inl ⟨rfl, d2, Or.inr (Or.inl b)⟩⟩
        · by_cases c : o.pg_reload_update < 0
          · have e : istgt_reload L o istgt
                = (-1, ig_reload_delete_loop (reload_swap o istgt) 0
                    (reload_swap o istgt).ninitiator_group) := by
              unfold istgt_reload
              simp only [h1, h2, a, b, c, if_true, if_false, istgt_ig_reload_delete,
                lt_self_iff_false]
              rfl
            rw [e]
            exact ⟨d1, d3, Or.inl ⟨rfl, d2, Or.inr (Or.inr (Or.inl c))⟩⟩
          · by_cases d : o.lu_reload_update < 0
            · have e : istgt_reload L o istgt
                  = (-1, (ig_reload_delete_loop (reload_swap o istgt) 0
                      (reload_swap o istgt).ninitiator_group).config.section_.foldl
                        (ig_reload_update_section L)
                        (ig_reload_delete_loop (reload_swap o istgt) 0
                          (reload_swap o istgt).ninitiator_group)) := by
                unfold istgt_reload
                simp only [h1, h2, a, b, c, d, if_true, if_false, istgt_ig_reload_delete,
                  istgt_ig_reload_update, lt_self_iff_false]
                rfl
              rw [e]
              exact ⟨u1.trans d1, u3.trans d3,
                Or.inl ⟨rfl, u2.trans d2, Or.inr (Or.inr (Or.inr d))⟩⟩
            · have e : istgt_reload L o istgt
                  = (0, { (ig_reload_delete_loop (reload_swap o istgt) 0
                      (reload_swap o istgt).ninitiator_group).config.section_.foldl
                        (ig_reload_update_section L)
                        (ig_reload_delete_loop (reload_swap o istgt) 0
                          (reload_swap o istgt).ninitiator_group) with config_old := none }) := by
                unfold istgt_reload
                simp only [h1, h2, a, b, c, d, if_true, if_false, istgt_ig_reload_delete,
                  istgt_ig_reload_update, lt_self_iff_false]
                rfl
              rw [e]
              exact ⟨u1.trans d1, u3.trans d3,
                Or.inr ⟨rfl, rfl, by omega, by omega, by omega, by omega⟩⟩

theorem nmval_walk_eq : ∀ (vs : List CStr) (j c : Int), j ≤ c →
    nmval_walk vs j c = vs[(c - j).toNat]? := by
  intro vs
  induction vs with
  | nil => intro j c _; rfl
  | cons v vs ih =>
    intro j c hjc
    rw [nmval_walk]
    by_cases h : j = c
    · subst h; simp
    · rw [if_neg h, ih (j + 1) c (by omega)]
      have e : (c - j).toNat = (c - (j + 1)).toNat + 1 := by omega
      rw [e, List.getElem?_cons_succ]

theorem nmval_walk_neg : ∀ (vs : List CStr) (j c : Int), c < j → nmval_walk vs j c = none := by
  intro vs
  induction vs with
  | nil => intro j c _; rfl
  | cons v vs ih =>
    intro j c hjc
    rw [nmval_walk, if_neg (by omega), ih (j + 1) c (by omega)]

theorem nmval_eq_spec (sp : CF_SECTION) (key : CStr) (i c : Int) :
    istgt_get_nmval sp key i c = nmval_spec sp key i c := by
  unfold istgt_get_nmval nmval_spec
  cases istgt_find_cf_nitem sp key i with
  | none => rfl
  | some ip =>
    simp only []
    by_cases hc : 0 ≤ c
    · rw [nmval_walk_eq ip.val 0 c hc]
      simp only [sub_zero]
      by_cases hl : c < ip.val.length
      · rw [if_pos ⟨hc, hl⟩]
      · rw [if_neg (fun h => hl h.2)]
        apply List.getElem?_eq_none
        omega
    · rw [if_neg (fun h => hc h.1), nmval_walk_neg ip.val 0 c (by omega)]

theorem nval_eq_nmval (sp : CF_SECTION) (key : CStr) (i : Int) :
    istgt_get_nval sp key i = istgt_get_nmval sp key i 0 := by
  unfold istgt_get_nval istgt_get_nmval
  cases istgt_find_cf_nitem sp key i with
  | none => rfl
  | some ip =>
    simp only []
    cases ip.val with
    | nil => rfl
    | cons v vs => simp [nmval_walk]

theorem unsigned_part_digit (c : Char) (cs : CStr) (h : IsDigit c) :
    unsigned_part (c :: cs) = c :: cs := by
  obtain ⟨_, _, _, hm, hp⟩ := digit_facts c h
  unfold unsigned_part
  simp [hm, hp]

/-- The value `strtol(s, NULL, 10)` of a text made of an optional sign and
decimal digits is the base-10 value of the text, clamped to the range of
`long`. -/
theorem strtol_decimal_text (s : CStr) (h : IsDecimalText s)
    (hlo : -(2 : Int) ^ 63 ≤ decimal_int s) (hhi : decimal_int s < (2 : Int) ^ 63) :
    strtol s 10 = decimal_int s := by
  obtain ⟨hne, hdig⟩ := h
  cases s with
  | nil => exact absurd rfl hne
  | cons c cs =>
    have hsp : isspace c = false := by
      by_cases hs : c = '-' ∨ c = '+'
      · rcases hs with rfl | rfl <;> decide
      · have hu : unsigned_part (c :: cs) = c :: cs := by
          unfold unsigned_part; simp at hs; simp [hs.1, hs.2]
        rw [hu] at hdig
        exact (digit_facts c (hdig c (List.mem_cons_self _ _))).2.2.1
    have h16 : ¬ ((10 : Nat) = 0 ∨ (10 : Nat) = 16) := by decide
    unfold strtol
    simp only [List.dropWhile_cons, hsp, Bool.false_eq_true, if_false, List.head?_cons,
      Option.some.injEq, h16, false_and, OfNat.ofNat_ne_zero]
    have hu : (if c = '-' ∨ c = '+' then (c :: cs).drop 1 else c :: cs)
        = unsigned_part (c :: cs) := by
      unfold unsigned_part; simp
    rw [hu]
    have hno : ¬ (((False ∨ (10 : Nat) = 16) ∧ hexPrefixed (unsigned_part (c :: cs)) = true)) := by
      intro hx
      rcases hx.1 with hf | hf
      · exact hf
      · exact absurd hf (by decide)
    rw [if_neg hno, strtol_digits_decimal _ 0 hdig]
    unfold decimal_int at hlo hhi ⊢
    simp only [List.head?_cons, Option.some.injEq] at hlo hhi ⊢
    unfold decimal_value at hlo hhi ⊢
    by_cases hneg : c = '-'
    · simp only [hneg, if_true, decide_True] at hlo hhi ⊢
      exact max_eq_left (by omega)
    · simp only [hneg, if_false, decide_False, Bool.false_eq_true] at hlo hhi ⊢
      exact min_eq_left (by omega)

/-- The conversion `(int)` keeps a value of the range of `int`. -/
theorem toInt32_id (v : Int) (hlo : -(2 : Int) ^ 31 ≤ v) (hhi : v < (2 : Int) ^ 31) :
    toInt32 v = v := by
  unfold toInt32
  omega

/-- The accessor `istgt_get_nintval` reads a text made of an optional sign
and decimal digits, with a value in the range of `int`, as its base-10
value. -/
theorem nintval_decimal (sp : CF_SECTION) (key : CStr) (i : Int) (v : CStr)
    (hv : istgt_get_nval sp key i = some v) (hd : IsDecimalText v)
    (hlo : -(2 : Int) ^ 31 ≤ decimal_int v) (hhi : decimal_int v < (2 : Int) ^ 31) :
    istgt_get_nintval sp key i = decimal_int v := by
  unfold istgt_get_nintval
  rw [hv]
  simp only []
  rw [strtol_decimal_text v hd (by omega) (by omega), toInt32_id _ hlo hhi]

theorem run_blocks_cons_ok (b : ISTGT_GLOBAL → Except ISTGT_GLOBAL ISTGT_GLOBAL)
    (bs : List (ISTGT_GLOBAL → Except ISTGT_GLOBAL ISTGT_GLOBAL)) (g g' : ISTGT_GLOBAL) :
    run_blocks (b :: bs) g = .ok g' ↔ ∃ g1, b g = .ok g1 ∧ run_blocks bs g1 = .ok g' := by
  rw [run_blocks]
  cases hb : b g with
  | error e => simp
  | ok g1 => simp

theorem run_blocks_nil_ok (g g' : ISTGT_GLOBAL) : run_blocks [] g = .ok g' ↔ g' = g := by
  rw [run_blocks]
  constructor
  · intro h; cases h; rfl
  · intro h; rw [h]

theorem except_error_of_not_ok (r : Except ISTGT_GLOBAL ISTGT_GLOBAL)
    (h : ∀ c, r ≠ .ok c) : ∃ e, r = .error e := by
  cases r with
  | error e => exact ⟨e, rfl⟩
  | ok c => exact absurd rfl (h c)

/-- A block that fails on every structure makes the run fail. -/
theorem run_blocks_error (b : ISTGT_GLOBAL → Except ISTGT_GLOBAL ISTGT_GLOBAL) :
    ∀ (bs : List (ISTGT_GLOBAL → Except ISTGT_GLOBAL ISTGT_GLOBAL)), b ∈ bs →
    (∀ g, ∃ e, b g = .error e) → ∀ g, ∃ e, run_blocks bs g = .error e := by
  intro bs
  induction bs with
  | nil => intro hb; cases hb
  | cons x xs ih =>
    intro hb hfail g
    rw [run_blocks]
    cases hx : x g with
    | error e => exact ⟨e, rfl⟩
    | ok g1 =>
      rcases List.mem_cons.1 hb with rfl | hmem
      · obtain ⟨e, he⟩ := hfail g
        rw [hx] at he
        cases he
      · exact ih hmem hfail g1

theorem init_strings_ok (D : InitDefaults) (sp : CF_SECTION) (a c : ISTGT_GLOBAL) :
    init_strings D sp a = .ok c ↔
      c = { a with
        pidfile := (istgt_get_val sp kPidFile).getD D.DEFAULT_PIDFILE,
        authfile := (istgt_get_val sp kAuthFile).getD D.DEFAULT_AUTHFILE,
        mediadirectory := (istgt_get_val sp kMediaDirectory).getD D.DEFAULT_MEDIADIRECTORY,
        nodebase := (istgt_get_val sp kNodeBase).getD D.DEFAULT_NODEBASE } := by
  unfold init_strings
  constructor
  · intro h; cases h; rfl
  · intro h; rw [h]

theorem init_sessions_ok (D : InitDefaults) (sp : CF_SECTION) (a c : ISTGT_GLOBAL) :
    init_sessions D sp a = .ok c ↔
      effective (istgt_get_intval sp kMaxSessions) 1 D.DEFAULT_MAX_SESSIONS ≤ 65535
      ∧ effective (istgt_get_intval sp kMaxConnections) 1 D.DEFAULT_MAX_CONNECTIONS ≤ 65535
      ∧ c = { a with
          MaxSessions := effective (istgt_get_intval sp kMaxSessions) 1 D.DEFAULT_MAX_SESSIONS,
          MaxConnections :=
            effective (istgt_get_intval sp kMaxConnections) 1 D.DEFAULT_MAX_CONNECTIONS } := by
  unfold init_sessions effective
  simp only []
  split_ifs <;> constructor <;> intro h <;> first
    | (cases h; done)
    | (cases h; refine ⟨by omega, by omega, rfl⟩)
    | (obtain ⟨h1, h2, h3⟩ := h; omega)
    | (obtain ⟨h1, h2, h3⟩ := h; rw [h3])

theorem init_r2t_times_ok (D : InitDefaults) (sp : CF_SECTION) (a c : ISTGT_GLOBAL) :
    init_r2t_times D sp a = .ok c ↔
      effective (istgt_get_intval sp kMaxOutstandingR2T) 1 D.DEFAULT_MAXOUTSTANDINGR2T ≤ 65535
      ∧ effective (istgt_get_intval sp kDefaultTime2Wait) 0 D.DEFAULT_DEFAULTTIME2WAIT ≤ 3600
      ∧ effective (istgt_get_intval sp kDefaultTime2Retain) 0 D.DEFAULT_DEFAULTTIME2RETAIN
          ≤ 3600
      ∧ c = { a with
          MaxOutstandingR2T :=
            effective (istgt_get_intval sp kMaxOutstandingR2T) 1 D.DEFAULT_MAXOUTSTANDINGR2T,
          DefaultTime2Wait :=
            effective (istgt_get_intval sp kDefaultTime2Wait) 0 D.DEFAULT_DEFAULTTIME2WAIT,
          DefaultTime2Retain :=
            effective (istgt_get_intval sp kDefaultTime2Retain) 0
              D.DEFAULT_DEFAULTTIME2RETAIN } := by
  unfold init_r2t_times effective
  simp only []
  split_ifs <;> constructor <;> intro h <;> first
    | (cases h; done)
    | (cases h; refine ⟨by omega, by omega, by omega, rfl⟩)
    | (obtain ⟨h1, h2, h3, h4⟩ := h; omega)
    | (obtain ⟨h1, h2, h3, h4⟩ := h; rw [h4])

theorem init_burst_ok (D : InitDefaults) (sp : CF_SECTION) (a c : ISTGT_GLOBAL) :
    init_burst D sp a = .ok c ↔
      512 ≤ effective (istgt_get_intval sp kMaxBurstLength) 0 D.DEFAULT_MAXBURSTLENGTH
      ∧ 512 ≤ effective (istgt_get_intval sp kFirstBurstLength) 0 D.DEFAULT_FIRSTBURSTLENGTH
      ∧ effective (istgt_get_intval sp kFirstBurstLength) 0 D.DEFAULT_FIRSTBURSTLENGTH
          ≤ effective (istgt_get_intval sp kMaxBurstLength) 0 D.DEFAULT_MAXBURSTLENGTH
      ∧ effective (istgt_get_intval sp kMaxBurstLength) 0 D.DEFAULT_MAXBURSTLENGTH ≤ 16777215
      ∧ 512 ≤ effective (istgt_get_intval sp kMaxRecvDataSegmentLength) 0
          D.DEFAULT_MAXRECVDATASEGMENTLENGTH
      ∧ effective (istgt_get_intval sp kMaxRecvDataSegmentLength) 0
          D.DEFAULT_MAXRECVDATASEGMENTLENGTH ≤ 16777215
      ∧ c = { a with
          FirstBurstLength :=
            effective (istgt_get_intval sp kFirstBurstLength) 0 D.DEFAULT_FIRSTBURSTLENGTH,
          MaxBurstLength :=
            effective (istgt_get_intval sp kMaxBurstLength) 0 D.DEFAULT_MAXBURSTLENGTH,
          MaxRecvDataSegmentLength :=
            effective (istgt_get_intval sp kMaxRecvDataSegmentLength) 0
              D.DEFAULT_MAXRECVDATASEGMENTLENGTH } := by
  unfold init_burst effective
  simp only []
  generalize (if istgt_get_intval sp kFirstBurstLength < 0 then D.DEFAULT_FIRSTBURSTLENGTH
    else istgt_get_intval sp kFirstBurstLength) = F
  generalize (if istgt_get_intval sp kMaxBurstLength < 0 then D.DEFAULT_MAXBURSTLENGTH
    else istgt_get_intval sp kMaxBurstLength) = M
  generalize (if istgt_get_intval sp kMaxRecvDataSegmentLength < 0 then
      D.DEFAULT_MAXRECVDATASEGMENTLENGTH
    else istgt_get_intval sp kMaxRecvDataSegmentLength) = R
  split_ifs <;> constructor <;> intro h <;> first
    | (cases h; done)
    | (cases h; refine ⟨by omega, by omega, by omega, by omega, by omega, by omega, rfl⟩)
    | (obtain ⟨h1, h2, h3, h4, h5, h6, h7⟩ := h; omega)
    | (obtain ⟨h1, h2, h3, h4, h5, h6, h7⟩ := h; rw [h7])

theorem flag_yes_only_some (v : CStr) (dflt : Int) :
    flag_yes_only (some v) dflt = if strcasecmp v kYes = 0 then some 1 else none := by
  unfold flag_yes_only
  by_cases h : strcasecmp v kYes = 0
  · simp [h]
  · simp [h]

theorem init_initial_r2t_ok (D : InitDefaults) (sp : CF_SECTION) (a c : ISTGT_GLOBAL) :
    init_initial_r2t D sp a = .ok c ↔
      ∃ v, flag_yes_only (istgt_get_val sp kInitialR2T) D.DEFAULT_INITIALR2T = some v
        ∧ c = { a with InitialR2T := v } := by
  unfold init_initial_r2t
  cases flag_yes_only (istgt_get_val sp kInitialR2T) D.DEFAULT_INITIALR2T with
  | none => simp
  | some v =>
    simp only [Except.ok.injEq, Option.some.injEq, exists_eq_left']
    exact eq_comm

theorem init_immediate_data_ok (D : InitDefaults) (sp : CF_SECTION) (a c : ISTGT_GLOBAL) :
    init_immediate_data D sp a = .ok c ↔
      ∃ v, flag_yes_no (istgt_get_val sp kImmediateData) D.DEFAULT_IMMEDIATEDATA = some v
        ∧ c = { a with ImmediateData := v } := by
  unfold init_immediate_data
  cases flag_yes_no (istgt_get_val sp kImmediateData) D.DEFAULT_IMMEDIATEDATA with
  | none => simp
  | some v =>
    simp only [Except.ok.injEq, Option.some.injEq, exists_eq_left']
    exact eq_comm

theorem init_data_pdu_in_order_ok (D : InitDefaults) (sp : CF_SECTION) (a c : ISTGT_GLOBAL) :
    init_data_pdu_in_order D sp a = .ok c ↔
      ∃ v, flag_yes_only (istgt_get_val sp kDataPDUInOrder) D.DEFAULT_DATAPDUINORDER = some v
        ∧ c = { a with DataPDUInOrder := v } := by
  unfold init_data_pdu_in_order
  cases flag_yes_only (istgt_get_val sp kDataPDUInOrder) D.DEFAULT_DATAPDUINORDER with
  | none => simp
  | some v =>
    simp only [Except.ok.injEq, Option.some.injEq, exists_eq_left']
    exact eq_comm

theorem init_data_sequence_in_order_ok (D : InitDefaults) (sp : CF_SECTION)
    (a c : ISTGT_GLOBAL) :
    init_data_sequence_in_order D sp a = .ok c ↔
      ∃ v, flag_yes_only (istgt_get_val sp kDataSequenceInOrder)
          D.DEFAULT_DATASEQUENCEINORDER = some v
        ∧ c = { a with DataSequenceInOrder := v } := by
  unfold init_data_sequence_in_order
  cases flag_yes_only (istgt_get_val sp kDataSequenceInOrder)
      D.DEFAULT_DATASEQUENCEINORDER with
  | none => simp
  | some v =>
    simp only [Except.ok.injEq, Option.some.injEq, exists_eq_left']
    exact eq_comm

theorem init_error_recovery_level_ok (D : InitDefaults) (sp : CF_SECTION)
    (a c : ISTGT_GLOBAL) (h : init_error_recovery_level D sp a = .ok c) :
    c = { a with ErrorRecoveryLevel := c.ErrorRecoveryLevel } := by
  unfold init_error_recovery_level at h
  split_ifs at h <;> cases h <;> rfl

theorem init_timeouts_ok (D : InitDefaults) (sp : CF_SECTION) (a c : ISTGT_GLOBAL) :
    init_timeouts D sp a = .ok c ↔
      c = { a with
        timeout := effective (istgt_get_intval sp kTimeout) 0 D.DEFAULT_TIMEOUT,
        nopininterval :=
          effective (istgt_get_intval sp kNopInInterval) 0 D.DEFAULT_NOPININTERVAL } := by
  unfold init_timeouts effective
  simp only [Except.ok.injEq]
  exact eq_comm

theorem init_maxr2t_ok (D : InitDefaults) (sp : CF_SECTION) (a c : ISTGT_GLOBAL) :
    init_maxr2t D sp a = .ok c ↔
      effective (istgt_get_intval sp kMaxR2T) 0 D.DEFAULT_MAXR2T ≤ D.MAX_R2T
      ∧ c = { a with maxr2t := effective (istgt_get_intval sp kMaxR2T) 0 D.DEFAULT_MAXR2T } := by
  unfold init_maxr2t effective
  simp only []
  split_ifs <;> constructor <;> intro h <;> first
    | (cases h; done)
    | (cases h; refine ⟨by omega, rfl⟩)
    | (obtain ⟨h1, h2⟩ := h; omega)
    | (obtain ⟨h1, h2⟩ := h; rw [h2])

theorem auth_method_loop_frame (sp : CF_SECTION) : ∀ (k i : Nat) (g c : ISTGT_GLOBAL),
    auth_method_loop sp g i k = .ok c →
    c = { g with no_discovery_auth := c.no_discovery_auth,
                 req_discovery_auth := c.req_discovery_auth,
                 req_discovery_auth_mutual := c.req_discovery_auth_mutual } := by
  intro k
  induction k with
  | zero => intro i g c h; rw [auth_method_loop] at h; cases h; rfl
  | succ k ih =>
    intro i g c h
    rw [auth_method_loop] at h
    split at h
    · cases h; rfl
    · split_ifs at h
      · have h2 := ih _ _ _ h
        exact h2
      · have h2 := ih _ _ _ h
        exact h2
      · have h2 := ih _ _ _ h
        exact h2
      · have h2 := ih _ _ _ h
        exact h2

theorem init_discovery_auth_method_frame (sp : CF_SECTION) (a c : ISTGT_GLOBAL)
    (h : init_discovery_auth_method sp a = .ok c) :
    c = { a with no_discovery_auth := c.no_discovery_auth,
                 req_discovery_auth := c.req_discovery_auth,
                 req_discovery_auth_mutual := c.req_discovery_auth_mutual } := by
  unfold init_discovery_auth_method at h
  split at h
  · cases h; rfl
  · split at h
    · cases h
    · rename_i g1 heq
      split_ifs at h
      cases h
      have h2 := auth_method_loop_frame sp _ _ _ _ heq
      exact h2

theorem init_discovery_auth_group_frame (sp : CF_SECTION) (a c : ISTGT_GLOBAL)
    (h : init_discovery_auth_group sp a = .ok c) :
    c = { a with discovery_auth_group := c.discovery_auth_group } := by
  unfold init_discovery_auth_group at h
  split at h
  · cases h; rfl
  · split_ifs at h
    · cases h; rfl
    · split at h
      · cases h
      · split_ifs at h
        cases h; rfl

/-- When the blocks of `istgt_init` go through, the structure holds what was
read. -/
theorem run_init_ok (D : InitDefaults) (sp : CF_SECTION) (g g' : ISTGT_GLOBAL)
    (h : run_blocks (init_blocks D sp) g = .ok g') : StoredAsRead D sp g' := by
  unfold init_blocks at h
  simp only [run_blocks_cons_ok, run_blocks_nil_ok] at h
  obtain ⟨g1, h1, g2, h2, g3, h3, g4, h4, g5, h5, g6, h6, g7, h7, g8, h8, g9, h9, g10, h10,
    g11, h11, g12, h12, g13, h13, hfin⟩ := h
  subst hfin
  have e1 := (init_strings_ok D sp _ _).1 h1
  obtain ⟨a1, a2, e2⟩ := (init_sessions_ok D sp _ _).1 h2
  obtain ⟨b1, b2, b3, e3⟩ := (init_r2t_times_ok D sp _ _).1 h3
  obtain ⟨c1, c2, c3, c4, c5, c6, e4⟩ := (init_burst_ok D sp _ _).1 h4
  obtain ⟨v5, d5, e5⟩ := (init_initial_r2t_ok D sp _ _).1 h5
  obtain ⟨v6, d6, e6⟩ := (init_immediate_data_ok D sp _ _).1 h6
  obtain ⟨v7, d7, e7⟩ := (init_data_pdu_in_order_ok D sp _ _).1 h7
  obtain ⟨v8, d8, e8⟩ := (init_data_sequence_in_order_ok D sp _ _).1 h8
  have e9 := init_error_recovery_level_ok D sp _ _ h9
  have e10 := (init_timeouts_ok D sp _ _).1 h10
  obtain ⟨f1, e11⟩ := (init_maxr2t_ok D sp _ _).1 h11
  have e12 := init_discovery_auth_method_frame sp _ _ h12
  have e13 := init_discovery_auth_group_frame sp _ _ h13
  have qMaxSessions : g'.MaxSessions = effective (istgt_get_intval sp kMaxSessions) 1 D.DEFAULT_MAX_SESSIONS := by
    have t13 : g'.MaxSessions = g12.MaxSessions := by
      have t := congrArg ISTGT_GLOBAL.MaxSessions e13
      exact t
    have t12 : g12.MaxSessions = g11.MaxSessions := by
      have t := congrArg ISTGT_GLOBAL.MaxSessions e12
      exact t
    have t11 : g11.MaxSessions = g10.MaxSessions := by
      have t := congrArg ISTGT_GLOBAL.MaxSessions e11
      exact t
    have t10 : g10.MaxSessions = g9.MaxSessions := by
      have t := congrArg ISTGT_GLOBAL.MaxSessions e10
      exact t
    have t9 : g9.MaxSessions = g8.MaxSessions := by
      have t := congrArg ISTGT_GLOBAL.MaxSessions e9
      exact t
    have t8 : g8.MaxSessions = g7.MaxSessions := by
      have t := congrArg ISTGT_GLOBAL.MaxSessions e8
      exact t
    have t7 : g7.MaxSessions = g6.MaxSessions := by
      have t := congrArg ISTGT_GLOBAL.MaxSessions e7
      exact t
    have t6 : g6.MaxSessions = g5.MaxSessions := by
      have t := congrArg ISTGT_GLOBAL.MaxSessions e6
      exact t
    have t5 : g5.MaxSessions = g4.MaxSessions := by
      have t := congrArg ISTGT_GLOBAL.MaxSessions e5
      exact t
    have t4 : g4.MaxSessions = g3.MaxSessions := by
      have t := congrArg ISTGT_GLOBAL.MaxSessions e4
      exact t
    have t3 : g3.MaxSessions = g2.MaxSessions := by
      have t := congrArg ISTGT_GLOBAL.MaxSessions e3
      exact t
    have t2 : g2.MaxSessions = effective (istgt_get_intval sp kMaxSessions) 1 D.DEFAULT_MAX_SESSIONS := by
      have t := congrArg ISTGT_GLOBAL.MaxSessions e2
      exact t
    rw [t13, t12, t11, t10, t9, t8, t7, t6, t5, t4, t3, t2]
  have qMaxConnections : g'.MaxConnections = effective (istgt_get_intval sp kMaxConnections) 1 D.DEFAULT_MAX_CONNECTIONS := by
    have t13 : g'.MaxConnections = g12.MaxConnections := by
      have t := congrArg ISTGT_GLOBAL.MaxConnections e13
      exact t
    have t12 : g12.MaxConnections = g11.MaxConnections := by
      have t := congrArg ISTGT_GLOBAL.MaxConnections e12
      exact t
    have t11 : g11.MaxConnections = g10.MaxConnections := by
      have t := congrArg ISTGT_GLOBAL.MaxConnections e11
      exact t
    have t10 : g10.MaxConnections = g9.MaxConnections := by
      have t := congrArg ISTGT_GLOBAL.MaxConnections e10
      exact t
    have t9 : g9.MaxConnections = g8.MaxConnections := by
      have t := congrArg ISTGT_GLOBAL.MaxConnections e9
      exact t
    have t8 : g8.MaxConnections = g7.MaxConnections := by
      have t := congrArg ISTGT_GLOBAL.MaxConnections e8
      exact t
    have t7 : g7.MaxConnections = g6.MaxConnections := by
      have t := congrArg ISTGT_GLOBAL.MaxConnections e7
      exact t
    have t6 : g6.MaxConnections = g5.MaxConnections := by
      have t := congrArg ISTGT_GLOBAL.MaxConnections e6
      exact t
    have t5 : g5.MaxConnections = g4.MaxConnections := by
      have t := congrArg ISTGT_GLOBAL.MaxConnections e5
      exact t
    have t4 : g4.MaxConnections = g3.MaxConnections := by
      have t := congrArg ISTGT_GLOBAL.MaxConnections e4
      exact t
    have t3 : g3.MaxConnections = g2.MaxConnections := by
      have t := congrArg ISTGT_GLOBAL.MaxConnections e3
      exact t
    have t2 : g2.MaxConnections = effective (istgt_get_intval sp kMaxConnections) 1 D.DEFAULT_MAX_CONNECTIONS := by
      have t := congrArg ISTGT_GLOBAL.MaxConnections e2
      exact t
    rw [t13, t12, t11, t10, t9, t8, t7, t6, t5, t4, t3, t2]
  have qMaxOutstandingR2T : g'.MaxOutstandingR2T = effective (istgt_get_intval sp kMaxOutstandingR2T) 1 D.DEFAULT_MAXOUTSTANDINGR2T := by
    have t13 : g'.MaxOutstandingR2T = g12.MaxOutstandingR2T := by
      have t := congrArg ISTGT_GLOBAL.MaxOutstandingR2T e13
      exact t
    have t12 : g12.MaxOutstandingR2T = g11.MaxOutstandingR2T := by
      have t := congrArg ISTGT_GLOBAL.MaxOutstandingR2T e12
      exact t
    have t11 : g11.MaxOutstandingR2T = g10.MaxOutstandingR2T := by
      have t := congrArg ISTGT_GLOBAL.MaxOutstandingR2T e11
      exact t
    have t10 : g10.MaxOutstandingR2T = g9.MaxOutstandingR2T := by
      have t := congrArg ISTGT_GLOBAL.MaxOutstandingR2T e10
      exact t
    have t9 : g9.MaxOutstandingR2T = g8.MaxOutstandingR2T := by
      have t := congrArg ISTGT_GLOBAL.MaxOutstandingR2T e9
      exact t
    have t8 : g8.MaxOutstandingR2T = g7.MaxOutstandingR2T := by
      have t := congrArg ISTGT_GLOBAL.MaxOutstandingR2T e8
      exact t
    have t7 : g7.MaxOutstandingR2T = g6.MaxOutstandingR2T := by
      have t := congrArg ISTGT_GLOBAL.MaxOutstandingR2T e7
      exact t
    have t6 : g6.MaxOutstandingR2T = g5.MaxOutstandingR2T := by
      have t := congrArg ISTGT_GLOBAL.MaxOutstandingR2T e6
      exact t
    have t5 : g5.MaxOutstandingR2T = g4.MaxOutstandingR2T := by
      have t := congrArg ISTGT_GLOBAL.MaxOutstandingR2T e5
      exact t
    have t4 : g4.MaxOutstandingR2T = g3.MaxOutstandingR2T := by
      have t := congrArg ISTGT_GLOBAL.MaxOutstandingR2T e4
      exact t
    have t3 : g3.MaxOutstandingR2T = effective (istgt_get_intval sp kMaxOutstandingR2T) 1 D.DEFAULT_MAXOUTSTANDINGR2T := by
      have t := congrArg ISTGT_GLOBAL.MaxOutstandingR2T e3
      exact t
    rw [t13, t12, t11, t10, t9, t8, t7, t6, t5, t4, t3]
  have qDefaultTime2Wait : g'.DefaultTime2Wait = effective (istgt_get_intval sp kDefaultTime2Wait) 0 D.DEFAULT_DEFAULTTIME2WAIT := by
    have t13 : g'.DefaultTime2Wait = g12.DefaultTime2Wait := by
      have t := congrArg ISTGT_GLOBAL.DefaultTime2Wait e13
      exact t
    have t12 : g12.DefaultTime2Wait = g11.DefaultTime2Wait := by
      have t := congrArg ISTGT_GLOBAL.DefaultTime2Wait e12
      exact t
    have t11 : g11.DefaultTime2Wait = g10.DefaultTime2Wait := by
      have t := congrArg ISTGT_GLOBAL.DefaultTime2Wait e11
      exact t
    have t10 : g10.DefaultTime2Wait = g9.DefaultTime2Wait := by
      have t := congrArg ISTGT_GLOBAL.DefaultTime2Wait e10
      exact t
    have t9 : g9.DefaultTime2Wait = g8.DefaultTime2Wait := by
      have t := congrArg ISTGT_GLOBAL.DefaultTime2Wait e9
      exact t
    have t8 : g8.DefaultTime2Wait = g7.DefaultTime2Wait := by
      have t := congrArg ISTGT_GLOBAL.DefaultTime2Wait e8
      exact t
    have t7 : g7.DefaultTime2Wait = g6.DefaultTime2Wait := by
      have t := congrArg ISTGT_GLOBAL.DefaultTime2Wait e7
      exact t
    have t6 : g6.DefaultTime2Wait = g5.DefaultTime2Wait := by
      have t := congrArg ISTGT_GLOBAL.DefaultTime2Wait e6
      exact t
    have t5 : g5.DefaultTime2Wait = g4.DefaultTime2Wait := by
      have t := congrArg ISTGT_GLOBAL.DefaultTime2Wait e5
      exact t
    have t4 : g4.DefaultTime2Wait = g3.DefaultTime2Wait := by
      have t := congrArg ISTGT_GLOBAL.DefaultTime2Wait e4
      exact t
    have t3 : g3.DefaultTime2Wait = effective (istgt_get_intval sp kDefaultTime2Wait) 0 D.DEFAULT_DEFAULTTIME2WAIT := by
      have t := congrArg ISTGT_GLOBAL.DefaultTime2Wait e3
      exact t
    rw [t13, t12, t11, t10, t9, t8, t7, t6, t5, t4, t3]
  have qDefaultTime2Retain : g'.DefaultTime2Retain = effective (istgt_get_intval sp kDefaultTime2Retain) 0 D.DEFAULT_DEFAULTTIME2RETAIN := by
    have t13 : g'.DefaultTime2Retain = g12.DefaultTime2Retain := by
      have t := congrArg ISTGT_GLOBAL.DefaultTime2Retain e13
      exact t
    have t12 : g12.DefaultTime2Retain = g11.DefaultTime2Retain := by
      have t := congrArg ISTGT_GLOBAL.DefaultTime2Retain e12
      exact t
    have t11 : g11.DefaultTime2Retain = g10.DefaultTime2Retain := by
      have t := congrArg ISTGT_GLOBAL.DefaultTime2Retain e11
      exact t
    have t10 : g10.DefaultTime2Retain = g9.DefaultTime2Retain := by
      have t := congrArg ISTGT_GLOBAL.DefaultTime2Retain e10
      exact t
    have t9 : g9.DefaultTime2Retain = g8.DefaultTime2Retain := by
      have t := congrArg ISTGT_GLOBAL.DefaultTime2Retain e9
      exact t
    have t8 : g8.DefaultTime2Retain = g7.DefaultTime2Retain := by
      have t := congrArg ISTGT_GLOBAL.DefaultTime2Retain e8
      exact t
    have t7 : g7.DefaultTime2Retain = g6.DefaultTime2Retain := by
      have t := congrArg ISTGT_GLOBAL.DefaultTime2Retain e7
      exact t
    have t6 : g6.DefaultTime2Retain = g5.DefaultTime2Retain := by
      have t := congrArg ISTGT_GLOBAL.DefaultTime2Retain e6
      exact t
    have t5 : g5.DefaultTime2Retain = g4.DefaultTime2Retain := by
      have t := congrArg ISTGT_GLOBAL.DefaultTime2Retain e5
      exact t
    have t4 : g4.DefaultTime2Retain = g3.DefaultTime2Retain := by
      have t := congrArg ISTGT_GLOBAL.DefaultTime2Retain e4
      exact t
    have t3 : g3.DefaultTime2Retain = effective (istgt_get_intval sp kDefaultTime2Retain) 0 D.DEFAULT_DEFAULTTIME2RETAIN := by
      have t := congrArg ISTGT_GLOBAL.DefaultTime2Retain e3
      exact t
    rw [t13, t12, t11, t10, t9, t8, t7, t6, t5, t4, t3]
  have qFirstBurstLength : g'.FirstBurstLength = effective (istgt_get_intval sp kFirstBurstLength) 0 D.DEFAULT_FIRSTBURSTLENGTH := by
    have t13 : g'.FirstBurstLength = g12.FirstBurstLength := by
      have t := congrArg ISTGT_GLOBAL.FirstBurstLength e13
      exact t
    have t12 : g12.FirstBurstLength = g11.FirstBurstLength := by
      have t := congrArg ISTGT_GLOBAL.FirstBurstLength e12
      exact t
    have t11 : g11.FirstBurstLength = g10.FirstBurstLength := by
      have t := congrArg ISTGT_GLOBAL.FirstBurstLength e11
      exact t
    have t10 : g10.FirstBurstLength = g9.FirstBurstLength := by
      have t := congrArg ISTGT_GLOBAL.FirstBurstLength e10
      exact t
    have t9 : g9.FirstBurstLength = g8.FirstBurstLength := by
      have t := congrArg ISTGT_GLOBAL.FirstBurstLength e9
      exact t
    have t8 : g8.FirstBurstLength = g7.FirstBurstLength := by
      have t := congrArg ISTGT_GLOBAL.FirstBurstLength e8
      exact t
    have t7 : g7.FirstBurstLength = g6.FirstBurstLength := by
      have t := congrArg ISTGT_GLOBAL.FirstBurstLength e7
      exact t
    have t6 : g6.FirstBurstLength = g5.FirstBurstLength := by
      have t := congrArg ISTGT_GLOBAL.FirstBurstLength e6
      exact t
    have t5 : g5.FirstBurstLength = g4.FirstBurstLength := by
      have t := congrArg ISTGT_GLOBAL.FirstBurstLength e5
      exact t
    have t4 : g4.FirstBurstLength = effective (istgt_get_intval sp kFirstBurstLength) 0 D.DEFAULT_FIRSTBURSTLENGTH := by
      have t := congrArg ISTGT_GLOBAL.FirstBurstLength e4
      exact t
    rw [t13, t12, t11, t10, t9, t8, t7, t6, t5, t4]
  have qMaxBurstLength : g'.MaxBurstLength = effective (istgt_get_intval sp kMaxBurstLength) 0 D.DEFAULT_MAXBURSTLENGTH := by
    have t13 : g'.MaxBurstLength = g12.MaxBurstLength := by
      have t := congrArg ISTGT_GLOBAL.MaxBurstLength e13
      exact t
    have t12 : g12.MaxBurstLength = g11.MaxBurstLength := by
      have t := congrArg ISTGT_GLOBAL.MaxBurstLength e12
      exact t
    have t11 : g11.MaxBurstLength = g10.MaxBurstLength := by
      have t := congrArg ISTGT_GLOBAL.MaxBurstLength e11
      exact t
    have t10 : g10.MaxBurstLength = g9.MaxBurstLength := by
      have t := congrArg ISTGT_GLOBAL.MaxBurstLength e10
      exact t
    have t9 : g9.MaxBurstLength = g8.MaxBurstLength := by
      have t := congrArg ISTGT_GLOBAL.MaxBurstLength e9
      exact t
    have t8 : g8.MaxBurstLength = g7.MaxBurstLength := by
      have t := congrArg ISTGT_GLOBAL.MaxBurstLength e8
      exact t
    have t7 : g7.MaxBurstLength = g6.MaxBurstLength := by
      have t := congrArg ISTGT_GLOBAL.MaxBurstLength e7
      exact t
    have t6 : g6.MaxBurstLength = g5.MaxBurstLength := by
      have t := congrArg ISTGT_GLOBAL.MaxBurstLength e6
      exact t
    have t5 : g5.MaxBurstLength = g4.MaxBurstLength := by
      have t := congrArg ISTGT_GLOBAL.MaxBurstLength e5
      exact t
    have t4 : g4.MaxBurstLength = effective (istgt_get_intval sp kMaxBurstLength) 0 D.DEFAULT_MAXBURSTLENGTH := by
      have t := congrArg ISTGT_GLOBAL.MaxBurstLength e4
      exact t
    rw [t13, t12, t11, t10, t9, t8, t7, t6, t5, t4]
  have qMaxRecvDataSegmentLength : g'.MaxRecvDataSegmentLength = effective (istgt_get_intval sp kMaxRecvDataSegmentLength) 0
        D.DEFAULT_MAXRECVDATASEGMENTLENGTH := by
    have t13 : g'.MaxRecvDataSegmentLength = g12.MaxRecvDataSegmentLength := by
      have t := congrArg ISTGT_GLOBAL.MaxRecvDataSegmentLength e13
      exact t
    have t12 : g12.MaxRecvDataSegmentLength = g11.MaxRecvDataSegmentLength := by
      have t := congrArg ISTGT_GLOBAL.MaxRecvDataSegmentLength e12
      exact t
    have t11 : g11.MaxRecvDataSegmentLength = g10.MaxRecvDataSegmentLength := by
      have t := congrArg ISTGT_GLOBAL.MaxRecvDataSegmentLength e11
      exact t
    have t10 : g10.MaxRecvDataSegmentLength = g9.MaxRecvDataSegmentLength := by
      have t := congrArg ISTGT_GLOBAL.MaxRecvDataSegmentLength e10
      exact t
    have t9 : g9.MaxRecvDataSegmentLength = g8.MaxRecvDataSegmentLength := by
      have t := congrArg ISTGT_GLOBAL.MaxRecvDataSegmentLength e9
      exact t
    have t8 : g8.MaxRecvDataSegmentLength = g7.MaxRecvDataSegmentLength := by
      have t := congrArg ISTGT_GLOBAL.MaxRecvDataSegmentLength e8
      exact t
    have t7 : g7.MaxRecvDataSegmentLength = g6.MaxRecvDataSegmentLength := by
      have t := congrArg ISTGT_GLOBAL.MaxRecvDataSegmentLength e7
      exact t
    have t6 : g6.MaxRecvDataSegmentLength = g5.MaxRecvDataSegmentLength := by
      have t := congrArg ISTGT_GLOBAL.MaxRecvDataSegmentLength e6
      exact t
    have t5 : g5.MaxRecvDataSegmentLength = g4.MaxRecvDataSegmentLength := by
      have t := congrArg ISTGT_GLOBAL.MaxRecvDataSegmentLength e5
      exact t
    have t4 : g4.MaxRecvDataSegmentLength = effective (istgt_get_intval sp kMaxRecvDataSegmentLength) 0
        D.DEFAULT_MAXRECVDATASEGMENTLENGTH := by
      have t := congrArg ISTGT_GLOBAL.MaxRecvDataSegmentLength e4
      exact t
    rw [t13, t12, t11, t10, t9, t8, t7, t6, t5, t4]
  have qtimeout : g'.timeout = effective (istgt_get_intval sp kTimeout) 0 D.DEFAULT_TIMEOUT := by
    have t13 : g'.timeout = g12.timeout := by
      have t := congrArg ISTGT_GLOBAL.timeout e13
      exact t
    have t12 : g12.timeout = g11.timeout := by
      have t := congrArg ISTGT_GLOBAL.timeout e12
      exact t
    have t11 : g11.timeout = g10.timeout := by
      have t := congrArg ISTGT_GLOBAL.timeout e11
      exact t
    have t10 : g10.timeout = effective (istgt_get_intval sp kTimeout) 0 D.DEFAULT_TIMEOUT := by
      have t := congrArg ISTGT_GLOBAL.timeout e10
      exact t
    rw [t13, t12, t11, t10]
  have qnopininterval : g'.nopininterval = effective (istgt_get_intval sp kNopInInterval) 0 D.DEFAULT_NOPININTERVAL := by
    have t13 : g'.nopininterval = g12.nopininterval := by
      have t := congrArg ISTGT_GLOBAL.nopininterval e13
      exact t
    have t12 : g12.nopininterval = g11.nopininterval := by
      have t := congrArg ISTGT_GLOBAL.nopininterval e12
      exact t
    have t11 : g11.nopininterval = g10.nopininterval := by
      have t := congrArg ISTGT_GLOBAL.nopininterval e11
      exact t
    have t10 : g10.nopininterval = effective (istgt_get_intval sp kNopInInterval) 0 D.DEFAULT_NOPININTERVAL := by
      have t := congrArg ISTGT_GLOBAL.nopininterval e10
      exact t
    rw [t13, t12, t11, t10]
  have qmaxr2t : g'.maxr2t = effective (istgt_get_intval sp kMaxR2T) 0 D.DEFAULT_MAXR2T := by
    have t13 : g'.maxr2t = g12.maxr2t := by
      have t := congrArg ISTGT_GLOBAL.maxr2t e13
      exact t
    have t12 : g12.maxr2t = g11.maxr2t := by
      have t := congrArg ISTGT_GLOBAL.maxr2t e12
      exact t
    have t11 : g11.maxr2t = effective (istgt_get_intval sp kMaxR2T) 0 D.DEFAULT_MAXR2T := by
      have t := congrArg ISTGT_GLOBAL.maxr2t e11
      exact t
    rw [t13, t12, t11]
  have qInitialR2T : g'.InitialR2T = v5 := by
    have t13 : g'.InitialR2T = g12.InitialR2T := by
      have t := congrArg ISTGT_GLOBAL.InitialR2T e13
      exact t
    have t12 : g12.InitialR2T = g11.InitialR2T := by
      have t := congrArg ISTGT_GLOBAL.InitialR2T e12
      exact t
    have t11 : g11.InitialR2T = g10.InitialR2T := by
      have t := congrArg ISTGT_GLOBAL.InitialR2T e11
      exact t
    have t10 : g10.InitialR2T = g9.InitialR2T := by
      have t := congrArg ISTGT_GLOBAL.InitialR2T e10
      exact t
    have t9 : g9.InitialR2T = g8.InitialR2T := by
      have t := congrArg ISTGT_GLOBAL.InitialR2T e9
      exact t
    have t8 : g8.InitialR2T = g7.InitialR2T := by
      have t := congrArg ISTGT_GLOBAL.InitialR2T e8
      exact t
    have t7 : g7.InitialR2T = g6.InitialR2T := by
      have t := congrArg ISTGT_GLOBAL.InitialR2T e7
      exact t
    have t6 : g6.InitialR2T = g5.InitialR2T := by
      have t := congrArg ISTGT_GLOBAL.InitialR2T e6
      exact t
    have t5 : g5.InitialR2T = v5 := by
      have t := congrArg ISTGT_GLOBAL.InitialR2T e5
      exact t
    rw [t13, t12, t11, t10, t9, t8, t7, t6, t5]
  have qImmediateData : g'.ImmediateData = v6 := by
    have t13 : g'.ImmediateData = g12.ImmediateData := by
      have t := congrArg ISTGT_GLOBAL.ImmediateData e13
      exact t
    have t12 : g12.ImmediateData = g11.ImmediateData := by
      have t := congrArg ISTGT_GLOBAL.ImmediateData e12
      exact t
    have t11 : g11.ImmediateData = g10.ImmediateData := by
      have t := congrArg ISTGT_GLOBAL.ImmediateData e11
      exact t
    have t10 : g10.ImmediateData = g9.ImmediateData := by
      have t := congrArg ISTGT_GLOBAL.ImmediateData e10
      exact t
    have t9 : g9.ImmediateData = g8.ImmediateData := by
      have t := congrArg ISTGT_GLOBAL.ImmediateData e9
      exact t
    have t8 : g8.ImmediateData = g7.ImmediateData := by
      have t := congrArg ISTGT_GLOBAL.ImmediateData e8
      exact t
    have t7 : g7.ImmediateData = g6.ImmediateData := by
      have t := congrArg ISTGT_GLOBAL.ImmediateData e7
      exact t
    have t6 : g6.ImmediateData = v6 := by
      have t := congrArg ISTGT_GLOBAL.ImmediateData e6
      exact t
    rw [t13, t12, t11, t10, t9, t8, t7, t6]
  have qDataPDUInOrder : g'.DataPDUInOrder = v7 := by
    have t13 : g'.DataPDUInOrder = g12.DataPDUInOrder := by
      have t := congrArg ISTGT_GLOBAL.DataPDUInOrder e13
      exact t
    have t12 : g12.DataPDUInOrder = g11.DataPDUInOrder := by
      have t := congrArg ISTGT_GLOBAL.DataPDUInOrder e12
      exact t
    have t11 : g11.DataPDUInOrder = g10.DataPDUInOrder := by
      have t := congrArg ISTGT_GLOBAL.DataPDUInOrder e11
      exact t
    have t10 : g10.DataPDUInOrder = g9.DataPDUInOrder := by
      have t := congrArg ISTGT_GLOBAL.DataPDUInOrder e10
      exact t
    have t9 : g9.DataPDUInOrder = g8.DataPDUInOrder := by
      have t := congrArg ISTGT_GLOBAL.DataPDUInOrder e9
      exact t
    have t8 : g8.DataPDUInOrder = g7.DataPDUInOrder := by
      have t := congrArg ISTGT_GLOBAL.DataPDUInOrder e8
      exact t
    have t7 : g7.DataPDUInOrder = v7 := by
      have t := congrArg ISTGT_GLOBAL.DataPDUInOrder e7
      exact t
    rw [t13, t12, t11, t10, t9, t8, t7]
  have qDataSequenceInOrder : g'.DataSequenceInOrder = v8 := by
    have t13 : g'.DataSequenceInOrder = g12.DataSequenceInOrder := by
      have t := congrArg ISTGT_GLOBAL.DataSequenceInOrder e13
      exact t
    have t12 : g12.DataSequenceInOrder = g11.DataSequenceInOrder := by
      have t := congrArg ISTGT_GLOBAL.DataSequenceInOrder e12
      exact t
    have t11 : g11.DataSequenceInOrder = g10.DataSequenceInOrder := by
      have t := congrArg ISTGT_GLOBAL.DataSequenceInOrder e11
      exact t
    have t10 : g10.DataSequenceInOrder = g9.DataSequenceInOrder := by
      have t := congrArg ISTGT_GLOBAL.DataSequenceInOrder e10
      exact t
    have t9 : g9.DataSequenceInOrder = g8.DataSequenceInOrder := by
      have t := congrArg ISTGT_GLOBAL.DataSequenceInOrder e9
      exact t
    have t8 : g8.DataSequenceInOrder = v8 := by
      have t := congrArg ISTGT_GLOBAL.DataSequenceInOrder e8
      exact t
    rw [t13, t12, t11, t10, t9, t8]
  refine ⟨qMaxSessions, qMaxConnections, qMaxOutstandingR2T, qDefaultTime2Wait,
    qDefaultTime2Retain, qFirstBurstLength, qMaxBurstLength, qMaxRecvDataSegmentLength,
    qtimeout, qnopininterval, qmaxr2t, ?_, ?_, ?_, ?_, ?_, ?_, ?_, ?_, ?_, ?_, ?_, ?_, ?_,
    ?_, ?_⟩
  · rw [qInitialR2T]; exact d5
  · rw [qImmediateData]; exact d6
  · rw [qDataPDUInOrder]; exact d7
  · rw [qDataSequenceInOrder]; exact d8
  · rw [qMaxSessions]; exact a1
  · rw [qMaxConnections]; exact a2
  · rw [qMaxOutstandingR2T]; exact b1
  · rw [qDefaultTime2Wait]; exact b2
  · rw [qDefaultTime2Retain]; exact b3
  · rw [qFirstBurstLength]; exact c2
  · rw [qFirstBurstLength, qMaxBurstLength]; exact c3
  · rw [qMaxBurstLength]; exact c4
  · rw [qMaxRecvDataSegmentLength]; exact c5
  · rw [qMaxRecvDataSegmentLength]; exact c6
  · rw [qmaxr2t]; exact f1

theorem init_tail_glob (D : InitDefaults) (K : Limits) (L : IGLimits) (P : PollLimits)
    (o : INIT_OUTCOMES) (d : DAEMON) :
    (init_tail D K L P o d).2.glob = d.glob
    ∧ ((init_tail D K L P o d).1 = 0 ∨ (init_tail D K L P o d).1 = -1) := by
  generalize hr : init_tail D K L P o d = r
  unfold init_tail at hr
  revert hr
  by_cases c0 : o.pthread_attr_init ≠ 0
  · rw [if_pos c0]; intro hr; subst hr; exact ⟨rfl, Or.inr rfl⟩
  rw [if_neg c0]
  by_cases c1 : o.pthread_attr_getstacksize ≠ 0
  · rw [if_pos c1]; intro hr; subst hr; exact ⟨rfl, Or.inr rfl⟩
  rw [if_neg c1]
  by_cases c2 : o.stacksize < D.ISTGT_STACKSIZE ∧ o.pthread_attr_setstacksize ≠ 0
  · rw [if_pos c2]; intro hr; subst hr; exact ⟨rfl, Or.inr rfl⟩
  rw [if_neg c2]
  by_cases c3 : o.pthread_mutexattr_init ≠ 0
  · rw [if_pos c3]; intro hr; subst hr; exact ⟨rfl, Or.inr rfl⟩
  rw [if_neg c3]
  by_cases c4 : o.pthread_mutexattr_settype ≠ 0
  · rw [if_pos c4]; intro hr; subst hr; exact ⟨rfl, Or.inr rfl⟩
  rw [if_neg c4]
  by_cases c5 : o.mutex_init ≠ 0
  · rw [if_pos c5]; intro hr; subst hr; exact ⟨rfl, Or.inr rfl⟩
  rw [if_neg c5]
  by_cases c6 : o.state_mutex_init ≠ 0
  · rw [if_pos c6]; intro hr; subst hr; exact ⟨rfl, Or.inr rfl⟩
  rw [if_neg c6]
  by_cases c7 : o.reload_mutex_init ≠ 0
  · rw [if_pos c7]; intro hr; subst hr; exact ⟨rfl, Or.inr rfl⟩
  rw [if_neg c7]
  by_cases c8 : o.pthread_cond_init ≠ 0
  · rw [if_pos c8]; intro hr; subst hr; exact ⟨rfl, Or.inr rfl⟩
  rw [if_neg c8]
  by_cases c9 : o.istgt_uctl_init < 0
  · rw [if_pos c9]; intro hr; subst hr; exact ⟨rfl, Or.inr rfl⟩
  rw [if_neg c9]
  cases istgt_build_uctl_portal K P D d.pg.config d.uc with
  | mk rc1 uc1 =>
    simp only []
    by_cases d1 : rc1 < 0
    · rw [if_pos d1]; intro hr; subst hr; exact ⟨rfl, Or.inr rfl⟩
    rw [if_neg d1]
    cases istgt_build_portal_group_array K d.pg with
    | mk rc2 pg1 =>
      simp only []
      by_cases d2 : rc2 < 0
      · rw [if_pos d2]; intro hr; subst hr; exact ⟨rfl, Or.inr rfl⟩
      rw [if_neg d2]
      cases istgt_build_initiator_group_array L d.ig with
      | mk rc3 ig1 =>
        simp only []
        by_cases d3 : rc3 < 0
        · rw [if_pos d3]; intro hr; subst hr; exact ⟨rfl, Or.inr rfl⟩
        rw [if_neg d3]
        by_cases d4 : o.pipe ≠ 0
        · rw [if_pos d4]; intro hr; subst hr; exact ⟨rfl, Or.inr rfl⟩
        rw [if_neg d4]
        intro hr; subst hr; exact ⟨rfl, Or.inl rfl⟩

/-- A failure of a block makes `istgt_init` return `-1`. -/
theorem init_fails_of_blocks (D : InitDefaults) (K : Limits) (L : IGLimits) (P : PollLimits)
    (o : INIT_OUTCOMES) (d : DAEMON) (sp : CF_SECTION)
    (hsp : istgt_find_cf_section d.pg.config CF_SECTION_TYPE.ST_GLOBAL = some sp)
    (h : ∃ e, run_blocks (init_blocks D sp) d.glob = .error e) :
    (istgt_init D K L P o d).1 = -1 := by
  obtain ⟨e, he⟩ := h
  unfold istgt_init
  rw [hsp]
  simp only [he]

/-- A block of the list that fails on every structure makes `istgt_init`
return `-1`. -/
theorem init_fails_of_block (D : InitDefaults) (K : Limits) (L : IGLimits) (P : PollLimits)
    (o : INIT_OUTCOMES) (d : DAEMON) (sp : CF_SECTION)
    (hsp : istgt_find_cf_section d.pg.config CF_SECTION_TYPE.ST_GLOBAL = some sp)
    (b : ISTGT_GLOBAL → Except ISTGT_GLOBAL ISTGT_GLOBAL) (hb : b ∈ init_blocks D sp)
    (h : ∀ g, ∀ c, b g ≠ .ok c) :
    (istgt_init D K L P o d).1 = -1 :=
  init_fails_of_blocks D K L P o d sp hsp
    (run_blocks_error b _ hb (fun g => except_error_of_not_ok _ (h g)) d.glob)

/-- When `istgt_init` returns 0, the blocks have gone through for the
`Global` section and the structure holds what they left. -/
theorem init_ok_blocks (D : InitDefaults) (K : Limits) (L : IGLimits) (P : PollLimits)
    (o : INIT_OUTCOMES) (d : DAEMON) (sp : CF_SECTION)
    (hsp : istgt_find_cf_section d.pg.config CF_SECTION_TYPE.ST_GLOBAL = some sp)
    (h : (istgt_init D K L P o d).1 = 0) :
    run_blocks (init_blocks D sp) d.glob = .ok (istgt_init D K L P o d).2.glob := by
  have e : istgt_init D K L P o d
      = (match run_blocks (init_blocks D sp) d.glob with
        | .error g => (-1, { d with glob := g })
        | .ok g => init_tail D K L P o { d with glob := g }) := by
    unfold istgt_init
    rw [hsp]
  rw [e] at h ⊢
  cases hr : run_blocks (init_blocks D sp) d.glob with
  | error g =>
    rw [hr] at h
    simp at h
  | ok g =>
    simp only []
    rw [(init_tail_glob D K L P o _).1]

/-- The return code of `istgt_init` is 0 or `-1`. -/
theorem init_rc (D : InitDefaults) (K : Limits) (L : IGLimits) (P : PollLimits)
    (o : INIT_OUTCOMES) (d : DAEMON) :
    (istgt_init D K L P o d).1 = 0 ∨ (istgt_init D K L P o d).1 = -1 := by
  unfold istgt_init
  split
  · right; rfl
  · split
    · right; rfl
    · exact (init_tail_glob D K L P o _).2

/-- The result of `strcasecmp` is 0 exactly when the two texts agree after
`tolower`. -/
theorem strcasecmp_eq_zero : ∀ (a b : CStr),
    strcasecmp a b = 0 ↔ a.map tolower = b.map tolower := by
  intro a
  induction a with
  | nil =>
    intro b
    cases b with
    | nil => simp [strcasecmp]
    | cons y ys => simp [strcasecmp]
  | cons x xs ih =>
    intro b
    cases b with
    | nil => simp [strcasecmp]
    | cons y ys =>
      rw [strcasecmp]
      by_cases h : tolower x = tolower y
      · rw [if_pos h, ih ys]
        simp [h]
      · rw [if_neg h]
        constructor
        · intro h0
          split_ifs at h0
          exact absurd h0 (by decide)
        · intro h0
          simp only [List.map_cons, List.cons.injEq] at h0
          exact absurd h0.1 h

theorem mem_init_blocks (D : InitDefaults) (sp : CF_SECTION) :
    init_sessions D sp ∈ init_blocks D sp ∧ init_r2t_times D sp ∈ init_blocks D sp
    ∧ init_burst D sp ∈ init_blocks D sp ∧ init_initial_r2t D sp ∈ init_blocks D sp
    ∧ init_immediate_data D sp ∈ init_blocks D sp
    ∧ init_data_pdu_in_order D sp ∈ init_blocks D sp
    ∧ init_data_sequence_in_order D sp ∈ init_blocks D sp
    ∧ init_maxr2t D sp ∈ init_blocks D sp := by
  unfold init_blocks
  simp only [List.mem_cons, true_or, or_true, and_self]

theorem nmval_first_item (sp : CF_SECTION) (key : CStr) (ip : CF_ITEM)
    (hip : istgt_find_cf_nitem sp key 0 = some ip) (i : Nat) :
    istgt_get_nmval sp key 0 i = ip.val[i]? := by
  unfold istgt_get_nmval
  rw [hip]
  simp only []
  rw [nmval_walk_eq ip.val 0 i (by omega)]
  simp

theorem auth_loop_eq_walk (sp : CF_SECTION) (ip : CF_ITEM)
    (hip : istgt_find_cf_nitem sp kDiscoveryAuthMethod 0 = some ip) :
    ∀ (k i : Nat) (g : ISTGT_GLOBAL), i + k = ip.val.length →
    auth_method_loop sp g i k = auth_method_walk (ip.val.drop i) g := by
  intro k
  induction k with
  | zero =>
    intro i g hik
    rw [auth_method_loop, List.drop_of_length_le (by omega), auth_method_walk]
  | succ k ih =>
    intro i g hik
    have hi : i < ip.val.length := by omega
    rw [auth_method_loop, nmval_first_item sp _ ip hip i, List.getElem?_eq_getElem hi,
      List.drop_eq_getElem_cons hi, auth_method_walk]
    simp only []
    unfold auth_method_step
    split_ifs
    · exact ih (i + 1) _ (by omega)
    · exact ih (i + 1) _ (by omega)
    · exact ih (i + 1) _ (by omega)
    · exact ih (i + 1) _ (by omega)
    · rfl

theorem auth_names_differ :
    kCHAP.map tolower ≠ kMutual.map tolower ∧ kCHAP.map tolower ≠ kAuto.map tolower
    ∧ kCHAP.map tolower ≠ kNone.map tolower ∧ kMutual.map tolower ≠ kAuto.map tolower
    ∧ kMutual.map tolower ≠ kNone.map tolower := by
  decide

theorem strcasecmp_excl (t a b : CStr) (hab : a.map tolower ≠ b.map tolower)
    (ha : strcasecmp t a = 0) : strcasecmp t b ≠ 0 := by
  intro hb
  apply hab
  rw [← (strcasecmp_eq_zero t a).1 ha, (strcasecmp_eq_zero t b).1 hb]

/-- The three kinds of a token of the set, with what one turn of the loop
does for each. -/
theorem auth_step_cases (g : ISTGT_GLOBAL) (t : CStr) (h : IsAuthMethod t) :
    (strcasecmp t kCHAP = 0 ∧ strcasecmp t kMutual ≠ 0 ∧ is_reset t = false
      ∧ auth_method_step g t = .ok { g with req_discovery_auth := 1 })
    ∨ (strcasecmp t kCHAP ≠ 0 ∧ strcasecmp t kMutual = 0 ∧ is_reset t = false
      ∧ auth_method_step g t = .ok { g with req_discovery_auth_mutual := 1 })
    ∨ (strcasecmp t kCHAP ≠ 0 ∧ strcasecmp t kMutual ≠ 0 ∧ is_reset t = true
      ∧ ∃ n, auth_method_step g t
          = .ok { g with no_discovery_auth := n, req_discovery_auth := 0,
                         req_discovery_auth_mutual := 0 }) := by
  obtain ⟨d1, d2, d3, d4, d5⟩ := auth_names_differ
  by_cases hc : strcasecmp t kCHAP = 0
  · left
    have hm := strcasecmp_excl t _ _ d1 hc
    have ha := strcasecmp_excl t _ _ d2 hc
    have hn := strcasecmp_excl t _ _ d3 hc
    refine ⟨hc, hm, by simp [is_reset, ha, hn], ?_⟩
    unfold auth_method_step
    rw [if_pos hc]
  · by_cases hm : strcasecmp t kMutual = 0
    · right; left
      have ha := strcasecmp_excl t _ _ d4 hm
      have hn := strcasecmp_excl t _ _ d5 hm
      refine ⟨hc, hm, by simp [is_reset, ha, hn], ?_⟩
      unfold auth_method_step
      rw [if_neg hc, if_pos hm]
    · right; right
      by_cases ha : strcasecmp t kAuto = 0
      · refine ⟨hc, hm, by simp [is_reset, ha], g.no_discovery_auth, ?_⟩
        unfold auth_method_step
        rw [if_neg hc, if_neg hm, if_pos ha]
      · have hn : strcasecmp t kNone = 0 := by
          rcases h with h | h | h | h
          · exact absurd h hc
          · exact absurd h hm
          · exact absurd h ha
          · exact h
        refine ⟨hc, hm, by simp [is_reset, hn], 1, ?_⟩
        unfold auth_method_step
        rw [if_neg hc, if_neg hm, if_neg ha, if_pos hn]

theorem auth_step_unknown (g : ISTGT_GLOBAL) (t : CStr) (h : ¬ IsAuthMethod t) :
    auth_method_step g t = .error g := by
  unfold IsAuthMethod at h
  simp only [not_or] at h
  unfold auth_method_step
  rw [if_neg h.1, if_neg h.2.1, if_neg h.2.2.1, if_neg h.2.2.2]

theorem after_reset_of_none (ts : List CStr) (h : ts.any is_reset = false) :
    after_reset ts = ts := by
  cases ts with
  | nil => rfl
  | cons t ts =>
    simp only [List.any_cons, Bool.or_eq_false_iff] at h
    rw [after_reset, h.2, h.1]
    simp

/-- A walk over tokens that holds one outside the set fails. -/
theorem auth_walk_unknown : ∀ (ts : List CStr) (g : ISTGT_GLOBAL),
    (∃ t, t ∈ ts ∧ ¬ IsAuthMethod t) → ∃ e, auth_method_walk ts g = .error e := by
  intro ts
  induction ts with
  | nil => intro g h; obtain ⟨t, ht, _⟩ := h; cases ht
  | cons t ts ih =>
    intro g h
    rw [auth_method_walk]
    by_cases hk : IsAuthMethod t
    · have hrest : ∃ u, u ∈ ts ∧ ¬ IsAuthMethod u := by
        obtain ⟨u, hu, hn⟩ := h
        rcases List.mem_cons.1 hu with rfl | hu
        · exact absurd hk hn
        · exact ⟨u, hu, hn⟩
      rcases auth_step_cases g t hk with ⟨_, _, _, e⟩ | ⟨_, _, _, e⟩ | ⟨_, _, _, n, e⟩
      · rw [e]; exact ih _ hrest
      · rw [e]; exact ih _ hrest
      · rw [e]; exact ih _ hrest
    · rw [auth_step_unknown g t hk]
      exact ⟨g, rfl⟩

/-- A walk over tokens of the set goes through, and the two flags it leaves
are decided by the tokens after the last `Auto` or `None`. -/
theorem auth_walk_known : ∀ (ts : List CStr) (g : ISTGT_GLOBAL),
    (∀ t, t ∈ ts → IsAuthMethod t) →
    ∃ c, auth_method_walk ts g = .ok c
      ∧ c.req_discovery_auth
          = (if ∃ t, t ∈ after_reset ts ∧ strcasecmp t kCHAP = 0 then 1
             else if ts.any is_reset then 0 else g.req_discovery_auth)
      ∧ c.req_discovery_auth_mutual
          = (if ∃ t, t ∈ after_reset ts ∧ strcasecmp t kMutual = 0 then 1
             else if ts.any is_reset then 0 else g.req_discovery_auth_mutual) := by
  intro ts
  induction ts with
  | nil =>
    intro g _
    refine ⟨g, rfl, ?_, ?_⟩ <;> simp [after_reset]
  | cons t ts ih =>
    intro g h
    have hk := h t (List.mem_cons_self _ _)
    have hrest : ∀ u, u ∈ ts → IsAuthMethod u := fun u hu => h u (List.mem_cons_of_mem _ hu)
    rw [auth_method_walk]
    by_cases hany : ts.any is_reset = true
    · have e1 : after_reset (t :: ts) = after_reset ts := by rw [after_reset, if_pos hany]
      have e2 : (t :: ts).any is_reset = true := by simp [hany]
      have hfin : ∀ g1 : ISTGT_GLOBAL, ∃ c, auth_method_walk ts g1 = .ok c
          ∧ c.req_discovery_auth
              = (if ∃ u, u ∈ after_reset (t :: ts) ∧ strcasecmp u kCHAP = 0 then 1
                 else if (t :: ts).any is_reset then 0 else g.req_discovery_auth)
          ∧ c.req_discovery_auth_mutual
              = (if ∃ u, u ∈ after_reset (t :: ts) ∧ strcasecmp u kMutual = 0 then 1
                 else if (t :: ts).any is_reset then 0 else g.req_discovery_auth_mutual) := by
        intro g1
        obtain ⟨c, hc, hr, hm⟩ := ih g1 hrest
        refine ⟨c, hc, ?_, ?_⟩
        · rw [hr, e1, e2, hany]; simp
        · rw [hm, e1, e2, hany]; simp
      rcases auth_step_cases g t hk with ⟨_, _, _, e⟩ | ⟨_, _, _, e⟩ | ⟨_, _, _, n, e⟩
      · rw [e]; exact hfin _
      · rw [e]; exact hfin _
      · rw [e]; exact hfin _
    · have hany' : ts.any is_reset = false := by simpa using hany
      have hts : after_reset ts = ts := after_reset_of_none ts hany'
      rcases auth_step_cases g t hk with ⟨a1, a2, a3, e⟩ | ⟨a1, a2, a3, e⟩ | ⟨a1, a2, a3, n, e⟩
      · rw [e]
        obtain ⟨c, hc, hr, hm⟩ := ih { g with req_discovery_auth := 1 } hrest
        have e1 : after_reset (t :: ts) = t :: ts := by
          rw [after_reset, if_neg hany, a3]; simp
        have e2 : (t :: ts).any is_reset = false := by simp [hany', a3]
        refine ⟨c, hc, ?_, ?_⟩
        · rw [hr, e1, hts, hany']
          have : ∃ u, u ∈ t :: ts ∧ strcasecmp u kCHAP = 0 := ⟨t, List.mem_cons_self _ _, a1⟩
          rw [if_pos this]
          by_cases hx : ∃ u, u ∈ ts ∧ strcasecmp u kCHAP = 0
          · rw [if_pos hx]
          · rw [if_neg hx]; rfl
        · rw [hm, e1, e2, hts, hany']
          have hiff : (∃ u, u ∈ t :: ts ∧ strcasecmp u kMutual = 0)
              ↔ ∃ u, u ∈ ts ∧ strcasecmp u kMutual = 0 := by
            constructor
            · rintro ⟨u, hu, hz⟩
              rcases List.mem_cons.1 hu with rfl | hu
              · exact absurd hz a2
              · exact ⟨u, hu, hz⟩
            · rintro ⟨u, hu, hz⟩
              exact ⟨u, List.mem_cons_of_mem _ hu, hz⟩
          simp only [hiff]
      · rw [e]
        obtain ⟨c, hc, hr, hm⟩ := ih { g with req_discovery_auth_mutual := 1 } hrest
        have e1 : after_reset (t :: ts) = t :: ts := by
          rw [after_reset, if_neg hany, a3]; simp
        have e2 : (t :: ts).any is_reset = false := by simp [hany', a3]
        refine ⟨c, hc, ?_, ?_⟩
        · rw [hr, e1, e2, hts, hany']
          have hiff : (∃ u, u ∈ t :: ts ∧ strcasecmp u kCHAP = 0)
              ↔ ∃ u, u ∈ ts ∧ strcasecmp u kCHAP = 0 := by
            constructor
            · rintro ⟨u, hu, hz⟩
              rcases List.mem_cons.1 hu with rfl | hu
              · exact absurd hz a1
              · exact ⟨u, hu, hz⟩
            · rintro ⟨u, hu, hz⟩
              exact ⟨u, List.mem_cons_of_mem _ hu, hz⟩
          simp only [hiff]
        · rw [hm, e1, hts, hany']
          have : ∃ u, u ∈ t :: ts ∧ strcasecmp u kMutual = 0 := ⟨t, List.mem_cons_self _ _, a2⟩
          rw [if_pos this]
          by_cases hx : ∃ u, u ∈ ts ∧ strcasecmp u kMutual = 0
          · rw [if_pos hx]
          · rw [if_neg hx]; rfl
      · rw [e]
        obtain ⟨c, hc, hr, hm⟩ := ih
          ({ g with no_discovery_auth := n, req_discovery_auth := 0,
                    req_discovery_auth_mutual := 0 })
          hrest
        have e1 : after_reset (t :: ts) = ts := by
          rw [after_reset, if_neg hany, a3]; simp
        have e2 : (t :: ts).any is_reset = true := by simp [a3]
        refine ⟨c, hc, ?_, ?_⟩
        · rw [hr, e1, e2, hts, hany']
          simp
        · rw [hm, e1, e2, hts, hany']
          simp

/-- When the blocks of `istgt_init` go through, the block for
`DiscoveryAuthMethod` has gone through on a structure that still holds the
two flags as they were at the start. -/
theorem run_init_auth_state (D : InitDefaults) (sp : CF_SECTION) (g g' : ISTGT_GLOBAL)
    (h : run_blocks (init_blocks D sp) g = .ok g') :
    ∃ a c, a.req_discovery_auth = g.req_discovery_auth
      ∧ a.req_discovery_auth_mutual = g.req_discovery_auth_mutual
      ∧ init_discovery_auth_method sp a = .ok c := by
  unfold init_blocks at h
  simp only [run_blocks_cons_ok, run_blocks_nil_ok] at h
  obtain ⟨g1, h1, g2, h2, g3, h3, g4, h4, g5, h5, g6, h6, g7, h7, g8, h8, g9, h9, g10, h10,
    g11, h11, g12, h12, g13, h13, hfin⟩ := h
  have e1 := (init_strings_ok D sp _ _).1 h1
  obtain ⟨_, _, e2⟩ := (init_sessions_ok D sp _ _).1 h2
  obtain ⟨_, _, _, e3⟩ := (init_r2t_times_ok D sp _ _).1 h3
  obtain ⟨_, _, _, _, _, _, e4⟩ := (init_burst_ok D sp _ _).1 h4
  obtain ⟨v5, _, e5⟩ := (init_initial_r2t_ok D sp _ _).1 h5
  obtain ⟨v6, _, e6⟩ := (init_immediate_data_ok D sp _ _).1 h6
  obtain ⟨v7, _, e7⟩ := (init_data_pdu_in_order_ok D sp _ _).1 h7
  obtain ⟨v8, _, e8⟩ := (init_data_sequence_in_order_ok D sp _ _).1 h8
  have e9 := init_error_recovery_level_ok D sp _ _ h9
  have e10 := (init_timeouts_ok D sp _ _).1 h10
  obtain ⟨_, e11⟩ := (init_maxr2t_ok D sp _ _).1 h11
  refine ⟨g11, g12, ?_, ?_, h12⟩
  · have t11 : g11.req_discovery_auth = g10.req_discovery_auth := by
      have t := congrArg ISTGT_GLOBAL.req_discovery_auth e11
      exact t
    have t10 : g10.req_discovery_auth = g9.req_discovery_auth := by
      have t := congrArg ISTGT_GLOBAL.req_discovery_auth e10
      exact t
    have t9 : g9.req_discovery_auth = g8.req_discovery_auth := by
      have t := congrArg ISTGT_GLOBAL.req_discovery_auth e9
      exact t
    have t8 : g8.req_discovery_auth = g7.req_discovery_auth := by
      have t := congrArg ISTGT_GLOBAL.req_discovery_auth e8
      exact t
    have t7 : g7.req_discovery_auth = g6.req_discovery_auth := by
      have t := congrArg ISTGT_GLOBAL.req_discovery_auth e7
      exact t
    have t6 : g6.req_discovery_auth = g5.req_discovery_auth := by
      have t := congrArg ISTGT_GLOBAL.req_discovery_auth e6
      exact t
    have t5 : g5.req_discovery_auth = g4.req_discovery_auth := by
      have t := congrArg ISTGT_GLOBAL.req_discovery_auth e5
      exact t
    have t4 : g4.req_discovery_auth = g3.req_discovery_auth := by
      have t := congrArg ISTGT_GLOBAL.req_discovery_auth e4
      exact t
    have t3 : g3.req_discovery_auth = g2.req_discovery_auth := by
      have t := congrArg ISTGT_GLOBAL.req_discovery_auth e3
      exact t
    have t2 : g2.req_discovery_auth = g1.req_discovery_auth := by
      have t := congrArg ISTGT_GLOBAL.req_discovery_auth e2
      exact t
    have t1 : g1.req_discovery_auth = g.req_discovery_auth := by
      have t := congrArg ISTGT_GLOBAL.req_discovery_auth e1
      exact t
    rw [t11, t10, t9, t8, t7, t6, t5, t4, t3, t2, t1]
  · have t11 : g11.req_discovery_auth_mutual = g10.req_discovery_auth_mutual := by
      have t := congrArg ISTGT_GLOBAL.req_discovery_auth_mutual e11
      exact t
    have t10 : g10.req_discovery_auth_mutual = g9.req_discovery_auth_mutual := by
      have t := congrArg ISTGT_GLOBAL.req_discovery_auth_mutual e10
      exact t
    have t9 : g9.req_discovery_auth_mutual = g8.req_discovery_auth_mutual := by
      have t := congrArg ISTGT_GLOBAL.req_discovery_auth_mutual e9
      exact t
    have t8 : g8.req_discovery_auth_mutual = g7.req_discovery_auth_mutual := by
      have t := congrArg ISTGT_GLOBAL.req_discovery_auth_mutual e8
      exact t
    have t7 : g7.req_discovery_auth_mutual = g6.req_discovery_auth_mutual := by
      have t := congrArg ISTGT_GLOBAL.req_discovery_auth_mutual e7
      exact t
    have t6 : g6.req_discovery_auth_mutual = g5.req_discovery_auth_mutual := by
      have t := congrArg ISTGT_GLOBAL.req_discovery_auth_mutual e6
      exact t
    have t5 : g5.req_discovery_auth_mutual = g4.req_discovery_auth_mutual := by
      have t := congrArg ISTGT_GLOBAL.req_discovery_auth_mutual e5
      exact t
    have t4 : g4.req_discovery_auth_mutual = g3.req_discovery_auth_mutual := by
      have t := congrArg ISTGT_GLOBAL.req_discovery_auth_mutual e4
      exact t
    have t3 : g3.req_discovery_auth_mutual = g2.req_discovery_auth_mutual := by
      have t := congrArg ISTGT_GLOBAL.req_discovery_auth_mutual e3
      exact t
    have t2 : g2.req_discovery_auth_mutual = g1.req_discovery_auth_mutual := by
      have t := congrArg ISTGT_GLOBAL.req_discovery_auth_mutual e2
      exact t
    have t1 : g1.req_discovery_auth_mutual = g.req_discovery_auth_mutual := by
      have t := congrArg ISTGT_GLOBAL.req_discovery_auth_mutual e1
      exact t
    rw [t11, t10, t9, t8, t7, t6, t5, t4, t3, t2, t1]

/-- The tokens after the last `Auto` or `None` form the end of the list, hold
neither `Auto` nor `None`, and are the whole list or follow such a token. -/
theorem after_reset_spec : ∀ ts : List CStr,
    ∃ pre, ts = pre ++ after_reset ts
      ∧ (∀ t, t ∈ after_reset ts → is_reset t = false)
      ∧ (pre = [] ∨ ∃ p r, pre = p ++ [r] ∧ is_reset r = true) := by
  intro ts
  induction ts with
  | nil =>
    refine ⟨[], rfl, ?_, Or.inl rfl⟩
    intro t ht
    cases ht
  | cons t ts ih =>
    by_cases hany : ts.any is_reset = true
    · obtain ⟨pre, h1, h2, h3⟩ := ih
      have e : after_reset (t :: ts) = after_reset ts := by rw [after_reset, if_pos hany]
      rw [e]
      refine ⟨t :: pre, ?_, h2, Or.inr ?_⟩
      · rw [List.cons_append, ← h1]
      · rcases h3 with hp | ⟨p, r, hp, hr⟩
        · exfalso
          obtain ⟨u, hu, hur⟩ := List.any_eq_true.1 hany
          rw [hp, List.nil_append] at h1
          rw [h1] at hu
          rw [h2 u hu] at hur
          cases hur
        · exact ⟨t :: p, r, by rw [hp, List.cons_append], hr⟩
    · have hany' : ts.any is_reset = false := by simpa using hany
      have hnone : ∀ u, u ∈ ts → is_reset u = false := by
        intro u hu
        cases hb : is_reset u with
        | false => rfl
        | true =>
          have : ts.any is_reset = true := List.any_eq_true.2 ⟨u, hu, hb⟩
          rw [hany'] at this
          cases this
      by_cases ht : is_reset t = true
      · have e : after_reset (t :: ts) = ts := by
          rw [after_reset, if_neg hany, if_pos ht]
        rw [e]
        exact ⟨[t], rfl, hnone, Or.inr ⟨[], t, rfl, ht⟩⟩
      · have ht' : is_reset t = false := by simpa using ht
        have e : after_reset (t :: ts) = t :: ts := by
          rw [after_reset, if_neg hany, if_neg ht]
        rw [e]
        refine ⟨[], rfl, ?_, Or.inl rfl⟩
        intro u hu
        rcases List.mem_cons.1 hu with rfl | hu
        · exact ht'
        · exact hnone u hu

/-- The block for `DiscoveryAuthMethod`, entered with the two flags cleared
on a line with at least one token, fails exactly when the line holds a token
outside the set, or `Mutual` without `CHAP` among the tokens after the last
`Auto` or `None`. -/
theorem auth_block_fails_iff (sp : CF_SECTION) (ip : CF_ITEM) (g : ISTGT_GLOBAL)
    (hip : istgt_find_cf_nitem sp kDiscoveryAuthMethod 0 = some ip) (hne : ip.val ≠ [])
    (hreq : g.req_discovery_auth = 0) (hmut : g.req_discovery_auth_mutual = 0) :
    (∃ e, init_discovery_auth_method sp g = .error e) ↔
      ((∃ t, t ∈ ip.val ∧ ¬ IsAuthMethod t)
        ∨ ((∃ t, t ∈ after_reset ip.val ∧ strcasecmp t kMutual = 0)
            ∧ ¬ ∃ t, t ∈ after_reset ip.val ∧ strcasecmp t kCHAP = 0)) := by
  have hval : ∃ v, istgt_get_val sp kDiscoveryAuthMethod = some v := by
    unfold istgt_get_val istgt_get_nval
    rw [hip]
    cases hv : ip.val with
    | nil => exact absurd hv hne
    | cons v vs => exact ⟨v, by simp [hv]⟩
  obtain ⟨v, hv⟩ := hval
  have hfuel : (first_item_vals sp kDiscoveryAuthMethod).length = ip.val.length := by
    unfold first_item_vals
    rw [hip]
  have hloop := auth_loop_eq_walk sp ip hip ip.val.length 0
    { g with no_discovery_auth := 0 } (by omega)
  rw [List.drop_zero] at hloop
  have hblock : init_discovery_auth_method sp g
      = (match auth_method_walk ip.val { g with no_discovery_auth := 0 } with
        | .error e => .error e
        | .ok g1 =>
          if g1.req_discovery_auth_mutual ≠ 0 ∧ ¬ (g1.req_discovery_auth ≠ 0) then .error g1
          else .ok g1) := by
    unfold init_discovery_auth_method
    rw [hv]
    simp only []
    rw [hfuel, hloop]
  rw [hblock]
  by_cases hunk : ∃ t, t ∈ ip.val ∧ ¬ IsAuthMethod t
  · obtain ⟨e, he⟩ := auth_walk_unknown ip.val { g with no_discovery_auth := 0 } hunk
    rw [he]
    exact ⟨fun _ => Or.inl hunk, fun _ => ⟨e, rfl⟩⟩
  · have hall : ∀ t, t ∈ ip.val → IsAuthMethod t := by
      intro t ht
      by_contra hn
      exact hunk ⟨t, ht, hn⟩
    obtain ⟨c, hc, hr, hm⟩ := auth_walk_known ip.val { g with no_discovery_auth := 0 } hall
    rw [hc]
    simp only []
    have hr' : c.req_discovery_auth
        = if ∃ t, t ∈ after_reset ip.val ∧ strcasecmp t kCHAP = 0 then 1 else 0 := by
      rw [hr]
      show (if _ then (1 : Int) else if _ then 0 else g.req_discovery_auth) = _
      rw [hreq]
      split_ifs <;> rfl
    have hm' : c.req_discovery_auth_mutual
        = if ∃ t, t ∈ after_reset ip.val ∧ strcasecmp t kMutual = 0 then 1 else 0 := by
      rw [hm]
      show (if _ then (1 : Int) else if _ then 0 else g.req_discovery_auth_mutual) = _
      rw [hmut]
      split_ifs <;> rfl
    by_cases hM : ∃ t, t ∈ after_reset ip.val ∧ strcasecmp t kMutual = 0
    · by_cases hC : ∃ t, t ∈ after_reset ip.val ∧ strcasecmp t kCHAP = 0
      · rw [if_pos hC] at hr'
        rw [if_neg (by rw [hr']; simp)]
        constructor
        · rintro ⟨e, he⟩
          cases he
        · rintro (h | ⟨_, h⟩)
          · exact absurd h hunk
          · exact absurd hC h
      · rw [if_neg hC] at hr'
        rw [if_pos hM] at hm'
        rw [if_pos (by rw [hr', hm']; simp)]
        exact ⟨fun _ => Or.inr ⟨hM, hC⟩, fun _ => ⟨c, rfl⟩⟩
    · rw [if_neg hM] at hm'
      rw [if_neg (by rw [hm']; simp)]
      constructor
      · rintro ⟨e, he⟩
        cases he
      · rintro (h | ⟨h, _⟩)
        · exact absurd h hunk
        · exact absurd h hM

/-- The outcomes of `istgt_add_portal_group` with the slot it writes given
as the result of the fill loop. -/
theorem add_shapes (K : Limits) (T : ISTGT) (sp : CF_SECTION) (pgp : Option Nat) :
    (istgt_add_portal_group K T sp pgp = (-1, T, pgp))
    ∨ (∃ n f, count_portals K sp = some n ∧ find_free_slot T n = some f
        ∧ f < K.MAX_PORTAL_GROUP
        ∧ istgt_add_portal_group K T sp pgp
            = (0, pg_store T f
                (fill_loop K sp false { pg_at T f with ref := 0, idx := f, tag := sp.num }
                  0 n).2,
               pgp.map (fun _ => f)))
    ∨ (∃ n, count_portals K sp = some n ∧ find_free_slot T n = none
        ∧ T.nportal_group < K.MAX_PORTAL_GROUP
        ∧ istgt_add_portal_group K T sp pgp
            = (0, { pg_store T T.nportal_group
                      (fill_loop K sp true
                        { nportals := n, portals := List.replicate n default, ref := 0,
                          idx := T.nportal_group, tag := sp.num } 0 n).2 with
                    nportal_group := T.nportal_group + 1 },
               pgp.map (fun _ => T.nportal_group))) := by
  cases hc : count_portals K sp with
  | none => left; simp [istgt_add_portal_group, hc]
  | some n =>
    have hok := (count_portals_some hc).1
    by_cases hmax : n > K.MAX_PORTAL
    · left; simp [istgt_add_portal_group, hc, hmax]
    · cases hfree : find_free_slot T n with
      | none =>
        by_cases hcap : T.nportal_group < K.MAX_PORTAL_GROUP
        · right; right
          obtain ⟨pg3, h1, _⟩ :=
            fill_loop_ok K sp true n 0
              { nportals := n, portals := List.replicate n default, ref := 0,
                idx := T.nportal_group, tag := sp.num }
              (fun j _ hj => hok j (by omega))
          refine ⟨n, rfl, hfree, hcap, ?_⟩
          rw [h1]
          simp [istgt_add_portal_group, hc, hmax, hfree, hcap, h1]
        · left; simp [istgt_add_portal_group, hc, hmax, hfree, hcap]
      | some f =>
        by_cases hcap : f < K.MAX_PORTAL_GROUP
        · right; left
          obtain ⟨pg3, h1, _⟩ :=
            fill_loop_ok K sp false n 0
              { pg_at T f with ref := 0, idx := f, tag := sp.num }
              (fun j _ hj => hok j (by omega))
          refine ⟨n, f, rfl, hfree, hcap, ?_⟩
          rw [h1]
          simp [istgt_add_portal_group, hc, hmax, hfree, hcap, h1]
        · left; simp [istgt_add_portal_group, hc, hmax, hfree, hcap]

/-- The outcomes of `istgt_update_portal_group` when `*pgp_idx` names the
located slot `j`, with the slot it writes given as the result of the rewrite
loop or of the fill loop. -/
theorem update_shapes (K : Limits) (T : ISTGT) (sp : CF_SECTION) (j : Nat)
    (hfind : find_tag_slot T sp.num = some j) (hjlen : j < T.portal_group.length) :
    (istgt_update_portal_group K T sp j = (-1, T, j))
    ∨ (istgt_update_portal_group K T sp j = (0, T, j))
    ∨ (∃ n, count_portals K sp = some n ∧ (pg_at T j).nportals = n
        ∧ istgt_update_portal_group K T sp j
            = (1, pg_store T j (rewrite_loop K sp (pg_at T j) 0 n).2, j))
    ∨ (istgt_update_portal_group K T sp j
            = (-1, pg_store T j { pg_at T j with tag := 0 }, j))
    ∨ (∃ n f, count_portals K sp = some n ∧ (pg_at T j).nportals ≠ n
        ∧ find_free_slot T n = some f ∧ f < K.MAX_PORTAL_GROUP ∧ f ≠ j
        ∧ istgt_update_portal_group K T sp j
            = (1, pg_store (pg_store T j { pg_at T j with tag := 0 }) f
                (fill_loop K sp false
                  { pg_at T f with ref := (pg_at T j).ref, idx := f, tag := sp.num } 0 n).2,
               f))
    ∨ (∃ n, count_portals K sp = some n ∧ (pg_at T j).nportals ≠ n
        ∧ find_free_slot T n = none ∧ T.nportal_group < K.MAX_PORTAL_GROUP
        ∧ istgt_update_portal_group K T sp j
            = (1, { pg_store (pg_store T j { pg_at T j with tag := 0 }) T.nportal_group
                      (fill_loop K sp true
                        { nportals := n, portals := List.replicate n default,
                          ref := (pg_at T j).ref, idx := T.nportal_group, tag := sp.num }
                        0 n).2 with
                    nportal_group := T.nportal_group + 1 }, T.nportal_group)) := by
  obtain ⟨hj, _, _⟩ := find_tag_slot_some hfind
  cases hc : count_portals K sp with
  | none => left; simp [istgt_update_portal_group, hc]
  | some n =>
    have hok := (count_portals_some hc).1
    by_cases hmax : n > K.MAX_PORTAL
    · left; simp [istgt_update_portal_group, hc, hmax]
    · cases hm : istgt_pg_match_all K (pg_at T j) sp with
      | true =>
        right; left
        simp [istgt_update_portal_group, hc, hmax, hfind, hm]
      | false =>
        by_cases hsame : (pg_at T j).nportals = n
        · right; right; left
          obtain ⟨pg1, h1, _⟩ :=
            rewrite_loop_ok K sp n 0 (pg_at T j) (fun l _ hl => hok l (by omega))
          refine ⟨n, rfl, hsame, ?_⟩
          rw [h1]
          simp [istgt_update_portal_group, hc, hmax, hfind, hm, hsame, h1]
        · have hmark := find_free_slot_mark T j n hsame
          cases hfree : find_free_slot T n with
          | none =>
            by_cases hcap : T.nportal_group < K.MAX_PORTAL_GROUP
            · right; right; right; right; right
              have hne : j ≠ T.nportal_group := by omega
              obtain ⟨pg3, h1, _⟩ :=
                fill_loop_ok K sp true n 0
                  { nportals := n, portals := List.replicate n default,
                    ref := (pg_at T j).ref, idx := T.nportal_group, tag := sp.num }
                  (fun l _ hl => hok l (by omega))
              refine ⟨n, rfl, hsame, hfree, hcap, ?_⟩
              rw [h1]
              unfold istgt_update_portal_group
              simp only [hc, hmax, hfind, hm, hsame, hmark, hfree, if_false]
              simp only [Option.getD_none, pg_store_nportal_group, hcap, if_true,
                Option.isNone_none]
              rw [pg_at_store_ne _ _ _ _ hne, pg_at_store_self _ _ _ hjlen]
              simp only [pg_at_store_ne _ _ _ _ hne.symm, pg_store_store]
              rw [h1]
              simp [pg_store_store]
            · right; right; right; left
              unfold istgt_update_portal_group
              simp only [hc, hmax, hfind, hm, hsame, hmark, hfree, if_false]
              simp [hcap]
          | some f =>
            obtain ⟨f1, _, f3, _⟩ := find_free_slot_some hfree
            have hne : j ≠ f := by
              rintro rfl
              exact hsame f3
            by_cases hcap : f < K.MAX_PORTAL_GROUP
            · right; right; right; right; left
              obtain ⟨pg3, h1, _⟩ :=
                fill_loop_ok K sp false n 0
                  { pg_at T f with ref := (pg_at T j).ref, idx := f, tag := sp.num }
                  (fun l _ hl => hok l (by omega))
              refine ⟨n, f, rfl, hsame, hfree, hcap, hne.symm, ?_⟩
              rw [h1]
              unfold istgt_update_portal_group
              simp only [hc, hmax, hfind, hm, hsame, hmark, hfree, if_false]
              simp only [Option.getD_some, hcap, if_true, Option.isNone_some]
              simp only [pg_at_store_ne _ _ _ _ hne.symm]
              rw [pg_at_store_ne _ _ _ _ hne, pg_at_store_self _ _ _ hjlen]
              simp only [Bool.false_eq_true, if_false, pg_store_store]
              rw [h1]
            · right; right; right; left
              unfold istgt_update_portal_group
              simp only [hc, hmax, hfind, hm, hsame, hmark, hfree, if_false]
              simp [hcap]

/-- The fill loop over the counted entries of a section leaves a slot that
records positions. -/
theorem fill_slotpos {K : Limits} {sp : CF_SECTION} (fresh : Bool) {n q : Nat}
    (pg : PORTAL_GROUP) (hok : ∀ j, j < n → EntryOk K sp j)
    (hidx : pg.idx = q) (htag : pg.tag = sp.num) (hn : pg.nportals = n)
    (hlen : pg.portals.length = n) :
    SlotPos q (fill_loop K sp fresh pg 0 n).2 ∧ (fill_loop K sp fresh pg 0 n).2.tag = sp.num
      ∧ (fill_loop K sp fresh pg 0 n).2.nportals = n := by
  obtain ⟨pg2, h1, h2, _, h4, h5, h6, _, h8⟩ :=
    fill_loop_ok K sp fresh n 0 pg (fun j _ hj => hok j (by omega))
  rw [h1]
  refine ⟨⟨by rw [h4, hidx], by rw [h6, hlen, h2, hn], ?_⟩, by rw [h5, htag], by rw [h2, hn]⟩
  intro _ j hj
  rw [h2, hn] at hj
  obtain ⟨label, portal, host, port, _, _, _, d⟩ :=
    h8 j (Nat.zero_le _) (by omega) (by omega)
  show (portal_at pg2 j).idx = j ∧ (portal_at pg2 j).tag = pg2.tag
  rw [d, h5, htag]
  exact ⟨rfl, rfl⟩

/-- The rewrite loop over the counted entries of a section keeps what a slot
records of positions. -/
theorem rewrite_slotpos {K : Limits} {sp : CF_SECTION} {n q : Nat}
    (pg : PORTAL_GROUP) (hok : ∀ j, j < n → EntryOk K sp j)
    (h : SlotPos q pg) (hn : pg.nportals = n) :
    SlotPos q (rewrite_loop K sp pg 0 n).2 ∧ (rewrite_loop K sp pg 0 n).2.tag = pg.tag
      ∧ (rewrite_loop K sp pg 0 n).2.nportals = pg.nportals := by
  obtain ⟨s1, s2, s3⟩ := h
  obtain ⟨pg2, h1, h2, _, h4, h5, h6, _, h8⟩ :=
    rewrite_loop_ok K sp n 0 pg (fun j _ hj => hok j (by omega))
  rw [h1]
  refine ⟨⟨by rw [h4, s1], by rw [h6, s2, h2], ?_⟩, h5, h2⟩
  intro ht j hj
  show (portal_at pg2 j).idx = j ∧ (portal_at pg2 j).tag = pg2.tag
  rw [h2] at hj
  have ht' : pg.tag ≠ 0 := by
    have e : pg2.tag = pg.tag := h5
    rw [← e]; exact ht
  obtain ⟨label, portal, host, port, _, _, _, d⟩ :=
    h8 j (Nat.zero_le _) (by omega) (by omega)
  rw [d, h5]
  exact s3 ht' j hj

theorem slotpos_marked (i : Nat) (pg : PORTAL_GROUP) (h : SlotPos i pg) :
    SlotPos i { pg with tag := 0 } :=
  ⟨h.1, h.2.1, fun ht => absurd rfl ht⟩

theorem slotpos_setref (i : Nat) (pg : PORTAL_GROUP) (r : Int) (h : SlotPos i pg) :
    SlotPos i { pg with ref := r } :=
  ⟨h.1, h.2.1, h.2.2⟩

/-- Opening the listeners of a slot keeps what it records of positions. -/
theorem slotpos_opened (i : Nat) (pg : PORTAL_GROUP) (net : Net) (h : SlotPos i pg) :
    SlotPos i (open_loop pg net 0 pg.nportals).2.1 := by
  obtain ⟨s1, s2, s3⟩ := h
  obtain ⟨o1, _, o3, o4⟩ := open_loop_fields pg.nportals 0 pg net
  obtain ⟨p1, _, p3, _⟩ := open_loop_spec pg.nportals 0 pg net
  refine ⟨by rw [o3, s1], by rw [p1, o4, s2], ?_⟩
  intro ht j hj
  rw [o1] at ht ⊢
  rw [o4] at hj
  rcases p3 j with e | ⟨_, sock, _, e⟩
  · rw [e]; exact s3 ht j hj
  · rw [e]; exact s3 ht j hj

/-- Closing the listeners of a slot keeps what it records of positions. -/
theorem slotpos_closed (i : Nat) (pg : PORTAL_GROUP) (net : Net) (h : SlotPos i pg) :
    SlotPos i (close_loop pg net 0 pg.nportals).1 := by
  obtain ⟨s1, s2, s3⟩ := h
  obtain ⟨c1, c2, _, c4, c5, _, c7⟩ := close_loop_spec pg.nportals 0 pg net
  refine ⟨by rw [c4, s1], by rw [c5, c1, s2], ?_⟩
  intro ht j hj
  rw [c2] at ht ⊢
  rw [c1] at hj
  rw [c7 j (Nat.zero_le _) (by omega) (by omega)]
  by_cases hs : 0 ≤ (portal_at pg j).sock
  · rw [if_pos hs]; exact s3 ht j hj
  · rw [if_neg hs]; exact s3 ht j hj

theorem slotpos_retired (i : Nat) (pg : PORTAL_GROUP) (h : SlotPos i pg) :
    SlotPos i (retired_slot pg) := by
  obtain ⟨s1, s2, _⟩ := h
  obtain ⟨r1, r2, _, r4, r5, _⟩ := retired_slot_spec pg
  exact ⟨by rw [r4, s1], by rw [r5, r2, s2], fun ht => absurd r1 ht⟩

theorem tablepos_store (K : Limits) (T : ISTGT) (q : Nat) (x : PORTAL_GROUP)
    (h : TablePos K T) (hx : q < T.nportal_group → SlotPos q x) :
    TablePos K (pg_store T q x) := by
  obtain ⟨⟨f1, f2⟩, hs⟩ := h
  refine ⟨⟨f1, by simpa using f2⟩, ?_⟩
  intro i hi
  rcases pg_at_store_cases T q i x with ⟨rfl, e⟩ | e
  · rw [e]; exact hx hi
  · rw [e]; exact hs i hi

theorem tablepos_grow (K : Limits) (T : ISTGT) (x : PORTAL_GROUP)
    (h : TablePos K T) (hcap : T.nportal_group < K.MAX_PORTAL_GROUP)
    (hx : SlotPos T.nportal_group x) :
    TablePos K { pg_store T T.nportal_group x with nportal_group := T.nportal_group + 1 } := by
  obtain ⟨⟨_, f2⟩, hs⟩ := h
  refine ⟨⟨hcap, by simpa using f2⟩, ?_⟩
  intro i hi
  have hi' : i < T.nportal_group + 1 := hi
  show SlotPos i (pg_at (pg_store T T.nportal_group x) i)
  by_cases hin : i = T.nportal_group
  · subst hin
    have hlen : T.nportal_group < T.portal_group.length := by omega
    rw [pg_at_store_self _ _ _ hlen]; exact hx
  · rw [pg_at_store_ne _ _ _ _ hin]
    exact hs i (by omega)

theorem tablepos_sized {K : Limits} {T : ISTGT} (h : TablePos K T) : SlotsSized T :=
  fun i hi => (h.2 i hi).2.1

/-- Adding a portal group keeps the positions recorded. -/
theorem add_tablepos (K : Limits) (T : ISTGT) (sp : CF_SECTION) (pgp : Option Nat)
    (h : TablePos K T) : TablePos K (istgt_add_portal_group K T sp pgp).2.1 := by
  rcases add_shapes K T sp pgp with e | ⟨n, f, hc, hfree, _, e⟩ | ⟨n, hc, _, hcap, e⟩
  · rw [e]; exact h
  · rw [e]
    obtain ⟨f1, _, f3, _⟩ := find_free_slot_some hfree
    have hok := (count_portals_some hc).1
    apply tablepos_store K T f _ h
    intro _
    exact (fill_slotpos false { pg_at T f with ref := 0, idx := f, tag := sp.num } hok rfl rfl
      f3 (by
        show (pg_at T f).portals.length = n
        rw [(h.2 f f1).2.1, f3])).1
  · rw [e]
    have hok := (count_portals_some hc).1
    apply tablepos_grow K T _ h hcap
    exact (fill_slotpos true
      { nportals := n, portals := List.replicate n default, ref := 0,
        idx := T.nportal_group, tag := sp.num } hok rfl rfl rfl (by simp)).1

/-- Updating the located slot, named by `*pgp_idx`, keeps the positions
recorded. -/
theorem update_tablepos (K : Limits) (T : ISTGT) (sp : CF_SECTION) (j : Nat)
    (h : TablePos K T) (hfind : find_tag_slot T sp.num = some j) :
    TablePos K (istgt_update_portal_group K T sp j).2.1 := by
  obtain ⟨hj, _, _⟩ := find_tag_slot_some hfind
  have hjlen : j < T.portal_group.length := by
    have := h.1; unfold ArrayFits at this; omega
  have hmarked : TablePos K (pg_store T j { pg_at T j with tag := 0 }) :=
    tablepos_store K T j _ h (fun _ => slotpos_marked j _ (h.2 j hj))
  rcases update_shapes K T sp j hfind hjlen with
    e | e | ⟨n, hc, hn, e⟩ | e | ⟨n, f, hc, _, hfree, _, hne, e⟩ | ⟨n, hc, _, _, hcap, e⟩
  · rw [e]; exact h
  · rw [e]; exact h
  · rw [e]
    have hok := (count_portals_some hc).1
    apply tablepos_store K T j _ h
    intro _
    exact (rewrite_slotpos (pg_at T j) hok (h.2 j hj) hn).1
  · rw [e]; exact hmarked
  · rw [e]
    obtain ⟨f1, _, f3, _⟩ := find_free_slot_some hfree
    have hok := (count_portals_some hc).1
    apply tablepos_store K _ f _ hmarked
    intro _
    exact (fill_slotpos false
      { pg_at T f with ref := (pg_at T j).ref, idx := f, tag := sp.num } hok rfl rfl f3 (by
        show (pg_at T f).portals.length = n
        rw [(h.2 f f1).2.1, f3])).1
  · rw [e]
    have hok := (count_portals_some hc).1
    apply tablepos_grow K _ _ hmarked hcap
    exact (fill_slotpos true
      { nportals := n, portals := List.replicate n default, ref := (pg_at T j).ref,
        idx := T.nportal_group, tag := sp.num } hok rfl rfl rfl (by simp)).1

/-- An update that locates no slot changes nothing. -/
theorem update_not_found (K : Limits) (T : ISTGT) (sp : CF_SECTION) (p : Nat)
    (hfind : find_tag_slot T sp.num = none) :
    (istgt_update_portal_group K T sp p).2.1 = T := by
  unfold istgt_update_portal_group
  cases hc : count_portals K sp with
  | none => rfl
  | some n =>
    simp only []
    by_cases hmax : n > K.MAX_PORTAL
    · rw [if_pos hmax]
    · rw [if_neg hmax, hfind]

theorem pg_delete_tablepos (K : Limits) (T : ISTGT) (net : Net)
    (h : TablePos K T) : TablePos K (istgt_pg_delete T net).2.1 := by
  obtain ⟨h1, _, h3, h4, h5⟩ := pg_delete_loop_spec T.nportal_group 0 T net
  obtain ⟨⟨f1, f2⟩, hs⟩ := h
  refine ⟨⟨?_, ?_⟩, ?_⟩
  · show (pg_delete_loop T net 0 T.nportal_group).1.nportal_group ≤ _
    rw [h1]; exact f1
  · show _ ≤ (pg_delete_loop T net 0 T.nportal_group).1.portal_group.length
    rw [h3]; exact f2
  · intro i hi
    have hi' : i < T.nportal_group := by
      have : (pg_delete_loop T net 0 T.nportal_group).1.nportal_group = T.nportal_group := h1
      have hi2 : i < (pg_delete_loop T net 0 T.nportal_group).1.nportal_group := hi
      omega
    show SlotPos i (pg_at (pg_delete_loop T net 0 T.nportal_group).1 i)
    by_cases hr : Retires T.config (pg_at T i)
    · rw [h4 i (Nat.zero_le _) (by omega) hr]
      exact slotpos_retired i _ (hs i hi')
    · rw [h5 i (fun hc => hr hc.2.2)]
      exact hs i hi'

/-- Storing the opened form of a slot keeps the positions recorded. -/
theorem tablepos_store_open (K : Limits) (T : ISTGT) (q : Nat) (net : Net)
    (h : TablePos K T) :
    TablePos K (pg_store T q (istgt_open_portal_group (pg_at T q) net).2.1) :=
  tablepos_store K T q _ h (fun hq => slotpos_opened q _ net (h.2 q hq))

/-- One section of `istgt_pg_update` keeps the positions recorded. -/
theorem section_tablepos (K : Limits) (s : UpdState) (sp : CF_SECTION)
    (h : TablePos K s.istgt) : TablePos K (pg_update_section K s sp).istgt := by
  by_cases hty : sp.type = CF_SECTION_TYPE.ST_PORTALGROUP
  swap
  · rw [section_eq_other K s sp (Or.inl hty)]; exact h
  by_cases hnum : sp.num = 0
  · rw [section_eq_other K s sp (Or.inr hnum)]; exact h
  cases hfind : find_tag_slot s.istgt sp.num with
  | none =>
    rw [section_eq_add K s sp hty hnum hfind]
    have hadd := add_tablepos K s.istgt sp (some s.pgp_idx) h
    unfold section_add
    split_ifs
    · exact hadd
    · exact tablepos_store_open K _ _ s.net hadd
  | some j =>
    obtain ⟨hj, htag, _⟩ := find_tag_slot_some hfind
    by_cases hskip : istgt_pg_match_all K (pg_at s.istgt j) sp = true
        ∨ (pg_at s.istgt j).ref ≠ 0
    · rw [section_eq_skip K s sp j hty hnum hfind hskip]; exact h
    · simp only [not_or, Bool.not_eq_true, ne_eq, not_not] at hskip
      have hidx : (pg_at s.istgt j).idx = j := (h.2 j hj).1
      rw [section_eq_update K s sp j hty hnum hfind hskip.1 hskip.2, hidx]
      have hclosed : TablePos K (closed_table s j) :=
        tablepos_store K s.istgt j _ h (fun _ => slotpos_closed j _ s.net (h.2 j hj))
      have hfind2 : find_tag_slot (closed_table s j) sp.num = some j := by
        unfold closed_table
        rw [find_tag_slot_store _ _ _ _
          (close_loop_spec (pg_at s.istgt j).nportals 0 (pg_at s.istgt j) s.net).2.1]
        exact hfind
      have hupd := update_tablepos K (closed_table s j) sp j hclosed hfind2
      unfold section_update
      split_ifs
      · exact hupd
      · exact tablepos_store_open K _ _ (closed_net s j) hupd

theorem pg_update_fold_tablepos (K : Limits) : ∀ (secs : List CF_SECTION) (s : UpdState),
    TablePos K s.istgt → TablePos K (secs.foldl (pg_update_section K) s).istgt := by
  intro secs
  induction secs with
  | nil => intro s h; exact h
  | cons sp rest ih =>
    intro s h
    rw [List.foldl_cons]
    exact ih _ (section_tablepos K s sp h)

theorem pg_update_tablepos (K : Limits) (T : ISTGT) (net : Net) (p0 : Nat)
    (h : TablePos K T) : TablePos K (istgt_pg_update K T net p0).2.1 :=
  pg_update_fold_tablepos K T.config.section_ { istgt := T, net := net, pgp_idx := p0 } h

/-- Every table reached from an empty table by the portal-group routines
records positions. -/
theorem posreachable_tablepos (K : Limits) (t : ISTGT) (h : PosReachable K t) :
    TablePos K t := by
  induction h with
  | empty cfg =>
    refine ⟨⟨Nat.zero_le _, by simp [initial_istgt]⟩, ?_⟩
    intro i hi
    exact absurd hi (Nat.not_lt_zero i)
  | reconfig t cfg _ ih => exact ih
  | setref t i r _ ih =>
    exact tablepos_store K t i _ ih (fun hi => slotpos_setref i _ r (ih.2 i hi))
  | add t sp pgp_idx _ ih => exact add_tablepos K t sp pgp_idx ih
  | update t sp p _ hp ih =>
    cases hfind : find_tag_slot t sp.num with
    | none => rw [update_not_found K t sp p hfind]; exact ih
    | some j =>
      obtain ⟨hj, _, _⟩ := find_tag_slot_some hfind
      have e : p = j := by rw [hp j hfind, (ih.2 j hj).1]
      rw [e]
      exact update_tablepos K t sp j ih hfind
  | delete t net _ ih => exact pg_delete_tablepos K t net ih
  | pg_update t net p0 _ ih => exact pg_update_tablepos K t net p0 ih

/-! ## The claims -/

/-- C1: `istgt_pg_delete` and `istgt_pg_update` leave every portal group in
use exactly as it was: on a table whose assigned slots record their own
position, a slot below `nportal_group` with `tag != 0` and `ref != 0` before
the call is the same slot (tag, ref, portal strings, sockets) after it. -/
theorem inuse_untouched (K : Limits) (istgt : ISTGT) (net : Net) (p0 : Nat)
    (hf : IdxFaithful istgt) :
    ∀ i, i < istgt.nportal_group → (pg_at istgt i).tag ≠ 0 → (pg_at istgt i).ref ≠ 0 →
      pg_at (istgt_pg_delete istgt net).2.1 i = pg_at istgt i
      ∧ pg_at (istgt_pg_update K istgt net p0).2.1 i = pg_at istgt i := by
  intro i hi ht hr
  refine ⟨pg_delete_keeps_inuse istgt net i hr, ?_⟩
  obtain ⟨_, _, h⟩ := pg_update_fold_keeps K istgt.config.section_
    { istgt := istgt, net := net, pgp_idx := p0 } hf
  exact h i hi ht hr

/-- Witness for C1: the hypotheses of `inuse_untouched` hold on a concrete table
and section, and the theorem applies there. -/
theorem inuse_untouched_witness :
    IdxFaithful exTwo
    ∧ ∀ i, i < exTwo.nportal_group → (pg_at exTwo i).tag ≠ 0 → (pg_at exTwo i).ref ≠ 0 →
        pg_at (istgt_pg_delete exTwo exNet).2.1 i = pg_at exTwo i
        ∧ pg_at (istgt_pg_update exK exTwo exNet 0).2.1 i = pg_at exTwo i :=
  ⟨by decide, inuse_untouched exK exTwo exNet 0 (by decide)⟩

/-- C2: `istgt_pg_delete` returns 0 and keeps `nportal_group`; a slot below
`nportal_group` whose tag is non-zero, is the number of no `PortalGroup`
section of the current configuration, and whose `ref` is 0 ends with tag 0
and every portal closed (`sock = -1`); every other slot is unchanged. -/
theorem pg_delete_effect (istgt : ISTGT) (net : Net)
    (hsz : SlotsSized istgt) (hsock : SocksNormal istgt) :
    (istgt_pg_delete istgt net).1 = 0
    ∧ (istgt_pg_delete istgt net).2.1.nportal_group = istgt.nportal_group
    ∧ ∀ i,
        ((i < istgt.nportal_group ∧ (pg_at istgt i).tag ≠ 0
            ∧ (∀ sp, sp ∈ istgt.config.section_ →
                sp.type = CF_SECTION_TYPE.ST_PORTALGROUP → sp.num ≠ (pg_at istgt i).tag)
            ∧ (pg_at istgt i).ref = 0) →
          (pg_at (istgt_pg_delete istgt net).2.1 i).tag = 0
          ∧ (pg_at (istgt_pg_delete istgt net).2.1 i).nportals = (pg_at istgt i).nportals
          ∧ ∀ j, j < (pg_at istgt i).nportals →
              (portal_at (pg_at (istgt_pg_delete istgt net).2.1 i) j).sock = -1)
        ∧ (¬ (i < istgt.nportal_group ∧ (pg_at istgt i).tag ≠ 0
            ∧ (∀ sp, sp ∈ istgt.config.section_ →
                sp.type = CF_SECTION_TYPE.ST_PORTALGROUP → sp.num ≠ (pg_at istgt i).tag)
            ∧ (pg_at istgt i).ref = 0) →
          pg_at (istgt_pg_delete istgt net).2.1 i = pg_at istgt i) := by
  obtain ⟨h1, _, _, h4, h5⟩ := pg_delete_loop_spec istgt.nportal_group 0 istgt net
  refine ⟨rfl, h1, fun i => ⟨?_, ?_⟩⟩
  · rintro ⟨hi, ht, hcfg, href⟩
    have hret : Retires istgt.config (pg_at istgt i) :=
      ⟨ht, (pg_exist_num_neg_iff _ _).mpr hcfg, href⟩
    have hslot : pg_at (istgt_pg_delete istgt net).2.1 i = retired_slot (pg_at istgt i) :=
      h4 i (Nat.zero_le _) (by omega) hret
    obtain ⟨r1, r2, _, _, _, r6⟩ := retired_slot_spec (pg_at istgt i)
    rw [hslot]
    refine ⟨r1, r2, ?_⟩
    intro j hj
    rw [r6 j hj (by rw [hsz i hi]; exact hj)]
    have hn := hsock i hi j hj
    by_cases hs : 0 ≤ (portal_at (pg_at istgt i) j).sock
    · rw [if_pos hs]
    · rw [if_neg hs]; omega
  · intro hno
    apply h5 i
    rintro ⟨_, hi, ht, he, hf⟩
    exact hno ⟨by omega, ht, (pg_exist_num_neg_iff _ _).mp he, hf⟩

/-- Witness for C2: the hypotheses of `pg_delete_effect` hold on a concrete table
and section, and the theorem applies there. -/
theorem pg_delete_effect_witness :
    SlotsSized exTwoDrop ∧ SocksNormal exTwoDrop
    ∧ ((istgt_pg_delete exTwoDrop exNet).1 = 0
      ∧ (istgt_pg_delete exTwoDrop exNet).2.1.nportal_group = exTwoDrop.nportal_group
      ∧ ∀ i,
          ((i < exTwoDrop.nportal_group ∧ (pg_at exTwoDrop i).tag ≠ 0
              ∧ (∀ sp, sp ∈ exTwoDrop.config.section_ →
                  sp.type = CF_SECTION_TYPE.ST_PORTALGROUP → sp.num ≠ (pg_at exTwoDrop i).tag)
              ∧ (pg_at exTwoDrop i).ref = 0) →
            (pg_at (istgt_pg_delete exTwoDrop exNet).2.1 i).tag = 0
            ∧ (pg_at (istgt_pg_delete exTwoDrop exNet).2.1 i).nportals
                = (pg_at exTwoDrop i).nportals
            ∧ ∀ j, j < (pg_at exTwoDrop i).nportals →
                (portal_at (pg_at (istgt_pg_delete exTwoDrop exNet).2.1 i) j).sock = -1)
          ∧ (¬ (i < exTwoDrop.nportal_group ∧ (pg_at exTwoDrop i).tag ≠ 0
              ∧ (∀ sp, sp ∈ exTwoDrop.config.section_ →
                  sp.type = CF_SECTION_TYPE.ST_PORTALGROUP → sp.num ≠ (pg_at exTwoDrop i).tag)
              ∧ (pg_at exTwoDrop i).ref = 0) →
            pg_at (istgt_pg_delete exTwoDrop exNet).2.1 i = pg_at exTwoDrop i)) :=
  ⟨by decide, by decide, pg_delete_effect exTwoDrop exNet (by decide) (by decide)⟩

/-- C3: on success `istgt_add_portal_group` writes the lowest free slot whose
`nportals` equals the counted number of portals when there is one (and then
`nportal_group` stays), otherwise slot `nportal_group` (and then
`nportal_group` grows by one); every other slot is unchanged and the written
index is stored through `pgp_idx`. -/
theorem add_slot_choice (K : Limits) (istgt : ISTGT) (sp : CF_SECTION) (p0 : Nat)
    (hok : (istgt_add_portal_group K istgt sp (some p0)).1 = 0) :
    ∃ n idx, count_portals K sp = some n
      ∧ (istgt_add_portal_group K istgt sp (some p0)).2.2 = some idx
      ∧ ((∃ i, i < istgt.nportal_group ∧ (pg_at istgt i).tag = 0
              ∧ (pg_at istgt i).nportals = n) →
          idx < istgt.nportal_group ∧ (pg_at istgt idx).tag = 0
            ∧ (pg_at istgt idx).nportals = n
            ∧ (∀ l, l < idx → ¬ ((pg_at istgt l).tag = 0 ∧ (pg_at istgt l).nportals = n))
            ∧ (istgt_add_portal_group K istgt sp (some p0)).2.1.nportal_group
                = istgt.nportal_group)
      ∧ ((¬ ∃ i, i < istgt.nportal_group ∧ (pg_at istgt i).tag = 0
              ∧ (pg_at istgt i).nportals = n) →
          idx = istgt.nportal_group
            ∧ (istgt_add_portal_group K istgt sp (some p0)).2.1.nportal_group
                = istgt.nportal_group + 1)
      ∧ (∀ j, j ≠ idx →
          pg_at (istgt_add_portal_group K istgt sp (some p0)).2.1 j = pg_at istgt j) := by
  rcases add_outcomes K istgt sp (some p0) with ⟨hf, _⟩ | ⟨n, pg3, hc, _, _, hr, _⟩
  · rw [hf] at hok; simp at hok
  · refine ⟨n, target_slot istgt n, hc, by rw [hr]; rfl, ?_, ?_, ?_⟩
    · rintro ⟨i, hi, ht, hn⟩
      cases hfree : find_free_slot istgt n with
      | none => exact absurd ⟨ht, hn⟩ (find_free_slot_none hfree i hi)
      | some f =>
        obtain ⟨h1, h2, h3, h4⟩ := find_free_slot_some hfree
        have htgt : target_slot istgt n = f := by simp [target_slot, hfree]
        rw [hr, htgt]
        simp [hfree]
        exact ⟨h1, h2, h3, fun l hl a b => h4 l hl ⟨a, b⟩⟩
    · intro hno
      cases hfree : find_free_slot istgt n with
      | none =>
        have htgt : target_slot istgt n = istgt.nportal_group := by
          simp [target_slot, hfree]
        rw [hr, htgt]
        simp [hfree]
      | some f =>
        obtain ⟨h1, h2, h3, _⟩ := find_free_slot_some hfree
        exact absurd ⟨f, h1, h2, h3⟩ hno
    · intro j hj
      rw [hr]
      by_cases hfree : (find_free_slot istgt n).isNone = true
      · simp only [hfree, if_true]
        exact pg_at_store_ne istgt _ j pg3 hj
      · simp only [hfree]
        exact pg_at_store_ne istgt _ j pg3 hj

/-- Witness for C3: the hypotheses of `add_slot_choice` hold on a concrete table
and section, and the theorem applies there. -/
theorem add_slot_choice_witness :
    (istgt_add_portal_group exK exFreed exSec3 (some 9)).1 = 0
    ∧ ∃ n idx, count_portals exK exSec3 = some n
      ∧ (istgt_add_portal_group exK exFreed exSec3 (some 9)).2.2 = some idx
      ∧ ((∃ i, i < exFreed.nportal_group ∧ (pg_at exFreed i).tag = 0
              ∧ (pg_at exFreed i).nportals = n) →
          idx < exFreed.nportal_group ∧ (pg_at exFreed idx).tag = 0
            ∧ (pg_at exFreed idx).nportals = n
            ∧ (∀ l, l < idx → ¬ ((pg_at exFreed l).tag = 0 ∧ (pg_at exFreed l).nportals = n))
            ∧ (istgt_add_portal_group exK exFreed exSec3 (some 9)).2.1.nportal_group
                = exFreed.nportal_group)
      ∧ ((¬ ∃ i, i < exFreed.nportal_group ∧ (pg_at exFreed i).tag = 0
              ∧ (pg_at exFreed i).nportals = n) →
          idx = exFreed.nportal_group
            ∧ (istgt_add_portal_group exK exFreed exSec3 (some 9)).2.1.nportal_group
                = exFreed.nportal_group + 1)
      ∧ (∀ j, j ≠ idx →
          pg_at (istgt_add_portal_group exK exFreed exSec3 (some 9)).2.1 j = pg_at exFreed j) :=
  ⟨by decide, add_slot_choice exK exFreed exSec3 9 (by decide)⟩

/-- C4: after a successful `istgt_add_portal_group` of a section with `n`
counted portals the written slot has `tag = sp->num`, `ref = 0`, `idx` equal to
its position and `nportals = n`, and portal `i < n` carries the `i`-th label,
the host and port parsed from the `i`-th endpoint, `ref = 0`, `idx = i`,
`tag = sp->num` and `sock = -1`. -/
theorem add_slot_contents (K : Limits) (istgt : ISTGT) (sp : CF_SECTION) (p0 : Nat)
    (hfit : K.MAX_PORTAL_GROUP ≤ istgt.portal_group.length)
    (hsz : SlotsSized istgt)
    (hok : (istgt_add_portal_group K istgt sp (some p0)).1 = 0) :
    ∃ n idx, count_portals K sp = some n
      ∧ (istgt_add_portal_group K istgt sp (some p0)).2.2 = some idx
      ∧ (pg_at (istgt_add_portal_group K istgt sp (some p0)).2.1 idx).tag = sp.num
      ∧ (pg_at (istgt_add_portal_group K istgt sp (some p0)).2.1 idx).ref = 0
      ∧ (pg_at (istgt_add_portal_group K istgt sp (some p0)).2.1 idx).idx = idx
      ∧ (pg_at (istgt_add_portal_group K istgt sp (some p0)).2.1 idx).nportals = n
      ∧ ∀ i, i < n →
          ∃ label portal host port, istgt_get_nmval sp kPortal i 0 = some label
            ∧ istgt_get_nmval sp kPortal i 1 = some portal
            ∧ istgt_parse_portal K portal = some (host, port)
            ∧ portal_at (pg_at (istgt_add_portal_group K istgt sp (some p0)).2.1 idx) i
                = { label := label, host := host, port := port, ref := 0, idx := i,
                    tag := sp.num, sock := -1 } := by
  rcases add_outcomes K istgt sp (some p0) with
    ⟨hf, _⟩ | ⟨n, pg3, hc, _, hcap, hr, h1, h2, h3, h4, h5⟩
  · rw [hf] at hok; simp at hok
  · have hslot : pg_at (istgt_add_portal_group K istgt sp (some p0)).2.1
        (target_slot istgt n) = pg3 := by
      rw [hr]
      have hlt : target_slot istgt n < istgt.portal_group.length := by omega
      by_cases hfree : (find_free_slot istgt n).isNone = true
      · simp only [hfree, if_true]
        exact pg_at_store_self istgt _ pg3 hlt
      · simp only [hfree]
        exact pg_at_store_self istgt _ pg3 hlt
    refine ⟨n, target_slot istgt n, hc, by rw [hr]; rfl, ?_⟩
    rw [hslot]
    refine ⟨h1, h2, h3, h4, ?_⟩
    intro i hi
    apply h5 i hi
    cases hfree : find_free_slot istgt n with
    | none => left; rfl
    | some f =>
      right
      obtain ⟨a, _, c, _⟩ := find_free_slot_some hfree
      have htgt : target_slot istgt n = f := by simp [target_slot, hfree]
      rw [htgt, hsz f a, c]
      exact hi

/-- Witness for C4: the hypotheses of `add_slot_contents` hold on a concrete table
and section, and the theorem applies there. -/
theorem add_slot_contents_witness :
    exK.MAX_PORTAL_GROUP ≤ exFreed.portal_group.length
    ∧ SlotsSized exFreed
    ∧ (istgt_add_portal_group exK exFreed exSec3 (some 9)).1 = 0
    ∧ ∃ n idx, count_portals exK exSec3 = some n
      ∧ (istgt_add_portal_group exK exFreed exSec3 (some 9)).2.2 = some idx
      ∧ (pg_at (istgt_add_portal_group exK exFreed exSec3 (some 9)).2.1 idx).tag = exSec3.num
      ∧ (pg_at (istgt_add_portal_group exK exFreed exSec3 (some 9)).2.1 idx).ref = 0
      ∧ (pg_at (istgt_add_portal_group exK exFreed exSec3 (some 9)).2.1 idx).idx = idx
      ∧ (pg_at (istgt_add_portal_group exK exFreed exSec3 (some 9)).2.1 idx).nportals = n
      ∧ ∀ i, i < n →
          ∃ label portal host port, istgt_get_nmval exSec3 kPortal i 0 = some label
            ∧ istgt_get_nmval exSec3 kPortal i 1 = some portal
            ∧ istgt_parse_portal exK portal = some (host, port)
            ∧ portal_at (pg_at (istgt_add_portal_group exK exFreed exSec3 (some 9)).2.1 idx) i
                = { label := label, host := host, port := port, ref := 0, idx := i,
                    tag := exSec3.num, sock := -1 } :=
  ⟨by decide, by decide, by decide,
    add_slot_contents exK exFreed exSec3 9 (by decide) (by decide) (by decide)⟩

/-- C5: `istgt_add_portal_group` fails exactly when a counted endpoint does
not parse, or more than `MAX_PORTAL` entries are counted, or there is neither
a reusable slot nor room for a new one; and a failure leaves the daemon
structure (table and `nportal_group`) and `*pgp_idx` as they were. -/
theorem add_fails_iff (K : Limits) (istgt : ISTGT) (sp : CF_SECTION) (pgp_idx : Option Nat)
    (hcap : istgt.nportal_group ≤ K.MAX_PORTAL_GROUP) :
    ((istgt_add_portal_group K istgt sp pgp_idx).1 ≠ 0 ↔
      ((∃ n i portal, IsPortalCount sp n ∧ i < n
          ∧ istgt_get_nmval sp kPortal i 1 = some portal
          ∧ istgt_parse_portal K portal = none)
        ∨ (∃ n, IsPortalCount sp n ∧ K.MAX_PORTAL < n)
        ∨ (∃ n, IsPortalCount sp n
            ∧ (¬ ∃ i, i < istgt.nportal_group ∧ (pg_at istgt i).tag = 0
                ∧ (pg_at istgt i).nportals = n)
            ∧ K.MAX_PORTAL_GROUP ≤ istgt.nportal_group)))
    ∧ ((istgt_add_portal_group K istgt sp pgp_idx).1 ≠ 0 →
        istgt_add_portal_group K istgt sp pgp_idx = (-1, istgt, pgp_idx)) := by
  rcases add_outcomes K istgt sp pgp_idx with
    ⟨hf, hwhy⟩ | ⟨n, pg3, hc, hmax, htgt, hr, _⟩
  · refine ⟨⟨fun _ => ?_, fun _ => by rw [hf]; simp⟩, fun _ => hf⟩
    rcases hwhy with hnone | ⟨n, hc, hbig | hfull⟩
    · left
      obtain ⟨j, portal, h1, h2, h3, h4⟩ := count_portals_none hnone
      obtain ⟨n, hn⟩ := IsPortalCount.exists sp
      refine ⟨n, j, portal, hn, ?_, h3, h4⟩
      by_contra hjn
      apply hn.2
      by_cases hnj : n = j
      · subst hnj; exact ⟨h2, by simp [h3]⟩
      · exact (h1 n (by omega)).complete
    · exact Or.inr (Or.inl ⟨n, count_portals_isCount hc, hbig⟩)
    · right; right
      cases hfree : find_free_slot istgt n with
      | some f =>
        obtain ⟨a, _⟩ := find_free_slot_some hfree
        simp [target_slot, hfree] at hfull
        omega
      | none =>
        simp [target_slot, hfree] at hfull
        refine ⟨n, count_portals_isCount hc, ?_, hfull⟩
        rintro ⟨i, hi, ht, hn⟩
        exact find_free_slot_none hfree i hi ⟨ht, hn⟩
  · have hzero : (istgt_add_portal_group K istgt sp pgp_idx).1 = 0 := by rw [hr]
    refine ⟨⟨fun h => absurd hzero h, fun h => ?_⟩, fun h => absurd hzero h⟩
    exfalso
    have hcnt := count_portals_isCount hc
    rcases h with ⟨m, i, portal, hm, him, hp, hparse⟩ | ⟨m, hm, hbig⟩ | ⟨m, hm, hno, hfull⟩
    · have := hm.unique hcnt
      subst this
      obtain ⟨l, q, hq, _, b, c⟩ := (count_portals_some hc).1 i him
      rw [hp] at b
      cases b
      rw [hparse] at c
      cases c
    · have := hm.unique hcnt
      omega
    · have := hm.unique hcnt
      subst this
      cases hfree : find_free_slot istgt m with
      | some f =>
        obtain ⟨a, b, c, _⟩ := find_free_slot_some hfree
        exact hno ⟨f, a, b, c⟩
      | none =>
        simp [target_slot, hfree] at htgt
        omega

/-- Witness for C5: the hypotheses of `add_fails_iff` hold on a concrete table
and section, and the theorem applies there. -/
theorem add_fails_iff_witness :
    exFreed.nportal_group ≤ exK.MAX_PORTAL_GROUP
    ∧ (((istgt_add_portal_group exK exFreed exSec3 (some 9)).1 ≠ 0 ↔
        ((∃ n i portal, IsPortalCount exSec3 n ∧ i < n
            ∧ istgt_get_nmval exSec3 kPortal i 1 = some portal
            ∧ istgt_parse_portal exK portal = none)
          ∨ (∃ n, IsPortalCount exSec3 n ∧ exK.MAX_PORTAL < n)
          ∨ (∃ n, IsPortalCount exSec3 n
              ∧ (¬ ∃ i, i < exFreed.nportal_group ∧ (pg_at exFreed i).tag = 0
                  ∧ (pg_at exFreed i).nportals = n)
              ∧ exK.MAX_PORTAL_GROUP ≤ exFreed.nportal_group)))
      ∧ ((istgt_add_portal_group exK exFreed exSec3 (some 9)).1 ≠ 0 →
          istgt_add_portal_group exK exFreed exSec3 (some 9) = (-1, exFreed, some 9))) :=
  ⟨by decide, add_fails_iff exK exFreed exSec3 (some 9) (by decide)⟩

/-- C6: when the located slot (named by `*pgp_idx`) has a portal count that
differs from the section's and a target slot is available,
`istgt_update_portal_group` returns 1, clears the old slot's tag and leaves
the rest of the old slot (its sockets included) as it was, chooses the new
slot by the rule of add (lowest free slot with equal `nportals`, else
`nportal_group`), fills it from the section with every `sock = -1`, gives it
the `ref` of the old slot, and stores the new position through `pgp_idx`. -/
theorem update_realloc (K : Limits) (istgt : ISTGT) (sp : CF_SECTION) (idx n : Nat)
    (hfit : istgt.nportal_group ≤ K.MAX_PORTAL_GROUP
      ∧ K.MAX_PORTAL_GROUP ≤ istgt.portal_group.length)
    (hsz : SlotsSized istgt)
    (hi : idx < istgt.nportal_group)
    (ht : (pg_at istgt idx).tag = sp.num)
    (hfirst : ∀ l, l < idx → (pg_at istgt l).tag ≠ sp.num)
    (hc : count_portals K sp = some n) (hmax : n ≤ K.MAX_PORTAL)
    (hdiff : (pg_at istgt idx).nportals ≠ n)
    (havail : (∃ i, i < istgt.nportal_group ∧ (pg_at istgt i).tag = 0
        ∧ (pg_at istgt i).nportals = n) ∨ istgt.nportal_group < K.MAX_PORTAL_GROUP) :
    ∃ new, (istgt_update_portal_group K istgt sp idx).1 = 1
      ∧ (istgt_update_portal_group K istgt sp idx).2.2 = new
      ∧ new ≠ idx
      ∧ pg_at (istgt_update_portal_group K istgt sp idx).2.1 idx
          = { pg_at istgt idx with tag := 0 }
      ∧ ((∃ i, i < istgt.nportal_group ∧ (pg_at istgt i).tag = 0
              ∧ (pg_at istgt i).nportals = n) →
          new < istgt.nportal_group ∧ (pg_at istgt new).tag = 0
            ∧ (pg_at istgt new).nportals = n
            ∧ (∀ l, l < new → ¬ ((pg_at istgt l).tag = 0 ∧ (pg_at istgt l).nportals = n))
            ∧ (istgt_update_portal_group K istgt sp idx).2.1.nportal_group
                = istgt.nportal_group)
      ∧ ((¬ ∃ i, i < istgt.nportal_group ∧ (pg_at istgt i).tag = 0
              ∧ (pg_at istgt i).nportals = n) →
          new = istgt.nportal_group
            ∧ (istgt_update_portal_group K istgt sp idx).2.1.nportal_group
                = istgt.nportal_group + 1)
      ∧ (pg_at (istgt_update_portal_group K istgt sp idx).2.1 new).tag = sp.num
      ∧ (pg_at (istgt_update_portal_group K istgt sp idx).2.1 new).ref = (pg_at istgt idx).ref
      ∧ (pg_at (istgt_update_portal_group K istgt sp idx).2.1 new).idx = new
      ∧ (pg_at (istgt_update_portal_group K istgt sp idx).2.1 new).nportals = n
      ∧ (∀ i, i < n →
          ∃ label portal host port, istgt_get_nmval sp kPortal i 0 = some label
            ∧ istgt_get_nmval sp kPortal i 1 = some portal
            ∧ istgt_parse_portal K portal = some (host, port)
            ∧ portal_at (pg_at (istgt_update_portal_group K istgt sp idx).2.1 new) i
                = { label := label, host := host, port := port, ref := 0, idx := i,
                    tag := sp.num, sock := -1 })
      ∧ (∀ j, j ≠ idx → j ≠ new →
          pg_at (istgt_update_portal_group K istgt sp idx).2.1 j = pg_at istgt j) := by
  obtain ⟨hfit1, hfit2⟩ := hfit
  have hfind := find_tag_slot_eq hi ht hfirst
  have hok := (count_portals_some hc).1
  have hm : istgt_pg_match_all K (pg_at istgt idx) sp = false := by
    cases hm : istgt_pg_match_all K (pg_at istgt idx) sp with
    | false => rfl
    | true =>
      have := pg_match_all_count hm
      rw [hc] at this
      exact absurd (Option.some.inj this).symm hdiff
  have hmark := find_free_slot_mark istgt idx n hdiff
  have hidxlen : idx < istgt.portal_group.length := by omega
  cases hfree : find_free_slot istgt n with
  | none =>
    have hnpg : istgt.nportal_group < K.MAX_PORTAL_GROUP := by
      rcases havail with ⟨i, a, b, c⟩ | h
      · exact absurd ⟨b, c⟩ (find_free_slot_none hfree i a)
      · exact h
    have hne : istgt.nportal_group ≠ idx := by omega
    obtain ⟨pg3, h1, h2, h3, h4, h5, h6, _, h8⟩ :=
      fill_loop_ok K sp true n 0
        { nportals := n, portals := List.replicate n default,
          ref := (pg_at istgt idx).ref, idx := istgt.nportal_group, tag := sp.num }
        (fun j _ hj => hok j (by omega))
    have hr : istgt_update_portal_group K istgt sp idx
        = (1, { pg_store (pg_store (pg_store istgt idx { pg_at istgt idx with tag := 0 })
                  istgt.nportal_group
                  { pg_at istgt istgt.nportal_group with
                    nportals := n, portals := List.replicate n default })
                  istgt.nportal_group pg3 with
                nportal_group := istgt.nportal_group + 1 }, istgt.nportal_group) := by
      unfold istgt_update_portal_group
      simp only [hc, Nat.not_lt.mpr hmax, hfind, hm, hdiff, hmark, hfree, if_false]
      simp only [Option.getD_none, pg_store_nportal_group, hnpg, if_true, Option.isNone_none]
      rw [pg_at_store_ne _ _ _ _ hne.symm, pg_at_store_self _ _ _ hidxlen]
      simp only [pg_at_store_ne _ _ _ _ hne]
      rw [h1]
      simp
    refine ⟨istgt.nportal_group, by rw [hr], by rw [hr], hne, ?_, ?_, ?_, ?_⟩
    · rw [hr]
      show pg_at (pg_store _ _ _) idx = _
      rw [pg_at_store_ne _ _ _ _ hne.symm, pg_at_store_ne _ _ _ _ hne.symm,
        pg_at_store_self _ _ _ hidxlen]
    · rintro ⟨i, a, b, c⟩
      exact absurd ⟨b, c⟩ (find_free_slot_none hfree i a)
    · intro _
      exact ⟨rfl, by rw [hr]⟩
    · have hslot : pg_at (istgt_update_portal_group K istgt sp idx).2.1 istgt.nportal_group
          = pg3 := by
        rw [hr]
        show pg_at (pg_store _ _ _) _ = _
        exact pg_at_store_self _ _ _ (by simp; omega)
      rw [hslot]
      refine ⟨h5, h3, h4, h2, ?_, ?_⟩
      · intro i hi'
        exact h8 i (Nat.zero_le _) (by omega) (by simpa using hi')
      · intro j hj1 hj2
        rw [hr]
        show pg_at (pg_store _ _ _) j = _
        rw [pg_at_store_ne _ _ _ _ hj2, pg_at_store_ne _ _ _ _ hj2,
          pg_at_store_ne _ _ _ _ hj1]
  | some f =>
    obtain ⟨f1, f2, f3, f4⟩ := find_free_slot_some hfree
    have hne : f ≠ idx := by
      rintro rfl
      exact hdiff f3
    have hflen : f < istgt.portal_group.length := by omega
    obtain ⟨pg3, h1, h2, h3, h4, h5, h6, _, h8⟩ :=
      fill_loop_ok K sp false n 0
        { pg_at istgt f with ref := (pg_at istgt idx).ref, idx := f, tag := sp.num }
        (fun j _ hj => hok j (by omega))
    have hr : istgt_update_portal_group K istgt sp idx
        = (1, pg_store (pg_store (pg_store istgt idx { pg_at istgt idx with tag := 0 })
                  f (pg_at istgt f)) f pg3, f) := by
      unfold istgt_update_portal_group
      simp only [hc, Nat.not_lt.mpr hmax, hfind, hm, hdiff, hmark, hfree, if_false]
      have hflt : f < K.MAX_PORTAL_GROUP := by omega
      simp only [Option.getD_some, hflt, if_true, Option.isNone_some]
      simp only [pg_at_store_ne _ _ _ _ hne]
      rw [pg_at_store_ne _ _ _ _ hne.symm, pg_at_store_self _ _ _ hidxlen]
      simp only [Bool.false_eq_true, if_false]
      rw [h1]
    refine ⟨f, by rw [hr], by rw [hr], hne, ?_, ?_, ?_, ?_⟩
    · rw [hr]
      show pg_at (pg_store _ _ _) idx = _
      rw [pg_at_store_ne _ _ _ _ hne.symm, pg_at_store_ne _ _ _ _ hne.symm,
        pg_at_store_self _ _ _ hidxlen]
    · intro _
      exact ⟨f1, f2, f3, f4, by rw [hr]; rfl⟩
    · intro hno
      exact absurd ⟨f, f1, f2, f3⟩ hno
    · have hslot : pg_at (istgt_update_portal_group K istgt sp idx).2.1 f = pg3 := by
        rw [hr]
        show pg_at (pg_store _ _ _) _ = _
        exact pg_at_store_self _ _ _ (by simp; omega)
      rw [hslot]
      refine ⟨h5, h3, h4, by rw [h2]; exact f3, ?_, ?_⟩
      · intro i hi'
        exact h8 i (Nat.zero_le _) (by omega) (by
          show i < (pg_at istgt f).portals.length
          rw [hsz f f1, f3]; exact hi')
      · intro j hj1 hj2
        rw [hr]
        show pg_at (pg_store _ _ _) j = _
        rw [pg_at_store_ne _ _ _ _ hj2, pg_at_store_ne _ _ _ _ hj2,
          pg_at_store_ne _ _ _ _ hj1]

/-- Witness for C6: the hypotheses of `update_realloc` hold on a concrete table
and section, and the theorem applies there. -/
theorem update_realloc_witness :
    (exTwo.nportal_group ≤ exK.MAX_PORTAL_GROUP
      ∧ exK.MAX_PORTAL_GROUP ≤ exTwo.portal_group.length)
    ∧ SlotsSized exTwo
    ∧ 0 < exTwo.nportal_group
    ∧ (pg_at exTwo 0).tag = exSec1two.num
    ∧ (∀ l, l < 0 → (pg_at exTwo l).tag ≠ exSec1two.num)
    ∧ count_portals exK exSec1two = some 2 ∧ 2 ≤ exK.MAX_PORTAL
    ∧ (pg_at exTwo 0).nportals ≠ 2
    ∧ ((∃ i, i < exTwo.nportal_group ∧ (pg_at exTwo i).tag = 0
          ∧ (pg_at exTwo i).nportals = 2) ∨ exTwo.nportal_group < exK.MAX_PORTAL_GROUP)
    ∧ ∃ new, (istgt_update_portal_group exK exTwo exSec1two 0).1 = 1
      ∧ (istgt_update_portal_group exK exTwo exSec1two 0).2.2 = new
      ∧ new ≠ 0
      ∧ pg_at (istgt_update_portal_group exK exTwo exSec1two 0).2.1 0
          = { pg_at exTwo 0 with tag := 0 }
      ∧ ((∃ i, i < exTwo.nportal_group ∧ (pg_at exTwo i).tag = 0
              ∧ (pg_at exTwo i).nportals = 2) →
          new < exTwo.nportal_group ∧ (pg_at exTwo new).tag = 0
            ∧ (pg_at exTwo new).nportals = 2
            ∧ (∀ l, l < new → ¬ ((pg_at exTwo l).tag = 0 ∧ (pg_at exTwo l).nportals = 2))
            ∧ (istgt_update_portal_group exK exTwo exSec1two 0).2.1.nportal_group
                = exTwo.nportal_group)
      ∧ ((¬ ∃ i, i < exTwo.nportal_group ∧ (pg_at exTwo i).tag = 0
              ∧ (pg_at exTwo i).nportals = 2) →
          new = exTwo.nportal_group
            ∧ (istgt_update_portal_group exK exTwo exSec1two 0).2.1.nportal_group
                = exTwo.nportal_group + 1)
      ∧ (pg_at (istgt_update_portal_group exK exTwo exSec1two 0).2.1 new).tag = exSec1two.num
      ∧ (pg_at (istgt_update_portal_group exK exTwo exSec1two 0).2.1 new).ref
          = (pg_at exTwo 0).ref
      ∧ (pg_at (istgt_update_portal_group exK exTwo exSec1two 0).2.1 new).idx = new
      ∧ (pg_at (istgt_update_portal_group exK exTwo exSec1two 0).2.1 new).nportals = 2
      ∧ (∀ i : Nat, i < 2 →
          ∃ label portal host port, istgt_get_nmval exSec1two kPortal i 0 = some label
            ∧ istgt_get_nmval exSec1two kPortal i 1 = some portal
            ∧ istgt_parse_portal exK portal = some (host, port)
            ∧ portal_at (pg_at (istgt_update_portal_group exK exTwo exSec1two 0).2.1 new) i
                = { label := label, host := host, port := port, ref := 0, idx := i,
                    tag := exSec1two.num, sock := -1 })
      ∧ (∀ j, j ≠ 0 → j ≠ new →
          pg_at (istgt_update_portal_group exK exTwo exSec1two 0).2.1 j = pg_at exTwo j) :=
  ⟨by decide, by decide, by decide, by decide, by decide, by decide, by decide, by decide,
    by decide,
    update_realloc exK exTwo exSec1two 0 2 (by decide) (by decide) (by decide) (by decide)
      (by decide) (by decide) (by decide) (by decide) (by decide)⟩

/-- C7: when the located slot does not match the section and the section
counts as many portals as the slot has, `istgt_update_portal_group` returns 1,
stores the slot's position through `pgp_idx`, and replaces only the label,
host and port of each portal: the slot's `tag`, `ref`, `idx`, `nportals`, each
portal's `sock`, `ref`, `idx`, `tag`, every other slot and `nportal_group` are
unchanged. -/
theorem update_in_place (K : Limits) (istgt : ISTGT) (sp : CF_SECTION) (p0 idx n : Nat)
    (hlen : istgt.nportal_group ≤ istgt.portal_group.length)
    (hi : idx < istgt.nportal_group)
    (ht : (pg_at istgt idx).tag = sp.num)
    (hfirst : ∀ l, l < idx → (pg_at istgt l).tag ≠ sp.num)
    (hsz : (pg_at istgt idx).portals.length = (pg_at istgt idx).nportals)
    (hm : istgt_pg_match_all K (pg_at istgt idx) sp = false)
    (hc : count_portals K sp = some n) (hmax : n ≤ K.MAX_PORTAL)
    (hsame : (pg_at istgt idx).nportals = n) :
    (istgt_update_portal_group K istgt sp p0).1 = 1
    ∧ (istgt_update_portal_group K istgt sp p0).2.2 = idx
    ∧ (istgt_update_portal_group K istgt sp p0).2.1.nportal_group = istgt.nportal_group
    ∧ (∀ j, j ≠ idx →
        pg_at (istgt_update_portal_group K istgt sp p0).2.1 j = pg_at istgt j)
    ∧ (pg_at (istgt_update_portal_group K istgt sp p0).2.1 idx).tag = (pg_at istgt idx).tag
    ∧ (pg_at (istgt_update_portal_group K istgt sp p0).2.1 idx).ref = (pg_at istgt idx).ref
    ∧ (pg_at (istgt_update_portal_group K istgt sp p0).2.1 idx).idx = (pg_at istgt idx).idx
    ∧ (pg_at (istgt_update_portal_group K istgt sp p0).2.1 idx).nportals
        = (pg_at istgt idx).nportals
    ∧ ∀ i, i < n →
        ∃ label portal host port, istgt_get_nmval sp kPortal i 0 = some label
          ∧ istgt_get_nmval sp kPortal i 1 = some portal
          ∧ istgt_parse_portal K portal = some (host, port)
          ∧ portal_at (pg_at (istgt_update_portal_group K istgt sp p0).2.1 idx) i
              = { portal_at (pg_at istgt idx) i with
                  label := label, host := host, port := port } := by
  have hfind := find_tag_slot_eq hi ht hfirst
  have hok := (count_portals_some hc).1
  obtain ⟨pg', h1, h2, h3, h4, h5, _, _, h8⟩ :=
    rewrite_loop_ok K sp n 0 (pg_at istgt idx) (fun j _ hj => hok j (by omega))
  have hr : istgt_update_portal_group K istgt sp p0 = (1, pg_store istgt idx pg', idx) := by
    unfold istgt_update_portal_group
    simp [hc, Nat.not_lt.mpr hmax, hfind, hm, hsame, h1]
  have hslot : pg_at (pg_store istgt idx pg') idx = pg' :=
    pg_at_store_self _ _ _ (by omega)
  rw [hr]
  refine ⟨rfl, rfl, rfl, fun j hj => pg_at_store_ne _ _ _ _ hj, ?_⟩
  simp only [hslot]
  refine ⟨h5, h3, h4, h2, ?_⟩
  intro i hi'
  exact h8 i (Nat.zero_le _) (by omega) (by omega)

/-- Witness for C7: the hypotheses of `update_in_place` hold on a concrete table
and section, and the theorem applies there. -/
theorem update_in_place_witness :
    exTwo.nportal_group ≤ exTwo.portal_group.length
    ∧ 0 < exTwo.nportal_group
    ∧ (pg_at exTwo 0).tag = exSec1moved.num
    ∧ (∀ l, l < 0 → (pg_at exTwo l).tag ≠ exSec1moved.num)
    ∧ (pg_at exTwo 0).portals.length = (pg_at exTwo 0).nportals
    ∧ istgt_pg_match_all exK (pg_at exTwo 0) exSec1moved = false
    ∧ count_portals exK exSec1moved = some 1 ∧ 1 ≤ exK.MAX_PORTAL
    ∧ (pg_at exTwo 0).nportals = 1
    ∧ (istgt_update_portal_group exK exTwo exSec1moved 4).1 = 1
    ∧ (istgt_update_portal_group exK exTwo exSec1moved 4).2.2 = 0
    ∧ (istgt_update_portal_group exK exTwo exSec1moved 4).2.1.nportal_group
        = exTwo.nportal_group
    ∧ (∀ j, j ≠ 0 →
        pg_at (istgt_update_portal_group exK exTwo exSec1moved 4).2.1 j = pg_at exTwo j)
    ∧ (pg_at (istgt_update_portal_group exK exTwo exSec1moved 4).2.1 0).tag
        = (pg_at exTwo 0).tag
    ∧ (pg_at (istgt_update_portal_group exK exTwo exSec1moved 4).2.1 0).ref
        = (pg_at exTwo 0).ref
    ∧ (pg_at (istgt_update_portal_group exK exTwo exSec1moved 4).2.1 0).idx
        = (pg_at exTwo 0).idx
    ∧ (pg_at (istgt_update_portal_group exK exTwo exSec1moved 4).2.1 0).nportals
        = (pg_at exTwo 0).nportals
    ∧ ∀ i : Nat, i < 1 →
        ∃ label portal host port, istgt_get_nmval exSec1moved kPortal i 0 = some label
          ∧ istgt_get_nmval exSec1moved kPortal i 1 = some portal
          ∧ istgt_parse_portal exK portal = some (host, port)
          ∧ portal_at (pg_at (istgt_update_portal_group exK exTwo exSec1moved 4).2.1 0) i
              = { portal_at (pg_at exTwo 0) i with
                  label := label, host := host, port := port } :=
  ⟨by decide, by decide, by decide, by decide, by decide, by decide, by decide, by decide,
    by decide,
    update_in_place exK exTwo exSec1moved 4 0 1 (by decide) (by decide) (by decide)
      (by decide) (by decide) (by decide) (by decide) (by decide) (by decide)⟩

/-- C8: `istgt_update_portal_group` returns `-1` when no slot below
`nportal_group` carries the section's number, and returns 0 when the located
slot matches the section; in both cases the daemon structure and `*pgp_idx`
are exactly as before. -/
theorem update_noop (K : Limits) (istgt : ISTGT) (sp : CF_SECTION) (p0 : Nat) :
    ((∀ i, i < istgt.nportal_group → (pg_at istgt i).tag ≠ sp.num) →
      istgt_update_portal_group K istgt sp p0 = (-1, istgt, p0))
    ∧ (∀ idx, idx < istgt.nportal_group → (pg_at istgt idx).tag = sp.num →
        (∀ l, l < idx → (pg_at istgt l).tag ≠ sp.num) →
        (pg_at istgt idx).nportals ≤ K.MAX_PORTAL →
        istgt_pg_match_all K (pg_at istgt idx) sp = true →
        istgt_update_portal_group K istgt sp p0 = (0, istgt, p0)) := by
  constructor
  · intro hno
    have hfind : find_tag_slot istgt sp.num = none := by
      cases hf : find_tag_slot istgt sp.num with
      | none => rfl
      | some i =>
        obtain ⟨a, b, _⟩ := find_tag_slot_some hf
        exact absurd b (hno i a)
    unfold istgt_update_portal_group
    cases hc : count_portals K sp with
    | none => rfl
    | some n =>
      by_cases hmax : n > K.MAX_PORTAL
      · simp [hmax]
      · simp [hmax, hfind]
  · intro idx hi ht hfirst hmax hm
    have hfind := find_tag_slot_eq hi ht hfirst
    have hc := pg_match_all_count hm
    unfold istgt_update_portal_group
    simp [hc, Nat.not_lt.mpr hmax, hfind, hm]

/-- Witness for C8: the hypotheses of `update_noop` hold on a concrete table
and section, and the theorem applies there. -/
theorem update_noop_witness :
    istgt_update_portal_group exK exTwo exSec3 4 = (-1, exTwo, 4)
    ∧ istgt_update_portal_group exK exTwo exSec1 4 = (0, exTwo, 4) :=
  ⟨(update_noop exK exTwo exSec3 4).1 (by decide),
   (update_noop exK exTwo exSec1 4).2 0 (by decide) (by decide) (by decide) (by decide)
     (by decide)⟩

/-- C9: on a full table an update that has to move the group fails for
capacity after it has cleared the tag of the old slot, so the failed call
does not leave the table as it was: group 1 is gone. -/
theorem update_capacity_failure_retires_group :
    (istgt_update_portal_group exKsmall exFull exSec1two 0).1 = -1
    ∧ (pg_at exFull 0).tag = 1
    ∧ (pg_at (istgt_update_portal_group exKsmall exFull exSec1two 0).2.1 0).tag = 0
    ∧ (istgt_update_portal_group exKsmall exFull exSec1two 0).2.1 ≠ exFull := by
  decide

/-- C10: a section whose line after the counted portals has a label and no
endpoint is added successfully, and `istgt_pg_match_all` then rejects the
slot that was just built from that very section. -/
theorem match_all_rejects_half_line :
    (istgt_add_portal_group exK exEmpty exSecHalf (some 0)).1 = 0
    ∧ (istgt_add_portal_group exK exEmpty exSecHalf (some 0)).2.2 = some 0
    ∧ count_portals exK exSecHalf = some 1
    ∧ istgt_get_nmval exSecHalf kPortal 1 0 = some "l2".toList
    ∧ istgt_get_nmval exSecHalf kPortal 1 1 = none
    ∧ istgt_pg_match_all exK
        (pg_at (istgt_add_portal_group exK exEmpty exSecHalf (some 0)).2.1 0) exSecHalf
        = false := by
  decide

/-- C15: a text `[` ++ pre ++ `]` ++ post whose `pre` has no `]` (so that
this `]` is the first one after the first character) parses, when `post` is
empty, to the host `[pre]` and the decimal rendering of `DEFAULT_PORT`, and
when `post` is `:` followed by a port text, to the same host and that port
text. -/
theorem parse_bracketed (K : Limits) (pre : CStr) (hpre : ']' ∉ pre)
    (hlo : -(2 : Int) ^ 31 ≤ K.DEFAULT_PORT) (hhi : K.DEFAULT_PORT < (2 : Int) ^ 31) :
    istgt_parse_portal K ('[' :: (pre ++ [']']))
        = some ('[' :: (pre ++ [']']), (toString K.DEFAULT_PORT).toList)
    ∧ ∀ port, istgt_parse_portal K ('[' :: (pre ++ ']' :: ':' :: port))
        = some ('[' :: (pre ++ [']']), port) := by
  constructor
  · rw [parse_bracket_eval K pre [] hpre, ← snprintf_d_int _ hlo hhi]
    rfl
  · intro port
    rw [parse_bracket_eval K pre (':' :: port) hpre]
    simp [port_after]

/-- C16: a text that does not begin with `[` always parses; without a `:`
the host is the whole text and the port the decimal rendering of
`DEFAULT_PORT`; otherwise the host is the text before the first `:` and the
port is everything after it, unchecked. -/
theorem parse_plain (K : Limits) (text : CStr) (hb : text.head? ≠ some '[')
    (hlo : -(2 : Int) ^ 31 ≤ K.DEFAULT_PORT) (hhi : K.DEFAULT_PORT < (2 : Int) ^ 31) :
    (istgt_parse_portal K text).isSome = true
    ∧ (':' ∉ text →
        istgt_parse_portal K text = some (text, (toString K.DEFAULT_PORT).toList))
    ∧ (∀ pre post, text = pre ++ ':' :: post → ':' ∉ pre →
        istgt_parse_portal K text = some (pre, post)) := by
  have h2 : ':' ∉ text →
      istgt_parse_portal K text = some (text, (toString K.DEFAULT_PORT).toList) := by
    intro hc
    rw [parse_plain_nocolon K text hb hc, snprintf_d_int _ hlo hhi]
  have h3 : ∀ pre post, text = pre ++ ':' :: post → ':' ∉ pre →
      istgt_parse_portal K text = some (pre, post) := by
    intro pre post ht hc
    subst ht
    exact parse_plain_colon K pre post hb hc
  refine ⟨?_, h2, h3⟩
  cases hk : strchr text ':' with
  | none => rw [h2 (strchr_none_not_mem text ':' hk)]; rfl
  | some k =>
    obtain ⟨a, b⟩ := strchr_some text ':' k hk
    rw [h3 _ _ b a]; rfl

/-- C17: a text that begins with `[` does not parse when it has no `]` after
its first character, nor when the character right after the first such `]`
is not `:`. -/
theorem parse_bracket_fails (K : Limits) :
    (∀ rest : CStr, ']' ∉ rest → istgt_parse_portal K ('[' :: rest) = none)
    ∧ (∀ (pre : CStr) (c : Char) (post : CStr), ']' ∉ pre → c ≠ ':' →
        istgt_parse_portal K ('[' :: (pre ++ ']' :: c :: post)) = none) := by
  constructor
  · intro rest h
    unfold istgt_parse_portal
    simp [strchr_none rest ']' h]
  · intro pre c post h hc
    rw [parse_bracket_eval K pre (c :: post) h]
    simp [port_after, hc]

/-- C19: parsing is round-trip stable: when a text parses to `(host, port)`,
the canonical text `host:port` parses to the same pair. -/
theorem parse_round_trip (K : Limits) (text host port : CStr)
    (h : istgt_parse_portal K text = some (host, port)) :
    istgt_parse_portal K (host ++ ':' :: port) = some (host, port) := by
  by_cases hb : text.head? = some '['
  · -- bracketed form
    cases text with
    | nil => simp at hb
    | cons x rest =>
      simp only [List.head?_cons, Option.some.injEq] at hb
      subst hb
      cases hk : strchr rest ']' with
      | none =>
        rw [(parse_bracket_fails K).1 rest (strchr_none_not_mem rest ']' hk)] at h
        cases h
      | some k =>
        obtain ⟨a, b⟩ := strchr_some rest ']' k hk
        rw [b, parse_bracket_eval K _ _ a] at h
        cases hd : List.drop (k + 1) rest with
        | nil =>
          rw [hd] at h
          simp only [port_after, Option.some.injEq, Prod.mk.injEq] at h
          obtain ⟨h1, h2⟩ := h
          rw [← h1]
          have := parse_bracket_eval K (List.take k rest) (':' :: port) a
          simp only [List.cons_append, List.append_assoc, List.singleton_append,
            List.nil_append]
          rw [this]
          simp [port_after]
        | cons c tl =>
          rw [hd] at h
          simp only [port_after] at h
          by_cases hc : c ≠ ':'
          · simp [hc] at h
          · simp only [hc, if_false, Option.some.injEq, Prod.mk.injEq] at h
            obtain ⟨h1, h2⟩ := h
            rw [← h1]
            have := parse_bracket_eval K (List.take k rest) (':' :: port) a
            simp only [List.cons_append, List.append_assoc, List.singleton_append,
              List.nil_append]
            rw [this]
            simp [port_after]
  · -- plain form
    have hhost : ':' ∉ host ∧ (host = [] ∨ host.head? = text.head?) := by
      cases hk : strchr text ':' with
      | none =>
        have hc := strchr_none_not_mem text ':' hk
        rw [parse_plain_nocolon K text hb hc] at h
        simp only [Option.some.injEq, Prod.mk.injEq] at h
        rw [← h.1]
        exact ⟨hc, Or.inr rfl⟩
      | some k =>
        obtain ⟨a, b⟩ := strchr_some text ':' k hk
        have hb' : (List.take k text ++ ':' :: List.drop (k + 1) text).head? ≠ some '[' := by
          rw [← b]; exact hb
        have h' := h
        rw [b, parse_plain_colon K _ _ hb' a] at h'
        simp only [Option.some.injEq, Prod.mk.injEq] at h'
        rw [← h'.1]
        refine ⟨a, ?_⟩
        cases k with
        | zero => left; rfl
        | succ m =>
          right
          cases text with
          | nil => rfl
          | cons x xs => rfl
    obtain ⟨hc, hh⟩ := hhost
    apply parse_plain_colon K host port _ hc
    rcases hh with hh | hh
    · subst hh; simp
    · cases host with
      | nil => simp
      | cons x xs =>
        simp only [List.cons_append, List.head?_cons]
        simp only [List.head?_cons] at hh
        rw [hh]; exact hb

/-- C18 as stated does not hold: the empty text parses, to an empty host and
the default port. -/
theorem parse_empty_succeeds :
    istgt_parse_portal exK [] ≠ none
    ∧ istgt_parse_portal exK [] = some ([], "3260".toList) := by
  decide

/-- C18, amended: the parser fails when there is no text at all (the `NULL`
argument), while the empty string is accepted with an empty host and the
printed default port. -/
theorem parse_null_fails (K : Limits) :
    istgt_parse_portal_arg K none = none
    ∧ istgt_parse_portal_arg K (some [])
        = some ([], snprintf_d PORTNUMLEN K.DEFAULT_PORT) := by
  constructor
  · rfl
  · rfl

/-- C20: after a successful add of a section with a non-zero number that no
slot carried, `istgt_get_tag_portal` of that number returns the slot add
wrote, whose portal `i` has the host parsed from the section's `i`-th
endpoint; `istgt_get_tag_portal` of 0, and of a tag no slot carries, return
`NULL` on every table. -/
theorem lookup_after_add (K : Limits) (istgt : ISTGT) (sp : CF_SECTION) (p0 : Nat)
    (hfit : K.MAX_PORTAL_GROUP ≤ istgt.portal_group.length)
    (hsz : SlotsSized istgt)
    (hnum : sp.num ≠ 0)
    (hnew : ∀ i, i < istgt.nportal_group → (pg_at istgt i).tag ≠ sp.num)
    (hok : (istgt_add_portal_group K istgt sp (some p0)).1 = 0) :
    (∃ idx n, (istgt_add_portal_group K istgt sp (some p0)).2.2 = some idx
      ∧ istgt_get_tag_portal (istgt_add_portal_group K istgt sp (some p0)).2.1 sp.num
          = some idx
      ∧ count_portals K sp = some n
      ∧ ∀ i, i < n →
          ∃ portal host port, istgt_get_nmval sp kPortal i 1 = some portal
            ∧ istgt_parse_portal K portal = some (host, port)
            ∧ (portal_at (pg_at (istgt_add_portal_group K istgt sp (some p0)).2.1 idx) i).host
                = host)
    ∧ (∀ tbl : ISTGT, istgt_get_tag_portal tbl 0 = none)
    ∧ (∀ (tbl : ISTGT) (t : Int),
        (∀ i, i < tbl.nportal_group → (pg_at tbl i).tag ≠ t) →
        istgt_get_tag_portal tbl t = none) := by
  refine ⟨?_, fun tbl => by simp [istgt_get_tag_portal], get_tag_portal_none⟩
  rcases add_outcomes K istgt sp (some p0) with
    ⟨hf, _⟩ | ⟨n, pg3, hc, _, hcap, hr, h1, _, _, _, h5⟩
  · rw [hf] at hok; simp at hok
  · have hlt : target_slot istgt n < istgt.portal_group.length := by omega
    have hslot : pg_at (istgt_add_portal_group K istgt sp (some p0)).2.1
        (target_slot istgt n) = pg3 := by
      rw [hr]
      by_cases hfree : (find_free_slot istgt n).isNone = true
      · simp only [hfree, if_true]
        exact pg_at_store_self istgt _ pg3 hlt
      · simp only [hfree]
        exact pg_at_store_self istgt _ pg3 hlt
    have hother : ∀ l, l ≠ target_slot istgt n →
        pg_at (istgt_add_portal_group K istgt sp (some p0)).2.1 l = pg_at istgt l := by
      intro l hl
      rw [hr]
      by_cases hfree : (find_free_slot istgt n).isNone = true
      · simp only [hfree, if_true]
        exact pg_at_store_ne istgt _ l pg3 hl
      · simp only [hfree]
        exact pg_at_store_ne istgt _ l pg3 hl
    have hbound : target_slot istgt n ≤ istgt.nportal_group
        ∧ target_slot istgt n
            < (istgt_add_portal_group K istgt sp (some p0)).2.1.nportal_group := by
      rw [hr]
      cases hfree : find_free_slot istgt n with
      | none => simp [target_slot, hfree]
      | some f =>
        obtain ⟨a, _⟩ := find_free_slot_some hfree
        simp [target_slot, hfree]
        omega
    refine ⟨target_slot istgt n, n, by rw [hr]; rfl, ?_, hc, ?_⟩
    · rw [get_tag_portal_eq _ _ hnum]
      apply find_tag_slot_eq hbound.2
      · rw [hslot]; exact h1
      · intro l hl
        rw [hother l (by omega)]
        exact hnew l (by omega)
    · intro i hi
      have hwr : (find_free_slot istgt n).isNone = true
          ∨ i < (pg_at istgt (target_slot istgt n)).portals.length := by
        cases hfree : find_free_slot istgt n with
        | none => left; rfl
        | some f =>
          right
          obtain ⟨a, _, c, _⟩ := find_free_slot_some hfree
          have htgt : target_slot istgt n = f := by simp [target_slot, hfree]
          rw [htgt, hsz f a, c]
          exact hi
      obtain ⟨label, portal, host, port, _, b, c, d⟩ := h5 i hi hwr
      exact ⟨portal, host, port, b, c, by rw [hslot, d]⟩

/-- Witness for C15: the text `[::1]` with and without a port. -/
theorem parse_bracketed_witness :
    ']' ∉ "::1".toList
    ∧ -(2 : Int) ^ 31 ≤ exK.DEFAULT_PORT ∧ exK.DEFAULT_PORT < (2 : Int) ^ 31
    ∧ istgt_parse_portal exK ('[' :: ("::1".toList ++ [']']))
        = some ('[' :: ("::1".toList ++ [']']), (toString exK.DEFAULT_PORT).toList)
    ∧ ∀ port, istgt_parse_portal exK ('[' :: ("::1".toList ++ ']' :: ':' :: port))
        = some ('[' :: ("::1".toList ++ [']']), port) :=
  ⟨by decide, by decide, by decide,
    parse_bracketed exK "::1".toList (by decide) (by decide) (by decide)⟩

/-- Witness for C16: the text `10.0.0.1`. -/
theorem parse_plain_witness :
    "10.0.0.1".toList.head? ≠ some '['
    ∧ -(2 : Int) ^ 31 ≤ exK.DEFAULT_PORT ∧ exK.DEFAULT_PORT < (2 : Int) ^ 31
    ∧ (istgt_parse_portal exK "10.0.0.1".toList).isSome = true
    ∧ (':' ∉ "10.0.0.1".toList →
        istgt_parse_portal exK "10.0.0.1".toList
          = some ("10.0.0.1".toList, (toString exK.DEFAULT_PORT).toList))
    ∧ (∀ pre post, "10.0.0.1".toList = pre ++ ':' :: post → ':' ∉ pre →
        istgt_parse_portal exK "10.0.0.1".toList = some (pre, post)) :=
  ⟨by decide, by decide, by decide,
    parse_plain exK "10.0.0.1".toList (by decide) (by decide) (by decide)⟩

/-- Witness for C17: the texts `[::1` and `[::1]x:3260`. -/
theorem parse_bracket_fails_witness :
    istgt_parse_portal exK ('[' :: "::1".toList) = none
    ∧ istgt_parse_portal exK ('[' :: ("::1".toList ++ ']' :: 'x' :: ":3260".toList)) = none :=
  ⟨(parse_bracket_fails exK).1 "::1".toList (by decide),
   (parse_bracket_fails exK).2 "::1".toList 'x' ":3260".toList (by decide) (by decide)⟩

/-- Witness for C19: the texts `[::1]:3260`, `10.0.0.1:3260` and the bare
host `10.0.0.1`. -/
theorem parse_round_trip_witness :
    (istgt_parse_portal exK "[::1]:3260".toList = some ("[::1]".toList, "3260".toList)
      ∧ istgt_parse_portal exK ("[::1]".toList ++ ':' :: "3260".toList)
          = some ("[::1]".toList, "3260".toList))
    ∧ (istgt_parse_portal exK "10.0.0.1:3260".toList = some ("10.0.0.1".toList, "3260".toList)
      ∧ istgt_parse_portal exK ("10.0.0.1".toList ++ ':' :: "3260".toList)
          = some ("10.0.0.1".toList, "3260".toList))
    ∧ (istgt_parse_portal exK "10.0.0.1".toList = some ("10.0.0.1".toList, "3260".toList)
      ∧ istgt_parse_portal exK ("10.0.0.1".toList ++ ':' :: "3260".toList)
          = some ("10.0.0.1".toList, "3260".toList)) :=
  ⟨⟨by decide, parse_round_trip exK "[::1]:3260".toList _ _ (by decide)⟩,
   ⟨by decide, parse_round_trip exK "10.0.0.1:3260".toList _ _ (by decide)⟩,
   ⟨by decide, parse_round_trip exK "10.0.0.1".toList _ _ (by decide)⟩⟩

/-- Witness for C20: group 1 added to the empty table and looked up. -/
theorem lookup_after_add_witness :
    exK.MAX_PORTAL_GROUP ≤ exEmpty.portal_group.length
    ∧ SlotsSized exEmpty
    ∧ exSec1.num ≠ 0
    ∧ (∀ i, i < exEmpty.nportal_group → (pg_at exEmpty i).tag ≠ exSec1.num)
    ∧ (istgt_add_portal_group exK exEmpty exSec1 (some 0)).1 = 0
    ∧ (∃ idx n, (istgt_add_portal_group exK exEmpty exSec1 (some 0)).2.2 = some idx
      ∧ istgt_get_tag_portal (istgt_add_portal_group exK exEmpty exSec1 (some 0)).2.1
          exSec1.num = some idx
      ∧ count_portals exK exSec1 = some n
      ∧ ∀ i, i < n →
          ∃ portal host port, istgt_get_nmval exSec1 kPortal i 1 = some portal
            ∧ istgt_parse_portal exK portal = some (host, port)
            ∧ (portal_at (pg_at (istgt_add_portal_group exK exEmpty exSec1 (some 0)).2.1
                idx) i).host = host)
    ∧ (∀ tbl : ISTGT, istgt_get_tag_portal tbl 0 = none)
    ∧ (∀ (tbl : ISTGT) (t : Int),
        (∀ i, i < tbl.nportal_group → (pg_at tbl i).tag ≠ t) →
        istgt_get_tag_portal tbl t = none) :=
  ⟨by decide, by decide, by decide, by decide, by decide,
    lookup_after_add exK exEmpty exSec1 0 (by decide) (by decide) (by decide) (by decide)
      (by decide)⟩

/-- C13: in every table the daemon can reach, each portal of a free slot
(`tag == 0`) has `sock = -1`, and `istgt_get_sock_portal` of a descriptor
(`s >= 0`) never returns a portal of a free slot. -/
theorem free_slots_own_no_listener (K : Limits) (t : ISTGT) (h : Reachable K t) :
    (∀ i, i < t.nportal_group → (pg_at t i).tag = 0 →
        ∀ j, j < (pg_at t i).nportals → (portal_at (pg_at t i) j).sock = -1)
    ∧ (∀ (s : Int) (i j : Nat), 0 ≤ s → istgt_get_sock_portal t s = some (i, j) →
        i < t.nportal_group ∧ j < (pg_at t i).nportals
          ∧ (portal_at (pg_at t i) j).sock = s ∧ (pg_at t i).tag ≠ 0) := by
  have hok := reachable_tableok K t h
  have hfree : ∀ i, i < t.nportal_group → (pg_at t i).tag = 0 →
      ∀ j, j < (pg_at t i).nportals → (portal_at (pg_at t i) j).sock = -1 :=
    fun i hi ht => (hok.2 i hi).2.2.2 ht
  refine ⟨hfree, ?_⟩
  intro s i j hs hget
  unfold istgt_get_sock_portal at hget
  rw [if_neg (by omega)] at hget
  obtain ⟨_, h2, h3, h4⟩ := get_sock_loop_some t s _ _ _ _ hget
  refine ⟨by omega, h3, h4, ?_⟩
  intro ht
  have := hfree i (by omega) ht j h3
  omega

/-- Witness for C13: a table reached by a build, an open, a change of
configuration and a delete, on which slot 0 is free. -/
theorem free_slots_own_no_listener_witness :
    Reachable exK exBootDropped
    ∧ (pg_at exBootDropped 0).tag = 0
    ∧ (∀ i, i < exBootDropped.nportal_group → (pg_at exBootDropped i).tag = 0 →
        ∀ j, j < (pg_at exBootDropped i).nportals →
          (portal_at (pg_at exBootDropped i) j).sock = -1)
    ∧ (∀ (s : Int) (i j : Nat), 0 ≤ s → istgt_get_sock_portal exBootDropped s = some (i, j) →
        i < exBootDropped.nportal_group ∧ j < (pg_at exBootDropped i).nportals
          ∧ (portal_at (pg_at exBootDropped i) j).sock = s
          ∧ (pg_at exBootDropped i).tag ≠ 0) :=
  ⟨Reachable.delete _ exNet
      (Reachable.reconfig _ { section_ := [exSec3] }
        (Reachable.start exConfig13 exNet (by decide))),
    by decide,
    free_slots_own_no_listener exK exBootDropped
      (Reachable.delete _ exNet
        (Reachable.reconfig _ { section_ := [exSec3] }
          (Reachable.start exConfig13 exNet (by decide))))⟩

/-- C14: the build of a configuration that holds two `PortalGroup` sections
numbered 1 succeeds and leaves the tag 1 on slot 0 and on slot 1. -/
theorem build_repeats_tag :
    (istgt_build_portal_group_array exK (initial_istgt exK exDupConfig)).1 = 0
    ∧ (istgt_build_portal_group_array exK (initial_istgt exK exDupConfig)).2.nportal_group = 2
    ∧ (pg_at (istgt_build_portal_group_array exK (initial_istgt exK exDupConfig)).2 0).tag = 1
    ∧ (pg_at (istgt_build_portal_group_array exK (initial_istgt exK exDupConfig)).2 1).tag = 1
    ∧ ¬ TagsUnique (istgt_build_portal_group_array exK (initial_istgt exK exDupConfig)).2 := by
  decide

/-- C12: on the table built from two sections numbered 1, every tag is a
section number and every section has a slot with its tag that matches it,
yet a reload with the same configuration closes descriptor 7, rewrites slot 0
with the second section and listens again. -/
theorem reload_same_config_reopens :
    (∀ i : Nat, i < exDupBoot.nportal_group → (pg_at exDupBoot i).tag ≠ 0 →
      ∃ sp, sp ∈ exDupBoot.config.section_ ∧ sp.type = CF_SECTION_TYPE.ST_PORTALGROUP
        ∧ sp.num = (pg_at exDupBoot i).tag)
    ∧ (∀ sp, sp ∈ exDupBoot.config.section_ → sp.type = CF_SECTION_TYPE.ST_PORTALGROUP →
      ∃ i, i < exDupBoot.nportal_group ∧ (pg_at exDupBoot i).tag = sp.num
        ∧ istgt_pg_match_all exK (pg_at exDupBoot i) sp = true)
    ∧ (istgt_pg_update exK (istgt_pg_delete exDupBoot exNet9).2.1
        (istgt_pg_delete exDupBoot exNet9).2.2 0).2.1 ≠ exDupBoot
    ∧ (istgt_pg_update exK (istgt_pg_delete exDupBoot exNet9).2.1
        (istgt_pg_delete exDupBoot exNet9).2.2 0).2.2.trace
        = [Event.close 7, Event.listen "10.0.0.2".toList 3260 9]
    ∧ portal_at (pg_at (istgt_pg_update exK (istgt_pg_delete exDupBoot exNet9).2.1
        (istgt_pg_delete exDupBoot exNet9).2.2 0).2.1 0) 0
        = exPortal "b" "10.0.0.2" "3260" 1 0 9 := by
  decide

/-- C11, as amended: on a table in order whose assigned tags are distinct
and unreferenced, with a configuration whose `PortalGroup` numbers are
non-zero and distinct, when every listen succeeds and no call of add or
update fails, `istgt_pg_delete` followed by `istgt_pg_update` leaves exactly
the section numbers as non-zero tags, each on one slot that holds the
section's counted portals, and every group that was added or changed has all
its listeners open. -/
theorem reload_converges (K : Limits) (T : ISTGT) (net : Net) (p0 : Nat)
    (hok : TableOk K T) (hu : TagsUnique T) (hr : RefsZero T)
    (hnz : ∀ sp, sp ∈ T.config.section_ → sp.type = CF_SECTION_TYPE.ST_PORTALGROUP →
      sp.num ≠ 0)
    (hnd : (section_nums T.config.section_).Nodup)
    (hcs : calls_succeed K
      { istgt := (istgt_pg_delete T net).2.1, net := (istgt_pg_delete T net).2.2,
        pgp_idx := p0 } T.config.section_ = true)
    (hls : listens_succeed (events_since net (pg_delete_then_update K T net p0).2) = true) :
    (∀ x : Int, x ≠ 0 →
      ((∃ i, i < (pg_delete_then_update K T net p0).1.nportal_group
          ∧ (pg_at (pg_delete_then_update K T net p0).1 i).tag = x)
        ↔ x ∈ section_nums T.config.section_))
    ∧ TagsUnique (pg_delete_then_update K T net p0).1
    ∧ (∀ sp, sp ∈ T.config.section_ → sp.type = CF_SECTION_TYPE.ST_PORTALGROUP →
        ∃ i, i < (pg_delete_then_update K T net p0).1.nportal_group
          ∧ (pg_at (pg_delete_then_update K T net p0).1 i).tag = sp.num
          ∧ Holds K (pg_at (pg_delete_then_update K T net p0).1 i) sp
          ∧ ((¬ ∃ i0, i0 < T.nportal_group ∧ (pg_at T i0).tag = sp.num
                ∧ istgt_pg_match_all K (pg_at T i0) sp = true) →
              AllOpen (pg_at (pg_delete_then_update K T net p0).1 i))) := by
  obtain ⟨dn, dc, _, _, _⟩ := pg_delete_loop_spec T.nportal_group 0 T net
  have hn1 : (istgt_pg_delete T net).2.1.nportal_group = T.nportal_group := dn
  have hc1 : (istgt_pg_delete T net).2.1.config = T.config := dc
  have hslot := pg_delete_slot T net
  have hok1 := pg_delete_tableok K T net hok
  have hkeep : ∀ i, (pg_at (istgt_pg_delete T net).2.1 i).tag ≠ 0 →
      pg_at (istgt_pg_delete T net).2.1 i = pg_at T i := by
    intro i ht
    rcases hslot i with h | ⟨h, _⟩
    · exact h
    · exact absurd h ht
  have hu1 : TagsUnique (istgt_pg_delete T net).2.1 := by
    intro i hi j hj ht hij
    rw [hn1] at hi hj
    have ei := hkeep i ht
    have ej := hkeep j (by rw [← hij]; exact ht)
    rw [ei] at ht
    rw [ei, ej] at hij
    exact hu i hi j hj ht hij
  have hr1 : RefsZero (istgt_pg_delete T net).2.1 := by
    intro i hi ht
    rw [hn1] at hi
    have ei := hkeep i ht
    rw [ei] at ht ⊢
    exact hr i hi ht
  have hin : ∀ i, i < T.nportal_group → (pg_at (istgt_pg_delete T net).2.1 i).tag ≠ 0 →
      (pg_at (istgt_pg_delete T net).2.1 i).tag ∈ section_nums T.config.section_ := by
    intro i hi ht
    have ei := hkeep i ht
    rw [ei] at ht ⊢
    by_contra hnot
    rcases hslot i with h | ⟨h, _⟩
    · have hret : Retires T.config (pg_at T i) := by
        refine ⟨ht, (pg_exist_num_neg_iff _ _).2 ?_, hr i hi ht⟩
        intro sp hm hty hnum
        exact hnot ((mem_section_nums _ _).2 ⟨sp, hm, hty, hnum⟩)
      obtain ⟨_, _, _, h4, _⟩ := pg_delete_loop_spec T.nportal_group 0 T net
      have h0 : (pg_at (istgt_pg_delete T net).2.1 i).tag = 0 := by
        show (pg_at (pg_delete_loop T net 0 T.nportal_group).1 i).tag = 0
        rw [h4 i (Nat.zero_le _) (by omega) hret]
        exact (retired_slot_spec _).1
      rw [ei] at h0
      exact ht h0
    · rw [ei] at h; exact ht h
  obtain ⟨d, hd⟩ := pg_delete_loop_trace T.nportal_group 0 T net
  have hd1 : (istgt_pg_delete T net).2.2.trace = net.trace ++ d := hd
  have hF : pg_delete_then_update K T net p0
      = ((T.config.section_.foldl (pg_update_section K)
            { istgt := (istgt_pg_delete T net).2.1, net := (istgt_pg_delete T net).2.2,
              pgp_idx := p0 }).istgt,
         (T.config.section_.foldl (pg_update_section K)
            { istgt := (istgt_pg_delete T net).2.1, net := (istgt_pg_delete T net).2.2,
              pgp_idx := p0 }).net) := by
    unfold pg_delete_then_update istgt_pg_update
    rw [hc1]
  rw [hF] at hls ⊢
  have hls' : ∀ e, (T.config.section_.foldl (pg_update_section K)
      { istgt := (istgt_pg_delete T net).2.1, net := (istgt_pg_delete T net).2.2,
        pgp_idx := p0 }).net.trace = (istgt_pg_delete T net).2.2.trace ++ e →
      listens_succeed e = true := by
    intro e he
    unfold events_since at hls
    simp only [] at hls
    rw [he, hd1, List.append_assoc, List.drop_left] at hls
    exact ((listens_succeed_append d e).1 hls).2
  obtain ⟨fu, forig, _, ftodo⟩ :=
    fold_converges K (istgt_pg_delete T net).2.1 T.config.section_
      { istgt := (istgt_pg_delete T net).2.1, net := (istgt_pg_delete T net).2.2,
        pgp_idx := p0 } hok1 hu1 hr1 hnz hnd hcs hls'
      (fun _ _ _ i hi _ => ⟨hi, rfl⟩)
  refine ⟨?_, fu, ?_⟩
  · intro x hx
    constructor
    · rintro ⟨i, hi, ht⟩
      rcases forig i hi (by rw [ht]; exact hx) with h | ⟨h1, h2⟩
      · rw [ht] at h; exact h
      · have h1' : i < T.nportal_group := by rw [← hn1]; exact h1
        rw [h2] at ht
        rw [← ht]
        exact hin i h1' (by rw [ht]; exact hx)
    · intro hm
      obtain ⟨sp, hsp, hty, hnum⟩ := (mem_section_nums _ _).1 hm
      obtain ⟨i, hi, ht, _⟩ := ftodo sp hsp hty
      exact ⟨i, hi, by rw [ht, hnum]⟩
  · intro sp hsp hty
    obtain ⟨i, hi, ht, hh, ho⟩ := ftodo sp hsp hty
    refine ⟨i, hi, ht, hh, fun hno => ho ?_⟩
    rintro ⟨i0, h1, h2, h3⟩
    have e0 := hkeep i0 (by rw [h2]; exact hnz sp hsp hty)
    rw [e0] at h2 h3
    exact hno ⟨i0, by rw [← hn1]; exact h1, h2, h3⟩

/-- C11: with an empty table and one section whose endpoint does not parse,
the section numbers are non-zero and distinct, no slot is referenced, no
listen fails and no call fails for capacity, yet after the reload no slot
carries the tag 1 of the section. -/
theorem reload_skips_unparsable_section :
    TableOk exK exEmptyBad ∧ TagsUnique exEmptyBad ∧ RefsZero exEmptyBad
    ∧ (∀ sp, sp ∈ exEmptyBad.config.section_ →
        sp.type = CF_SECTION_TYPE.ST_PORTALGROUP → sp.num ≠ 0)
    ∧ (section_nums exEmptyBad.config.section_).Nodup
    ∧ no_capacity_failure exK
        { istgt := (istgt_pg_delete exEmptyBad exNet).2.1,
          net := (istgt_pg_delete exEmptyBad exNet).2.2, pgp_idx := 0 }
        exEmptyBad.config.section_ = true
    ∧ listens_succeed
        (events_since exNet (pg_delete_then_update exK exEmptyBad exNet 0).2) = true
    ∧ (1 : Int) ∈ section_nums exEmptyBad.config.section_
    ∧ ¬ ∃ i, i < (pg_delete_then_update exK exEmptyBad exNet 0).1.nportal_group
        ∧ (pg_at (pg_delete_then_update exK exEmptyBad exNet 0).1 i).tag = 1 := by
  decide

/-- Witness for C11 as amended: the hypotheses of `reload_converges` hold on
a reload that moves group 1, drops group 3 and adds group 2, and the theorem
applies there. -/
theorem reload_converges_witness :
    TableOk exK exBootNew ∧ TagsUnique exBootNew ∧ RefsZero exBootNew
    ∧ (∀ sp, sp ∈ exBootNew.config.section_ →
        sp.type = CF_SECTION_TYPE.ST_PORTALGROUP → sp.num ≠ 0)
    ∧ (section_nums exBootNew.config.section_).Nodup
    ∧ calls_succeed exK
        { istgt := (istgt_pg_delete exBootNew exNet910).2.1,
          net := (istgt_pg_delete exBootNew exNet910).2.2, pgp_idx := 0 }
        exBootNew.config.section_ = true
    ∧ listens_succeed
        (events_since exNet910 (pg_delete_then_update exK exBootNew exNet910 0).2) = true
    ∧ ((∀ x : Int, x ≠ 0 →
        ((∃ i, i < (pg_delete_then_update exK exBootNew exNet910 0).1.nportal_group
            ∧ (pg_at (pg_delete_then_update exK exBootNew exNet910 0).1 i).tag = x)
          ↔ x ∈ section_nums exBootNew.config.section_))
      ∧ TagsUnique (pg_delete_then_update exK exBootNew exNet910 0).1
      ∧ (∀ sp, sp ∈ exBootNew.config.section_ →
          sp.type = CF_SECTION_TYPE.ST_PORTALGROUP →
          ∃ i, i < (pg_delete_then_update exK exBootNew exNet910 0).1.nportal_group
            ∧ (pg_at (pg_delete_then_update exK exBootNew exNet910 0).1 i).tag = sp.num
            ∧ Holds exK (pg_at (pg_delete_then_update exK exBootNew exNet910 0).1 i) sp
            ∧ ((¬ ∃ i0, i0 < exBootNew.nportal_group ∧ (pg_at exBootNew i0).tag = sp.num
                  ∧ istgt_pg_match_all exK (pg_at exBootNew i0) sp = true) →
                AllOpen (pg_at (pg_delete_then_update exK exBootNew exNet910 0).1 i)))) :=
  ⟨by decide, by decide, by decide, by decide, by decide, by decide, by decide,
    reload_converges exK exBootNew exNet910 0 (by decide) (by decide) (by decide)
      (by decide) (by decide) (by decide) (by decide)⟩

/-- C23: `istgt_open_portal_group` on a group whose portals are all open
makes no call, changes nothing and returns 0; `istgt_close_portal_group`
returns 0, leaves every portal as it was but with `sock = -1`, calls `close`
once for each portal that held a descriptor, in order, and a second
application makes no call and changes nothing. -/
theorem open_close_idempotent (pgp : PORTAL_GROUP) (net : Net)
    (hsz : pgp.portals.length = pgp.nportals)
    (hnorm : ∀ j, j < pgp.nportals → -1 ≤ (portal_at pgp j).sock) :
    (AllOpen pgp → istgt_open_portal_group pgp net = (0, pgp, net))
    ∧ (istgt_close_portal_group pgp net).1 = 0
    ∧ (∀ j, j < pgp.nportals →
        portal_at (istgt_close_portal_group pgp net).2.1 j
          = { portal_at pgp j with sock := -1 })
    ∧ (istgt_close_portal_group pgp net).2.1.nportals = pgp.nportals
    ∧ (istgt_close_portal_group pgp net).2.2.trace
        = net.trace ++ (open_socks pgp).map Event.close
    ∧ (∀ net2, istgt_close_portal_group (istgt_close_portal_group pgp net).2.1 net2
        = (0, (istgt_close_portal_group pgp net).2.1, net2)) := by
  obtain ⟨c1, _, _, _, _, _, c7⟩ := close_loop_spec pgp.nportals 0 pgp net
  have hport : ∀ j, j < pgp.nportals →
      portal_at (close_loop pgp net 0 pgp.nportals).1 j = { portal_at pgp j with sock := -1 } := by
    intro j hj
    rw [c7 j (Nat.zero_le _) (by omega) (by omega)]
    by_cases hs : 0 ≤ (portal_at pgp j).sock
    · rw [if_pos hs]
    · rw [if_neg hs]
      have h1 := hnorm j hj
      have h2 : (portal_at pgp j).sock = -1 := by omega
      cases hp : portal_at pgp j with
      | mk label host port ref idx tag sock =>
        rw [hp] at h2
        simp only at h2
        rw [h2]
  refine ⟨?_, rfl, hport, c1, ?_, ?_⟩
  · intro ho
    unfold istgt_open_portal_group
    exact open_loop_idle pgp.nportals 0 pgp net (fun j _ hj => ho j (by omega))
  · show (close_loop pgp net 0 pgp.nportals).2.trace = _
    rw [close_loop_events, open_socks, List.range_eq_range']
  · intro net2
    unfold istgt_close_portal_group
    simp only []
    rw [c1, close_loop_idle]
    intro j _ hj
    rw [hport j (by omega)]
    show (-1 : Int) < 0
    omega

/-- Witness for C23: the hypotheses of `open_close_idempotent` hold on a group
with two open portals, and the theorem applies there. -/
theorem open_close_idempotent_witness :
    exGroupOpen.portals.length = exGroupOpen.nportals
    ∧ (∀ j, j < exGroupOpen.nportals → -1 ≤ (portal_at exGroupOpen j).sock)
    ∧ AllOpen exGroupOpen
    ∧ open_socks exGroupOpen = [5, 6]
    ∧ ((AllOpen exGroupOpen → istgt_open_portal_group exGroupOpen exNet = (0, exGroupOpen, exNet))
      ∧ (istgt_close_portal_group exGroupOpen exNet).1 = 0
      ∧ (∀ j, j < exGroupOpen.nportals →
          portal_at (istgt_close_portal_group exGroupOpen exNet).2.1 j
            = { portal_at exGroupOpen j with sock := -1 })
      ∧ (istgt_close_portal_group exGroupOpen exNet).2.1.nportals = exGroupOpen.nportals
      ∧ (istgt_close_portal_group exGroupOpen exNet).2.2.trace
          = exNet.trace ++ (open_socks exGroupOpen).map Event.close
      ∧ (∀ net2, istgt_close_portal_group (istgt_close_portal_group exGroupOpen exNet).2.1 net2
          = (0, (istgt_close_portal_group exGroupOpen exNet).2.1, net2))) :=
  ⟨by decide, by decide, by decide, by decide,
    open_close_idempotent exGroupOpen exNet (by decide) (by decide)⟩

/-- C22: with `MAX_INITIATOR = 2`, a group with tag 1 that does not match the
section and a section `InitiatorGroup1` with three names,
`istgt_update_initiator_group` returns `-1` and changes nothing, where the
specification has it return 1. -/
theorem update_ig_rejects_long_section :
    find_ig_slot exIGThree exIGSec1big.num = some 0
    ∧ istgt_ig_match_all (ig_at exIGThree 0) exIGSec1big = false
    ∧ istgt_update_initiator_group exL exIGThree exIGSec1big = (-1, exIGThree) := by
  decide

/-- C22, as amended: `istgt_update_initiator_group` returns `-1` and changes
nothing when no group has the section's number as tag, and when the section
has more than `MAX_INITIATOR` names or more than `MAX_NETMASK` netmasks;
within these limits, for the first group `idx` with the tag, it returns 0 and
changes nothing when `istgt_ig_match_all` holds, and otherwise returns 1,
leaves the other groups, `ninitiator_group`, and the `ref`, `idx` and `tag`
of the group as they were, makes the names and netmasks of the group exactly
the section's values in order, and a second update with the same section
returns 0 and changes nothing. -/
theorem update_initiator_group_effect (L : IGLimits) (istgt : ISTGT_IG) (sp : CF_SECTION)
    (hfit : istgt.ninitiator_group ≤ istgt.initiator_group.length) :
    ((∀ i, i < istgt.ninitiator_group → (ig_at istgt i).tag ≠ sp.num) →
      istgt_update_initiator_group L istgt sp = (-1, istgt))
    ∧ ((L.MAX_INITIATOR < count_vals sp kInitiatorName
          ∨ L.MAX_NETMASK < count_vals sp kNetmask) →
      istgt_update_initiator_group L istgt sp = (-1, istgt))
    ∧ (∀ idx, find_ig_slot istgt sp.num = some idx →
        count_vals sp kInitiatorName ≤ L.MAX_INITIATOR →
        count_vals sp kNetmask ≤ L.MAX_NETMASK →
        (istgt_ig_match_all (ig_at istgt idx) sp = true →
          istgt_update_initiator_group L istgt sp = (0, istgt))
        ∧ (istgt_ig_match_all (ig_at istgt idx) sp = false →
          (istgt_update_initiator_group L istgt sp).1 = 1
          ∧ (istgt_update_initiator_group L istgt sp).2.ninitiator_group
              = istgt.ninitiator_group
          ∧ (istgt_update_initiator_group L istgt sp).2.config = istgt.config
          ∧ (istgt_update_initiator_group L istgt sp).2.generation = istgt.generation
          ∧ (∀ i, i ≠ idx →
              ig_at (istgt_update_initiator_group L istgt sp).2 i = ig_at istgt i)
          ∧ (ig_at (istgt_update_initiator_group L istgt sp).2 idx).ref = (ig_at istgt idx).ref
          ∧ (ig_at (istgt_update_initiator_group L istgt sp).2 idx).idx = (ig_at istgt idx).idx
          ∧ (ig_at (istgt_update_initiator_group L istgt sp).2 idx).tag = (ig_at istgt idx).tag
          ∧ (ig_at (istgt_update_initiator_group L istgt sp).2 idx).ninitiators
              = count_vals sp kInitiatorName
          ∧ (ig_at (istgt_update_initiator_group L istgt sp).2 idx).initiators.length
              = count_vals sp kInitiatorName
          ∧ (∀ j, j < count_vals sp kInitiatorName →
              istgt_get_nval sp kInitiatorName j
                = some ((ig_at (istgt_update_initiator_group L istgt sp).2
                    idx).initiators.getD j []))
          ∧ (ig_at (istgt_update_initiator_group L istgt sp).2 idx).nnetmasks
              = count_vals sp kNetmask
          ∧ (ig_at (istgt_update_initiator_group L istgt sp).2 idx).netmasks.length
              = count_vals sp kNetmask
          ∧ (∀ j, j < count_vals sp kNetmask →
              istgt_get_nval sp kNetmask j
                = some ((ig_at (istgt_update_initiator_group L istgt sp).2
                    idx).netmasks.getD j []))
          ∧ istgt_update_initiator_group L (istgt_update_initiator_group L istgt sp).2 sp
              = (0, (istgt_update_initiator_group L istgt sp).2))) := by
  refine ⟨?_, ?_, ?_⟩
  · intro h
    unfold istgt_update_initiator_group
    simp only [find_ig_slot_none h]
    split
    · rfl
    · split <;> rfl
  · intro h
    unfold istgt_update_initiator_group
    rcases h with h | h
    · simp only [gt_iff_lt, h, if_true]
    · simp only [gt_iff_lt, h, if_true]
      split <;> rfl
  · intro idx hfind hn hm
    refine ⟨update_ig_same L istgt sp idx hfind hn hm, ?_⟩
    intro hmatch
    obtain ⟨hidx, _⟩ := find_ig_slot_some hfind
    have hlen : idx < istgt.initiator_group.length := by omega
    rw [update_ig_changed L istgt sp idx hfind hn hm hmatch]
    have hat : ig_at (ig_store istgt idx (ig_rewrite sp (ig_at istgt idx))) idx
        = ig_rewrite sp (ig_at istgt idx) := ig_at_store_self _ _ _ hlen
    refine ⟨rfl, rfl, rfl, rfl, fun i hi => ig_at_store_ne _ _ _ _ hi, ?_, ?_, ?_, ?_, ?_, ?_,
      ?_, ?_, ?_, ?_⟩
    · simp only [hat]; rfl
    · simp only [hat]; rfl
    · simp only [hat]; rfl
    · simp only [hat]; rfl
    · simp only [hat]; exact (copied_vals sp kInitiatorName).1
    · simp only [hat]; exact (copied_vals sp kInitiatorName).2
    · simp only [hat]; rfl
    · simp only [hat]; exact (copied_vals sp kNetmask).1
    · simp only [hat]; exact (copied_vals sp kNetmask).2
    · apply update_ig_same L _ sp idx _ hn hm
      · simp only [hat]; exact ig_rewrite_matches sp _
      · simp only []
        rw [find_ig_slot_store istgt idx (ig_rewrite sp (ig_at istgt idx)) sp.num rfl]
        exact hfind

/-- Witness for C22 as amended: the array of `exIGThree` holds its groups,
the update of group 1 from `exIGSec1` returns 1, and
`update_initiator_group_effect` applies. -/
theorem update_initiator_group_effect_witness :
    exIGThree.ninitiator_group ≤ exIGThree.initiator_group.length
    ∧ (istgt_update_initiator_group exL exIGThree exIGSec1).1 = 1
    ∧ (ig_at (istgt_update_initiator_group exL exIGThree exIGSec1).2 0).initiators
        = ["iqn.x".toList, "iqn.y".toList]
    ∧ ((∀ i, i < exIGThree.ninitiator_group → (ig_at exIGThree i).tag ≠ exIGSec1.num) →
        istgt_update_initiator_group exL exIGThree exIGSec1 = (-1, exIGThree))
    ∧ ((exL.MAX_INITIATOR < count_vals exIGSec1 kInitiatorName
          ∨ exL.MAX_NETMASK < count_vals exIGSec1 kNetmask) →
        istgt_update_initiator_group exL exIGThree exIGSec1 = (-1, exIGThree))
    ∧ istgt_update_initiator_group exL
          (istgt_update_initiator_group exL exIGThree exIGSec1).2 exIGSec1
        = (0, (istgt_update_initiator_group exL exIGThree exIGSec1).2) :=
  ⟨by decide, by decide, by decide,
    (update_initiator_group_effect exL exIGThree exIGSec1 (by decide)).1,
    (update_initiator_group_effect exL exIGThree exIGSec1 (by decide)).2.1,
    (((update_initiator_group_effect exL exIGThree exIGSec1 (by decide)).2.2 0
        (by decide) (by decide) (by decide)).2 (by decide)).2.2.2.2.2.2.2.2.2.2.2.2.2.2⟩

/-- C21: with groups 1, 2 and 3, none referenced, and a configuration that
has the section of group 3 only, `istgt_ig_reload_delete` removes group 1 and
leaves group 2 in the table: two groups remain, with tags 2 and 3. -/
theorem ig_reload_delete_skips_neighbour :
    (∀ i : Nat, i < exIGThree.ninitiator_group → (ig_at exIGThree i).ref = 0)
    ∧ istgt_ig_exist_num exIGThree.config 1 = -1
    ∧ istgt_ig_exist_num exIGThree.config 2 = -1
    ∧ istgt_ig_exist_num exIGThree.config 3 = 1
    ∧ (istgt_ig_reload_delete exIGThree).1 = 0
    ∧ (istgt_ig_reload_delete exIGThree).2.ninitiator_group = 2
    ∧ (ig_at (istgt_ig_reload_delete exIGThree).2 0).tag = 2
    ∧ (ig_at (istgt_ig_reload_delete exIGThree).2 1).tag = 3 := by
  decide

/-- C26: when `istgt_reload` returns 0, `generation` afterwards is
`generation` before plus one, as a 32-bit counter, whatever the collaborators
answered. -/
theorem reload_success_increments (L : IGLimits) (o : RELOAD_OUTCOMES) (istgt : ISTGT_IG)
    (h : (istgt_reload L o istgt).1 = 0) :
    (istgt_reload L o istgt).2.generation = (istgt.generation + 1) % 2 ^ 32 := by
  rcases reload_cases L o istgt with ⟨_, e⟩ | ⟨_, _, g, _⟩
  · rw [e] at h
    have h2 : (-1 : Int) = 0 := h
    omega
  · exact g

/-- Witness for C26: with every collaborator succeeding the reload of
`exIGThree` returns 0, and `reload_success_increments` applies. -/
theorem reload_success_increments_witness :
    (istgt_reload exL exOutcomesOk exIGThree).1 = 0
    ∧ (istgt_reload exL exOutcomesOk exIGThree).2.generation
        = (exIGThree.generation + 1) % 2 ^ 32 :=
  ⟨by decide, reload_success_increments exL exOutcomesOk exIGThree (by decide)⟩

/-- C27: when the configuration is read and `istgt_lu_reload_delete` then
fails, `istgt_reload` returns `-1` with `generation` incremented from 0 to
1. -/
theorem reload_failure_after_swap_increments :
    (istgt_reload exL exOutcomesLuFails exIGThree).1 = -1
    ∧ exIGThree.generation = 0
    ∧ (istgt_reload exL exOutcomesLuFails exIGThree).2.generation = 1 := by
  decide

/-- C27, as amended: a reload that fails because the configuration cannot be
read or is empty leaves `generation` as it was; a reload that fails in a
later step has incremented `generation` by one, as a 32-bit counter. -/
theorem reload_failure_generation (L : IGLimits) (o : RELOAD_OUTCOMES) (istgt : ISTGT_IG)
    (h : (istgt_reload L o istgt).1 ≠ 0) :
    (¬ ReadOk o → (istgt_reload L o istgt).2.generation = istgt.generation)
    ∧ (ReadOk o →
        (istgt_reload L o istgt).2.generation = (istgt.generation + 1) % 2 ^ 32
        ∧ (o.lu_reload_delete < 0 ∨ o.pg_reload_delete < 0 ∨ o.pg_reload_update < 0
            ∨ o.lu_reload_update < 0)) := by
  rcases reload_cases L o istgt with ⟨hn, e⟩ | ⟨hr, _, g, ⟨_, _, w⟩ | ⟨z, _⟩⟩
  · exact ⟨fun _ => by rw [e], fun hr => absurd hr hn⟩
  · exact ⟨fun hn => absurd hr hn, fun _ => ⟨g, w⟩⟩
  · exact absurd z h

/-- Witness for C27 as amended: a reload whose configuration cannot be read
fails, and `reload_failure_generation` applies. -/
theorem reload_failure_generation_witness :
    (istgt_reload exL exOutcomesReadFails exIGThree).1 ≠ 0
    ∧ ¬ ReadOk exOutcomesReadFails
    ∧ (¬ ReadOk exOutcomesReadFails →
        (istgt_reload exL exOutcomesReadFails exIGThree).2.generation = exIGThree.generation)
    ∧ (ReadOk exOutcomesReadFails →
        (istgt_reload exL exOutcomesReadFails exIGThree).2.generation
          = (exIGThree.generation + 1) % 2 ^ 32
        ∧ (exOutcomesReadFails.lu_reload_delete < 0 ∨ exOutcomesReadFails.pg_reload_delete < 0
            ∨ exOutcomesReadFails.pg_reload_update < 0
            ∨ exOutcomesReadFails.lu_reload_update < 0)) :=
  ⟨by decide, by decide,
    reload_failure_generation exL exOutcomesReadFails exIGThree (by decide)⟩

/-- C28: when the configuration is read and `istgt_lu_reload_delete` then
fails, `istgt_reload` returns `-1` and `istgt->config` is the new
configuration, not the one that was current before the call. -/
theorem reload_failure_after_swap_keeps_new_config :
    (istgt_reload exL exOutcomesLuFails exIGThree).1 = -1
    ∧ (istgt_reload exL exOutcomesLuFails exIGThree).2.config = exConfigNew
    ∧ (istgt_reload exL exOutcomesLuFails exIGThree).2.config ≠ exIGThree.config := by
  decide

/-- C28, as amended: a reload that fails because the configuration cannot be
read or is empty leaves the daemon structure, and so `istgt->config`, as it
was; a reload that fails in a later step leaves the new configuration in
`istgt->config` and the prior one in `istgt->config_old`. -/
theorem reload_failure_config (L : IGLimits) (o : RELOAD_OUTCOMES) (istgt : ISTGT_IG)
    (h : (istgt_reload L o istgt).1 ≠ 0) :
    (¬ ReadOk o → (istgt_reload L o istgt).2 = istgt)
    ∧ (ReadOk o →
        (istgt_reload L o istgt).2.config = o.config_new
        ∧ (istgt_reload L o istgt).2.config_old = some istgt.config) := by
  rcases reload_cases L o istgt with ⟨hn, e⟩ | ⟨hr, c, _, ⟨_, w, _⟩ | ⟨z, _⟩⟩
  · exact ⟨fun _ => by rw [e], fun hr => absurd hr hn⟩
  · exact ⟨fun hn => absurd hr hn, fun _ => ⟨c, w⟩⟩
  · exact absurd z h

/-- Witness for C28 as amended: a reload that fails in
`istgt_lu_reload_delete`, and `reload_failure_config` applies. -/
theorem reload_failure_config_witness :
    (istgt_reload exL exOutcomesLuFails exIGThree).1 ≠ 0
    ∧ ReadOk exOutcomesLuFails
    ∧ (¬ ReadOk exOutcomesLuFails →
        (istgt_reload exL exOutcomesLuFails exIGThree).2 = exIGThree)
    ∧ (ReadOk exOutcomesLuFails →
        (istgt_reload exL exOutcomesLuFails exIGThree).2.config = exOutcomesLuFails.config_new
        ∧ (istgt_reload exL exOutcomesLuFails exIGThree).2.config_old
            = some exIGThree.config) :=
  ⟨by decide, by decide,
    reload_failure_config exL exOutcomesLuFails exIGThree (by decide)⟩

/-- C29: the accept loop services `U` for a configuration whose only section
cannot be added (its endpoint does not parse): the call of add fails, and
`pg_reload` is set to 1, not to a negative value. -/
theorem update_failure_reported_as_success :
    calls_succeed exK { istgt := exEmptyBad, net := exNet, pgp_idx := 0 }
        exEmptyBad.config.section_ = false
    ∧ (istgt_add_portal_group exK exEmptyBad exSecBad (some 0)).1 = -1
    ∧ (acceptor_command exK 'U' exEmptyBad exNet 0 0).2.2 = 1 := by
  decide

/-- C29, as amended: when the accept loop services the command `D` or `U` it
runs `istgt_pg_delete` or `istgt_pg_update` and sets `pg_reload` to 1,
whatever happened to the individual groups; `pg_reload` is not left at 0 and
is not set to a negative value. -/
theorem acceptor_command_sets_one (K : Limits) (cmd : Char) (istgt : ISTGT) (net : Net)
    (pg_reload : Int) (p0 : Nat) (h : cmd = 'D' ∨ cmd = 'U') :
    (acceptor_command K cmd istgt net pg_reload p0).2.2 = 1
    ∧ (cmd = 'D' → acceptor_command K cmd istgt net pg_reload p0
        = ((istgt_pg_delete istgt net).2.1, (istgt_pg_delete istgt net).2.2, 1))
    ∧ (cmd = 'U' → acceptor_command K cmd istgt net pg_reload p0
        = ((istgt_pg_update K istgt net p0).2.1, (istgt_pg_update K istgt net p0).2.2, 1)) := by
  have hD : acceptor_command K 'D' istgt net pg_reload p0
      = ((istgt_pg_delete istgt net).2.1, (istgt_pg_delete istgt net).2.2, 1) := by
    unfold acceptor_command istgt_pg_delete
    simp
  have hU : acceptor_command K 'U' istgt net pg_reload p0
      = ((istgt_pg_update K istgt net p0).2.1, (istgt_pg_update K istgt net p0).2.2, 1) := by
    unfold acceptor_command istgt_pg_update
    simp
  rcases h with rfl | rfl
  · exact ⟨by rw [hD], fun _ => hD, fun e => absurd e (by decide)⟩
  · exact ⟨by rw [hU], fun e => absurd e (by decide), fun _ => hU⟩

/-- Witness for C29 as amended: the command `U` on the table `exEmptyBad`. -/
theorem acceptor_command_sets_one_witness :
    ('U' = 'D' ∨ 'U' = 'U')
    ∧ (acceptor_command exK 'U' exEmptyBad exNet 0 0).2.2 = 1
    ∧ ('U' = 'D' → acceptor_command exK 'U' exEmptyBad exNet 0 0
        = ((istgt_pg_delete exEmptyBad exNet).2.1, (istgt_pg_delete exEmptyBad exNet).2.2, 1))
    ∧ ('U' = 'U' → acceptor_command exK 'U' exEmptyBad exNet 0 0
        = ((istgt_pg_update exK exEmptyBad exNet 0).2.1,
           (istgt_pg_update exK exEmptyBad exNet 0).2.2, 1)) :=
  ⟨by decide, acceptor_command_sets_one exK 'U' exEmptyBad exNet 0 0 (by decide)⟩

/-- C30: with one portal group whose two portals listen on descriptors 7 and
8, one unit-control portal on descriptor 4 and the control pipe on
descriptor 3, the poll branch leaves `ucidx = 2`, `nidx = 4` and the
descriptors 8, 0, 4, 3 in the first four entries: descriptor 7 is in no
entry and entry 1 holds the cleared value 0. -/
theorem poll_array_misses_socket :
    exBootTwo.nportal_group = 1
    ∧ open_socks (pg_at exBootTwo 0) = [7, 8]
    ∧ (acceptor_build_fds exK exP exBootTwo exUctlOpen).2.1 = 2
    ∧ (acceptor_build_fds exK exP exBootTwo exUctlOpen).2.2 = 4
    ∧ ((acceptor_build_fds exK exP exBootTwo exUctlOpen).1.map (fun e => e.fd)).take 4
        = [8, 0, 4, 3] := by
  decide

/-- C31: with the text `4294967297` for `MaxSessions`, a value above 65535,
`istgt_init` returns 0: the accessor reads the text as 1, which is stored. -/
theorem init_accepts_value_beyond_int :
    istgt_get_val (exGlobal [exVal "MaxSessions" "4294967297"]) kMaxSessions
      = some "4294967297".toList
    ∧ IsDecimalText "4294967297".toList
    ∧ decimal_int "4294967297".toList = 4294967297
    ∧ istgt_get_intval (exGlobal [exVal "MaxSessions" "4294967297"]) kMaxSessions = 1
    ∧ (exInit [exVal "MaxSessions" "4294967297"]).1 = 0
    ∧ (exInit [exVal "MaxSessions" "4294967297"]).2.glob.MaxSessions = 1 := by
  decide

/-- C31: `istgt_init` returns `-1` whenever the value it reads for
`MaxSessions`, `MaxConnections` or `MaxOutstandingR2T` is greater than 65535,
the value read for `DefaultTime2Wait` or `DefaultTime2Retain` is greater
than 3600, the value read for `MaxBurstLength` or `MaxRecvDataSegmentLength`
is greater than `0x00FFFFFF`, or the value read for `MaxR2T` is greater than
`MAX_R2T` (a non-negative constant). The value read for a key is the `int`
that `istgt_get_intval` yields; for a text made of an optional sign and
decimal digits whose value is in the range of `int` it is the value of the
text. -/
theorem init_rejects_values_above_range (D : InitDefaults) (K : Limits) (L : IGLimits)
    (P : PollLimits) (o : INIT_OUTCOMES) (d : DAEMON) (sp : CF_SECTION)
    (hsp : istgt_find_cf_section d.pg.config CF_SECTION_TYPE.ST_GLOBAL = some sp)
    (hmax : 0 ≤ D.MAX_R2T)
    (h : 65535 < istgt_get_intval sp kMaxSessions
      ∨ 65535 < istgt_get_intval sp kMaxConnections
      ∨ 65535 < istgt_get_intval sp kMaxOutstandingR2T
      ∨ 3600 < istgt_get_intval sp kDefaultTime2Wait
      ∨ 3600 < istgt_get_intval sp kDefaultTime2Retain
      ∨ 16777215 < istgt_get_intval sp kMaxBurstLength
      ∨ 16777215 < istgt_get_intval sp kMaxRecvDataSegmentLength
      ∨ D.MAX_R2T < istgt_get_intval sp kMaxR2T) :
    (istgt_init D K L P o d).1 = -1
    ∧ ∀ (key v : CStr), istgt_get_val sp key = some v → IsDecimalText v →
        -(2 : Int) ^ 31 ≤ decimal_int v → decimal_int v < (2 : Int) ^ 31 →
        istgt_get_intval sp key = decimal_int v := by
  obtain ⟨m2, m3, m4, _, _, _, _, m11⟩ := mem_init_blocks D sp
  refine ⟨?_, fun key v hv hd hlo hhi => nintval_decimal sp key 0 v hv hd hlo hhi⟩
  rcases h with h | h | h | h | h | h | h | h
  · apply init_fails_of_block D K L P o d sp hsp _ m2
    intro g c hc
    obtain ⟨a1, _, _⟩ := (init_sessions_ok D sp g c).1 hc
    unfold effective at a1
    split_ifs at a1 <;> omega
  · apply init_fails_of_block D K L P o d sp hsp _ m2
    intro g c hc
    obtain ⟨_, a2, _⟩ := (init_sessions_ok D sp g c).1 hc
    unfold effective at a2
    split_ifs at a2 <;> omega
  · apply init_fails_of_block D K L P o d sp hsp _ m3
    intro g c hc
    obtain ⟨a1, _, _, _⟩ := (init_r2t_times_ok D sp g c).1 hc
    unfold effective at a1
    split_ifs at a1 <;> omega
  · apply init_fails_of_block D K L P o d sp hsp _ m3
    intro g c hc
    obtain ⟨_, a2, _, _⟩ := (init_r2t_times_ok D sp g c).1 hc
    unfold effective at a2
    split_ifs at a2 <;> omega
  · apply init_fails_of_block D K L P o d sp hsp _ m3
    intro g c hc
    obtain ⟨_, _, a3, _⟩ := (init_r2t_times_ok D sp g c).1 hc
    unfold effective at a3
    split_ifs at a3 <;> omega
  · apply init_fails_of_block D K L P o d sp hsp _ m4
    intro g c hc
    obtain ⟨_, _, _, a4, _, _, _⟩ := (init_burst_ok D sp g c).1 hc
    unfold effective at a4
    split_ifs at a4 <;> omega
  · apply init_fails_of_block D K L P o d sp hsp _ m4
    intro g c hc
    obtain ⟨_, _, _, _, _, a6, _⟩ := (init_burst_ok D sp g c).1 hc
    unfold effective at a6
    split_ifs at a6 <;> omega
  · apply init_fails_of_block D K L P o d sp hsp _ m11
    intro g c hc
    obtain ⟨a1, _⟩ := (init_maxr2t_ok D sp g c).1 hc
    unfold effective at a1
    split_ifs at a1 <;> omega

theorem init_rejects_values_above_range_witness :
    istgt_find_cf_section
        (initial_daemon exK exL exP (exConfigWith [exVal "MaxSessions" "65536"])).pg.config
        CF_SECTION_TYPE.ST_GLOBAL = some (exGlobal [exVal "MaxSessions" "65536"])
    ∧ 0 ≤ exD.MAX_R2T
    ∧ 65535 < istgt_get_intval (exGlobal [exVal "MaxSessions" "65536"]) kMaxSessions
    ∧ ((exInit [exVal "MaxSessions" "65536"]).1 = -1
      ∧ ∀ (key v : CStr),
          istgt_get_val (exGlobal [exVal "MaxSessions" "65536"]) key = some v →
          IsDecimalText v → -(2 : Int) ^ 31 ≤ decimal_int v → decimal_int v < (2 : Int) ^ 31 →
          istgt_get_intval (exGlobal [exVal "MaxSessions" "65536"]) key = decimal_int v) :=
  ⟨by decide, by decide, by decide,
    init_rejects_values_above_range exD exK exL exP exInitOk
      (initial_daemon exK exL exP (exConfigWith [exVal "MaxSessions" "65536"]))
      (exGlobal [exVal "MaxSessions" "65536"]) (by decide) (by decide) (Or.inl (by decide))⟩

/-- C32: with `MaxSessions 0`, and with `DefaultTime2Wait -5`, `istgt_init`
returns 0 and stores the compile-time default. -/
theorem init_accepts_value_below_range :
    istgt_get_intval (exGlobal [exVal "MaxSessions" "0"]) kMaxSessions = 0
    ∧ (exInit [exVal "MaxSessions" "0"]).1 = 0
    ∧ (exInit [exVal "MaxSessions" "0"]).2.glob.MaxSessions = exD.DEFAULT_MAX_SESSIONS
    ∧ istgt_get_intval (exGlobal [exVal "DefaultTime2Wait" "-5"]) kDefaultTime2Wait = -5
    ∧ (exInit [exVal "DefaultTime2Wait" "-5"]).1 = 0
    ∧ (exInit [exVal "DefaultTime2Wait" "-5"]).2.glob.DefaultTime2Wait
        = exD.DEFAULT_DEFAULTTIME2WAIT := by
  decide

/-- C32: a value below the range is replaced by the default, as a missing
key is (a missing key is read as `-1`). Whenever `istgt_init` returns 0, the
stored `MaxSessions`, `MaxConnections` and `MaxOutstandingR2T` are the
default when the value read is smaller than 1 and the value read otherwise,
and the stored `DefaultTime2Wait`, `DefaultTime2Retain`, `timeout`,
`nopininterval` and `maxr2t` are the default when the value read is negative
and the value read otherwise. -/
theorem init_replaces_values_below_range (D : InitDefaults) (K : Limits) (L : IGLimits)
    (P : PollLimits) (o : INIT_OUTCOMES) (d : DAEMON) (sp : CF_SECTION)
    (hsp : istgt_find_cf_section d.pg.config CF_SECTION_TYPE.ST_GLOBAL = some sp)
    (h0 : (istgt_init D K L P o d).1 = 0) :
    (istgt_init D K L P o d).2.glob.MaxSessions
        = effective (istgt_get_intval sp kMaxSessions) 1 D.DEFAULT_MAX_SESSIONS
    ∧ (istgt_init D K L P o d).2.glob.MaxConnections
        = effective (istgt_get_intval sp kMaxConnections) 1 D.DEFAULT_MAX_CONNECTIONS
    ∧ (istgt_init D K L P o d).2.glob.MaxOutstandingR2T
        = effective (istgt_get_intval sp kMaxOutstandingR2T) 1 D.DEFAULT_MAXOUTSTANDINGR2T
    ∧ (istgt_init D K L P o d).2.glob.DefaultTime2Wait
        = effective (istgt_get_intval sp kDefaultTime2Wait) 0 D.DEFAULT_DEFAULTTIME2WAIT
    ∧ (istgt_init D K L P o d).2.glob.DefaultTime2Retain
        = effective (istgt_get_intval sp kDefaultTime2Retain) 0 D.DEFAULT_DEFAULTTIME2RETAIN
    ∧ (istgt_init D K L P o d).2.glob.timeout
        = effective (istgt_get_intval sp kTimeout) 0 D.DEFAULT_TIMEOUT
    ∧ (istgt_init D K L P o d).2.glob.nopininterval
        = effective (istgt_get_intval sp kNopInInterval) 0 D.DEFAULT_NOPININTERVAL
    ∧ (istgt_init D K L P o d).2.glob.maxr2t
        = effective (istgt_get_intval sp kMaxR2T) 0 D.DEFAULT_MAXR2T
    ∧ (∀ key : CStr, istgt_get_val sp key = none → istgt_get_intval sp key = -1)
    ∧ (∀ v lo dflt : Int, v < lo → effective v lo dflt = dflt)
    ∧ (∀ v lo dflt : Int, lo ≤ v → effective v lo dflt = v) := by
  have hs := run_init_ok D sp _ _ (init_ok_blocks D K L P o d sp hsp h0)
  refine ⟨hs.MaxSessions, hs.MaxConnections, hs.MaxOutstandingR2T, hs.DefaultTime2Wait,
    hs.DefaultTime2Retain, hs.timeout, hs.nopininterval, hs.maxr2t, ?_, ?_, ?_⟩
  · intro key hk
    unfold istgt_get_val at hk
    unfold istgt_get_intval istgt_get_nintval
    rw [hk]
  · intro v lo dflt hv
    unfold effective
    rw [if_pos hv]
  · intro v lo dflt hv
    unfold effective
    rw [if_neg (by omega)]

theorem init_replaces_values_below_range_witness :
    istgt_find_cf_section
        (initial_daemon exK exL exP (exConfigWith [exVal "MaxSessions" "0"])).pg.config
        CF_SECTION_TYPE.ST_GLOBAL = some (exGlobal [exVal "MaxSessions" "0"])
    ∧ (exInit [exVal "MaxSessions" "0"]).1 = 0
    ∧ ((exInit [exVal "MaxSessions" "0"]).2.glob.MaxSessions
        = effective (istgt_get_intval (exGlobal [exVal "MaxSessions" "0"]) kMaxSessions) 1
            exD.DEFAULT_MAX_SESSIONS
    ∧ (exInit [exVal "MaxSessions" "0"]).2.glob.MaxConnections
        = effective (istgt_get_intval (exGlobal [exVal "MaxSessions" "0"]) kMaxConnections) 1
            exD.DEFAULT_MAX_CONNECTIONS
    ∧ (exInit [exVal "MaxSessions" "0"]).2.glob.MaxOutstandingR2T
        = effective (istgt_get_intval (exGlobal [exVal "MaxSessions" "0"]) kMaxOutstandingR2T)
            1 exD.DEFAULT_MAXOUTSTANDINGR2T
    ∧ (exInit [exVal "MaxSessions" "0"]).2.glob.DefaultTime2Wait
        = effective (istgt_get_intval (exGlobal [exVal "MaxSessions" "0"]) kDefaultTime2Wait)
            0 exD.DEFAULT_DEFAULTTIME2WAIT
    ∧ (exInit [exVal "MaxSessions" "0"]).2.glob.DefaultTime2Retain
        = effective (istgt_get_intval (exGlobal [exVal "MaxSessions" "0"]) kDefaultTime2Retain)
            0 exD.DEFAULT_DEFAULTTIME2RETAIN
    ∧ (exInit [exVal "MaxSessions" "0"]).2.glob.timeout
        = effective (istgt_get_intval (exGlobal [exVal "MaxSessions" "0"]) kTimeout) 0
            exD.DEFAULT_TIMEOUT
    ∧ (exInit [exVal "MaxSessions" "0"]).2.glob.nopininterval
        = effective (istgt_get_intval (exGlobal [exVal "MaxSessions" "0"]) kNopInInterval) 0
            exD.DEFAULT_NOPININTERVAL
    ∧ (exInit [exVal "MaxSessions" "0"]).2.glob.maxr2t
        = effective (istgt_get_intval (exGlobal [exVal "MaxSessions" "0"]) kMaxR2T) 0
            exD.DEFAULT_MAXR2T
    ∧ (∀ key : CStr, istgt_get_val (exGlobal [exVal "MaxSessions" "0"]) key = none →
        istgt_get_intval (exGlobal [exVal "MaxSessions" "0"]) key = -1)
    ∧ (∀ v lo dflt : Int, v < lo → effective v lo dflt = dflt)
    ∧ (∀ v lo dflt : Int, lo ≤ v → effective v lo dflt = v)) :=
  ⟨by decide, by decide,
    init_replaces_values_below_range exD exK exL exP exInitOk
      (initial_daemon exK exL exP (exConfigWith [exVal "MaxSessions" "0"]))
      (exGlobal [exVal "MaxSessions" "0"]) (by decide) (by decide)⟩

/-- C33: `istgt_init` returns `-1` when the `MaxBurstLength` in force is
below 512, when the `FirstBurstLength` in force is below 512 or greater than
the `MaxBurstLength` in force, and when the `MaxRecvDataSegmentLength` in
force is below 512; whenever it returns 0, the stored values satisfy
`512 <= FirstBurstLength <= MaxBurstLength <= 0x00FFFFFF` and
`512 <= MaxRecvDataSegmentLength <= 0x00FFFFFF`, for all defaults. -/
theorem init_burst_validation (D : InitDefaults) (K : Limits) (L : IGLimits)
    (P : PollLimits) (o : INIT_OUTCOMES) (d : DAEMON) (sp : CF_SECTION)
    (hsp : istgt_find_cf_section d.pg.config CF_SECTION_TYPE.ST_GLOBAL = some sp) :
    ((effective (istgt_get_intval sp kMaxBurstLength) 0 D.DEFAULT_MAXBURSTLENGTH < 512
        ∨ effective (istgt_get_intval sp kFirstBurstLength) 0 D.DEFAULT_FIRSTBURSTLENGTH < 512
        ∨ effective (istgt_get_intval sp kMaxBurstLength) 0 D.DEFAULT_MAXBURSTLENGTH
            < effective (istgt_get_intval sp kFirstBurstLength) 0 D.DEFAULT_FIRSTBURSTLENGTH
        ∨ effective (istgt_get_intval sp kMaxRecvDataSegmentLength) 0
            D.DEFAULT_MAXRECVDATASEGMENTLENGTH < 512) →
      (istgt_init D K L P o d).1 = -1)
    ∧ ((istgt_init D K L P o d).1 = 0 →
        512 ≤ (istgt_init D K L P o d).2.glob.FirstBurstLength
        ∧ (istgt_init D K L P o d).2.glob.FirstBurstLength
            ≤ (istgt_init D K L P o d).2.glob.MaxBurstLength
        ∧ (istgt_init D K L P o d).2.glob.MaxBurstLength ≤ 0x00FFFFFF
        ∧ 512 ≤ (istgt_init D K L P o d).2.glob.MaxRecvDataSegmentLength
        ∧ (istgt_init D K L P o d).2.glob.MaxRecvDataSegmentLength ≤ 0x00FFFFFF
        ∧ (istgt_init D K L P o d).2.glob.FirstBurstLength
            = effective (istgt_get_intval sp kFirstBurstLength) 0 D.DEFAULT_FIRSTBURSTLENGTH
        ∧ (istgt_init D K L P o d).2.glob.MaxBurstLength
            = effective (istgt_get_intval sp kMaxBurstLength) 0 D.DEFAULT_MAXBURSTLENGTH
        ∧ (istgt_init D K L P o d).2.glob.MaxRecvDataSegmentLength
            = effective (istgt_get_intval sp kMaxRecvDataSegmentLength) 0
                D.DEFAULT_MAXRECVDATASEGMENTLENGTH) := by
  constructor
  · intro h
    apply init_fails_of_block D K L P o d sp hsp _ (mem_init_blocks D sp).2.2.1
    intro g c hc
    obtain ⟨c1, c2, c3, _, c5, _, _⟩ := (init_burst_ok D sp g c).1 hc
    omega
  · intro h0
    have hs := run_init_ok D sp _ _ (init_ok_blocks D K L P o d sp hsp h0)
    exact ⟨hs.first_ge, hs.first_le, hs.burst_le, hs.recv_ge, hs.recv_le,
      hs.FirstBurstLength, hs.MaxBurstLength, hs.MaxRecvDataSegmentLength⟩

theorem init_burst_validation_witness :
    istgt_find_cf_section
        (initial_daemon exK exL exP
          (exConfigWith [exVal "FirstBurstLength" "8192", exVal "MaxBurstLength" "4096"])).pg.config
        CF_SECTION_TYPE.ST_GLOBAL
      = some (exGlobal [exVal "FirstBurstLength" "8192", exVal "MaxBurstLength" "4096"])
    ∧ (exInit [exVal "FirstBurstLength" "8192", exVal "MaxBurstLength" "4096"]).1 = -1
    ∧ (exInit [exVal "MaxBurstLength" "256"]).1 = -1 :=
  ⟨by decide,
    (init_burst_validation exD exK exL exP exInitOk
      (initial_daemon exK exL exP
        (exConfigWith [exVal "FirstBurstLength" "8192", exVal "MaxBurstLength" "4096"]))
      (exGlobal [exVal "FirstBurstLength" "8192", exVal "MaxBurstLength" "4096"])
      (by decide)).1 (Or.inr (Or.inr (Or.inl (by decide)))),
    (init_burst_validation exD exK exL exP exInitOk
      (initial_daemon exK exL exP (exConfigWith [exVal "MaxBurstLength" "256"]))
      (exGlobal [exVal "MaxBurstLength" "256"]) (by decide)).1 (Or.inl (by decide))⟩

/-- C34: for each of `InitialR2T`, `DataPDUInOrder` and `DataSequenceInOrder`,
`istgt_init` returns `-1` whenever the key has a value that is not `Yes` up
to case (`No` is such a value), and `ImmediateData` makes it return `-1`
whenever its value is neither `Yes` nor `No` up to case; whenever
`istgt_init` returns 0, a flag whose key has the value `Yes` is stored as 1
and `ImmediateData` with the value `No` is stored as 0. -/
theorem init_yes_no_flags (D : InitDefaults) (K : Limits) (L : IGLimits)
    (P : PollLimits) (o : INIT_OUTCOMES) (d : DAEMON) (sp : CF_SECTION)
    (hsp : istgt_find_cf_section d.pg.config CF_SECTION_TYPE.ST_GLOBAL = some sp) :
    (∀ key : CStr, key = kInitialR2T ∨ key = kDataPDUInOrder ∨ key = kDataSequenceInOrder →
      ∀ v : CStr, istgt_get_val sp key = some v → strcasecmp v kYes ≠ 0 →
        (istgt_init D K L P o d).1 = -1)
    ∧ strcasecmp kNo kYes ≠ 0
    ∧ (∀ v : CStr, istgt_get_val sp kImmediateData = some v →
        strcasecmp v kYes ≠ 0 → strcasecmp v kNo ≠ 0 → (istgt_init D K L P o d).1 = -1)
    ∧ ((istgt_init D K L P o d).1 = 0 →
        (∀ v : CStr, istgt_get_val sp kInitialR2T = some v → strcasecmp v kYes = 0 →
          (istgt_init D K L P o d).2.glob.InitialR2T = 1)
        ∧ (∀ v : CStr, istgt_get_val sp kDataPDUInOrder = some v → strcasecmp v kYes = 0 →
          (istgt_init D K L P o d).2.glob.DataPDUInOrder = 1)
        ∧ (∀ v : CStr, istgt_get_val sp kDataSequenceInOrder = some v →
          strcasecmp v kYes = 0 → (istgt_init D K L P o d).2.glob.DataSequenceInOrder = 1)
        ∧ (∀ v : CStr, istgt_get_val sp kImmediateData = some v → strcasecmp v kYes = 0 →
          (istgt_init D K L P o d).2.glob.ImmediateData = 1)
        ∧ (∀ v : CStr, istgt_get_val sp kImmediateData = some v → strcasecmp v kNo = 0 →
          (istgt_init D K L P o d).2.glob.ImmediateData = 0)) := by
  obtain ⟨_, _, _, m5, m6, m7, m8, _⟩ := mem_init_blocks D sp
  refine ⟨?_, by decide, ?_, ?_⟩
  · intro key hkey v hv hne
    rcases hkey with rfl | rfl | rfl
    · apply init_fails_of_block D K L P o d sp hsp _ m5
      intro g c hc
      obtain ⟨x, hx, _⟩ := (init_initial_r2t_ok D sp g c).1 hc
      rw [hv, flag_yes_only_some, if_neg hne] at hx
      cases hx
    · apply init_fails_of_block D K L P o d sp hsp _ m7
      intro g c hc
      obtain ⟨x, hx, _⟩ := (init_data_pdu_in_order_ok D sp g c).1 hc
      rw [hv, flag_yes_only_some, if_neg hne] at hx
      cases hx
    · apply init_fails_of_block D K L P o d sp hsp _ m8
      intro g c hc
      obtain ⟨x, hx, _⟩ := (init_data_sequence_in_order_ok D sp g c).1 hc
      rw [hv, flag_yes_only_some, if_neg hne] at hx
      cases hx
  · intro v hv hy hn
    apply init_fails_of_block D K L P o d sp hsp _ m6
    intro g c hc
    obtain ⟨x, hx, _⟩ := (init_immediate_data_ok D sp g c).1 hc
    rw [hv] at hx
    unfold flag_yes_no at hx
    simp only [if_neg hy, if_neg hn] at hx
    cases hx
  · intro h0
    have hs := run_init_ok D sp _ _ (init_ok_blocks D K L P o d sp hsp h0)
    refine ⟨?_, ?_, ?_, ?_, ?_⟩
    · intro v hv hy
      have := hs.InitialR2T
      rw [hv, flag_yes_only_some, if_pos hy] at this
      exact (Option.some.inj this).symm
    · intro v hv hy
      have := hs.DataPDUInOrder
      rw [hv, flag_yes_only_some, if_pos hy] at this
      exact (Option.some.inj this).symm
    · intro v hv hy
      have := hs.DataSequenceInOrder
      rw [hv, flag_yes_only_some, if_pos hy] at this
      exact (Option.some.inj this).symm
    · intro v hv hy
      have := hs.ImmediateData
      rw [hv] at this
      unfold flag_yes_no at this
      simp only [if_pos hy] at this
      exact (Option.some.inj this).symm
    · intro v hv hn
      have hy : strcasecmp v kYes ≠ 0 := by
        intro hy
        have e1 := (strcasecmp_eq_zero v kYes).1 hy
        have e2 := (strcasecmp_eq_zero v kNo).1 hn
        rw [e1] at e2
        exact absurd e2 (by decide)
      have := hs.ImmediateData
      rw [hv] at this
      unfold flag_yes_no at this
      simp only [if_neg hy, if_pos hn] at this
      exact (Option.some.inj this).symm

theorem init_yes_no_flags_witness :
    istgt_find_cf_section
        (initial_daemon exK exL exP (exConfigWith [exVal "InitialR2T" "No"])).pg.config
        CF_SECTION_TYPE.ST_GLOBAL = some (exGlobal [exVal "InitialR2T" "No"])
    ∧ (exInit [exVal "InitialR2T" "No"]).1 = -1
    ∧ istgt_find_cf_section
        (initial_daemon exK exL exP
          (exConfigWith [exVal "InitialR2T" "yes", exVal "ImmediateData" "NO"])).pg.config
        CF_SECTION_TYPE.ST_GLOBAL
      = some (exGlobal [exVal "InitialR2T" "yes", exVal "ImmediateData" "NO"])
    ∧ (exInit [exVal "InitialR2T" "yes", exVal "ImmediateData" "NO"]).1 = 0
    ∧ (exInit [exVal "InitialR2T" "yes", exVal "ImmediateData" "NO"]).2.glob.InitialR2T = 1
    ∧ (exInit [exVal "InitialR2T" "yes", exVal "ImmediateData" "NO"]).2.glob.ImmediateData
        = 0 :=
  ⟨by decide,
    (init_yes_no_flags exD exK exL exP exInitOk
      (initial_daemon exK exL exP (exConfigWith [exVal "InitialR2T" "No"]))
      (exGlobal [exVal "InitialR2T" "No"]) (by decide)).1 kInitialR2T (Or.inl rfl)
      "No".toList (by decide) (by decide),
    by decide, by decide,
    ((init_yes_no_flags exD exK exL exP exInitOk
      (initial_daemon exK exL exP
        (exConfigWith [exVal "InitialR2T" "yes", exVal "ImmediateData" "NO"]))
      (exGlobal [exVal "InitialR2T" "yes", exVal "ImmediateData" "NO"])
      (by decide)).2.2.2 (by decide)).1 "yes".toList (by decide) (by decide),
    ((init_yes_no_flags exD exK exL exP exInitOk
      (initial_daemon exK exL exP
        (exConfigWith [exVal "InitialR2T" "yes", exVal "ImmediateData" "NO"]))
      (exGlobal [exVal "InitialR2T" "yes", exVal "ImmediateData" "NO"])
      (by decide)).2.2.2 (by decide)).2.2.2.2 "NO".toList (by decide) (by decide)⟩

/-- C35: the line `DiscoveryAuthMethod Mutual Auto` holds `Mutual` and no
`CHAP`, and `istgt_init` returns 0; the line `CHAP Auto Mutual` holds `CHAP`
and `Mutual`, and `istgt_init` returns `-1`; with the same tokens in the
order `Auto CHAP Mutual` it returns 0. -/
theorem discovery_auth_order_matters :
    (∀ t, t ∈ (exAuth ["Mutual", "Auto"]).val → IsAuthMethod t)
    ∧ (∃ t, t ∈ (exAuth ["Mutual", "Auto"]).val ∧ strcasecmp t kMutual = 0)
    ∧ (¬ ∃ t, t ∈ (exAuth ["Mutual", "Auto"]).val ∧ strcasecmp t kCHAP = 0)
    ∧ (exInit [exAuth ["Mutual", "Auto"]]).1 = 0
    ∧ (∃ t, t ∈ (exAuth ["CHAP", "Auto", "Mutual"]).val ∧ strcasecmp t kCHAP = 0)
    ∧ (exInit [exAuth ["CHAP", "Auto", "Mutual"]]).1 = -1
    ∧ (exInit [exAuth ["Auto", "CHAP", "Mutual"]]).1 = 0 := by
  decide

/-- C35: for a `DiscoveryAuthMethod` line with at least one token, read with
the flags `req_discovery_auth` and `req_discovery_auth_mutual` cleared, the
block of `istgt_init` for the key fails exactly when the line holds a token
outside `CHAP`, `Mutual`, `Auto`, `None` (up to case), or when `Mutual`
occurs and `CHAP` does not among the tokens after the last `Auto` or `None`
(among all tokens when the line holds neither); in both cases `istgt_init`
returns `-1`. The tokens after the last `Auto` or `None` are the end of the
line that holds neither and is the whole line or follows such a token. -/
theorem discovery_auth_method_rejected_iff (sp : CF_SECTION) (ip : CF_ITEM)
    (hip : istgt_find_cf_nitem sp kDiscoveryAuthMethod 0 = some ip) (hne : ip.val ≠ []) :
    (∀ g : ISTGT_GLOBAL, g.req_discovery_auth = 0 → g.req_discovery_auth_mutual = 0 →
      ((∃ e, init_discovery_auth_method sp g = .error e) ↔
        ((∃ t, t ∈ ip.val ∧ ¬ IsAuthMethod t)
          ∨ ((∃ t, t ∈ after_reset ip.val ∧ strcasecmp t kMutual = 0)
              ∧ ¬ ∃ t, t ∈ after_reset ip.val ∧ strcasecmp t kCHAP = 0))))
    ∧ (∀ (D : InitDefaults) (K : Limits) (L : IGLimits) (P : PollLimits) (o : INIT_OUTCOMES)
        (d : DAEMON),
        istgt_find_cf_section d.pg.config CF_SECTION_TYPE.ST_GLOBAL = some sp →
        d.glob.req_discovery_auth = 0 → d.glob.req_discovery_auth_mutual = 0 →
        ((∃ t, t ∈ ip.val ∧ ¬ IsAuthMethod t)
          ∨ ((∃ t, t ∈ after_reset ip.val ∧ strcasecmp t kMutual = 0)
              ∧ ¬ ∃ t, t ∈ after_reset ip.val ∧ strcasecmp t kCHAP = 0)) →
        (istgt_init D K L P o d).1 = -1)
    ∧ (∃ pre, ip.val = pre ++ after_reset ip.val
        ∧ (∀ t, t ∈ after_reset ip.val → is_reset t = false)
        ∧ (pre = [] ∨ ∃ p r, pre = p ++ [r] ∧ is_reset r = true)) := by
  refine ⟨fun g hreq hmut => auth_block_fails_iff sp ip g hip hne hreq hmut, ?_,
    after_reset_spec ip.val⟩
  intro D K L P o d hsp hreq hmut hbad
  rcases init_rc D K L P o d with h0 | h1
  · exfalso
    obtain ⟨a, c, ha1, ha2, hac⟩ :=
      run_init_auth_state D sp _ _ (init_ok_blocks D K L P o d sp hsp h0)
    obtain ⟨e, he⟩ :=
      (auth_block_fails_iff sp ip a hip hne (by rw [ha1, hreq]) (by rw [ha2, hmut])).2 hbad
    rw [hac] at he
    cases he
  · exact h1

theorem discovery_auth_method_rejected_iff_witness :
    istgt_find_cf_nitem (exGlobal [exAuth ["CHAP", "Auto", "Mutual"]]) kDiscoveryAuthMethod 0
        = some (exAuth ["CHAP", "Auto", "Mutual"])
    ∧ (exAuth ["CHAP", "Auto", "Mutual"]).val ≠ []
    ∧ after_reset (exAuth ["CHAP", "Auto", "Mutual"]).val = ["Mutual".toList]
    ∧ (exInit [exAuth ["CHAP", "Auto", "Mutual"]]).1 = -1 :=
  ⟨by decide, by decide, by decide,
    (discovery_auth_method_rejected_iff (exGlobal [exAuth ["CHAP", "Auto", "Mutual"]])
      (exAuth ["CHAP", "Auto", "Mutual"]) (by decide) (by decide)).2.1
      exD exK exL exP exInitOk
      (initial_daemon exK exL exP (exConfigWith [exAuth ["CHAP", "Auto", "Mutual"]]))
      (by decide) (by decide) (by decide) (Or.inr (by decide))⟩

/-- C36: the text `4294967297` is a value of the item, its base-10 value is
4294967297, and `istgt_get_nintval` returns 1. -/
theorem nintval_wraps_beyond_int :
    istgt_get_nval (exGlobal [exVal "Timeout" "4294967297"]) kTimeout 0
      = some "4294967297".toList
    ∧ IsDecimalText "4294967297".toList
    ∧ decimal_int "4294967297".toList = 4294967297
    ∧ strtol "4294967297".toList 10 = 4294967297
    ∧ istgt_get_nintval (exGlobal [exVal "Timeout" "4294967297"]) kTimeout 0 = 1 := by
  decide

/-- C36: `istgt_get_nmval` returns the `c`-th value, counted from 0, of the
`i`-th item named `key`, and nothing when there is no such item or `c` is
not an index of its values; `istgt_get_nval` is `istgt_get_nmval` at column
0; `istgt_get_val` is `istgt_get_nval` at item 0; `istgt_get_nintval`
returns `-1` when there is no value, and for a text made of an optional sign
and decimal digits whose value is in the range of `int` it returns the
base-10 value of the text (`istgt_get_intval` is `istgt_get_nintval` at
item 0). -/
theorem config_accessors (sp : CF_SECTION) (key : CStr) (i c : Int) :
    istgt_get_nmval sp key i c = nmval_spec sp key i c
    ∧ (istgt_find_cf_nitem sp key i = none → istgt_get_nmval sp key i c = none)
    ∧ (∀ ip, istgt_find_cf_nitem sp key i = some ip →
        (0 ≤ c → c < ip.val.length → istgt_get_nmval sp key i c = ip.val[c.toNat]?)
        ∧ (0 ≤ c → c < ip.val.length → (istgt_get_nmval sp key i c).isSome)
        ∧ ((c < 0 ∨ (ip.val.length : Int) ≤ c) → istgt_get_nmval sp key i c = none))
    ∧ istgt_get_nval sp key i = istgt_get_nmval sp key i 0
    ∧ istgt_get_val sp key = istgt_get_nval sp key 0
    ∧ istgt_get_intval sp key = istgt_get_nintval sp key 0
    ∧ (istgt_get_nval sp key i = none → istgt_get_nintval sp key i = -1)
    ∧ (∀ v, istgt_get_nval sp key i = some v → IsDecimalText v →
        -(2 : Int) ^ 31 ≤ decimal_int v → decimal_int v < (2 : Int) ^ 31 →
        istgt_get_nintval sp key i = decimal_int v) := by
  refine ⟨nmval_eq_spec sp key i c, ?_, ?_, nval_eq_nmval sp key i, rfl, rfl, ?_, ?_⟩
  · intro h
    unfold istgt_get_nmval
    rw [h]
  · intro ip hip
    have e : istgt_get_nmval sp key i c
        = if 0 ≤ c ∧ c < ip.val.length then ip.val[c.toNat]? else none := by
      rw [nmval_eq_spec]
      unfold nmval_spec
      rw [hip]
    refine ⟨?_, ?_, ?_⟩
    · intro h1 h2
      rw [e, if_pos ⟨h1, h2⟩]
    · intro h1 h2
      rw [e, if_pos ⟨h1, h2⟩]
      have hlt : c.toNat < ip.val.length := by omega
      rw [List.getElem?_eq_getElem hlt]
      rfl
    · intro h
      rw [e, if_neg (by omega)]
  · intro h
    unfold istgt_get_nintval
    rw [h]
  · intro v hv hd hlo hhi
    exact nintval_decimal sp key i v hv hd hlo hhi

/-- C37: in every table reached from an empty table by
`istgt_add_portal_group`, `istgt_update_portal_group` (called with
`*pgp_idx` holding the `idx` of the slot it locates), `istgt_pg_delete` and
`istgt_pg_update`, every slot `i < nportal_group` with `tag != 0` has
`idx = i`, and each of its portals `j` has `idx = j` and the tag of the
group. -/
theorem pg_positions_faithful (K : Limits) (t : ISTGT) (h : PosReachable K t) :
    ∀ i, i < t.nportal_group → (pg_at t i).tag ≠ 0 →
      (pg_at t i).idx = i
      ∧ ∀ j, j < (pg_at t i).nportals →
          (portal_at (pg_at t i) j).idx = j ∧ (portal_at (pg_at t i) j).tag = (pg_at t i).tag := by
  intro i hi ht
  obtain ⟨s1, _, s3⟩ := (posreachable_tablepos K t h).2 i hi
  exact ⟨s1, s3 ht⟩

theorem pg_positions_faithful_witness :
    PosReachable exK exReached
    ∧ exReached.nportal_group = 3
    ∧ ∀ i, i < exReached.nportal_group → (pg_at exReached i).tag ≠ 0 →
      (pg_at exReached i).idx = i
      ∧ ∀ j, j < (pg_at exReached i).nportals →
          (portal_at (pg_at exReached i) j).idx = j
          ∧ (portal_at (pg_at exReached i) j).tag = (pg_at exReached i).tag :=
  ⟨PosReachable.pg_update _ exNet 0
      (PosReachable.add _ exSec1two none (PosReachable.empty exConfig13)),
    by decide,
    pg_positions_faithful exK exReached
      (PosReachable.pg_update _ exNet 0
        (PosReachable.add _ exSec1two none (PosReachable.empty exConfig13)))⟩

/-- C38: with a full table of three groups, one open portal each, and a
full list of two unit-control portals, the limits of the specification hold
and the array has `3 + 2 = 5` entries; the poll branch writes the indices
0, 1, 2 for the groups, 3 and 4 for the unit-control portals and 5 for the
control pipe, one past the last entry. -/
theorem poll_array_pipe_out_of_bounds :
    exBootFull.nportal_group ≤ exK.MAX_PORTAL_GROUP
    ∧ (∀ i : Nat, i < exBootFull.nportal_group → (pg_at exBootFull i).nportals ≤ exK.MAX_PORTAL)
    ∧ exUctlFull.nuctl_portal ≤ exP.MAX_UCPORTAL
    ∧ (acceptor_build_fds exK exP exBootFull exUctlFull).1.length = 5
    ∧ exK.MAX_PORTAL_GROUP + exP.MAX_UCPORTAL = 5
    ∧ acceptor_fds_writes exBootFull exUctlFull = [0, 1, 2, 3, 4, 5]
    ∧ (acceptor_build_fds exK exP exBootFull exUctlFull).2.2 = 6
    ∧ ¬ (∀ w ∈ acceptor_fds_writes exBootFull exUctlFull,
          w < exK.MAX_PORTAL_GROUP + exP.MAX_UCPORTAL) := by
  decide

/-- C39: once the counting pass has accepted `n` entries of a section, the
second pass over the entries `0..n-1` of the same section takes no error
exit: the fill loop of the add and of the reallocation and the rewrite loop
of the update in place run to their end on every slot, with the tag and the
portal array of the slot in place. So a failing `istgt_add_portal_group` has
written nothing, and a failing `istgt_update_portal_group` has written
nothing or has only marked the slot `*pgp_idx` free before it found no room. -/
theorem second_pass_never_fails (K : Limits) (sp : CF_SECTION) (n : Nat)
    (h : count_portals K sp = some n) :
    (∀ (fresh : Bool) (pg : PORTAL_GROUP),
        (fill_loop K sp fresh pg 0 n).1 = true
        ∧ (fill_loop K sp fresh pg 0 n).2.tag = pg.tag
        ∧ (fill_loop K sp fresh pg 0 n).2.nportals = pg.nportals
        ∧ (fill_loop K sp fresh pg 0 n).2.portals.length = pg.portals.length)
    ∧ (∀ pg : PORTAL_GROUP,
        (rewrite_loop K sp pg 0 n).1 = true
        ∧ (rewrite_loop K sp pg 0 n).2.tag = pg.tag
        ∧ (rewrite_loop K sp pg 0 n).2.nportals = pg.nportals
        ∧ (rewrite_loop K sp pg 0 n).2.portals.length = pg.portals.length)
    ∧ (∀ (istgt : ISTGT) (pgp_idx : Option Nat),
        (istgt_add_portal_group K istgt sp pgp_idx).1 < 0 →
        (istgt_add_portal_group K istgt sp pgp_idx).2.1 = istgt)
    ∧ (∀ (istgt : ISTGT) (p : Nat),
        (istgt_update_portal_group K istgt sp p).1 < 0 →
        (istgt_update_portal_group K istgt sp p).2.1 = istgt
        ∨ (istgt_update_portal_group K istgt sp p).2.1
            = pg_store istgt p { pg_at istgt p with tag := 0 }) := by
  have hok := (count_portals_some h).1
  have hfill : ∀ (fresh : Bool) (pg : PORTAL_GROUP),
      ∃ pg', fill_loop K sp fresh pg 0 n = (true, pg') ∧ pg'.tag = pg.tag
        ∧ pg'.nportals = pg.nportals ∧ pg'.portals.length = pg.portals.length := by
    intro fresh pg
    obtain ⟨pg', h1, h2, _, _, h5, h6, _⟩ :=
      fill_loop_ok K sp fresh n 0 pg (fun j _ hj => hok j (by omega))
    exact ⟨pg', h1, h5, h2, h6⟩
  have hrew : ∀ pg : PORTAL_GROUP,
      ∃ pg', rewrite_loop K sp pg 0 n = (true, pg') ∧ pg'.tag = pg.tag
        ∧ pg'.nportals = pg.nportals ∧ pg'.portals.length = pg.portals.length := by
    intro pg
    obtain ⟨pg', h1, h2, _, _, h5, h6, _⟩ :=
      rewrite_loop_ok K sp n 0 pg (fun j _ hj => hok j (by omega))
    exact ⟨pg', h1, h5, h2, h6⟩
  refine ⟨?_, ?_, ?_, ?_⟩
  · intro fresh pg
    obtain ⟨pg', h1, h2, h3, h4⟩ := hfill fresh pg
    rw [h1]
    exact ⟨rfl, h2, h3, h4⟩
  · intro pg
    obtain ⟨pg', h1, h2, h3, h4⟩ := hrew pg
    rw [h1]
    exact ⟨rfl, h2, h3, h4⟩
  · intro istgt pgp_idx hneg
    rcases add_outcomes K istgt sp pgp_idx with ⟨e, _⟩ | ⟨m, pg3, _, _, _, e, _⟩
    · rw [e]
    · rw [e] at hneg
      simp at hneg
  · intro istgt p
    have hf1 : ∀ (fresh : Bool) (pg : PORTAL_GROUP), (fill_loop K sp fresh pg 0 n).1 = true := by
      intro fresh pg
      obtain ⟨pg', h1, _⟩ := hfill fresh pg
      rw [h1]
    have hr1 : ∀ pg : PORTAL_GROUP, (rewrite_loop K sp pg 0 n).1 = true := by
      intro pg
      obtain ⟨pg', h1, _⟩ := hrew pg
      rw [h1]
    unfold istgt_update_portal_group
    simp only [h]
    by_cases hmax : n > K.MAX_PORTAL
    · rw [if_pos hmax]
      intro _; exact Or.inl rfl
    · rw [if_neg hmax]
      cases hfind : find_tag_slot istgt sp.num with
      | none => intro _; exact Or.inl rfl
      | some idx =>
        simp only []
        by_cases hm : istgt_pg_match_all K (pg_at istgt idx) sp = true
        · rw [if_pos hm]
          intro _; exact Or.inl rfl
        · rw [if_neg hm]
          by_cases hsame : (pg_at istgt idx).nportals = n
          · rw [if_pos hsame]
            split
            · rename_i pg1 heq
              have h1 := congrArg Prod.fst heq
              rw [hr1] at h1
              simp at h1
            · intro hneg
              simp at hneg
          · rw [if_neg hsame]
            split
            · split
              · rename_i pg3 heq
                have h1 := congrArg Prod.fst heq
                rw [hf1] at h1
                simp at h1
              · intro hneg
                simp at hneg
            · intro _; exact Or.inr rfl

theorem second_pass_never_fails_witness :
    count_portals exK exSec1two = some 2
    ∧ ((∀ (fresh : Bool) (pg : PORTAL_GROUP),
        (fill_loop exK exSec1two fresh pg 0 2).1 = true
        ∧ (fill_loop exK exSec1two fresh pg 0 2).2.tag = pg.tag
        ∧ (fill_loop exK exSec1two fresh pg 0 2).2.nportals = pg.nportals
        ∧ (fill_loop exK exSec1two fresh pg 0 2).2.portals.length = pg.portals.length)
    ∧ (∀ pg : PORTAL_GROUP,
        (rewrite_loop exK exSec1two pg 0 2).1 = true
        ∧ (rewrite_loop exK exSec1two pg 0 2).2.tag = pg.tag
        ∧ (rewrite_loop exK exSec1two pg 0 2).2.nportals = pg.nportals
        ∧ (rewrite_loop exK exSec1two pg 0 2).2.portals.length = pg.portals.length)
    ∧ (∀ (istgt : ISTGT) (pgp_idx : Option Nat),
        (istgt_add_portal_group exK istgt exSec1two pgp_idx).1 < 0 →
        (istgt_add_portal_group exK istgt exSec1two pgp_idx).2.1 = istgt)
    ∧ (∀ (istgt : ISTGT) (p : Nat),
        (istgt_update_portal_group exK istgt exSec1two p).1 < 0 →
        (istgt_update_portal_group exK istgt exSec1two p).2.1 = istgt
        ∨ (istgt_update_portal_group exK istgt exSec1two p).2.1
            = pg_store istgt p { pg_at istgt p with tag := 0 })) :=
  ⟨by decide, second_pass_never_fails exK exSec1two 2 (by decide)⟩

/-- C40: from the empty table, `istgt_add_initiator_group` adds the groups
1, 2 and 3, each with its position in `idx`; the configuration holds the
sections 2 and 3 only, and `istgt_ig_reload_delete` removes group 1. The
groups 2 and 3 now stand at the indices 0 and 1 and still carry the
positions 1 and 2 in `idx`. -/
theorem ig_shift_keeps_old_position :
    exIGEmpty.ninitiator_group = 0
    ∧ exIGAdded.ninitiator_group = 3
    ∧ (∀ i : Nat, i < 3 → (ig_at exIGAdded i).idx = i ∧ (ig_at exIGAdded i).ref = 0)
    ∧ (istgt_ig_reload_delete exIGAdded).1 = 0
    ∧ (istgt_ig_reload_delete exIGAdded).2.ninitiator_group = 2
    ∧ (ig_at (istgt_ig_reload_delete exIGAdded).2 0).tag = 2
    ∧ (ig_at (istgt_ig_reload_delete exIGAdded).2 0).idx = 1
    ∧ (ig_at (istgt_ig_reload_delete exIGAdded).2 1).tag = 3
    ∧ (ig_at (istgt_ig_reload_delete exIGAdded).2 1).idx = 2 := by
  decide

end Istgt
